import Mathlib

/-!
# Structural edits of a tracker song

A shallow embedding of the song-editing functions of `mptrack/Modedit.cpp`
(`CModDoc::RemoveChannels`, `CModDoc::ReArrangeChannels`,
`CModDoc::ReArrangeSamples`) together with the parts of the sound library they
use (`soundlib/ModSample.cpp`, `soundlib/patternContainer.h`).

Conventions of the embedding:

* machine integers are natural numbers; a narrowing conversion is written out as
  a reduction modulo the width of the target type;
* fixed-size C arrays (`ChnSettings`, `Chn`, `Samples`, `m_szNames`,
  `Instruments`) are functions from the index to the element;
* a pointer to a heap buffer is `Option Nat`: `none` is `nullptr`, `some h` is the
  handle of a block of the heap carried in the song;
* an allocation that may fail takes its verdict from an oracle argument;
* the undo history, the wait cursor, message boxes and view updates do not touch
  the song and are left out.
-/

namespace OpenMPT

/-! ## Integer types and constants -/

/-- Modelled from the spec: the typedef of `CHANNELINDEX` is in a header that is not among
the sources; the index types of the song model are unsigned 16-bit integers, and a
conversion to one reduces modulo `2^16`. -/
def castCHANNELINDEX (n : Nat) : Nat := n % 65536

/-- Modelled from the spec: the typedef of `PATTERNINDEX` is in a header that is not among
the sources; it is an unsigned 16-bit integer like the other index types. -/
def castPATTERNINDEX (n : Nat) : Nat := n % 65536

/-- Modelled from the spec: the typedef of `SAMPLEINDEX` is in a header that is not among
the sources; it is an unsigned 16-bit integer like the other index types. -/
def castSAMPLEINDEX (n : Nat) : Nat := n % 65536

/-- Modelled from the spec: the typedef of `ModCommand::INSTR` is in a header that is not
among the sources; the instrument reference embedded in a note-event is one byte. -/
def castINSTR (n : Nat) : Nat := n % 256

/-- Modelled from the spec: `CHANNELINDEX_INVALID` is declared in a header that is not among
the sources; it is the largest `CHANNELINDEX`, used as the failure value. -/
def CHANNELINDEX_INVALID : Nat := 65535

/-- Modelled from the spec: `SAMPLEINDEX_INVALID` is declared in a header that is not among
the sources; it is the largest `SAMPLEINDEX`, used as the failure value. -/
def SAMPLEINDEX_INVALID : Nat := 65535

/-- Modelled from the spec: `MAX_BASECHANNELS` is declared in a header that is not among the
sources; it is the number of pattern channels a song can have, the size of `ChnSettings`. -/
def MAX_BASECHANNELS : Nat := 127

/-- Modelled from the spec: `MAX_CHANNELS` is declared in a header that is not among the
sources; it is the number of mixing channels, the size of `m_PlayState.Chn`. -/
def MAX_CHANNELS : Nat := 256

/-- Modelled from the spec: the `MODTYPE` bits are declared in a header that is not among
the sources; this is the bit of the MOD format. -/
def MOD_TYPE_MOD : Nat := 0x01

/-- Modelled from the spec: the `MODTYPE` bits are declared in a header that is not among
the sources; this is the bit of the Scream Tracker 3 format. -/
def MOD_TYPE_S3M : Nat := 0x02

/-- Modelled from the spec: the `MODTYPE` bits are declared in a header that is not among
the sources; this is the bit of the FastTracker 2 format. -/
def MOD_TYPE_XM : Nat := 0x04

/-- Modelled from the spec: the `MODTYPE` bits are declared in a header that is not among
the sources; this is the bit of the Impulse Tracker format. -/
def MOD_TYPE_IT : Nat := 0x20

/-- Modelled from the spec: the `MODTYPE` bits are declared in a header that is not among
the sources; this is the bit of the OpenMPT format. -/
def MOD_TYPE_MPT : Nat := 0x1000000

/-- Modelled from the spec: the sample and channel flags are declared in a header that is
not among the sources; this sample flag means: 16-bit sample data. -/
def CHN_16BIT : Nat := 0x01

/-- Modelled from the spec: the sample and channel flags are declared in a header that is
not among the sources; this sample flag means: loop enabled. -/
def CHN_LOOP : Nat := 0x02

/-- Modelled from the spec: the sample and channel flags are declared in a header that is
not among the sources; this sample flag means: the loop is a ping-pong loop. -/
def CHN_PINGPONGLOOP : Nat := 0x04

/-- Modelled from the spec: the sample and channel flags are declared in a header that is
not among the sources; this sample flag means: sustain loop enabled. -/
def CHN_SUSTAINLOOP : Nat := 0x08

/-- Modelled from the spec: the sample and channel flags are declared in a header that is
not among the sources; this sample flag means: the sustain loop is a ping-pong loop. -/
def CHN_PINGPONGSUSTAIN : Nat := 0x10

/-- Modelled from the spec: the sample and channel flags are declared in a header that is
not among the sources; this sample flag means: the sample forces its own panning. -/
def CHN_PANNING : Nat := 0x20

/-- Modelled from the spec: the sample and channel flags are declared in a header that is
not among the sources; this sample flag means: stereo sample data. -/
def CHN_STEREO : Nat := 0x40

/-- Modelled from the spec: the sample and channel flags are declared in a header that is
not among the sources; this channel flag means: the channel is muted. -/
def CHN_MUTE : Nat := 0x100

/-- Modelled from the spec: the sample and channel flags are declared in a header that is
not among the sources; this channel flag means: surround panning. -/
def CHN_SURROUND : Nat := 0x800

/-- Modelled from the spec: the flag set class is declared in a header that is not among
the sources; its member `set(mask)` is: switch the bits of `mask` on. -/
def FlagSet.set (flags mask : Nat) : Nat := flags ||| mask

/-- Modelled from the spec: the flag set class is declared in a header that is not among
the sources; its member `reset(mask)` is: switch the bits of `mask` off. -/
def FlagSet.reset (flags mask : Nat) : Nat := flags ^^^ (flags &&& mask)

/-- Modelled from the spec: the flag set class is declared in a header that is not among
the sources; its member `set(mask, val)` is: switch the bits of `mask` on or off. -/
def FlagSet.setTo (flags mask : Nat) (val : Bool) : Nat :=
  if val then FlagSet.set flags mask else FlagSet.reset flags mask

/-- Modelled from the spec: the flag set class is declared in a header that is not among
the sources; its member `operator[]` is: is any bit of `mask` on. -/
def FlagSet.test (flags mask : Nat) : Bool := (flags &&& mask) != 0

/-! ## Note-events and patterns -/

/-- Modelled from the spec: the declaration of `ModCommand` is not among the sources; a
note-event holds a note, an instrument reference, a volume command with its value and an
effect command with its parameter. -/
structure ModCommand where
  note : Nat
  instr : Nat
  volcmd : Nat
  command : Nat
  vol : Nat
  param : Nat
deriving DecidableEq, Repr

/-- Modelled from the spec: the special note values are declared in a header that is not
among the sources; this is the note value of a parameter-control note. -/
def NOTE_PC : Nat := 0xFC

/-- Modelled from the spec: the special note values are declared in a header that is not
among the sources; this is the note value of a smooth parameter-control note. -/
def NOTE_PCS : Nat := 0xFB

/-- Modelled from the spec: `ModCommand::Empty()` is declared in a header that is not among
the sources; it is the empty note-event, all members zero. -/
def ModCommand.Empty : ModCommand := ⟨0, 0, 0, 0, 0, 0⟩

/-- Modelled from the spec: `ModCommand::IsPcNote` is declared in a header that is not among
the sources; it tells whether the note-event is a parameter-control note. -/
def ModCommand.IsPcNote (m : ModCommand) : Bool := m.note == NOTE_PC || m.note == NOTE_PCS

/-- Modelled from the spec: the declaration of `CPattern` is not among the sources; a
pattern has a row count and a grid of note-events stored row by row, `none` when no grid
is allocated. -/
structure CPattern where
  m_Rows : Nat
  m_ModCommands : Option (List ModCommand)
deriving DecidableEq, Repr

/-- Row count of a pattern. -/
def CPattern.GetNumRows (p : CPattern) : Nat := p.m_Rows

/-- Modelled from the spec: `CPattern::GetpModCommand` is declared in a header that is not
among the sources; the grid is stored row by row, so the cell of row `r` and channel `c`
of a grid with `numChannels` channels a row is `m_ModCommands[r * numChannels + c]`. -/
def GetpModCommand (patData : List ModCommand) (numChannels r c : Nat) : ModCommand :=
  patData.getD (r * numChannels + c) ModCommand.Empty

/-- Modelled from the spec: `CPattern::AllocatePattern(rows, nchns)` is not among the
sources; it returns a grid of `rows * nchns` cleared cells, or `nullptr` when the
allocation fails. -/
def CPattern.AllocatePattern (ok : Bool) (rows nchns : Nat) : Option (List ModCommand) :=
  if ok then some (List.replicate (rows * nchns) ModCommand.Empty) else none

/-- The pattern container. -/
structure CPatternContainer where
  m_Patterns : List CPattern
deriving DecidableEq, Repr

/-- Number of pattern slots, as a `PATTERNINDEX`. -/
def CPatternContainer.Size (c : CPatternContainer) : Nat := castPATTERNINDEX c.m_Patterns.length

/-- Element access `operator[]`. -/
def CPatternContainer.get (c : CPatternContainer) (pat : Nat) : CPattern :=
  c.m_Patterns.getD pat ⟨0, none⟩

/-- Can the pattern slot be accessed. -/
def CPatternContainer.IsValidIndex (c : CPatternContainer) (iPat : Nat) : Bool :=
  decide (iPat < c.Size)

/-- A pattern is valid when its slot exists and has an allocated grid. -/
def CPatternContainer.IsValidPat (c : CPatternContainer) (iPat : Nat) : Bool :=
  c.IsValidIndex iPat && (c.get iPat).m_ModCommands.isSome

/-- Modelled from the spec: `CPattern::Begin()` and `End()` are declared in a header that is
not among the sources; they span the cells of the grid, so `std::for_each` from `Begin()`
to `End()` applies `func` to every cell of the pattern, in storage order. -/
def CPattern.forEach (func : ModCommand → ModCommand) (p : CPattern) : CPattern :=
  { p with m_ModCommands := p.m_ModCommands.map (List.map func) }

/-- The loop of `ForEachModCommand` over the pattern indices `pats`: every pattern with
an allocated grid gets `func` applied to its cells. -/
def CPatternContainer.forEachLoop (func : ModCommand → ModCommand) :
    List Nat → CPatternContainer → CPatternContainer
  | [], c => c
  | nPat :: rest, c =>
    if (c.get nPat).m_ModCommands.isSome then
      CPatternContainer.forEachLoop func rest ⟨c.m_Patterns.set nPat ((c.get nPat).forEach func)⟩
    else
      CPatternContainer.forEachLoop func rest c

/-- Range form of `CPatternContainer::ForEachModCommand(nStartPat, nLastPat, func)`. -/
def CPatternContainer.ForEachModCommandRange (c : CPatternContainer) (nStartPat nLastPat : Nat)
    (func : ModCommand → ModCommand) : CPatternContainer :=
  if nStartPat > nLastPat || nLastPat >= c.Size then c
  else CPatternContainer.forEachLoop func
    ((List.range (nLastPat + 1 - nStartPat)).map (fun k => nStartPat + k)) c

/-- All-patterns form of `CPatternContainer::ForEachModCommand(func)`; the last index
`Size() - 1` is converted to `PATTERNINDEX`. -/
def CPatternContainer.ForEachModCommand (c : CPatternContainer)
    (func : ModCommand → ModCommand) : CPatternContainer :=
  c.ForEachModCommandRange 0 (castPATTERNINDEX (c.Size + 65535)) func

/-! ## Samples, instruments and channels -/

/-- Sample header, with the members `ModSample.cpp` uses. `pSample` is the handle of the
sample buffer. -/
structure ModSample where
  nLength : Nat
  nLoopStart : Nat
  nLoopEnd : Nat
  nSustainStart : Nat
  nSustainEnd : Nat
  pSample : Option Nat
  nC5Speed : Nat
  nPan : Nat
  nVolume : Nat
  nGlobalVol : Nat
  uFlags : Nat
  RelativeTone : Int
  nFineTune : Int
  nVibType : Nat
  nVibSweep : Nat
  nVibDepth : Nat
  nVibRate : Nat
  filename : String
deriving DecidableEq, Repr

/-- Modelled from the spec: the auto-vibrato waveforms are declared in a header that is not
among the sources; this is the sine waveform. -/
def VIB_SINE : Nat := 0

/-- A default-constructed sample header, the element of a fresh `std::vector<ModSample>`. -/
def ModSample.blank : ModSample :=
  ⟨0, 0, 0, 0, 0, none, 8363, 128, 256, 64, 0, 0, 0, VIB_SINE, 0, 0, 0, ""⟩

/-- Initialize sample slot with default values (`ModSample::Initialize`). -/
def ModSample.Initialize (s : ModSample) (type : Nat) : ModSample :=
  let flags := FlagSet.reset s.uFlags
    (CHN_PANNING ||| CHN_SUSTAINLOOP ||| CHN_LOOP ||| CHN_PINGPONGLOOP ||| CHN_PINGPONGSUSTAIN)
  { s with
    nLength := 0
    nLoopStart := 0
    nLoopEnd := 0
    nSustainStart := 0
    nSustainEnd := 0
    nC5Speed := 8363
    nPan := 128
    nVolume := 256
    nGlobalVol := 64
    uFlags := if type = MOD_TYPE_XM then FlagSet.set flags CHN_PANNING else flags
    RelativeTone := 0
    nFineTune := 0
    nVibType := VIB_SINE
    nVibSweep := 0
    nVibDepth := 0
    nVibRate := 0
    filename := "" }

/-- Modelled from the spec: `ModSample::GetBytesPerSample` is declared in a header that is
not among the sources; a sample frame has 1 or 2 bytes a point (8 or 16 bit), times 2
for stereo. -/
def ModSample.GetBytesPerSample (s : ModSample) : Nat :=
  (if FlagSet.test s.uFlags CHN_16BIT then 2 else 1) * (if FlagSet.test s.uFlags CHN_STEREO then 2 else 1)

/-- Modelled from the spec: `ModSample::GetSampleSizeInBytes` is declared in a header that is
not among the sources; the sample data has `nLength * GetBytesPerSample()` bytes. -/
def ModSample.GetSampleSizeInBytes (s : ModSample) : Nat := s.nLength * s.GetBytesPerSample

/-- Modelled from the spec: `InterpolationMaxLookahead` is declared in a header that is not
among the sources; it is the number of sample frames the interpolation may look ahead. -/
def InterpolationMaxLookahead : Nat := 4

/-- Modelled from the spec: `MaxSamplingPointSize` is declared in a header that is not among
the sources; it is the largest number of bytes of one sample frame. -/
def MaxSamplingPointSize : Nat := 4

/-- Modelled from the spec: the typedef of `SmpLength` is in a header that is not among the
sources; it is an unsigned 32-bit integer, and this is its largest value. -/
def SmpLengthMax : Nat := 4294967295

/-- Arithmetic in `SmpLength` is modulo `2^32`: the value an expression of that type holds. -/
def wrapSmpLength (n : Nat) : Nat := n % (SmpLengthMax + 1)

/-- Modelled from the spec: `size_t` is declared by the platform, not in the sources; the
narrowest one the program is built for has 32 bits, and arithmetic in it is modulo `2^32`. -/
def wrapSizeT (n : Nat) : Nat := n % 4294967296

/-- Compute sample buffer size in bytes, including the lookahead overhead. Returns 0 if
the sample is too big (`ModSample::GetRealSampleBufferSize`). The sum is computed in
`SmpLength` and the product in `size_t`, both with wrap-around. -/
def ModSample.GetRealSampleBufferSize (numSamples bytesPerSample : Nat) : Nat :=
  let maxSize := SmpLengthMax
  let lookaheadBufferSize := 16 + (1 + 4 + 4) * InterpolationMaxLookahead
  if numSamples > maxSize || lookaheadBufferSize > maxSize - numSamples then 0
  else
    let numSamples := wrapSmpLength (numSamples + lookaheadBufferSize)
    if maxSize / bytesPerSample < numSamples then 0
    else wrapSizeT (numSamples * bytesPerSample)

/-- Modelled from the spec: `LimitMax` is declared in a header that is not among the
sources; it lowers a value to the given maximum when it exceeds it. -/
def LimitMax (val maxVal : Nat) : Nat := if val > maxVal then maxVal else val

/-- Remove loop points if they are invalid (`ModSample::SanitizeLoops`). -/
def ModSample.SanitizeLoops (s : ModSample) : ModSample :=
  let s := { s with nSustainEnd := LimitMax s.nSustainEnd s.nLength }
  let s := { s with nLoopEnd := LimitMax s.nLoopEnd s.nLength }
  let s :=
    if s.nSustainStart ≥ s.nSustainEnd then
      { s with
        nSustainStart := 0
        nSustainEnd := 0
        uFlags := FlagSet.reset s.uFlags (CHN_SUSTAINLOOP ||| CHN_PINGPONGSUSTAIN) }
    else s
  if s.nLoopStart ≥ s.nLoopEnd then
    { s with
      nLoopStart := 0
      nLoopEnd := 0
      uFlags := FlagSet.reset s.uFlags (CHN_LOOP ||| CHN_PINGPONGLOOP) }
  else s

/-- Allocate sample memory (`ModSample::AllocateSample(numSamples, bytesPerSample)`): on
success the bytes reachable from the returned pointer, all silenced; `none` on failure.
The returned pointer lies `InterpolationMaxLookahead * MaxSamplingPointSize` bytes into
the block. -/
def ModSample.AllocateSample (ok : Bool) (numSamples bytesPerSample : Nat) : Option (List Nat) :=
  let allocSize := ModSample.GetRealSampleBufferSize numSamples bytesPerSample
  if allocSize != 0 then
    if ok then some (List.replicate (allocSize - InterpolationMaxLookahead * MaxSamplingPointSize) 0)
    else none
  else none

/-- Modelled from the spec: the declaration of `ModInstrument` is not among the sources; an
instrument has the note-to-sample map `Keyboard`, and its remaining members (per-note
transpose, envelopes) are carried as one value. -/
structure ModInstrument where
  Keyboard : List Nat
  others : Nat
deriving DecidableEq, Repr

/-- Modelled from the spec: the declaration of `ModChannelSettings` is not among the
sources; the static settings of a channel are its default pan and volume, its flags
(surround, mute), its plugin and its name. -/
structure ModChannelSettings where
  dwFlags : Nat
  nPan : Nat
  nVolume : Nat
  nMixPlugin : Nat
  szName : String
deriving DecidableEq, Repr

/-- Modelled from the spec: the declaration of `ModChannel` is not among the sources; the
playback state of a channel has its flags and the sample slot `pModSample` points to, and
its remaining members (position, envelopes in progress, effect memory) are carried as
one value. -/
structure ModChannel where
  dwFlags : Nat
  pModSample : Option Nat
  playback : Nat
deriving DecidableEq, Repr

/-- Modelled from the spec: the declaration of `CModSpecifications` is not among the
sources; it holds the limits of a module format. -/
structure CModSpecifications where
  channelsMin : Nat
  channelsMax : Nat
  samplesMax : Nat
  instrumentsMax : Nat
deriving DecidableEq, Repr

/-- The song, with the members of `CSoundFile` that the editing functions and the loaders
use. `heap` holds the sample buffers, indexed by handle; a freed block is `none`. The
members after `heap` are written by the loaders only: the order list, the song name, the
name of the tracker, the global volume, speed and tempo the song starts with, the restart
position, the two amplifications and the song message. -/
structure CSoundFile where
  m_nType : Nat
  m_pModSpecs : CModSpecifications
  m_nChannels : Nat
  m_nSamples : Nat
  m_nInstruments : Nat
  Patterns : CPatternContainer
  ChnSettings : Nat → ModChannelSettings
  Chn : Nat → ModChannel
  m_bChannelMuteTogglePending : Nat → Bool
  Samples : Nat → ModSample
  m_szNames : Nat → String
  Instruments : Nat → Option ModInstrument
  heap : List (Option (List Nat))
  Order : List Nat := []
  songName : String := ""
  madeWithTracker : String := ""
  m_nDefaultGlobalVolume : Nat := 256
  m_nDefaultSpeed : Nat := 6
  m_nDefaultTempo : Nat := 125
  m_nRestartPos : Nat := 0
  m_nSamplePreAmp : Nat := 48
  m_nVSTiVolume : Nat := 48
  songMessage : String := ""

/-- The document, with the members of `CModDoc` that the editing functions use: the song
and the record state of each channel (0, 1 or 2). -/
structure CModDoc where
  m_SndFile : CSoundFile
  recordState : Nat → Nat

/-- Format limits of the song. -/
def CSoundFile.GetModSpecifications (s : CSoundFile) : CModSpecifications := s.m_pModSpecs

/-- Channel count of the song. -/
def CSoundFile.GetNumChannels (s : CSoundFile) : Nat := s.m_nChannels

/-- Sample count of the song. -/
def CSoundFile.GetNumSamples (s : CSoundFile) : Nat := s.m_nSamples

/-- Instrument count of the song. -/
def CSoundFile.GetNumInstruments (s : CSoundFile) : Nat := s.m_nInstruments

/-- Module type of the song. -/
def CSoundFile.GetType (s : CSoundFile) : Nat := s.m_nType

/-- Channel count of the document. -/
def CModDoc.GetNumChannels (doc : CModDoc) : Nat := doc.m_SndFile.GetNumChannels

/-- Sample count of the document. -/
def CModDoc.GetNumSamples (doc : CModDoc) : Nat := doc.m_SndFile.GetNumSamples

/-- Modelled from the spec: `CModDoc::IsChannelRecord` is not among the sources; it returns
the record state of a channel (0: off, 1: record group 1, 2: record group 2). -/
def CModDoc.IsChannelRecord (doc : CModDoc) (nChn : Nat) : Nat := doc.recordState nChn

/-- Modelled from the spec: `ModChannelSettings::Reset` is not among the sources; the
static channel settings go back to the format-independent defaults (centre pan, full
volume, no flags, no plugin, no name). -/
def ModChannelSettings.Reset : ModChannelSettings := ⟨0, 128, 64, 0, ""⟩

/-- Modelled from the spec: `ModChannel::Reset(resetTotal, ...)` is not among the sources;
the playback state of a channel is reset as a whole on a channel-count change. -/
def ModChannel.Reset : ModChannel := ⟨0, none, 0⟩

/-- Modelled from the spec: `CSoundFile::InitChannel` is not among the sources; it resets
the settings, the playback state, the record state and the pending mute toggle of one
channel below `MAX_BASECHANNELS`. -/
def CModDoc.InitChannel (doc : CModDoc) (nChn : Nat) : CModDoc :=
  if nChn >= MAX_BASECHANNELS then doc
  else
    { m_SndFile :=
        { doc.m_SndFile with
          ChnSettings := Function.update doc.m_SndFile.ChnSettings nChn ModChannelSettings.Reset
          Chn := Function.update doc.m_SndFile.Chn nChn ModChannel.Reset
          m_bChannelMuteTogglePending :=
            Function.update doc.m_SndFile.m_bChannelMuteTogglePending nChn false }
      recordState := Function.update doc.recordState nChn 0 }

/-- Modelled from the spec: `CSoundFile::SetupMODPanning` is not among the sources; its
call site reads "Reset MOD panning (won't affect other module formats)": for a MOD song
every channel gets full volume, no surround and the left-right-right-left panning. -/
def CSoundFile.SetupMODPanning (s : CSoundFile) : CSoundFile :=
  if s.m_nType &&& MOD_TYPE_MOD = 0 then s
  else
    { s with
      ChnSettings := fun nChn =>
        if nChn < MAX_BASECHANNELS then
          { s.ChnSettings nChn with
            nVolume := 64
            dwFlags := FlagSet.reset (s.ChnSettings nChn).dwFlags CHN_SURROUND
            nPan := if nChn % 4 = 1 ∨ nChn % 4 = 2 then 0xC0 else 0x40 }
        else s.ChnSettings nChn }

/-! ## Channel rearrangement -/

/-- The cells the inner loop of `ReArrangeChannels` writes for row `nRow`, in the order
of `tmpdest`: new channel `nChn` gets the old cell of channel `newOrder[nChn]`, or the
empty note-event when `newOrder[nChn]` is no current channel. -/
def rearrangedRow (oldPatData : List ModCommand) (numChannels : Nat) (newOrder : List Nat)
    (nRemainingChannels nRow : Nat) : List ModCommand :=
  (List.range nRemainingChannels).map fun nChn =>
    if newOrder.getD nChn 0 < numChannels then
      GetpModCommand oldPatData numChannels nRow (newOrder.getD nChn 0)
    else ModCommand.Empty

/-- The new grid of a pattern: the rows written one after the other through `tmpdest`. -/
def rearrangedPatData (oldPatData : List ModCommand) (numChannels : Nat) (newOrder : List Nat)
    (nRemainingChannels rows : Nat) : List ModCommand :=
  (List.range rows).flatMap (rearrangedRow oldPatData numChannels newOrder nRemainingChannels)

/-- The pattern loop of `ReArrangeChannels` over the indices `nPat`. Every valid pattern
gets a new grid; when an allocation fails the loop stops and returns `false` with the
patterns as they are at that point. -/
def rearrangePatterns (allocOk : Nat → Bool) (numChannels : Nat) (newOrder : List Nat)
    (nRemainingChannels : Nat) : List Nat → CPatternContainer → CPatternContainer × Bool
  | [], pats => (pats, true)
  | nPat :: rest, pats =>
    if pats.IsValidPat nPat then
      let oldPatData := (pats.get nPat).m_ModCommands.getD []
      match CPattern.AllocatePattern (allocOk nPat) (pats.get nPat).GetNumRows nRemainingChannels with
      | none => (pats, false)
      | some _ =>
        rearrangePatterns allocOk numChannels newOrder nRemainingChannels rest
          ⟨pats.m_Patterns.set nPat
            { pats.get nPat with
              m_ModCommands := some (rearrangedPatData oldPatData numChannels newOrder
                nRemainingChannels (pats.get nPat).GetNumRows) }⟩
    else
      rearrangePatterns allocOk numChannels newOrder nRemainingChannels rest pats

/-- Modelled from the spec: `CModDoc::ReinitRecordState` is not among the sources; it clears
the record state of every channel. -/
def CModDoc.ReinitRecordState (doc : CModDoc) : CModDoc :=
  { doc with recordState := fun _ => 0 }

/-- One step of the loop that moves channel settings and playback states to their new
positions; `old` is the document before the loop, from which `settings`, `chns`,
`recordStates` and `chnMutePendings` were saved. `Record1Channel(nChn, true)` and
`Record2Channel(nChn, true)`, which are not among the sources, put the channel into record
group 1 or 2. -/
def moveChannel (old : CModDoc) (newOrder : List Nat) (doc : CModDoc) (nChn : Nat) : CModDoc :=
  let src := newOrder.getD nChn 0
  if src < old.GetNumChannels then
    { m_SndFile :=
        { doc.m_SndFile with
          ChnSettings := Function.update doc.m_SndFile.ChnSettings nChn (old.m_SndFile.ChnSettings src)
          Chn := Function.update doc.m_SndFile.Chn nChn (old.m_SndFile.Chn src)
          m_bChannelMuteTogglePending :=
            Function.update doc.m_SndFile.m_bChannelMuteTogglePending nChn
              (old.m_SndFile.m_bChannelMuteTogglePending src) }
      recordState :=
        if old.IsChannelRecord src = 1 then Function.update doc.recordState nChn 1
        else if old.IsChannelRecord src = 2 then Function.update doc.recordState nChn 2
        else doc.recordState }
  else doc.InitChannel nChn

/-- One step of the final loop: reset a removed channel and mute it. -/
def resetRemovedChannel (doc : CModDoc) (nChn : Nat) : CModDoc :=
  let doc1 := doc.InitChannel nChn
  { doc1 with
    m_SndFile :=
      { doc1.m_SndFile with
        Chn := Function.update doc1.m_SndFile.Chn nChn
          { doc1.m_SndFile.Chn nChn with dwFlags := FlagSet.set (doc1.m_SndFile.Chn nChn).dwFlags CHN_MUTE } } }

/-- The part of `ReArrangeChannels` after the pattern loop: save the settings, playback
states, record states and pending mutes of the current channels (`doc1` itself is the
saved copy), clear the record states, move every channel to its new position, reset the
MOD panning, store the new channel count and reset the channels above it. -/
def rearrangeChannelStates (doc1 : CModDoc) (newOrder : List Nat) (nRemainingChannels : Nat) :
    CModDoc :=
  let doc2 := doc1.ReinitRecordState
  let doc3 := (List.range nRemainingChannels).foldl (moveChannel doc1 newOrder) doc2
  let doc4 : CModDoc := { doc3 with m_SndFile := doc3.m_SndFile.SetupMODPanning }
  let doc5 : CModDoc :=
    { doc4 with m_SndFile := { doc4.m_SndFile with m_nChannels := nRemainingChannels } }
  ((List.range (MAX_BASECHANNELS - doc5.GetNumChannels)).map
    (fun k => doc5.GetNumChannels + k)).foldl resetRemovedChannel doc5

/-- Base code for adding, removing, moving and duplicating channels
(`CModDoc::ReArrangeChannels`). Returns the new number of channels on success,
`CHANNELINDEX_INVALID` otherwise, together with the document it leaves behind.
`allocOk nPat` tells whether the grid allocation for pattern `nPat` succeeds. -/
def CModDoc.ReArrangeChannels (allocOk : Nat → Bool) (doc : CModDoc) (newOrder : List Nat) :
    Nat × CModDoc :=
  let nRemainingChannels := castCHANNELINDEX newOrder.length
  if nRemainingChannels > doc.m_SndFile.GetModSpecifications.channelsMax
      || nRemainingChannels < doc.m_SndFile.GetModSpecifications.channelsMin then
    (CHANNELINDEX_INVALID, doc)
  else if doc.m_SndFile.Patterns.Size = 0 then
    (doc.GetNumChannels, doc)
  else
    match rearrangePatterns allocOk doc.GetNumChannels newOrder nRemainingChannels
        (List.range doc.m_SndFile.Patterns.Size) doc.m_SndFile.Patterns with
    | (pats, false) =>
      (CHANNELINDEX_INVALID, { doc with m_SndFile := { doc.m_SndFile with Patterns := pats } })
    | (pats, true) =>
      let doc6 := rearrangeChannelStates
        { doc with m_SndFile := { doc.m_SndFile with Patterns := pats } } newOrder nRemainingChannels
      (doc6.GetNumChannels, doc6)

/-- The loop of `RemoveChannels` that fills `channels` with the kept channel indices:
the state is the vector and the write position `i`. -/
def keptChannelsLoop (keepMask : List Bool) : List Nat → List Nat × Nat → List Nat × Nat
  | [], st => st
  | nChn :: rest, (channels, i) =>
    if keepMask.getD nChn false then
      keptChannelsLoop keepMask rest (channels.set i nChn, castCHANNELINDEX (i + 1))
    else
      keptChannelsLoop keepMask rest (channels, i)

/-- To remove all channels whose index corresponds to false in the keepMask vector.
Returns true on success (`CModDoc::RemoveChannels`). -/
def CModDoc.RemoveChannels (allocOk : Nat → Bool) (doc : CModDoc) (keepMask : List Bool) :
    Bool × CModDoc :=
  let nRemainingChannels := (List.range doc.GetNumChannels).foldl
    (fun n nChn => if keepMask.getD nChn false then castCHANNELINDEX (n + 1) else n) 0
  if nRemainingChannels = doc.GetNumChannels
      || nRemainingChannels < doc.m_SndFile.GetModSpecifications.channelsMin then
    (false, doc)
  else
    let channels := (keptChannelsLoop keepMask (List.range doc.GetNumChannels)
      (List.replicate nRemainingChannels 0, 0)).1
    let res := doc.ReArrangeChannels allocOk channels
    (decide (res.1 = nRemainingChannels), res.2)

/-! ## Sample rearrangement -/

/-- Functor for rewriting instrument numbers in patterns
(`RewriteInstrumentReferencesInPatterns::operator()`). -/
def RewriteInstrumentReferencesInPatterns (instrumentIndices : List Nat) (m : ModCommand) :
    ModCommand :=
  if !m.IsPcNote && decide (m.instr < instrumentIndices.length) then
    { m with instr := instrumentIndices.getD m.instr 0 }
  else m

/-- Modelled from the spec: `CSoundFile::DestroySample` is not among the sources; a slot
"referenced by zero new entries" is freed: its buffer is released and the slot holds no
sample data any more. -/
def CSoundFile.DestroySample (s : CSoundFile) (nSample : Nat) : CSoundFile :=
  match (s.Samples nSample).pSample with
  | none => s
  | some h =>
    { s with
      heap := s.heap.set h none
      Samples := Function.update s.Samples nSample
        { s.Samples nSample with pSample := none, nLength := 0 } }

/-- Modelled from the spec: `ctrlSmp::PrecomputeLoops` is not among the sources; it
recomputes the loop-boundary lookahead copies kept in the padding around the sample data.
The padding is not part of the sample frames, so the header and the frames stay as they
are. -/
def ModSample.PrecomputeLoops (s : ModSample) : ModSample := s

/-- The bytes of a block after `memcpy(dst, src, count)`. -/
def memcpy (dst src : List Nat) (count : Nat) : List Nat :=
  (List.range dst.length).map fun k => if k < count then src.getD k 0 else dst.getD k 0

/-- The block a sample pointer refers to; nothing for `nullptr` or a freed block. -/
def CSoundFile.buffer (s : CSoundFile) (p : Option Nat) : List Nat :=
  match p with
  | none => []
  | some h => (s.heap.getD h none).getD []

/-- The local tables of `ReArrangeSamples`: the number of references to every old slot,
the saved header of every old slot, and one of the new indexes of every old slot. -/
structure SampleTables where
  sampleCount : Nat → Nat
  sampleHeaders : Nat → ModSample
  newIndex : Nat → Nat

/-- The tables as they are constructed: no references, blank headers, new index 0. -/
def SampleTables.init : SampleTables := ⟨fun _ => 0, fun _ => ModSample.blank, fun _ => 0⟩

/-- One step of the loop that fills the tables from `newOrder`. -/
def collectSample (s : CSoundFile) (oldNumSamples : Nat) (newOrder : List Nat)
    (t : SampleTables) (i : Nat) : SampleTables :=
  let origSlot := newOrder.getD i 0
  if origSlot > 0 && origSlot <= oldNumSamples then
    { sampleCount := Function.update t.sampleCount origSlot (t.sampleCount origSlot + 1)
      sampleHeaders := Function.update t.sampleHeaders origSlot (s.Samples origSlot)
      newIndex := Function.update t.newIndex origSlot (castSAMPLEINDEX (i + 1)) }
  else t

/-- One step of the loop that deletes the samples that will be removed anyway and saves
the sample names; the state is the song and `sampleNames`. -/
def destroyUnusedSample (t : SampleTables) (st : CSoundFile × (Nat → String)) (i : Nat) :
    CSoundFile × (Nat → String) :=
  let s1 := if t.sampleCount i = 0 then st.1.DestroySample i else st.1
  (s1, Function.update st.2 i (s1.m_szNames i))

/-- One step of the loop that removes the sample data references from the slots above the
new sample count. -/
def clearUnusedSlot (s : CSoundFile) (i : Nat) : CSoundFile :=
  { s with
    Samples := Function.update s.Samples i { s.Samples i with pSample := none, nLength := 0 }
    m_szNames := Function.update s.m_szNames i "" }

/-- One step of the loop that creates the new sample list; the state is the song and
`sampleCount`. `smpAllocOk i` tells whether the buffer allocation for position `i`
succeeds. -/
def createSample (smpAllocOk : Nat → Bool) (oldNumSamples : Nat) (newOrder : List Nat)
    (t : SampleTables) (sampleNames : Nat → String) (st : CSoundFile × (Nat → Nat)) (i : Nat) :
    CSoundFile × (Nat → Nat) :=
  let s := st.1
  let origSlot := newOrder.getD i 0
  if origSlot > 0 && origSlot <= oldNumSamples then
    let target := t.sampleHeaders origSlot
    let count := st.2 origSlot - 1
    let sampleCount := Function.update st.2 origSlot count
    let s1 : CSoundFile :=
      if count > 0 && (t.sampleHeaders origSlot).pSample.isSome then
        match ModSample.AllocateSample (smpAllocOk i) target.nLength target.GetBytesPerSample with
        | some block =>
          let copied := memcpy block (s.buffer (t.sampleHeaders origSlot).pSample)
            target.GetBytesPerSample
          { s with
            heap := s.heap ++ [some copied]
            Samples := Function.update s.Samples (i + 1)
              ({ target with pSample := some s.heap.length }).PrecomputeLoops }
        | none =>
          { s with Samples := Function.update s.Samples (i + 1) { target with pSample := none } }
      else
        { s with Samples := Function.update s.Samples (i + 1) target }
    ({ s1 with m_szNames := Function.update s1.m_szNames (i + 1) (sampleNames origSlot) },
      sampleCount)
  else
    ({ s with
        Samples := Function.update s.Samples (i + 1)
          { (s.Samples (i + 1)).Initialize s.GetType with pSample := none }
        m_szNames := Function.update s.m_szNames (i + 1) "" },
      st.2)

/-- The fix-up of one playback channel: a channel playing old slot `i` is pointed at the
new slot of that sample, and reset when `i` is above the new sample count. -/
def relinkChannel (oldNumSamples newNumSamples : Nat) (t : SampleTables) (chn : ModChannel) :
    ModChannel :=
  match chn.pModSample with
  | none => chn
  | some i =>
    if 1 ≤ i ∧ i ≤ oldNumSamples then
      if i = 0 ∨ i > newNumSamples then ModChannel.Reset
      else { chn with pModSample := some (t.newIndex i) }
    else chn

/-- The keyboard map of an instrument after the update of the sample map. -/
def rewriteKeyboard (oldNumSamples : Nat) (t : SampleTables) (ins : ModInstrument) :
    ModInstrument :=
  { ins with
    Keyboard := ins.Keyboard.map fun k =>
      if k > 0 && k <= oldNumSamples then t.newIndex k else 0 }

/-- The first loop of `ReArrangeSamples`: the tables filled from `newOrder`. -/
def buildSampleTables (s0 : CSoundFile) (newOrder : List Nat) : SampleTables :=
  (List.range (castSAMPLEINDEX newOrder.length)).foldl
    (collectSample s0 s0.GetNumSamples newOrder) SampleTables.init

/-- The loops of `ReArrangeSamples` that work on the sample slots: delete the samples
that are not referenced and save the names, clear the slots above the new sample count,
store the new sample count and create the new sample list. The counter of the clearing
loop starts at `newNumSamples + 1`, which does not wrap for a sample count below 65535. -/
def rearrangeSampleSlots (smpAllocOk : Nat → Bool) (s0 : CSoundFile) (newOrder : List Nat)
    (t : SampleTables) : CSoundFile :=
  let oldNumSamples := s0.GetNumSamples
  let newNumSamples := castSAMPLEINDEX newOrder.length
  let st1 := ((List.range oldNumSamples).map (fun k => k + 1)).foldl (destroyUnusedSample t)
    (s0, fun _ => "")
  let sampleNames := st1.2
  let s2 := ((List.range (oldNumSamples - newNumSamples)).map
    (fun k => newNumSamples + 1 + k)).foldl clearUnusedSlot st1.1
  let s3 : CSoundFile := { s2 with m_nSamples := newNumSamples }
  ((List.range newNumSamples).foldl
    (createSample smpAllocOk oldNumSamples newOrder t sampleNames) (s3, t.sampleCount)).1

/-- Base code for adding, removing, moving and duplicating samples
(`CModDoc::ReArrangeSamples`). Returns the new number of samples on success,
`SAMPLEINDEX_INVALID` otherwise, together with the document it leaves behind. -/
def CModDoc.ReArrangeSamples (smpAllocOk : Nat → Bool) (doc : CModDoc) (newOrder : List Nat) :
    Nat × CModDoc :=
  if newOrder.length > doc.m_SndFile.GetModSpecifications.samplesMax then
    (SAMPLEINDEX_INVALID, doc)
  else
    let s0 := doc.m_SndFile
    let oldNumSamples := s0.GetNumSamples
    let newNumSamples := castSAMPLEINDEX newOrder.length
    let t := buildSampleTables s0 newOrder
    let s4 := rearrangeSampleSlots smpAllocOk s0 newOrder t
    let s5 : CSoundFile :=
      { s4 with
        Chn := fun c =>
          if c < MAX_CHANNELS then relinkChannel oldNumSamples newNumSamples t (s4.Chn c)
          else s4.Chn c }
    let s6 : CSoundFile :=
      if s5.GetNumInstruments ≠ 0 then
        { s5 with
          Instruments := fun i =>
            if i ≤ s5.GetNumInstruments then (s5.Instruments i).map (rewriteKeyboard oldNumSamples t)
            else s5.Instruments i }
      else
        let indices := (List.range (oldNumSamples + 1)).map (fun i => castINSTR (t.newIndex i))
        { s5 with
          Patterns := s5.Patterns.ForEachModCommand (RewriteInstrumentReferencesInPatterns indices) }
    (s6.GetNumSamples, { doc with m_SndFile := s6 })

/-! ## Notions used to state the properties -/

/-- The pattern `ReArrangeChannels` puts in the place of pattern `i`. -/
def rearrangedPattern (numChannels : Nat) (newOrder : List Nat) (n : Nat)
    (pats : CPatternContainer) (i : Nat) : CPattern :=
  { pats.get i with
    m_ModCommands := some (rearrangedPatData ((pats.get i).m_ModCommands.getD []) numChannels
      newOrder n (pats.get i).GetNumRows) }

/-- The cell of row `r` and channel `c` of pattern `nPat` of a document, read with the
channel count the document reports. -/
def CModDoc.cell (doc : CModDoc) (nPat r c : Nat) : ModCommand :=
  GetpModCommand ((doc.m_SndFile.Patterns.get nPat).m_ModCommands.getD []) doc.GetNumChannels r c

/-- Number of cells of the grid of pattern `nPat`. -/
def CModDoc.numCells (doc : CModDoc) (nPat : Nat) : Nat :=
  ((doc.m_SndFile.Patterns.get nPat).m_ModCommands.getD []).length

/-- Positions of the true entries of a mask, in ascending order: entry `i` is the
position of the `i`-th true entry. -/
def truePositions (mask : List Bool) : List Nat :=
  (List.range mask.length).filter (fun c => mask.getD c false)

/-- The members of the song outside the sample slots, the sample names, the sample
count and the heap are the same in `s` and `s2`. -/
def sameButSamples (s s2 : CSoundFile) : Prop :=
  s2.m_nType = s.m_nType ∧ s2.m_pModSpecs = s.m_pModSpecs ∧ s2.m_nChannels = s.m_nChannels ∧
  s2.m_nInstruments = s.m_nInstruments ∧ s2.Patterns = s.Patterns ∧
  s2.ChnSettings = s.ChnSettings ∧ s2.Chn = s.Chn ∧
  s2.m_bChannelMuteTogglePending = s.m_bChannelMuteTogglePending ∧
  s2.Instruments = s.Instruments

/-- What the loop that creates the new sample list leaves in slot `i + 1`, given the
saved headers and names: the header, up to the buffer pointer, and the name of old slot
`newOrder[i]` when that is a slot of the old sample list, and a freshly initialised sample
without data and without name otherwise. -/
def slotCreated (type oldNumSamples : Nat) (newOrder : List Nat) (sampleHeaders : Nat → ModSample)
    (sampleNames : Nat → String) (i : Nat) (smp : ModSample) (name : String) : Prop :=
  if 0 < newOrder.getD i 0 ∧ newOrder.getD i 0 ≤ oldNumSamples then
    { smp with pSample := none } = { sampleHeaders (newOrder.getD i 0) with pSample := none } ∧
    name = sampleNames (newOrder.getD i 0)
  else
    (∃ prev : ModSample, smp = { prev.Initialize type with pSample := none }) ∧ name = ""

/-- The note-event at position `idx` of the grid of pattern `nPat`. -/
def CModDoc.cellAt (doc : CModDoc) (nPat idx : Nat) : ModCommand :=
  ((doc.m_SndFile.Patterns.get nPat).m_ModCommands.getD []).getD idx ModCommand.Empty

/-! ## Example songs -/

/-- Limits of a format with 1 to 127 channels and up to 4000 samples. -/
def exSpecs : CModSpecifications := ⟨1, 127, 4000, 255⟩

/-- A note-event told apart by its note value. -/
def exCell (n : Nat) : ModCommand := ⟨n, 0, 0, 0, 0, 0⟩

/-- A 4-channel song in sample mode: pattern 0 has two rows, pattern 1 has no grid,
pattern 2 has one row. -/
def exSong : CSoundFile :=
  { m_nType := MOD_TYPE_IT
    m_pModSpecs := exSpecs
    m_nChannels := 4
    m_nSamples := 0
    m_nInstruments := 0
    Patterns := ⟨[⟨2, some ((List.range 8).map exCell)⟩, ⟨1, none⟩,
      ⟨1, some ((List.range 4).map (fun n => exCell (n + 10)))⟩]⟩
    ChnSettings := fun _ => ⟨0, 128, 64, 0, ""⟩
    Chn := fun c => ⟨0, none, c⟩
    m_bChannelMuteTogglePending := fun _ => false
    Samples := fun _ => ModSample.blank
    m_szNames := fun _ => ""
    Instruments := fun _ => none
    heap := [] }

/-- The document of `exSong`. -/
def exDoc : CModDoc := ⟨exSong, fun _ => 0⟩

/-- The song `exSong` as a MOD song. -/
def exModDoc : CModDoc := ⟨{ exSong with m_nType := MOD_TYPE_MOD }, fun _ => 0⟩

/-- The song `exSong` with an empty pattern container. -/
def exNoPatternDoc : CModDoc := ⟨{ exSong with Patterns := ⟨[]⟩ }, fun _ => 0⟩


/-- A note-event with note 60 that refers to sample or instrument `n`. -/
def exNote (n : Nat) : ModCommand := ⟨60, n, 0, 0, 0, 0⟩

/-- A song in sample mode with two samples, "kick" with the two frames 5, 7 and "snare"
with the frame 9, and one pattern of two rows whose cells refer to samples 0 to 3, once
from a parameter-control note. -/
def exSmpSong : CSoundFile :=
  { exSong with
    m_nSamples := 2
    Samples := fun i =>
      if i = 1 then { ModSample.blank with nLength := 2, pSample := some 0, nVolume := 100 }
      else if i = 2 then { ModSample.blank with nLength := 1, pSample := some 1, nVolume := 200 }
      else ModSample.blank
    m_szNames := fun i => if i = 1 then "kick" else if i = 2 then "snare" else ""
    heap := [some [5, 7], some [9]]
    Patterns := ⟨[⟨2, some [exNote 0, exNote 1, exNote 2, exNote 3,
      ⟨NOTE_PC, 1, 0, 0, 0, 0⟩, exNote 2, exNote 1, exNote 0]⟩]⟩ }

/-- The document of `exSmpSong`. -/
def exSmpDoc : CModDoc := ⟨exSmpSong, fun _ => 0⟩

/-- The song `exSmpSong` in instrument mode, with one instrument whose keyboard maps four
notes to the samples 0 to 3. -/
def exInsDoc : CModDoc :=
  ⟨{ exSmpSong with
      m_nInstruments := 1
      Instruments := fun i => if i = 1 then some ⟨[0, 1, 2, 3], 0⟩ else none }, fun _ => 0⟩

/-- The sample frames of slot `i`: the first `GetSampleSizeInBytes()` bytes of its buffer. -/
def CSoundFile.sampleData (s : CSoundFile) (i : Nat) : List Nat :=
  (s.buffer (s.Samples i).pSample).take (s.Samples i).GetSampleSizeInBytes

/-- A `newOrder` of 256 entries: 255 new empty slots, then old sample 1. -/
def exLongOrder : List Nat := List.replicate 255 0 ++ [1]

/-! ## Binary settings as text -/

/-- The digits a nibble is written with (`EncodeNibble`). -/
def EncodeNibble : List Char :=
  ['0', '1', '2', '3', '4', '5', '6', '7', '8', '9', 'A', 'B', 'C', 'D', 'E', 'F']

/-- One turn of the loop of `EncodeBinarySettingRaw`: the text so far and the 8-bit checksum,
after the byte at offset `i` of the source. -/
def encodeByteStep (source : List Nat) (st : List Char × Nat) (i : Nat) : List Char × Nat :=
  let byte := source.getD i 0
  let dst := st.1 ++ [EncodeNibble.getD ((byte &&& 0xf0) >>> 4) (Char.ofNat 0)]
  let dst := dst ++ [EncodeNibble.getD (byte &&& 0x0f) (Char.ofNat 0)]
  (dst, (st.2 + byte) % 256)

/-- Write `size` bytes of `src` as text into `dst`, whose prior content is cleared
(`EncodeBinarySettingRaw`). The result is the new content of `dst`. -/
def EncodeBinarySettingRaw (_dst : List Char) (src : List Nat) (size : Nat) : List Char :=
  let dst : List Char := []
  let st := (List.range size).foldl (encodeByteStep src) (dst, 0)
  let dst := st.1 ++ [EncodeNibble.getD ((st.2 &&& 0xf0) >>> 4) (Char.ofNat 0)]
  dst ++ [EncodeNibble.getD (st.2 &&& 0x0f) (Char.ofNat 0)]

/-- Read one byte from two digits (`DecodeByte`): whether both are digits, and the value the
output byte is left with. -/
def DecodeByte (c1 c2 : Char) : Bool × Nat :=
  let byte := 0
  if '0'.toNat ≤ c1.toNat ∧ c1.toNat ≤ '9'.toNat then
    let byte := (byte + ((c1.toNat - '0'.toNat) <<< 4)) % 256
    if '0'.toNat ≤ c2.toNat ∧ c2.toNat ≤ '9'.toNat then
      (true, (byte + (c2.toNat - '0'.toNat)) % 256)
    else if 'A'.toNat ≤ c2.toNat ∧ c2.toNat ≤ 'F'.toNat then
      (true, (byte + (c2.toNat - 'A'.toNat + 10)) % 256)
    else (false, byte)
  else if 'A'.toNat ≤ c1.toNat ∧ c1.toNat ≤ 'F'.toNat then
    let byte := (byte + ((c1.toNat - 'A'.toNat + 10) <<< 4)) % 256
    if '0'.toNat ≤ c2.toNat ∧ c2.toNat ≤ '9'.toNat then
      (true, (byte + (c2.toNat - '0'.toNat)) % 256)
    else if 'A'.toNat ≤ c2.toNat ∧ c2.toNat ≤ 'F'.toNat then
      (true, (byte + (c2.toNat - 'A'.toNat + 10)) % 256)
    else (false, byte)
  else (false, byte)

/-- One turn of the checking loop of `DecodeBinarySettingRaw`: `none` once the function has
returned, else the 8-bit checksum so far. -/
def decodeCheckStep (src : List Char) (acc : Option Nat) (i : Nat) : Option Nat :=
  match acc with
  | none => none
  | some checksum =>
    let r := DecodeByte (src.getD (i * 2 + 0) (Char.ofNat 0)) (src.getD (i * 2 + 1) (Char.ofNat 0))
    if !r.1 then none else some ((checksum + r.2) % 256)

/-- One turn of the writing loop of `DecodeBinarySettingRaw`. -/
def decodeWriteStep (src : List Char) (dest : List Nat) (i : Nat) : List Nat :=
  let r := DecodeByte (src.getD (i * 2 + 0) (Char.ofNat 0)) (src.getD (i * 2 + 1) (Char.ofNat 0))
  dest.set i r.2

/-- Read `size` bytes back from the text `src` into the memory at `dst`
(`DecodeBinarySettingRaw`). The result is the memory at `dst` afterwards: it is unchanged
when the function returns early. -/
def DecodeBinarySettingRaw (dst : List Nat) (size : Nat) (src : List Char) : List Nat :=
  if src.length ≠ size * 2 + 2 then dst
  else
    match (List.range size).foldl (decodeCheckStep src) (some 0) with
    | none => dst
    | some checksum =>
      let r := DecodeByte (src.getD (size * 2 + 0) (Char.ofNat 0))
        (src.getD (size * 2 + 1) (Char.ofNat 0))
      if !r.1 then dst
      else if checksum ≠ r.2 then dst
      else (List.range size).foldl (decodeWriteStep src) dst

/-- The upper-case hexadecimal digit of a number below 16. -/
def upperHexDigit (d : Nat) : Char :=
  if d < 10 then Char.ofNat ('0'.toNat + d) else Char.ofNat ('A'.toNat + (d - 10))

/-- The two upper-case hexadecimal digits of each byte of a sequence, high nibble first. -/
def hexText : List Nat → List Char
  | [] => []
  | x :: xs => upperHexDigit (x / 16) :: upperHexDigit (x % 16) :: hexText xs

/-! ## Function objects with state -/

/-- The loop of `std::for_each` over the cells of a grid, with a function object that
carries state: `func` takes its own state (the members of the function object), the
state it refers to outside of itself, and the cell, and gives all three back. -/
def forEachCell {τ σ : Type} (func : τ → σ → ModCommand → τ × σ × ModCommand) :
    τ → σ → List ModCommand → τ × σ × List ModCommand
  | t, s, [] => (t, s, [])
  | t, s, m :: rest =>
    let r := func t s m
    let r2 := forEachCell func r.1 r.2.1 rest
    (r2.1, r2.2.1, r.2.2 :: r2.2.2)

/-- The call `std::for_each(pattern.Begin(), pattern.End(), func)`: `func` is passed by value
and the returned copy is dropped, so the members of `func` are as before the call. -/
def CPattern.forEachAcc {τ σ : Type} (func : τ → σ → ModCommand → τ × σ × ModCommand)
    (t : τ) (s : σ) (p : CPattern) : σ × CPattern :=
  match p.m_ModCommands with
  | none => (s, p)
  | some cells =>
    let r := forEachCell func t s cells
    (r.2.1, { p with m_ModCommands := some r.2.2 })

/-- The loop of `ForEachModCommand` over the pattern indices `pats`, with a function object
that carries state. -/
def CPatternContainer.forEachLoopAcc {τ σ : Type}
    (func : τ → σ → ModCommand → τ × σ × ModCommand) (t : τ) :
    List Nat → σ → CPatternContainer → σ × CPatternContainer
  | [], s, c => (s, c)
  | nPat :: rest, s, c =>
    if (c.get nPat).m_ModCommands.isSome then
      let r := (c.get nPat).forEachAcc func t s
      CPatternContainer.forEachLoopAcc func t rest r.1 ⟨c.m_Patterns.set nPat r.2⟩
    else
      CPatternContainer.forEachLoopAcc func t rest s c

/-- Range form of `CPatternContainer::ForEachModCommand(nStartPat, nLastPat, func)` with a
function object that carries state; the result is the returned copy of the function
object, the state outside of it, and the container. -/
def CPatternContainer.ForEachModCommandRangeAcc {τ σ : Type} (c : CPatternContainer)
    (nStartPat nLastPat : Nat) (func : τ → σ → ModCommand → τ × σ × ModCommand)
    (t : τ) (s : σ) : τ × σ × CPatternContainer :=
  if nStartPat > nLastPat || nLastPat >= c.Size then (t, s, c)
  else
    let r := CPatternContainer.forEachLoopAcc func t
      ((List.range (nLastPat + 1 - nStartPat)).map (fun k => nStartPat + k)) s c
    (t, r.1, r.2)

/-- All-patterns form of `CPatternContainer::ForEachModCommand(func)` with a function object
that carries state; the last index `Size() - 1` is converted to `PATTERNINDEX`. -/
def CPatternContainer.ForEachModCommandAcc {τ σ : Type} (c : CPatternContainer)
    (func : τ → σ → ModCommand → τ × σ × ModCommand) (t : τ) (s : σ) :
    τ × σ × CPatternContainer :=
  c.ForEachModCommandRangeAcc 0 (castPATTERNINDEX (c.Size + 65535)) func t s

/-- One visit of every cell of every pattern with a grid, pattern after pattern in the
order of the list and cell after cell within a pattern; a pattern without a grid is
passed over. Each pattern is visited with a function object whose members are `t`. -/
def visitPatterns {τ σ : Type} (func : τ → σ → ModCommand → τ × σ × ModCommand) (t : τ) :
    σ → List CPattern → σ × List CPattern
  | s, [] => (s, [])
  | s, p :: ps =>
    match p.m_ModCommands with
    | none =>
      let r := visitPatterns func t s ps
      (r.1, p :: r.2)
    | some cells =>
      let v := forEachCell func t s cells
      let r := visitPatterns func t v.2.1 ps
      (r.1, { p with m_ModCommands := some v.2.2 } :: r.2)

/-- A function object that writes down every cell it is called with, and changes the cell
by `f`. -/
def loggingFunc (f : ModCommand → ModCommand) (t : Unit) (log : List ModCommand)
    (m : ModCommand) : Unit × List ModCommand × ModCommand :=
  (t, log ++ [m], f m)

/-! ## Reading files -/

/-- Modelled from the spec: the declaration of `FileReader` is not among the sources; a
reader is a cursor `pos` into the bytes `data` of a file, each byte a number below 256,
and it never reads past the end of the data; a reader that was made from no data at all
is not `valid`. -/
structure FileReader where
  data : List Nat
  pos : Nat
  valid : Bool := true
deriving DecidableEq, Repr

/-- Modelled from the spec: `FileReader::IsValid` is not among the sources; the reader has
data to read from. -/
def FileReader.IsValid (f : FileReader) : Bool := f.valid

/-- Modelled from the spec: `FileReader::Rewind` is not among the sources; the cursor goes
back to the start. -/
def FileReader.Rewind (f : FileReader) : FileReader := { f with pos := 0 }

/-- Modelled from the spec: `FileReader::BytesLeft` is not among the sources; the number of
bytes from the cursor to the end. -/
def FileReader.BytesLeft (f : FileReader) : Nat := f.data.length - f.pos

/-- Modelled from the spec: `FileReader::AreBytesLeft` is not among the sources; the cursor
is before the end. -/
def FileReader.AreBytesLeft (f : FileReader) : Bool := decide (f.pos < f.data.length)

/-- Modelled from the spec: `FileReader::CanRead` is not among the sources; that many bytes
are left. -/
def FileReader.CanRead (f : FileReader) (amount : Nat) : Bool := decide (amount ≤ f.BytesLeft)

/-- Modelled from the spec: `FileReader::Seek` is not among the sources; the cursor moves to
an absolute position when that position is not past the end, and stays otherwise; the
result tells whether it moved. -/
def FileReader.Seek (f : FileReader) (position : Nat) : Bool × FileReader :=
  if position ≤ f.data.length then (true, { f with pos := position }) else (false, f)

/-- Modelled from the spec: `FileReader::Skip` is not among the sources; the cursor advances
by that many bytes, or to the end when fewer are left. -/
def FileReader.Skip (f : FileReader) (amount : Nat) : FileReader :=
  if f.CanRead amount then { f with pos := f.pos + amount } else { f with pos := f.data.length }

/-- Modelled from the spec: `FileReader::ReadUint8` is not among the sources; it reads one
byte and advances, or gives 0 and stays when no byte is left. -/
def FileReader.ReadUint8 (f : FileReader) : Nat × FileReader :=
  if f.CanRead 1 then (f.data.getD f.pos 0, { f with pos := f.pos + 1 }) else (0, f)

/-- Modelled from the spec: `FileReader::ReadUint16LE` is not among the sources; it reads a
little-endian 16-bit number and advances, or gives 0 and stays when fewer than two
bytes are left. -/
def FileReader.ReadUint16LE (f : FileReader) : Nat × FileReader :=
  if f.CanRead 2 then
    (f.data.getD f.pos 0 + 256 * f.data.getD (f.pos + 1) 0, { f with pos := f.pos + 2 })
  else (0, f)

/-- Modelled from the spec: `FileReader::ReadConvertEndianness` is not among the sources; it
copies the `size` bytes of a packed structure and advances, or reads nothing and stays
when fewer bytes are left. The fields are taken from the bytes by the structure. -/
def FileReader.ReadStruct (f : FileReader) (size : Nat) : Option (List Nat) × FileReader :=
  if f.CanRead size then (some ((f.data.drop f.pos).take size), { f with pos := f.pos + size })
  else (none, f)

/-- Modelled from the spec: `FileReader::GetChunk(length)` is not among the sources; it
gives a reader bounded to the next `length` bytes, fewer when fewer are left and not a
valid one when the cursor is at the end, and skips these bytes. The result is the
chunk and the file afterwards. -/
def FileReader.GetChunk (f : FileReader) (length : Nat) : FileReader × FileReader :=
  (if f.pos < f.data.length then ⟨(f.data.drop f.pos).take length, 0, true⟩ else ⟨[], 0, false⟩,
    f.Skip length)

/-- A little-endian 16-bit field at offset `off` of the bytes of a packed structure
(`SwapBytesLE` on a little-endian field). -/
def le16 (b : List Nat) (off : Nat) : Nat := b.getD off 0 + 256 * b.getD (off + 1) 0

/-- A little-endian 32-bit field at offset `off` of the bytes of a packed structure. -/
def le32 (b : List Nat) (off : Nat) : Nat :=
  b.getD off 0 + 256 * b.getD (off + 1) 0 + 65536 * b.getD (off + 2) 0 +
    16777216 * b.getD (off + 3) 0

/-- An array field of `len` bytes at offset `off` of the bytes of a packed structure. -/
def bytesAt (b : List Nat) (off len : Nat) : List Nat := (b.drop off).take len

/-! ## Loading: what the loaders share -/

/-- Modelled from the spec: `ModLoadingFlags` is declared in a header that is not among the
sources; this value asks for the header check only. -/
def onlyVerifyHeader : Nat := 0

/-- Modelled from the spec: `ModLoadingFlags` is declared in a header that is not among the
sources; this bit asks for the pattern data. -/
def loadPatternData : Nat := 1

/-- Modelled from the spec: `ModLoadingFlags` is declared in a header that is not among the
sources; this bit asks for the sample data. -/
def loadSampleData : Nat := 2

/-- Modelled from the spec: `ModLoadingFlags` is declared in a header that is not among the
sources; this bit asks for the plugin data. -/
def loadPluginData : Nat := 4

/-- Modelled from the spec: `ModLoadingFlags` is declared in a header that is not among the
sources; all load flags. -/
def loadCompleteModule : Nat := loadSampleData ||| loadPatternData ||| loadPluginData

/-- Modelled from the spec: `MAX_SAMPLES` is declared in a header that is not among the
sources; the number of sample slots, slot 0 included. -/
def MAX_SAMPLES : Nat := 4000

/-- Modelled from the spec: `MAX_PATTERNS` is declared in a header that is not among the
sources; the number of pattern slots of a fresh container. -/
def MAX_PATTERNS : Nat := 240

/-- Modelled from the spec: the module types are declared in a header that is not among
the sources; the type tags the loaders assign. -/
def MOD_TYPE_NONE : Nat := 0x00
/-- Modelled from the spec: see `MOD_TYPE_NONE`. -/
def MOD_TYPE_MED : Nat := 0x08
/-- Modelled from the spec: see `MOD_TYPE_NONE`. -/
def MOD_TYPE_MTM : Nat := 0x10
/-- Modelled from the spec: see `MOD_TYPE_NONE`. -/
def MOD_TYPE_669 : Nat := 0x40
/-- Modelled from the spec: see `MOD_TYPE_NONE`. -/
def MOD_TYPE_ULT : Nat := 0x80
/-- Modelled from the spec: see `MOD_TYPE_NONE`. -/
def MOD_TYPE_STM : Nat := 0x100
/-- Modelled from the spec: see `MOD_TYPE_NONE`. -/
def MOD_TYPE_FAR : Nat := 0x200
/-- Modelled from the spec: see `MOD_TYPE_NONE`. -/
def MOD_TYPE_PTM : Nat := 0x40000

/-- Modelled from the spec: the note values are declared in a header that is not among the
sources; no note. -/
def NOTE_NONE : Nat := 0
/-- Modelled from the spec: the note values are declared in a header that is not among the
sources; the note cut. -/
def NOTE_NOTECUT : Nat := 0xFE

/-- Modelled from the spec: the effect commands are declared in a header that is not among
the sources; the engine's unified command set, in the order of its enumeration. -/
def CMD_NONE : Nat := 0
/-- Modelled from the spec: see `CMD_NONE`. -/
def CMD_ARPEGGIO : Nat := 1
/-- Modelled from the spec: see `CMD_NONE`. -/
def CMD_PORTAMENTOUP : Nat := 2
/-- Modelled from the spec: see `CMD_NONE`. -/
def CMD_PORTAMENTODOWN : Nat := 3
/-- Modelled from the spec: see `CMD_NONE`. -/
def CMD_TONEPORTAMENTO : Nat := 4
/-- Modelled from the spec: see `CMD_NONE`. -/
def CMD_VIBRATO : Nat := 5
/-- Modelled from the spec: see `CMD_NONE`. -/
def CMD_TONEPORTAVOL : Nat := 6
/-- Modelled from the spec: see `CMD_NONE`. -/
def CMD_VIBRATOVOL : Nat := 7
/-- Modelled from the spec: see `CMD_NONE`. -/
def CMD_TREMOLO : Nat := 8
/-- Modelled from the spec: see `CMD_NONE`. -/
def CMD_PANNING8 : Nat := 9
/-- Modelled from the spec: see `CMD_NONE`. -/
def CMD_OFFSET : Nat := 10
/-- Modelled from the spec: see `CMD_NONE`. -/
def CMD_VOLUMESLIDE : Nat := 11
/-- Modelled from the spec: see `CMD_NONE`. -/
def CMD_POSITIONJUMP : Nat := 12
/-- Modelled from the spec: see `CMD_NONE`. -/
def CMD_VOLUME : Nat := 13
/-- Modelled from the spec: see `CMD_NONE`. -/
def CMD_PATTERNBREAK : Nat := 14
/-- Modelled from the spec: see `CMD_NONE`. -/
def CMD_RETRIG : Nat := 15
/-- Modelled from the spec: see `CMD_NONE`. -/
def CMD_SPEED : Nat := 16
/-- Modelled from the spec: see `CMD_NONE`. -/
def CMD_TEMPO : Nat := 17
/-- Modelled from the spec: see `CMD_NONE`. -/
def CMD_TREMOR : Nat := 18
/-- Modelled from the spec: see `CMD_NONE`. -/
def CMD_MODCMDEX : Nat := 19
/-- Modelled from the spec: see `CMD_NONE`. -/
def CMD_S3MCMDEX : Nat := 20
/-- Modelled from the spec: see `CMD_NONE`. -/
def CMD_GLOBALVOLUME : Nat := 23
/-- Modelled from the spec: see `CMD_NONE`. -/
def CMD_FINEVIBRATO : Nat := 26

/-- Modelled from the spec: the volume-column commands are declared in a header that is not
among the sources; in the order of their enumeration. -/
def VOLCMD_NONE : Nat := 0
/-- Modelled from the spec: see `VOLCMD_NONE`. -/
def VOLCMD_VOLUME : Nat := 1
/-- Modelled from the spec: see `VOLCMD_NONE`. -/
def VOLCMD_PANNING : Nat := 2
/-- Modelled from the spec: see `VOLCMD_NONE`. -/
def VOLCMD_OFFSET : Nat := 15

/-- Modelled from the spec: the declaration of `SampleIO` is not among the sources; the
encodings of sample data that the loaders here name. -/
inductive SampleEncoding where
  | signedPCM
  | unsignedPCM
  | deltaPCM
  | PTM8Dto16
deriving DecidableEq, Repr

/-- Modelled from the spec: the declaration of `SampleIO` is not among the sources; it says
how the sample data of a file is laid out: bit depth, channels, byte order, encoding. -/
structure SampleIO where
  bitdepth : Nat
  stereo : Bool
  bigEndian : Bool
  encoding : SampleEncoding
deriving DecidableEq, Repr

/-- Modelled from the spec: helpers of the loaders that are not among the sources, taken as
they come. `ReadString` is `mpt::String::Read<maybeNullTerminated>` (the text of a
character array), `Format` is `mpt::String::Format`, `InitializeGlobals` is
`CSoundFile::InitializeGlobals`, `ReadSample` is `SampleIO::ReadSample` (it fills the sample
from the file and may allocate on the heap), `ConvertModCommand` is
`CSoundFile::ConvertModCommand` (the MOD translation of the effect of a note-event),
`patternAllocOk` tells for which pattern the allocation of the grid succeeds,
`ReadAsByte` is `ModSequence::ReadAsByte` (the order list and the file after reading that
many orders), `FrequencyToTranspose` is `ModSample::FrequencyToTranspose` (transpose and
finetune of a sample frequency, computed in floating point), `GetBestSaveFormat` is
`CSoundFile::GetBestSaveFormat`, `HasCommand` and `HasVolCommand` are the queries of the
`CModSpecifications` of a format, `ExtendedMODtoS3MEffect` is
`ModCommand::ExtendedMODtoS3MEffect`, and `ReadMessage` is `CSoundFile::ReadMessage` (the
song message and the file after reading it). -/
structure LoaderEnv where
  ReadString : List Nat → String
  Format : String → List Nat → String
  InitializeGlobals : CSoundFile → CSoundFile
  ReadSample : SampleIO → ModSample → FileReader → List (Option (List Nat)) →
    ModSample × FileReader × List (Option (List Nat))
  ConvertModCommand : ModCommand → ModCommand
  patternAllocOk : Nat → Bool
  ReadAsByte : List Nat → FileReader → Nat → List Nat × FileReader
  FrequencyToTranspose : Nat → Int × Int
  GetBestSaveFormat : CSoundFile → Nat
  HasCommand : Nat → Nat → Bool
  HasVolCommand : Nat → Nat → Bool
  ExtendedMODtoS3MEffect : ModCommand → ModCommand
  ReadMessage : FileReader → Nat → String × FileReader

/-- Modelled from the spec: the body of `CPatternContainer::Insert(index, rows)` is not among
the sources; its declaration reads "Insert (default)pattern to given position. If
pattern already exists at that position, ignoring request. Returns true on failure,
false otherwise." The position may be a slot of the array or the one right after its
end; a failed allocation is a failure. The grid has `rows` rows of `nchns` cells. -/
def CPatternContainer.Insert (allocOk : Bool) (nchns : Nat) (c : CPatternContainer)
    (index rows : Nat) : Bool × CPatternContainer :=
  if index > c.m_Patterns.length then (true, c)
  else if (c.get index).m_ModCommands.isSome then (true, c)
  else
    match CPattern.AllocatePattern allocOk rows nchns with
    | none => (true, c)
    | some cells =>
      if index = c.m_Patterns.length then (false, ⟨c.m_Patterns ++ [⟨rows, some cells⟩]⟩)
      else (false, ⟨c.m_Patterns.set index ⟨rows, some cells⟩⟩)

/-- Modelled from the spec: `ModSequence::ReadFromArray(orders, howMany)` is not among the
sources; the first `howMany` entries of the order list become the first `howMany`
entries of the array. -/
def ReadFromArray (order orders : List Nat) (howMany : Nat) : List Nat :=
  orders.take howMany ++ order.drop howMany

/-! ## Loading a PTM file -/

/-- The file header of a PTM file (`PTMFileHeader`, 608 bytes). -/
structure PTMFileHeader where
  songname : List Nat
  dosEOF : Nat
  versionLo : Nat
  versionHi : Nat
  reserved1 : Nat
  numOrders : Nat
  numSamples : Nat
  numPatterns : Nat
  numChannels : Nat
  flags : List Nat
  reserved2 : List Nat
  magic : List Nat
  reserved3 : List Nat
  chnPan : List Nat
  orders : List Nat
  patOffsets : List Nat
deriving DecidableEq, Repr

/-- Size of the packed file header (`sizeof(PTMFileHeader)`). -/
def PTMFileHeader.sizeof : Nat := 608

/-- The fields of the file header, from its bytes in file order, the multi-byte ones
little-endian (`PTMFileHeader::ConvertEndianness`). -/
def PTMFileHeader.ofBytes (b : List Nat) : PTMFileHeader :=
  { songname := bytesAt b 0 28
    dosEOF := b.getD 28 0
    versionLo := b.getD 29 0
    versionHi := b.getD 30 0
    reserved1 := b.getD 31 0
    numOrders := le16 b 32
    numSamples := le16 b 34
    numPatterns := le16 b 36
    numChannels := le16 b 38
    flags := bytesAt b 40 2
    reserved2 := bytesAt b 42 2
    magic := bytesAt b 44 4
    reserved3 := bytesAt b 48 16
    chnPan := bytesAt b 64 32
    orders := bytesAt b 96 256
    patOffsets := (List.range 128).map (fun i => le16 b (352 + 2 * i)) }

/-- The sample header of a PTM file (`PTMSampleHeader`, 80 bytes). -/
structure PTMSampleHeader where
  flags : Nat
  filename : List Nat
  volume : Nat
  c4speed : Nat
  smpSegment : List Nat
  dataOffset : Nat
  length : Nat
  loopStart : Nat
  loopEnd : Nat
  gusdata : List Nat
  samplename : List Nat
  magic : List Nat
deriving DecidableEq, Repr

/-- Size of the packed sample header (`sizeof(PTMSampleHeader)`). -/
def PTMSampleHeader.sizeof : Nat := 80

/-- The fields of the sample header, from its bytes in file order, the multi-byte ones
little-endian (`PTMSampleHeader::ConvertEndianness`). -/
def PTMSampleHeader.ofBytes (b : List Nat) : PTMSampleHeader :=
  { flags := b.getD 0 0
    filename := bytesAt b 1 12
    volume := b.getD 13 0
    c4speed := le16 b 14
    smpSegment := bytesAt b 16 2
    dataOffset := le32 b 18
    length := le32 b 22
    loopStart := le32 b 26
    loopEnd := le32 b 30
    gusdata := bytesAt b 34 14
    samplename := bytesAt b 48 28
    magic := bytesAt b 76 4 }

/-- Sample type mask of the sample flags (`PTMSampleHeader::smpTypeMask`). -/
def PTMSampleHeader.smpTypeMask : Nat := 0x03
/-- Sample type PCM (`PTMSampleHeader::smpPCM`). -/
def PTMSampleHeader.smpPCM : Nat := 0x01
/-- Sample flag: loop (`PTMSampleHeader::smpLoop`). -/
def PTMSampleHeader.smpLoop : Nat := 0x04
/-- Sample flag: ping-pong loop (`PTMSampleHeader::smpPingPong`). -/
def PTMSampleHeader.smpPingPong : Nat := 0x08
/-- Sample flag: 16-bit data (`PTMSampleHeader::smp16Bit`). -/
def PTMSampleHeader.smp16Bit : Nat := 0x10

/-- Convert a PTM sample header to the internal sample header
(`PTMSampleHeader::ConvertToMPT`). The result is the sample, its name (a member of the
sample in this branch, kept in `m_szNames` here) and the layout of its data. -/
def PTMSampleHeader.ConvertToMPT (env : LoaderEnv) (h : PTMSampleHeader) (mptSmp : ModSample) :
    ModSample × String × SampleIO :=
  let mptSmp := mptSmp.Initialize MOD_TYPE_S3M
  let mptSmp := { mptSmp with nVolume := min h.volume 64 * 4 }
  let mptSmp := { mptSmp with nC5Speed := h.c4speed * 2 }
  let name := env.ReadString h.samplename
  let mptSmp := { mptSmp with filename := env.ReadString h.filename }
  let sampleIO : SampleIO := ⟨8, false, false, SampleEncoding.deltaPCM⟩
  if h.flags &&& PTMSampleHeader.smpTypeMask = PTMSampleHeader.smpPCM then
    let mptSmp := { mptSmp with nLength := h.length, nLoopStart := h.loopStart, nLoopEnd := h.loopEnd }
    let mptSmp :=
      if h.flags &&& PTMSampleHeader.smpLoop ≠ 0 then
        { mptSmp with uFlags := FlagSet.set mptSmp.uFlags CHN_LOOP }
      else mptSmp
    let mptSmp :=
      if h.flags &&& PTMSampleHeader.smpPingPong ≠ 0 then
        { mptSmp with uFlags := FlagSet.set mptSmp.uFlags CHN_PINGPONGLOOP }
      else mptSmp
    if h.flags &&& PTMSampleHeader.smp16Bit ≠ 0 then
      let sampleIO := { sampleIO with bitdepth := 16, encoding := SampleEncoding.PTM8Dto16 }
      (
        { mptSmp with
          nLength := mptSmp.nLength / 2
          nLoopStart := mptSmp.nLoopStart / 2
          nLoopEnd := mptSmp.nLoopEnd / 2 },
        name, sampleIO)
    else (mptSmp, name, sampleIO)
  else (mptSmp, name, sampleIO)

/-- The channel panning loop of `ReadPTM`, one channel. -/
def ptmSetupChannel (chnPan : List Nat) (settings : Nat → ModChannelSettings) (chn : Nat) :
    Nat → ModChannelSettings :=
  Function.update settings chn
    { ModChannelSettings.Reset with nPan := ((chnPan.getD chn 0 &&& 0x0F) <<< 4) + 4 }

/-- The sample loop of `ReadPTM`, one sample: the song, the file and the chunk of the sample
headers, after sample `smp`. -/
def ptmReadSample (env : LoaderEnv) (loadFlags : Nat)
    (st : CSoundFile × FileReader × FileReader) (smp : Nat) :
    CSoundFile × FileReader × FileReader :=
  let s := st.1
  let file := st.2.1
  let rd := st.2.2.ReadStruct PTMSampleHeader.sizeof
  let sampleHeader := PTMSampleHeader.ofBytes (rd.1.getD (List.replicate PTMSampleHeader.sizeof 0))
  let conv := sampleHeader.ConvertToMPT env (s.Samples (smp + 1))
  let sample := conv.1
  let s := { s with
    Samples := Function.update s.Samples (smp + 1) sample
    m_szNames := Function.update s.m_szNames (smp + 1) conv.2.1 }
  if loadFlags &&& loadSampleData ≠ 0 ∧ sample.nLength ≠ 0 ∧ sampleHeader.dataOffset ≠ 0 then
    let sk := file.Seek sampleHeader.dataOffset
    if sk.1 then
      let r := env.ReadSample conv.2.2 sample sk.2 s.heap
      ({ s with Samples := Function.update s.Samples (smp + 1) r.1, heap := r.2.2 }, r.2.1, rd.2)
    else (s, sk.2, rd.2)
  else (s, file, rd.2)

/-- The effect translation of `ReadPTM`: the note-event after the effect bytes were stored
in `command` and `param`. -/
def ptmTranslateEffect (env : LoaderEnv) (m : ModCommand) : ModCommand :=
  if m.command < 0x10 then env.ConvertModCommand m
  else if m.command = 0x10 then { m with command := CMD_GLOBALVOLUME }
  else if m.command = 0x11 then { m with command := CMD_RETRIG }
  else if m.command = 0x12 then { m with command := CMD_FINEVIBRATO }
  else if m.command = 0x17 then
    let m := if m.param ≠ 0 then { m with volcmd := VOLCMD_OFFSET, vol := m.param >>> 3 } else m
    { m with command := CMD_S3MCMDEX, param := 0x9F }
  else { m with command := CMD_NONE }

/-- The note fix of `ReadPTM`: 254 is the note cut, and 0 and the values above 120 are no
note. -/
def ptmFixNote (m : ModCommand) : ModCommand :=
  if m.note = 254 then { m with note := NOTE_NOTECUT }
  else if m.note = 0 ∨ m.note > 120 then { m with note := NOTE_NONE }
  else m

/-- The note block of a packed event of a PTM pattern (`if(b & 0x20)`). -/
def ptmReadNote (b : Nat) (file : FileReader) (m : ModCommand) : ModCommand × FileReader :=
  if b &&& 0x20 ≠ 0 then
    let r1 := file.ReadUint8
    let r2 := r1.2.ReadUint8
    (ptmFixNote { m with note := r1.1, instr := r2.1 }, r2.2)
  else (m, file)

/-- The effect block of a packed event of a PTM pattern (`if(b & 0x40)`). -/
def ptmReadEffect (env : LoaderEnv) (b : Nat) (file : FileReader) (m : ModCommand) :
    ModCommand × FileReader :=
  if b &&& 0x40 ≠ 0 then
    let r1 := file.ReadUint8
    let r2 := r1.2.ReadUint8
    (ptmTranslateEffect env { m with command := r1.1, param := r2.1 }, r2.2)
  else (m, file)

/-- The volume block of a packed event of a PTM pattern (`if(b & 0x80)`). -/
def ptmReadVolume (b : Nat) (file : FileReader) (m : ModCommand) : ModCommand × FileReader :=
  if b &&& 0x80 ≠ 0 then
    let r := file.ReadUint8
    ({ m with volcmd := VOLCMD_VOLUME, vol := r.1 }, r.2)
  else (m, file)

/-- The note-event that one packed event of a PTM pattern leaves in the cell `m`: the event
starts with the byte `b`, and the file is read on from after that byte. -/
def ptmReadEvent (env : LoaderEnv) (b : Nat) (file : FileReader) (m : ModCommand) :
    ModCommand × FileReader :=
  let st := ptmReadNote b file m
  let st := ptmReadEffect env b st.2 st.1
  ptmReadVolume b st.2 st.1

/-- The row loop of `ReadPTM` for one pattern of `numChannels` channels: the file and the
cells of the pattern when the loop is left, or `none` when `fuel` turns of the loop were
not enough to leave it. An event for a channel that the song does not have goes to a
dummy note-event. -/
def ptmDecodeRows (env : LoaderEnv) (numChannels : Nat) :
    Nat → FileReader → Nat → List ModCommand → Option (FileReader × List ModCommand)
  | 0, _, _, _ => none
  | fuel + 1, file, row, cells =>
    if row < 64 ∧ file.AreBytesLeft = true then
      let rb := file.ReadUint8
      if rb.1 = 0 then ptmDecodeRows env numChannels fuel rb.2 (row + 1) cells
      else
        let chn := rb.1 &&& 0x1F
        let m :=
          if chn < numChannels then cells.getD (row * numChannels + chn) ModCommand.Empty
          else ModCommand.Empty
        let r := ptmReadEvent env rb.1 rb.2 m
        let cells := if chn < numChannels then cells.set (row * numChannels + chn) r.1 else cells
        ptmDecodeRows env numChannels fuel r.2 row cells
    else some (file, cells)

/-- The row loop of `ReadPTM` (`ptmDecodeRows`) with a record of the cells of the grid that
the reference `m` was bound to (`rowBase[chn]`), as pairs of row and channel, in the order
of the events. Every write of an event goes through `m`. -/
def ptmDecodeRowsLog (env : LoaderEnv) (numChannels : Nat) :
    Nat → FileReader → Nat → List ModCommand → List (Nat × Nat) →
      Option (FileReader × List ModCommand × List (Nat × Nat))
  | 0, _, _, _, _ => none
  | fuel + 1, file, row, cells, log =>
    if row < 64 ∧ file.AreBytesLeft = true then
      let rb := file.ReadUint8
      if rb.1 = 0 then ptmDecodeRowsLog env numChannels fuel rb.2 (row + 1) cells log
      else
        let chn := rb.1 &&& 0x1F
        let m :=
          if chn < numChannels then cells.getD (row * numChannels + chn) ModCommand.Empty
          else ModCommand.Empty
        let r := ptmReadEvent env rb.1 rb.2 m
        let cells := if chn < numChannels then cells.set (row * numChannels + chn) r.1 else cells
        let log := if chn < numChannels then log ++ [(row, chn)] else log
        ptmDecodeRowsLog env numChannels fuel r.2 row cells log
    else some (file, cells, log)

/-- The pattern loop of `ReadPTM`, one pattern: the patterns and the file after pattern
`pat`, or `none` when the row loop did not have enough `fuel`. -/
def ptmReadPattern (env : LoaderEnv) (fileHeader : PTMFileHeader) (numChannels fuel : Nat)
    (st : Option (CPatternContainer × FileReader)) (pat : Nat) :
    Option (CPatternContainer × FileReader) :=
  match st with
  | none => none
  | some (pats, file) =>
    let ins := CPatternContainer.Insert (env.patternAllocOk pat) numChannels pats pat 64
    if ins.1 then some (ins.2, file)
    else if fileHeader.patOffsets.getD pat 0 = 0 then some (ins.2, file)
    else
      let sk := file.Seek (fileHeader.patOffsets.getD pat 0 <<< 4)
      if !sk.1 then some (ins.2, sk.2)
      else
        match ptmDecodeRows env numChannels fuel sk.2 0 ((ins.2.get pat).m_ModCommands.getD []) with
        | none => none
        | some (file, cells) =>
          some (⟨ins.2.m_Patterns.set pat { ins.2.get pat with m_ModCommands := some cells }⟩, file)

/-- The header check of `ReadPTM`: the condition under which it returns `false`, with the
result `rd` of reading the header and the header read. -/
def ptmRejects (rd : Option (List Nat) × FileReader) (fileHeader : PTMFileHeader) : Prop :=
  rd.1.isNone = true
    ∨ fileHeader.magic ≠ [0x50, 0x54, 0x4D, 0x46]
    ∨ fileHeader.numChannels = 0
    ∨ fileHeader.numChannels > 32
    ∨ fileHeader.numOrders = 0 ∨ fileHeader.numOrders > 256
    ∨ fileHeader.numSamples = 0 ∨ fileHeader.numSamples > 255
    ∨ fileHeader.numPatterns = 0 ∨ fileHeader.numPatterns > 128
    ∨ rd.2.CanRead (fileHeader.numSamples * PTMSampleHeader.sizeof) = false

instance (rd : Option (List Nat) × FileReader) (fileHeader : PTMFileHeader) :
    Decidable (ptmRejects rd fileHeader) := by
  unfold ptmRejects
  infer_instance

/-- The part of `ReadPTM` from the song name to the channel panning: the globals of the
song, from the header. -/
def ptmLoadGlobals (env : LoaderEnv) (s : CSoundFile) (fileHeader : PTMFileHeader) : CSoundFile :=
  let s := { s with songName := env.ReadString fileHeader.songname }
  let s := env.InitializeGlobals s
  let s := { s with
    madeWithTracker := env.Format "PolyTracker %d.%02x" [fileHeader.versionHi, fileHeader.versionLo] }
  let s := { s with m_nType := MOD_TYPE_PTM }
  let s := { s with m_nChannels := fileHeader.numChannels }
  let s := { s with
    m_nSamples := min (castSAMPLEINDEX fileHeader.numSamples) (castSAMPLEINDEX (MAX_SAMPLES - 1)) }
  let s := { s with Order := ReadFromArray s.Order fileHeader.orders fileHeader.numOrders }
  { s with
    ChnSettings := (List.range s.m_nChannels).foldl (ptmSetupChannel fileHeader.chnPan) s.ChnSettings }

/-- The part of `ReadPTM` that reads the samples: the song and the file afterwards. -/
def ptmLoadSamples (env : LoaderEnv) (loadFlags : Nat) (s : CSoundFile) (file : FileReader)
    (fileHeader : PTMFileHeader) : CSoundFile × FileReader :=
  let ch := file.GetChunk (fileHeader.numSamples * PTMSampleHeader.sizeof)
  let st := (List.range s.m_nSamples).foldl (ptmReadSample env loadFlags) (s, ch.2, ch.1)
  (st.1, st.2.1)

/-- The part of `ReadPTM` that reads the patterns: the song and the file afterwards, or
`none` when a row loop did not have enough turns. The turns are bounded by the length
of the file. -/
def ptmLoadPatterns (env : LoaderEnv) (s : CSoundFile) (file : FileReader)
    (fileHeader : PTMFileHeader) : Option (CSoundFile × FileReader) :=
  match (List.range fileHeader.numPatterns).foldl
      (ptmReadPattern env fileHeader s.m_nChannels (file.data.length + 1))
      (some (s.Patterns, file)) with
  | none => none
  | some (pats, file) => some ({ s with Patterns := pats }, file)

/-- Load a PTM file (`CSoundFile::ReadPTM`). The result is what the function returns, the
song and the file afterwards; it is `none` when a row loop did not have enough turns. -/
def CSoundFile.ReadPTM (env : LoaderEnv) (s : CSoundFile) (file : FileReader) (loadFlags : Nat) :
    Option (Bool × CSoundFile × FileReader) :=
  let rd := file.Rewind.ReadStruct PTMFileHeader.sizeof
  let fileHeader := PTMFileHeader.ofBytes (rd.1.getD (List.replicate PTMFileHeader.sizeof 0))
  if ptmRejects rd fileHeader then some (false, s, rd.2)
  else if loadFlags = onlyVerifyHeader then some (true, s, rd.2)
  else
    let s := ptmLoadGlobals env s fileHeader
    let st := ptmLoadSamples env loadFlags s rd.2 fileHeader
    if ¬ (loadFlags ≠ 0 ∧ loadPatternData ≠ 0) then some (true, st.1, st.2)
    else
      match ptmLoadPatterns env st.1 st.2 fileHeader with
      | none => none
      | some (s, file) => some (true, s, file)

/-- In the words of the specification: the header of a PTM file is well-formed when the
608 bytes of the header are there, the magic field (offset 44) is "PTMF", `numChannels`
(offset 38) is 1 to 32, `numOrders` (offset 32) is 1 to 256, `numSamples` (offset 34) is
1 to 255, `numPatterns` (offset 36) is 1 to 128, and `numSamples` times 80 bytes follow
the header. -/
def ptmHeaderWellFormed (data : List Nat) : Prop :=
  608 ≤ data.length ∧ bytesAt data 44 4 = [0x50, 0x54, 0x4D, 0x46] ∧
    1 ≤ le16 data 38 ∧ le16 data 38 ≤ 32 ∧
    1 ≤ le16 data 32 ∧ le16 data 32 ≤ 256 ∧
    1 ≤ le16 data 34 ∧ le16 data 34 ≤ 255 ∧
    1 ≤ le16 data 36 ∧ le16 data 36 ≤ 128 ∧
    le16 data 34 * 80 ≤ data.length - 608

instance (data : List Nat) : Decidable (ptmHeaderWellFormed data) := by
  unfold ptmHeaderWellFormed
  infer_instance

/-- The patterns below `k` exist with 64 rows of `n` cells, and no pattern from `k` on has a
grid. -/
def ptmPatternsLoaded (n k : Nat) (pats : CPatternContainer) : Prop :=
  k ≤ pats.m_Patterns.length ∧
  (∀ i, i < k → (pats.get i).GetNumRows = 64 ∧
    ∃ cells, (pats.get i).m_ModCommands = some cells ∧ cells.length = 64 * n) ∧
  (∀ i, k ≤ i → (pats.get i).m_ModCommands = none)

/-- Helpers of the loaders, as plain as can be: a text is the characters before the first
zero byte, the tracker name is the format text, the globals of a fresh song have no type,
no channel, no sample, no instrument and no pattern, no sample data is read, the MOD
translation leaves an effect as it is, every allocation of a pattern succeeds, the orders
are the next bytes of the file, every sample frequency has transpose and finetune 0, the
best format to save in is the type of the song and it has every command, an extended MOD
effect becomes an extended S3M effect with the same parameter, and no message is read. -/
def exLoaderEnv : LoaderEnv :=
  { ReadString := fun b => String.mk ((b.takeWhile (fun x => x != 0)).map Char.ofNat)
    Format := fun fmt _ => fmt
    InitializeGlobals := fun s =>
      { s with m_nType := MOD_TYPE_NONE, m_nChannels := 0, m_nInstruments := 0, m_nSamples := 0,
               Patterns := ⟨[]⟩ }
    ReadSample := fun _ smp file heap => (smp, file, heap)
    ConvertModCommand := fun m => m
    patternAllocOk := fun _ => true
    ReadAsByte := fun _ file howMany => ((file.data.drop file.pos).take howMany, file.Skip howMany)
    FrequencyToTranspose := fun _ => (0, 0)
    GetBestSaveFormat := fun s => s.m_nType
    HasCommand := fun _ _ => true
    HasVolCommand := fun _ _ => true
    ExtendedMODtoS3MEffect := fun m => { m with command := CMD_S3MCMDEX }
    ReadMessage := fun file _ => ("", file) }

/-- The helpers of `exLoaderEnv`, when no allocation of a pattern succeeds. -/
def exLoaderEnvNoMemory : LoaderEnv := { exLoaderEnv with patternAllocOk := fun _ => false }

/-- A minimal PTM file: the header with the magic "PTMF", `numOrders` 1, `numSamples` 1,
`numPatterns` 1, `numChannels` 4, the pattern offset 43 (byte 688), one empty sample
header, and a pattern with a single note-on event (note 60, sample 1) at row 0,
channel 0. -/
def exPTMFile : List Nat :=
  List.replicate 28 0 ++ [26, 3, 2, 0] ++ [1, 0, 1, 0, 1, 0, 4, 0] ++ [0, 0, 0, 0] ++
    [0x50, 0x54, 0x4D, 0x46] ++ List.replicate 16 0 ++ List.replicate 32 7 ++
    List.replicate 256 0 ++ [43, 0] ++ List.replicate 254 0 ++ List.replicate 80 0 ++
    [0x20, 60, 1, 0]

/-! ## Loading a GDM file -/

/-- The file header of a GDM file (`GDMFileHeader`, 157 bytes packed). -/
structure GDMFileHeader where
  magic : Nat
  songTitle : List Nat
  songMusician : List Nat
  dosEOF : List Nat
  magic2 : Nat
  formatMajorVer : Nat
  formatMinorVer : Nat
  trackerID : Nat
  trackerMajorVer : Nat
  trackerMinorVer : Nat
  panMap : List Nat
  masterVol : Nat
  tempo : Nat
  bpm : Nat
  originalFormat : Nat
  orderOffset : Nat
  lastOrder : Nat
  patternOffset : Nat
  lastPattern : Nat
  sampleHeaderOffset : Nat
  sampleDataOffset : Nat
  lastSample : Nat
  messageTextOffset : Nat
  messageTextLength : Nat
  scrollyScriptOffset : Nat
  scrollyScriptLength : Nat
  textGraphicOffset : Nat
  textGraphicLength : Nat
deriving DecidableEq, Repr

/-- Size of the packed file header (`sizeof(GDMFileHeader)`). -/
def GDMFileHeader.sizeof : Nat := 157

/-- First magic number of a GDM file (`GDMFileHeader::magicGDM_`). -/
def GDMFileHeader.magicGDM_ : Nat := 0xFE4D4447

/-- Second magic number of a GDM file (`GDMFileHeader::magicGMFS`). -/
def GDMFileHeader.magicGMFS : Nat := 0x53464D47

/-- The fields of the file header, from its bytes in file order, the multi-byte ones
little-endian (`GDMFileHeader::ConvertEndianness`, which is without effect on a
little-endian host). -/
def GDMFileHeader.ofBytes (b : List Nat) : GDMFileHeader :=
  { magic := le32 b 0
    songTitle := bytesAt b 4 32
    songMusician := bytesAt b 36 32
    dosEOF := bytesAt b 68 3
    magic2 := le32 b 71
    formatMajorVer := b.getD 75 0
    formatMinorVer := b.getD 76 0
    trackerID := le16 b 77
    trackerMajorVer := b.getD 79 0
    trackerMinorVer := b.getD 80 0
    panMap := bytesAt b 81 32
    masterVol := b.getD 113 0
    tempo := b.getD 114 0
    bpm := b.getD 115 0
    originalFormat := le16 b 116
    orderOffset := le32 b 118
    lastOrder := b.getD 122 0
    patternOffset := le32 b 123
    lastPattern := b.getD 127 0
    sampleHeaderOffset := le32 b 128
    sampleDataOffset := le32 b 132
    lastSample := b.getD 136 0
    messageTextOffset := le32 b 137
    messageTextLength := le32 b 141
    scrollyScriptOffset := le32 b 145
    scrollyScriptLength := le16 b 149
    textGraphicOffset := le32 b 151
    textGraphicLength := le16 b 155 }

/-- The sample header of a GDM file (`GDMSampleHeader`, 62 bytes packed). -/
structure GDMSampleHeader where
  name : List Nat
  fileName : List Nat
  emsHandle : Nat
  length : Nat
  loopBegin : Nat
  loopEnd : Nat
  flags : Nat
  c4Hertz : Nat
  volume : Nat
  panning : Nat
deriving DecidableEq, Repr

/-- Size of the packed sample header (`sizeof(GDMSampleHeader)`). -/
def GDMSampleHeader.sizeof : Nat := 62

/-- The fields of the sample header, from its bytes in file order, the multi-byte ones
little-endian (`GDMSampleHeader::ConvertEndianness`). -/
def GDMSampleHeader.ofBytes (b : List Nat) : GDMSampleHeader :=
  { name := bytesAt b 0 32
    fileName := bytesAt b 32 12
    emsHandle := b.getD 44 0
    length := le32 b 45
    loopBegin := le32 b 49
    loopEnd := le32 b 53
    flags := b.getD 57 0
    c4Hertz := le16 b 58
    volume := b.getD 60 0
    panning := b.getD 61 0 }

/-- Sample flag: loop (`GDMSampleHeader::smpLoop`). -/
def GDMSampleHeader.smpLoop : Nat := 0x01
/-- Sample flag: 16-bit data (`GDMSampleHeader::smp16Bit`). -/
def GDMSampleHeader.smp16Bit : Nat := 0x02
/-- Sample flag: default volume (`GDMSampleHeader::smpVolume`). -/
def GDMSampleHeader.smpVolume : Nat := 0x04
/-- Sample flag: default panning (`GDMSampleHeader::smpPanning`). -/
def GDMSampleHeader.smpPanning : Nat := 0x08

/-- The module type of each original format of a GDM file (`gdmFormatOrigin`). -/
def gdmFormatOrigin : List Nat :=
  [ MOD_TYPE_NONE, MOD_TYPE_MOD, MOD_TYPE_MTM, MOD_TYPE_S3M, MOD_TYPE_669, MOD_TYPE_FAR,
    MOD_TYPE_ULT, MOD_TYPE_STM, MOD_TYPE_MED]

/-- The check of the magic numbers and the version of `ReadGDM`: the condition under which
it returns `false` right after the header is read. -/
def gdmRejects (fileHeader : GDMFileHeader) : Prop :=
  fileHeader.magic ≠ GDMFileHeader.magicGDM_
    ∨ fileHeader.dosEOF.getD 0 0 ≠ 13 ∨ fileHeader.dosEOF.getD 1 0 ≠ 10
    ∨ fileHeader.dosEOF.getD 2 0 ≠ 26
    ∨ fileHeader.magic2 ≠ GDMFileHeader.magicGMFS
    ∨ fileHeader.formatMajorVer ≠ 1 ∨ fileHeader.formatMinorVer ≠ 0

instance (fileHeader : GDMFileHeader) : Decidable (gdmRejects fileHeader) := by
  unfold gdmRejects
  infer_instance

/-- The pan map loop of `ReadGDM` over the channels `i` of the list: the channel settings
and the channel count afterwards. The loop is left at the first entry 0xFF, whose
index becomes the channel count. -/
def gdmReadPanMap (panMap : List Nat) :
    List Nat → (Nat → ModChannelSettings) → Nat → (Nat → ModChannelSettings) × Nat
  | [], settings, nChannels => (settings, nChannels)
  | i :: rest, settings, nChannels =>
    if panMap.getD i 0 < 16 then
      gdmReadPanMap panMap rest
        (Function.update settings i { settings i with nPan := min (panMap.getD i 0 * 16 + 8) 256 })
        nChannels
    else if panMap.getD i 0 = 16 then
      gdmReadPanMap panMap rest
        (Function.update settings i
          { settings i with nPan := 128, dwFlags := (settings i).dwFlags ||| CHN_SURROUND })
        nChannels
    else if panMap.getD i 0 = 0xFF then (settings, i)
    else gdmReadPanMap panMap rest settings nChannels

/-- An 8-bit signed value, from a number (conversion to `int8`). -/
def wrapInt8 (x : Int) : Int := (x + 128) % 256 - 128

/-- One turn of the loop `while(Samples[smp].RelativeTone != 0)` of `ReadGDM`. -/
def gdmTransposeStep (s : ModSample) : ModSample :=
  if s.RelativeTone > 0 then
    { s with RelativeTone := wrapInt8 (s.RelativeTone - 1), nFineTune := wrapInt8 (s.nFineTune + 128) }
  else
    { s with RelativeTone := wrapInt8 (s.RelativeTone + 1), nFineTune := wrapInt8 (s.nFineTune - 128) }

/-- The loop `while(Samples[smp].RelativeTone != 0)` of `ReadGDM`: each turn brings the
transpose one step closer to 0, so the loop takes as many turns as its absolute
value. -/
def gdmTransposeLoop (s : ModSample) : ModSample :=
  Nat.iterate gdmTransposeStep s.RelativeTone.natAbs s

/-- The body of the sample header loop of `ReadGDM` after the header of sample `smp` was
read: the sample and its name. -/
def gdmConvertSample (env : LoaderEnv) (nType : Nat) (gdmSample : GDMSampleHeader)
    (smp : ModSample) : ModSample × String :=
  let name := env.ReadString gdmSample.name
  let smp := { smp with filename := env.ReadString gdmSample.fileName }
  let smp := { smp with nC5Speed := gdmSample.c4Hertz }
  let smp := { smp with nGlobalVol := 256 }
  let smp := { smp with nLength := gdmSample.length }
  let smp :=
    if gdmSample.flags &&& GDMSampleHeader.smp16Bit ≠ 0 then
      { smp with uFlags := smp.uFlags ||| CHN_16BIT, nLength := smp.nLength / 2 }
    else smp
  let smp := { smp with nLoopStart := min gdmSample.loopBegin smp.nLength }
  let smp := { smp with
    nLoopEnd := min ((gdmSample.loopEnd + 4294967295) % 4294967296) smp.nLength }
  let smp := { smp with
    RelativeTone := wrapInt8 (env.FrequencyToTranspose smp.nC5Speed).1
    nFineTune := wrapInt8 (env.FrequencyToTranspose smp.nC5Speed).2 }
  let smp := if nType = MOD_TYPE_MOD then gdmTransposeLoop smp else smp
  let smp := { smp with uFlags := 0 }
  let smp :=
    if gdmSample.flags &&& GDMSampleHeader.smpLoop ≠ 0 then
      { smp with uFlags := smp.uFlags ||| CHN_LOOP }
    else smp
  let smp :=
    if gdmSample.flags &&& GDMSampleHeader.smpVolume ≠ 0 then
      { smp with nVolume := min gdmSample.volume 64 * 4 }
    else { smp with nVolume := 256 }
  let smp :=
    if gdmSample.flags &&& GDMSampleHeader.smpPanning ≠ 0 then
      { smp with
        uFlags := smp.uFlags ||| CHN_PANNING
        nPan := if gdmSample.panning > 15 then 128 else min (gdmSample.panning * 16 + 8) 256 }
    else { smp with nPan := 128 }
  (smp, name)

/-- The sample header loop of `ReadGDM` over the samples `smp` of the list: the samples,
their names and the file afterwards. The loop is left when a header cannot be read. -/
def gdmReadSampleHeaders (env : LoaderEnv) (nType : Nat) :
    List Nat → (Nat → ModSample) → (Nat → String) → FileReader →
      (Nat → ModSample) × (Nat → String) × FileReader
  | [], samples, names, file => (samples, names, file)
  | smp :: rest, samples, names, file =>
    let rd := file.ReadStruct GDMSampleHeader.sizeof
    match rd.1 with
    | none => (samples, names, rd.2)
    | some bytes =>
      let r := gdmConvertSample env nType (GDMSampleHeader.ofBytes bytes) (samples smp)
      gdmReadSampleHeaders env nType rest (Function.update samples smp r.1)
        (Function.update names smp r.2) rd.2

/-- The layout that the sample data loop of `ReadGDM` reads the data of a sample with:
16-bit or 8-bit by the flag `CHN_16BIT` of the sample, mono, little-endian, unsigned. -/
def gdmSampleFormat (smp : ModSample) : SampleIO :=
  ⟨if smp.uFlags &&& CHN_16BIT ≠ 0 then 16 else 8, false, false, SampleEncoding.unsignedPCM⟩

/-- The sample data loop of `ReadGDM`, one sample: the samples, the heap and the file after
the data of sample `smp`. -/
def gdmReadSampleData (env : LoaderEnv)
    (st : (Nat → ModSample) × List (Option (List Nat)) × FileReader) (smp : Nat) :
    (Nat → ModSample) × List (Option (List Nat)) × FileReader :=
  let r := env.ReadSample (gdmSampleFormat (st.1 smp)) (st.1 smp) st.2.2 st.2.1
  (Function.update st.1 smp r.1, r.2.2, r.2.1)

/-- The effect translation table of GDM patterns (`gdmEffTrans`). -/
def gdmEffTrans : List Nat :=
  [CMD_NONE, CMD_PORTAMENTOUP, CMD_PORTAMENTODOWN, CMD_TONEPORTAMENTO,
    CMD_VIBRATO, CMD_TONEPORTAVOL, CMD_VIBRATOVOL, CMD_TREMOLO,
    CMD_TREMOR, CMD_OFFSET, CMD_VOLUMESLIDE, CMD_POSITIONJUMP,
    CMD_VOLUME, CMD_PATTERNBREAK, CMD_MODCMDEX, CMD_SPEED,
    CMD_ARPEGGIO, CMD_NONE, CMD_RETRIG, CMD_GLOBALVOLUME,
    CMD_FINEVIBRATO, CMD_NONE, CMD_NONE, CMD_NONE,
    CMD_NONE, CMD_NONE, CMD_NONE, CMD_NONE,
    CMD_NONE, CMD_NONE, CMD_S3MCMDEX, CMD_TEMPO]

/-- The fix of the special commands of a GDM pattern (`case CMD_S3MCMDEX`), for the format
`fmt` the song is best saved in. -/
def gdmFixS3MCmdEx (env : LoaderEnv) (fmt : Nat) (m : ModCommand) : ModCommand :=
  if m.param >>> 4 = 0x0 then
    if m.param &&& 0x0F = 0x0 then { m with command := CMD_S3MCMDEX, param := 0x90 }
    else if m.param &&& 0x0F = 0x1 then { m with command := CMD_PANNING8, param := 0xA4 }
    else if m.param &&& 0x0F = 0x2 ∨ m.param &&& 0x0F = 0x3 then { m with command := CMD_NONE }
    else if m.param &&& 0x0F = 0x4 then { m with command := CMD_S3MCMDEX, param := 0x9E }
    else if m.param &&& 0x0F = 0x5 then { m with command := CMD_S3MCMDEX, param := 0x9F }
    else { m with command := CMD_NONE }
  else if m.param >>> 4 = 0x8 then
    if !env.HasCommand fmt CMD_S3MCMDEX then { m with command := CMD_MODCMDEX } else m
  else { m with command := CMD_NONE }

/-- The fix of some effects of a GDM pattern (`switch(m.command)`); `oldCmd` is the
note-event before the effect was stored in it. -/
def gdmFixEffect (env : LoaderEnv) (fmt : Nat) (oldCmd m : ModCommand) : ModCommand :=
  if m.command = CMD_PORTAMENTOUP then
    if m.param ≥ 0xE0 then { m with param := 0xDF } else m
  else if m.command = CMD_PORTAMENTODOWN then
    if m.param ≥ 0xE0 then { m with param := 0xDF } else m
  else if m.command = CMD_TONEPORTAVOL then
    if m.param &&& 0xF0 ≠ 0 then { m with param := m.param &&& 0xF0 } else m
  else if m.command = CMD_VIBRATOVOL then
    if m.param &&& 0xF0 ≠ 0 then { m with param := m.param &&& 0xF0 } else m
  else if m.command = CMD_VOLUME then
    let m : ModCommand := { m with param := min m.param 64 }
    if env.HasVolCommand fmt VOLCMD_VOLUME then
      { m with volcmd := VOLCMD_VOLUME, vol := m.param, command := oldCmd.command,
               param := oldCmd.param }
    else m
  else if m.command = CMD_MODCMDEX then
    if !env.HasVolCommand fmt CMD_MODCMDEX then env.ExtendedMODtoS3MEffect m else m
  else if m.command = CMD_RETRIG then
    if !env.HasCommand fmt CMD_RETRIG && env.HasCommand fmt CMD_MODCMDEX then
      { m with command := CMD_MODCMDEX, param := 0x90 ||| (m.param &&& 0x0F) }
    else m
  else if m.command = CMD_S3MCMDEX then gdmFixS3MCmdEx env fmt m
  else if m.command = 0x1F then { m with command := CMD_TEMPO }
  else m

/-- One effect of a GDM pattern, from its two bytes, into the note-event `m`. -/
def gdmTranslateEffect (env : LoaderEnv) (fmt effByte paramByte : Nat) (m : ModCommand) :
    ModCommand :=
  let oldCmd := m
  let m : ModCommand := { m with command := effByte &&& 0x1F, param := paramByte }
  let m : ModCommand :=
    if m.command < gdmEffTrans.length then { m with command := gdmEffTrans.getD m.command CMD_NONE }
    else { m with command := CMD_NONE }
  let m := gdmFixEffect env fmt oldCmd m
  if m.command = CMD_S3MCMDEX ∧ m.param >>> 4 = 0x8 ∧ m.volcmd = VOLCMD_NONE then
    { m with volcmd := VOLCMD_PANNING, vol := ((m.param &&& 0x0F) * 64 + 8) / 15,
             command := oldCmd.command, param := oldCmd.param }
  else m

/-- The effect loop of a GDM pattern (`while(chunk.BytesLeft())`): the note-event and the
chunk when the loop is left, or `none` when `fuel` turns were not enough to leave it. -/
def gdmReadEffects (env : LoaderEnv) (fmt : Nat) :
    Nat → FileReader → ModCommand → Option (ModCommand × FileReader)
  | 0, _, _ => none
  | fuel + 1, chunk, m =>
    if chunk.BytesLeft ≠ 0 then
      let r1 := chunk.ReadUint8
      let r2 := r1.2.ReadUint8
      if r1.1 &&& 0x20 = 0 then some (gdmTranslateEffect env fmt r1.1 r2.1 m, r2.2)
      else gdmReadEffects env fmt fuel r2.2 (gdmTranslateEffect env fmt r1.1 r2.1 m)
    else some (m, chunk)

/-- The note block of an event of a GDM pattern (`if(channelByte & noteFlag)`). -/
def gdmReadNote (channelByte : Nat) (chunk : FileReader) (m : ModCommand) :
    ModCommand × FileReader :=
  if channelByte &&& 0x20 ≠ 0 then
    let r1 := chunk.ReadUint8
    let r2 := r1.2.ReadUint8
    let m : ModCommand :=
      if r1.1 ≠ 0 then
        let noteByte := ((r1.1 &&& 0x7F) + 255) % 256
        let noteByte :=
          if noteByte < 0xF0 then (noteByte &&& 0x0F) + 12 * (noteByte >>> 4) + 13 else noteByte
        { m with note := noteByte }
      else m
    ({ m with instr := r2.1 }, r2.2)
  else (m, chunk)

/-- One event of a GDM pattern into the note-event `m`, after its channel byte was read:
`none` when the effect loop did not have enough `fuel`. -/
def gdmReadEvent (env : LoaderEnv) (fmt fuel channelByte : Nat) (chunk : FileReader)
    (m : ModCommand) : Option (ModCommand × FileReader) :=
  let st := gdmReadNote channelByte chunk m
  if channelByte &&& 0x40 ≠ 0 then
    gdmReadEffects env fmt fuel st.2 { st.1 with command := CMD_NONE, volcmd := VOLCMD_NONE }
  else some st

/-- The channel loop of one row of a GDM pattern
(`while((channelByte = chunk.ReadUint8()) != rowDone)`): the chunk and the cells when the
loop is left, or `none` when `fuel` turns were not enough to leave it. The loop is also
left at an event for a channel the song does not have. -/
def gdmReadRow (env : LoaderEnv) (fmt numChannels effectFuel row : Nat) :
    Nat → FileReader → List ModCommand → Option (FileReader × List ModCommand)
  | 0, _, _ => none
  | fuel + 1, chunk, cells =>
    let rb := chunk.ReadUint8
    if rb.1 = 0 then some (rb.2, cells)
    else if (rb.1 &&& 0x1F) ≥ numChannels then some (rb.2, cells)
    else
      match gdmReadEvent env fmt effectFuel rb.1 rb.2
          (cells.getD (row * numChannels + (rb.1 &&& 0x1F)) ModCommand.Empty) with
      | none => none
      | some r =>
        gdmReadRow env fmt numChannels effectFuel row fuel r.2
          (cells.set (row * numChannels + (rb.1 &&& 0x1F)) r.1)

/-- The row loop of a GDM pattern, one row. -/
def gdmReadRowStep (env : LoaderEnv) (fmt numChannels fuel : Nat)
    (st : Option (FileReader × List ModCommand)) (row : Nat) :
    Option (FileReader × List ModCommand) :=
  match st with
  | none => none
  | some (chunk, cells) => gdmReadRow env fmt numChannels fuel row fuel chunk cells

/-- The row loop of a GDM pattern (`for(ROWINDEX row = 0; row < 64; row++)`) over the chunk
of the pattern: the chunk and the cells afterwards, or `none` when a loop within it did
not have enough turns, which are bounded by the length of the chunk. -/
def gdmReadRows (env : LoaderEnv) (fmt numChannels : Nat) (chunk : FileReader)
    (cells : List ModCommand) : Option (FileReader × List ModCommand) :=
  (List.range 64).foldl (gdmReadRowStep env fmt numChannels (chunk.data.length + 1))
    (some (chunk, cells))

/-- Modelled from the spec: `CPatternContainer::ResizeArray` is not among the sources; the
array of pattern slots gets the new size, by dropping slots from its end or by adding
slots without a grid. -/
def CPatternContainer.ResizeArray (c : CPatternContainer) (newSize : Nat) : CPatternContainer :=
  ⟨c.m_Patterns.take newSize ++ List.replicate (newSize - c.m_Patterns.length) ⟨0, none⟩⟩

/-- The body of the pattern loop of `ReadGDM` for pattern `pat`: whether the loop goes on
(`false` after a `break`), the patterns and the file afterwards, or `none` when a loop
of the decoding did not have enough turns. -/
def gdmReadPattern (env : LoaderEnv) (fmt numChannels : Nat) (pats : CPatternContainer)
    (file : FileReader) (pat : Nat) : Option (Bool × CPatternContainer × FileReader) :=
  if !file.CanRead 2 then some (false, pats, file)
  else
    let rl := file.ReadUint16LE
    if rl.1 ≤ 2 then some (true, pats, rl.2)
    else
      let ch := rl.2.GetChunk (rl.1 - 2)
      if !ch.1.IsValid then some (false, pats, ch.2)
      else
        let ins := CPatternContainer.Insert (env.patternAllocOk pat) numChannels pats pat 64
        if ins.1 then some (false, ins.2, ch.2)
        else
          match gdmReadRows env fmt numChannels ch.1 ((ins.2.get pat).m_ModCommands.getD []) with
          | none => none
          | some (_, cells) =>
            some (true,
              ⟨ins.2.m_Patterns.set pat { ins.2.get pat with m_ModCommands := some cells }⟩, ch.2)

/-- The pattern loop of `ReadGDM` over the patterns `pat` of the list: the patterns and the
file when the loop is left, or `none` when a loop of the decoding did not have enough
turns. -/
def gdmReadPatterns (env : LoaderEnv) (fmt numChannels : Nat) :
    List Nat → CPatternContainer → FileReader → Option (CPatternContainer × FileReader)
  | [], pats, file => some (pats, file)
  | pat :: rest, pats, file =>
    match gdmReadPattern env fmt numChannels pats file pat with
    | none => none
    | some (false, pats, file) => some (pats, file)
    | some (true, pats, file) => gdmReadPatterns env fmt numChannels rest pats file

/-- The part of `ReadGDM` from the song name to the global settings: names, pan map,
channel count and the values the song starts with. -/
def gdmLoadGlobals (env : LoaderEnv) (s : CSoundFile) (fileHeader : GDMFileHeader) : CSoundFile :=
  let s := { s with
    m_szNames := Function.update (fun _ => "") 0 (env.ReadString fileHeader.songTitle) }
  let pm := gdmReadPanMap fileHeader.panMap (List.range 32) s.ChnSettings 32
  let s := { s with ChnSettings := pm.1, m_nChannels := pm.2 }
  { s with
    m_nDefaultGlobalVolume := min (fileHeader.masterVol * 4) 256
    m_nDefaultSpeed := fileHeader.tempo
    m_nDefaultTempo := fileHeader.bpm
    m_nRestartPos := 0
    m_nSamplePreAmp := 48
    m_nVSTiVolume := 48 }

/-- The part of `ReadGDM` that reads the orders: the song and the file afterwards. -/
def gdmLoadOrders (env : LoaderEnv) (s : CSoundFile) (file : FileReader)
    (fileHeader : GDMFileHeader) : CSoundFile × FileReader :=
  let sk := file.Seek fileHeader.orderOffset
  if sk.1 then
    let ord := env.ReadAsByte s.Order sk.2 (fileHeader.lastOrder + 1)
    ({ s with Order := ord.1 }, ord.2)
  else (s, sk.2)

/-- The part of `ReadGDM` that reads the sample headers and the sample data, with the file
at the sample headers: the song and the file afterwards. -/
def gdmLoadSamples (env : LoaderEnv) (s : CSoundFile) (file : FileReader)
    (fileHeader : GDMFileHeader) : CSoundFile × FileReader :=
  let s := { s with m_nSamples := fileHeader.lastSample + 1 }
  let sh := gdmReadSampleHeaders env s.m_nType
    ((List.range s.m_nSamples).map (fun k => k + 1)) s.Samples s.m_szNames file
  let s := { s with Samples := sh.1, m_szNames := sh.2.1 }
  let sk := sh.2.2.Seek fileHeader.sampleDataOffset
  if sk.1 then
    let sd := ((List.range s.GetNumSamples).map (fun k => k + 1)).foldl (gdmReadSampleData env)
      (s.Samples, s.heap, sk.2)
    ({ s with Samples := sd.1, heap := sd.2.1 }, sd.2.2)
  else (s, sk.2)

/-- The part of `ReadGDM` that reads the patterns: the song and the file afterwards, or
`none` when a loop of the pattern decoding did not have enough turns. -/
def gdmLoadPatterns (env : LoaderEnv) (s : CSoundFile) (file : FileReader)
    (fileHeader : GDMFileHeader) : Option (CSoundFile × FileReader) :=
  let s := { s with
    Patterns := s.Patterns.ResizeArray (max MAX_PATTERNS (fileHeader.lastPattern + 1)) }
  let fmt := env.GetBestSaveFormat s
  let sk := file.Seek fileHeader.patternOffset
  match gdmReadPatterns env fmt s.m_nChannels (List.range (fileHeader.lastPattern + 1))
      s.Patterns sk.2 with
  | none => none
  | some (pats, file) => some ({ s with Patterns := pats }, file)

/-- The part of `ReadGDM` that reads the song message: the song and the file afterwards. -/
def gdmLoadMessage (env : LoaderEnv) (s : CSoundFile) (file : FileReader)
    (fileHeader : GDMFileHeader) : CSoundFile × FileReader :=
  if fileHeader.messageTextLength > 0 then
    let sk := file.Seek fileHeader.messageTextOffset
    if sk.1 then
      let msg := env.ReadMessage sk.2 fileHeader.messageTextLength
      ({ s with songMessage := msg.1 }, msg.2)
    else (s, sk.2)
  else (s, file)

/-- Load a GDM file (`CSoundFile::ReadGDM`). The result is what the function returns, the
song and the file afterwards; it is `none` when a loop of the pattern decoding did not
have enough turns. -/
def CSoundFile.ReadGDM (env : LoaderEnv) (s : CSoundFile) (file : FileReader) :
    Option (Bool × CSoundFile × FileReader) :=
  let rd := file.Rewind.ReadStruct GDMFileHeader.sizeof
  match rd.1 with
  | none => some (false, s, rd.2)
  | some bytes =>
    let fileHeader := GDMFileHeader.ofBytes bytes
    if gdmRejects fileHeader then some (false, s, rd.2)
    else
      let s := { s with
        m_nType := gdmFormatOrigin.getD (fileHeader.originalFormat % gdmFormatOrigin.length) 0 }
      if s.m_nType = MOD_TYPE_NONE then some (false, s, rd.2)
      else
        let s := gdmLoadGlobals env s fileHeader
        let ord := gdmLoadOrders env s rd.2 fileHeader
        let sk := ord.2.Seek fileHeader.sampleHeaderOffset
        if !sk.1 then some (false, ord.1, sk.2)
        else
          let smp := gdmLoadSamples env ord.1 sk.2 fileHeader
          match gdmLoadPatterns env smp.1 smp.2 fileHeader with
          | none => none
          | some (s, file) => some (true, gdmLoadMessage env s file fileHeader)

/-- A GDM file of 157 bytes, the header alone: both magic numbers, the end-of-text bytes
13, 10, 26, version 1.0, original format 1 (MOD), every offset at the end of the file,
and a pan map whose first entry is 0xFF. -/
def exGDMFile : List Nat :=
  [0x47, 0x44, 0x4D, 0xFE] ++ List.replicate 32 0 ++ List.replicate 32 0 ++ [13, 10, 26] ++
    [0x47, 0x4D, 0x46, 0x53] ++ [1, 0] ++ [0, 0] ++ [0, 0] ++ List.replicate 32 0xFF ++
    [64, 6, 125] ++ [1, 0] ++ [157, 0, 0, 0] ++ [0] ++ [157, 0, 0, 0] ++ [0] ++
    [157, 0, 0, 0] ++ [157, 0, 0, 0] ++ [0] ++ [0, 0, 0, 0] ++ [0, 0, 0, 0] ++
    [0, 0, 0, 0] ++ [0, 0] ++ [0, 0, 0, 0] ++ [0, 0]

/-- A GDM file of 219 bytes: the header of `exGDMFile` with four channels panned to the
left, the sample headers at byte 157 and every other offset at the end of the file, and the
header of one sample of 100 bytes with the flag `smp16Bit` and 8363 Hz. -/
def exGDMFile16 : List Nat :=
  [0x47, 0x44, 0x4D, 0xFE] ++ List.replicate 32 0 ++ List.replicate 32 0 ++ [13, 10, 26] ++
    [0x47, 0x4D, 0x46, 0x53] ++ [1, 0] ++ [0, 0] ++ [0, 0] ++
    [0, 0, 0, 0] ++ List.replicate 28 0xFF ++
    [64, 6, 125] ++ [1, 0] ++ [219, 0, 0, 0] ++ [0] ++ [219, 0, 0, 0] ++ [0] ++
    [157, 0, 0, 0] ++ [219, 0, 0, 0] ++ [0] ++ [0, 0, 0, 0] ++ [0, 0, 0, 0] ++
    [0, 0, 0, 0] ++ [0, 0] ++ [0, 0, 0, 0] ++ [0, 0] ++
    List.replicate 32 0 ++ List.replicate 12 0 ++ [0] ++ [100, 0, 0, 0] ++ [0, 0, 0, 0] ++
    [0, 0, 0, 0] ++ [GDMSampleHeader.smp16Bit] ++ [0xAB, 0x20] ++ [0, 0]

/-! ## Sample loops and format conversion -/

/-- Set loop points and update the loop wrap-around buffer (`ModSample::SetLoop`). The sound
file is passed on to `PrecomputeLoops` only. -/
def ModSample.SetLoop (s : ModSample) (start end_ : Nat) (enable pingpong : Bool) : ModSample :=
  let s := { s with nLoopStart := start }
  let s := { s with nLoopEnd := end_ }
  let s := { s with nLoopEnd := LimitMax s.nLoopEnd s.nLength }
  let s :=
    if s.nLoopStart < s.nLoopEnd then
      let s := { s with uFlags := FlagSet.setTo s.uFlags CHN_LOOP enable }
      { s with uFlags := FlagSet.setTo s.uFlags CHN_PINGPONGLOOP (if pingpong then enable else false) }
    else
      { s with
        nLoopStart := 0
        nLoopEnd := 0
        uFlags := FlagSet.reset s.uFlags (CHN_LOOP ||| CHN_PINGPONGLOOP) }
  s.PrecomputeLoops

/-- Set sustain loop points and update the loop wrap-around buffer
(`ModSample::SetSustainLoop`). The value that is limited to the sample length is
`nLoopEnd`, as in the source. -/
def ModSample.SetSustainLoop (s : ModSample) (start end_ : Nat) (enable pingpong : Bool) :
    ModSample :=
  let s := { s with nSustainStart := start }
  let s := { s with nSustainEnd := end_ }
  let s := { s with nLoopEnd := LimitMax s.nLoopEnd s.nLength }
  let s :=
    if s.nSustainStart < s.nSustainEnd then
      let s := { s with uFlags := FlagSet.setTo s.uFlags CHN_SUSTAINLOOP enable }
      { s with uFlags := FlagSet.setTo s.uFlags CHN_PINGPONGSUSTAIN (if pingpong then enable else false) }
    else
      { s with
        nSustainStart := 0
        nSustainEnd := 0
        uFlags := FlagSet.reset s.uFlags (CHN_SUSTAINLOOP ||| CHN_PINGPONGSUSTAIN) }
  s.PrecomputeLoops

/-- A sample of 10 frames, without loops and flags. -/
def exTenFrames : ModSample := { ModSample.blank with nLength := 10 }

/-- Modelled from the spec: the auto-vibrato waveforms are declared in a header that is not
among the sources; the waveforms after the sine, in the order of their enumeration. -/
def VIB_SQUARE : Nat := 1
/-- Modelled from the spec: see `VIB_SQUARE`. -/
def VIB_RAMP_UP : Nat := 2
/-- Modelled from the spec: see `VIB_SQUARE`. -/
def VIB_RAMP_DOWN : Nat := 3
/-- Modelled from the spec: see `VIB_SQUARE`. -/
def VIB_RANDOM : Nat := 4

/-- Modelled from the spec: `Limit` is declared in a header that is not among the sources; it
brings a value into the range from `lo` to `hi`. -/
def Limit (val lo hi : Int) : Int := if val < lo then lo else if val > hi then hi else val

/-- The member function `ModSample::FrequencyToTranspose()`: transpose and finetune from the
sample frequency. `f2tOf` is the static `FrequencyToTranspose(uint32 freq)`, which is
computed in floating point and taken as it comes. -/
def ModSample.FrequencyToTranspose (f2tOf : Nat → Int) (s : ModSample) : ModSample :=
  let f2t : Int := if s.nC5Speed ≠ 0 then f2tOf s.nC5Speed else 0
  let transpose : Int := f2t / 128
  let finetune : Int := f2t % 128
  let transpose := if finetune > 80 then transpose + 1 else transpose
  let finetune := if finetune > 80 then finetune - 128 else finetune
  let transpose := Limit transpose (-127) 127
  { s with RelativeTone := wrapInt8 transpose, nFineTune := wrapInt8 finetune }

/-- The first step of `ModSample::Convert`: convert between frequency and transpose values
if necessary. `t2fOf` is the static `TransposeToFrequency(transpose, finetune)`, which
is computed in floating point and taken as it comes. -/
def ModSample.convertFrequency (t2fOf : Int → Int → Nat) (f2tOf : Nat → Int) (s : ModSample)
    (fromType toType : Nat) : ModSample :=
  if toType &&& (MOD_TYPE_MOD ||| MOD_TYPE_XM) = 0 ∧ fromType &&& (MOD_TYPE_MOD ||| MOD_TYPE_XM) ≠ 0 then
    { s with nC5Speed := t2fOf s.RelativeTone s.nFineTune, RelativeTone := 0, nFineTune := 0 }
  else if toType &&& (MOD_TYPE_MOD ||| MOD_TYPE_XM) ≠ 0 ∧
      fromType &&& (MOD_TYPE_MOD ||| MOD_TYPE_XM) = 0 then
    s.FrequencyToTranspose f2tOf
  else s

/-- The second step of `ModSample::Convert`: no ping-pong loop, panning and auto-vibrato for
MOD / S3M samples. -/
def ModSample.convertNoPingPong (s : ModSample) (toType : Nat) : ModSample :=
  if toType &&& (MOD_TYPE_MOD ||| MOD_TYPE_S3M) ≠ 0 then
    { s with
      uFlags := FlagSet.reset s.uFlags (CHN_PINGPONGLOOP ||| CHN_PANNING)
      nVibDepth := 0
      nVibRate := 0
      nVibSweep := 0
      nVibType := VIB_SINE
      RelativeTone := 0 }
  else s

/-- The sustain loop of a sample made its normal loop (`if(uFlags[CHN_SUSTAINLOOP])` in
`ModSample::Convert`). -/
def ModSample.sustainToLoop (s : ModSample) : ModSample :=
  if FlagSet.test s.uFlags CHN_SUSTAINLOOP then
    let flags := FlagSet.set s.uFlags CHN_LOOP
    { s with
      nLoopStart := s.nSustainStart
      nLoopEnd := s.nSustainEnd
      uFlags := FlagSet.setTo flags CHN_PINGPONGLOOP (FlagSet.test flags CHN_PINGPONGSUSTAIN) }
  else s

/-- The third step of `ModSample::Convert`: no global volume and sustain loops for
MOD/S3M/XM. -/
def ModSample.convertSustain (s : ModSample) (toType : Nat) : ModSample :=
  if toType &&& (MOD_TYPE_MOD ||| MOD_TYPE_XM ||| MOD_TYPE_S3M) ≠ 0 then
    let s := ({ s with nGlobalVol := 64 } : ModSample).sustainToLoop
    { s with
      nSustainStart := 0
      nSustainEnd := 0
      uFlags := FlagSet.reset s.uFlags (CHN_SUSTAINLOOP ||| CHN_PINGPONGSUSTAIN) }
  else s

/-- The fourth step of `ModSample::Convert`: all XM samples have default panning, and the
auto-vibrato settings of XM are limited. -/
def ModSample.convertXM (s : ModSample) (toType : Nat) : ModSample :=
  if toType &&& MOD_TYPE_XM ≠ 0 then
    let s :=
      if !FlagSet.test s.uFlags CHN_PANNING then
        { s with uFlags := FlagSet.set s.uFlags CHN_PANNING, nPan := 128 }
      else s
    { s with nVibDepth := LimitMax s.nVibDepth 15, nVibRate := LimitMax s.nVibRate 63 }
  else s

/-- The fifth step of `ModSample::Convert`: the auto-vibrato sweep setting is inverse in XM
and IT. -/
def ModSample.convertSweep (s : ModSample) (fromType toType : Nat) : ModSample :=
  if (fromType &&& MOD_TYPE_XM ≠ 0 ∧ toType &&& (MOD_TYPE_IT ||| MOD_TYPE_MPT) ≠ 0) ∨
      (toType &&& MOD_TYPE_XM ≠ 0 ∧ fromType &&& (MOD_TYPE_IT ||| MOD_TYPE_MPT) ≠ 0) then
    if s.nVibRate ≠ 0 ∧ s.nVibDepth ≠ 0 then { s with nVibSweep := (255 - s.nVibSweep) % 256 }
    else s
  else s

/-- The last step of `ModSample::Convert`: convert incompatible auto-vibrato types. -/
def ModSample.convertVibType (s : ModSample) (toType : Nat) : ModSample :=
  if toType = MOD_TYPE_IT ∧ s.nVibType = VIB_RAMP_UP then { s with nVibType := VIB_RAMP_DOWN }
  else if toType = MOD_TYPE_XM ∧ s.nVibType = VIB_RANDOM then { s with nVibType := VIB_SINE }
  else s

/-- Translate sample properties between two given formats (`ModSample::Convert` of
`src/OpenMPT/soundlib/ModSample.cpp`). -/
def ModSample.Convert (t2fOf : Int → Int → Nat) (f2tOf : Nat → Int) (s : ModSample)
    (fromType toType : Nat) : ModSample :=
  let s := s.convertFrequency t2fOf f2tOf fromType toType
  let s := s.convertNoPingPong toType
  let s := s.convertSustain toType
  let s := s.convertXM toType
  let s := s.convertSweep fromType toType
  s.convertVibType toType

/-- The first step of `ModSample::Convert` in the tag 1.20.01.00, where a conversion to MOD
also resets the transpose. `f2tSample` is `CSoundFile::FrequencyToTranspose(ModSample *)`,
which is not among the sources. -/
def ModSample.convertFrequencyOld (t2fOf : Int → Int → Nat) (f2tSample : ModSample → ModSample)
    (s : ModSample) (fromType toType : Nat) : ModSample :=
  if toType &&& (MOD_TYPE_MOD ||| MOD_TYPE_XM) = 0 ∧ fromType &&& (MOD_TYPE_MOD ||| MOD_TYPE_XM) ≠ 0 then
    { s with nC5Speed := t2fOf s.RelativeTone s.nFineTune, RelativeTone := 0, nFineTune := 0 }
  else if toType &&& (MOD_TYPE_MOD ||| MOD_TYPE_XM) ≠ 0 ∧
      fromType &&& (MOD_TYPE_MOD ||| MOD_TYPE_XM) = 0 then
    let s := f2tSample s
    if toType &&& MOD_TYPE_MOD ≠ 0 then { s with RelativeTone := 0 } else s
  else s

/-- The second step of `ModSample::Convert` in the tag 1.20.01.00. -/
def ModSample.convertNoPingPongOld (s : ModSample) (toType : Nat) : ModSample :=
  if toType &&& (MOD_TYPE_MOD ||| MOD_TYPE_S3M) ≠ 0 then
    { s with
      uFlags := FlagSet.reset s.uFlags (CHN_PINGPONGLOOP ||| CHN_PANNING)
      nVibDepth := 0
      nVibRate := 0
      nVibSweep := 0
      nVibType := VIB_SINE }
  else s

/-- The third step of `ModSample::Convert` in the tag 1.20.01.00: no sustain loops for
MOD/S3M/XM. -/
def ModSample.convertSustainOld (s : ModSample) (toType : Nat) : ModSample :=
  if toType &&& (MOD_TYPE_MOD ||| MOD_TYPE_XM ||| MOD_TYPE_S3M) ≠ 0 then
    let s := s.sustainToLoop
    { s with
      nSustainStart := 0
      nSustainEnd := 0
      uFlags := FlagSet.reset s.uFlags (CHN_SUSTAINLOOP ||| CHN_PINGPONGSUSTAIN) }
  else s

/-- Translate sample properties between two given formats (`ModSample::Convert` of
`src/tags/1.20.01.00/soundlib/ModSample.cpp`). -/
def ModSample.ConvertOld (t2fOf : Int → Int → Nat) (f2tSample : ModSample → ModSample)
    (s : ModSample) (fromType toType : Nat) : ModSample :=
  let s := s.convertFrequencyOld t2fOf f2tSample fromType toType
  let s := s.convertNoPingPongOld toType
  let s := s.convertSustainOld toType
  let s := s.convertXM toType
  s.convertSweep fromType toType

/-- A sample of 100 frames with a ping-pong sustain loop from frame 0 to frame 10 and no
normal loop. -/
def exPingPongSustain : ModSample :=
  { ModSample.blank with
    nLength := 100
    nSustainStart := 0
    nSustainEnd := 10
    uFlags := CHN_SUSTAINLOOP ||| CHN_PINGPONGSUSTAIN }

/-- Whether a character is one of `0`-`9` or upper-case `A`-`F`. -/
def isUpperHexDigit (c : Char) : Bool :=
  if '0'.toNat ≤ c.toNat ∧ c.toNat ≤ '9'.toNat then true
  else if 'A'.toNat ≤ c.toNat ∧ c.toNat ≤ 'F'.toNat then true
  else false

/-- The number an upper-case hexadecimal digit stands for. -/
def hexDigitValue (c : Char) : Nat :=
  if c.toNat ≤ '9'.toNat then c.toNat - '0'.toNat else c.toNat - 'A'.toNat + 10

/-- The byte that the two characters at offsets `2 * i` and `2 * i + 1` of a text encode. -/
def textByte (src : List Char) (i : Nat) : Nat :=
  hexDigitValue (src.getD (2 * i) (Char.ofNat 0)) * 16 +
    hexDigitValue (src.getD (2 * i + 1) (Char.ofNat 0))

/-- The first `n` bytes that a text encodes. -/
def textBytes (src : List Char) (n : Nat) : List Nat := (List.range n).map (textByte src)

/-- The texts that `DecodeBinarySettingRaw` is described to accept for `n` bytes: of length
`2 * n + 2`, of upper-case hexadecimal digits only, the last two of which encode the sum
modulo 256 of the `n` bytes before. -/
def textWellFormed (src : List Char) (n : Nat) : Prop :=
  src.length = 2 * n + 2 ∧ (∀ c ∈ src, isUpperHexDigit c = true) ∧
    textByte src n = (textBytes src n).sum % 256

instance (src : List Char) (n : Nat) : Decidable (textWellFormed src n) := by
  unfold textWellFormed
  exact inferInstance

/-! ## Sample loops of a WAV file -/

/-- Modelled from the spec: `Clamp` is declared in a header that is not among the sources; it
returns the value brought into the range from `lo` to `hi`. -/
def Clamp (val lo hi : Nat) : Nat := if val < lo then lo else if val > hi then hi else val

/-- Modelled from the spec: the declaration of `WAVSampleLoop` is not among the sources; the
fields are those that `ConvertToWAV` assigns, all unsigned 32-bit numbers. -/
structure WAVSampleLoop where
  identifier : Nat
  loopType : Nat
  loopStart : Nat
  loopEnd : Nat
  fraction : Nat
  playCount : Nat
deriving DecidableEq, Repr

/-- Modelled from the spec: the loop types are declared with `WAVSampleLoop`, which is not
among the sources; a forward loop. -/
def WAVSampleLoop.loopForward : Nat := 0

/-- Modelled from the spec: the loop types are declared with `WAVSampleLoop`, which is not
among the sources; a bidirectional loop. -/
def WAVSampleLoop.loopBidi : Nat := 1

/-- Apply WAV loop information to a mod sample (`WAVSampleLoop::ApplyToSample`). The result
is the loop start, the loop end and the flags afterwards; `start`, `end_` and `flags` are
what the three references hold before. The increment of the end is below the sample
length, so that it does not wrap. -/
def WAVSampleLoop.ApplyToSample (l : WAVSampleLoop) (start end_ sampleLength flags : Nat)
    (enableFlag bidiFlag : Nat) (mptLoopFix : Bool) : Nat × Nat × Nat :=
  if l.loopEnd = 0 then (start, end_, flags)
  else
    let start := min l.loopStart sampleLength
    let end_ := Clamp l.loopEnd start sampleLength
    let end_ := if mptLoopFix = false ∧ end_ < sampleLength then end_ + 1 else end_
    let flags := FlagSet.set flags enableFlag
    let flags := if l.loopType = WAVSampleLoop.loopBidi then FlagSet.set flags bidiFlag else flags
    (start, end_, flags)

/-- Convert internal loop information into a WAV loop (`WAVSampleLoop::ConvertToWAV`). -/
def WAVSampleLoop.ConvertToWAV (l : WAVSampleLoop) (start end_ : Nat) (bidi : Bool) :
    WAVSampleLoop :=
  let l := { l with identifier := 0 }
  let l := { l with
    loopType := if bidi then WAVSampleLoop.loopBidi else WAVSampleLoop.loopForward }
  let l := { l with loopStart := start }
  let l := if end_ > start then { l with loopEnd := end_ - 1 } else { l with loopEnd := start }
  { l with fraction := 0, playCount := 0 }

/-- A WAV loop with nothing in it. -/
def exWAVLoop : WAVSampleLoop := ⟨0, 0, 0, 0, 0, 0⟩

/-! ## Unused channels -/

/-- Modelled from the spec: `ModCommand::IsEmpty` is declared in a header that is not among
the sources; a note-event is empty when it has no note, no instrument, no volume command and
no effect command. -/
def ModCommand.IsEmpty (m : ModCommand) : Bool :=
  m.note == 0 && m.instr == 0 && m.volcmd == VOLCMD_NONE && m.command == CMD_NONE

/-- Check if a given channel contains note data (`CModDoc::IsChannelUnused`): the result is
`false` as soon as a cell of the channel is not empty, in a valid pattern, row by row from
the first one. -/
def CModDoc.IsChannelUnused (doc : CModDoc) (nChn : Nat) : Bool :=
  let nChannels := doc.GetNumChannels
  if nChn ≥ nChannels then true
  else
    (List.range doc.m_SndFile.Patterns.Size).all (fun nPat =>
      if doc.m_SndFile.Patterns.IsValidPat nPat then
        (List.range (doc.m_SndFile.Patterns.get nPat).GetNumRows).all (fun k =>
          (GetpModCommand ((doc.m_SndFile.Patterns.get nPat).m_ModCommands.getD [])
            nChannels k nChn).IsEmpty)
      else true)

/-- Modelled from the spec: `std::vector<bool>::resize` belongs to the standard library; it
keeps the entries that there is room for and fills up with `false`. -/
def vectorResize (v : List Bool) (n : Nat) : List Bool :=
  v.take n ++ List.replicate (n - v.length) false

/-- One turn of the loop of `CheckUsedChannels`, for channel `iRst`: the mask, the count of
channels still to report (a `CHANNELINDEX`, 16 bits) and whether the loop was left. -/
def CModDoc.checkUsedChannelsStep (doc : CModDoc) (st : List Bool × Nat × Bool) (iRst : Nat) :
    List Bool × Nat × Bool :=
  if st.2.2 then st
  else
    let usedMask := st.1.set iRst (!doc.IsChannelUnused iRst)
    if usedMask.getD iRst false = false then
      let maxRemoveCount := (st.2.1 + 65535) % 65536
      if maxRemoveCount = 0 then (usedMask, maxRemoveCount, true)
      else (usedMask, maxRemoveCount, false)
    else (usedMask, st.2.1, false)

/-- Check which channels contain note data (`CModDoc::CheckUsedChannels`): the mask
afterwards. The loop goes from the last channel down to the first one. -/
def CModDoc.CheckUsedChannels (doc : CModDoc) (usedMask : List Bool) (maxRemoveCount : Nat) :
    List Bool :=
  let nChannels := doc.GetNumChannels
  let usedMask := vectorResize usedMask nChannels
  ((List.range nChannels).reverse.foldl doc.checkUsedChannelsStep
    (usedMask, maxRemoveCount, false)).1

/-- In the words of the specification: a channel contains no note data when its cell is
empty in every row of every valid pattern. -/
def CModDoc.channelHasNoNoteData (doc : CModDoc) (chn : Nat) : Prop :=
  ∀ pat, doc.m_SndFile.Patterns.IsValidPat pat = true →
    ∀ row, row < (doc.m_SndFile.Patterns.get pat).GetNumRows →
      (GetpModCommand ((doc.m_SndFile.Patterns.get pat).m_ModCommands.getD [])
        doc.GetNumChannels row chn).IsEmpty = true

/-- A document of four channels with one pattern of one row: a note in each of the channels
0 to 2, and nothing in channel 3. -/
def exLastChannelEmptyDoc : CModDoc :=
  ⟨{ exSong with
      Patterns := ⟨[⟨1, some [exNote 1, exNote 1, exNote 1, ModCommand.Empty]⟩]⟩ },
    fun _ => 0⟩

/-! ## The document outside the critical section -/

/-- In the words of the specification: the channel count and the pattern grids of a document
agree when the grid of every valid pattern has as many cells as it has rows times the
channel count that the song reports. -/
def CModDoc.gridsMatchChannelCount (doc : CModDoc) : Prop :=
  ∀ nPat, nPat < doc.m_SndFile.Patterns.Size → doc.m_SndFile.Patterns.IsValidPat nPat = true →
    doc.numCells nPat = (doc.m_SndFile.Patterns.get nPat).GetNumRows * doc.GetNumChannels

instance (doc : CModDoc) : Decidable doc.gridsMatchChannelCount := by
  unfold CModDoc.gridsMatchChannelCount
  exact inferInstance

/-- The documents that a render call can see around a call of `ReArrangeChannels`, which
holds the critical section from `CriticalSection cs` (line 172, after the two returns that
write nothing) until it returns, and on a failed allocation until `cs.Leave()` (line 186),
after which it writes nothing: the document before the call, and the document that the
call leaves behind. -/
def CModDoc.visibleAroundReArrangeChannels (allocOk : Nat → Bool) (doc : CModDoc)
    (newOrder : List Nat) : List CModDoc :=
  [doc, (doc.ReArrangeChannels allocOk newOrder).2]

/-! ## Lemmas on the embedding -/

theorem castCHANNELINDEX_of_lt {n : Nat} (h : n < 65536) : castCHANNELINDEX n = n := by
  unfold castCHANNELINDEX; omega

theorem length_rearrangedRow (oldPatData : List ModCommand) (numChannels : Nat)
    (newOrder : List Nat) (n nRow : Nat) :
    (rearrangedRow oldPatData numChannels newOrder n nRow).length = n := by
  simp [rearrangedRow]

theorem length_flatMap_range {α : Type} (g : Nat → List α) (n : Nat)
    (hlen : ∀ r, (g r).length = n) (rows : Nat) :
    ((List.range rows).flatMap g).length = rows * n := by
  induction rows with
  | zero => simp
  | succ k ih =>
    rw [List.range_succ, List.flatMap_append, List.length_append, ih]
    simp [hlen, Nat.succ_mul]

theorem getElem?_flatMap_range {α : Type} (g : Nat → List α) (n : Nat)
    (hlen : ∀ r, (g r).length = n) (rows r c : Nat) (hr : r < rows) (hc : c < n) :
    ((List.range rows).flatMap g)[r * n + c]? = (g r)[c]? := by
  induction rows with
  | zero => omega
  | succ k ih =>
    rw [List.range_succ, List.flatMap_append]
    have hl := length_flatMap_range g n hlen k
    by_cases hrk : r < k
    · have hlt : r * n + c < ((List.range k).flatMap g).length := by
        rw [hl]
        calc r * n + c < r * n + n := by omega
          _ = (r + 1) * n := by ring
          _ ≤ k * n := Nat.mul_le_mul_right n hrk
      rw [List.getElem?_append_left hlt]
      exact ih hrk
    · have hrk2 : r = k := by omega
      subst hrk2
      rw [List.getElem?_append_right (by rw [hl]; omega), hl]
      simp

theorem length_rearrangedPatData (oldPatData : List ModCommand) (numChannels : Nat)
    (newOrder : List Nat) (n rows : Nat) :
    (rearrangedPatData oldPatData numChannels newOrder n rows).length = rows * n :=
  length_flatMap_range _ n (length_rearrangedRow oldPatData numChannels newOrder n) rows

theorem GetpModCommand_rearrangedPatData (oldPatData : List ModCommand) (numChannels : Nat)
    (newOrder : List Nat) (n rows r c : Nat) (hr : r < rows) (hc : c < n) :
    GetpModCommand (rearrangedPatData oldPatData numChannels newOrder n rows) n r c =
      if newOrder.getD c 0 < numChannels then
        GetpModCommand oldPatData numChannels r (newOrder.getD c 0)
      else ModCommand.Empty := by
  unfold GetpModCommand rearrangedPatData
  rw [List.getD_eq_getElem?_getD,
    getElem?_flatMap_range _ n (length_rearrangedRow oldPatData numChannels newOrder n) rows r c hr hc]
  simp [rearrangedRow, List.getElem?_map, List.getElem?_range hc, GetpModCommand]

theorem CPatternContainer.get_set (pats : CPatternContainer) (k i : Nat) (v : CPattern) :
    (CPatternContainer.mk (pats.m_Patterns.set k v)).get i =
      if i = k ∧ k < pats.m_Patterns.length then v else pats.get i := by
  unfold CPatternContainer.get
  simp only [List.getD_eq_getElem?_getD, List.getElem?_set]
  by_cases h : k = i
  · subst h
    by_cases h2 : k < pats.m_Patterns.length
    · simp [h2]
    · simp [h2, List.getElem?_eq_none (Nat.le_of_not_lt h2)]
  · have h3 : ¬ i = k := fun e => h e.symm
    simp [h, h3]

theorem CPatternContainer.Size_set (pats : CPatternContainer) (k : Nat) (v : CPattern) :
    (CPatternContainer.mk (pats.m_Patterns.set k v)).Size = pats.Size := by
  simp [CPatternContainer.Size]

theorem CPatternContainer.Size_le (pats : CPatternContainer) :
    pats.Size ≤ pats.m_Patterns.length := by
  unfold CPatternContainer.Size castPATTERNINDEX
  exact Nat.mod_le _ _

theorem CPatternContainer.lt_length_of_IsValidPat (pats : CPatternContainer) (i : Nat)
    (h : pats.IsValidPat i = true) : i < pats.m_Patterns.length := by
  simp only [CPatternContainer.IsValidPat, CPatternContainer.IsValidIndex, Bool.and_eq_true,
    decide_eq_true_eq] at h
  exact Nat.lt_of_lt_of_le h.1 pats.Size_le

theorem CPatternContainer.lt_Size_of_IsValidPat (pats : CPatternContainer) (i : Nat)
    (h : pats.IsValidPat i = true) : i < pats.Size := by
  simp only [CPatternContainer.IsValidPat, CPatternContainer.IsValidIndex, Bool.and_eq_true,
    decide_eq_true_eq] at h
  exact h.1

theorem CPatternContainer.IsValidPat_set_of_ne (pats : CPatternContainer) (k i : Nat)
    (v : CPattern) (h : i ≠ k) :
    (CPatternContainer.mk (pats.m_Patterns.set k v)).IsValidPat i = pats.IsValidPat i := by
  unfold CPatternContainer.IsValidPat CPatternContainer.IsValidIndex
  rw [CPatternContainer.Size_set, CPatternContainer.get_set]
  simp [h]

theorem rearrangePatterns_ok (allocOk : Nat → Bool) (numChannels : Nat) (newOrder : List Nat)
    (n : Nat) (idxs : List Nat) (pats : CPatternContainer)
    (halloc : ∀ i ∈ idxs, allocOk i = true) :
    (rearrangePatterns allocOk numChannels newOrder n idxs pats).2 = true := by
  induction idxs generalizing pats with
  | nil => rfl
  | cons k rest ih =>
    have hk : allocOk k = true := halloc k (List.mem_cons_self _ _)
    have hrest : ∀ i ∈ rest, allocOk i = true := fun i hi => halloc i (List.mem_cons_of_mem _ hi)
    unfold rearrangePatterns
    by_cases hv : pats.IsValidPat k = true
    · simp only [hv, if_true, hk, CPattern.AllocatePattern]
      exact ih _ hrest
    · simp only [hv, Bool.false_eq_true, if_false]
      exact ih _ hrest

theorem rearrangePatterns_get (allocOk : Nat → Bool) (numChannels : Nat) (newOrder : List Nat)
    (n : Nat) (idxs : List Nat) (pats : CPatternContainer) (hnd : idxs.Nodup)
    (hok : (rearrangePatterns allocOk numChannels newOrder n idxs pats).2 = true) :
    (rearrangePatterns allocOk numChannels newOrder n idxs pats).1.m_Patterns.length
        = pats.m_Patterns.length ∧
    ∀ i, (rearrangePatterns allocOk numChannels newOrder n idxs pats).1.get i =
      if i ∈ idxs ∧ pats.IsValidPat i = true then rearrangedPattern numChannels newOrder n pats i
      else pats.get i := by
  induction idxs generalizing pats with
  | nil => simp [rearrangePatterns]
  | cons k rest ih =>
    have hkrest : k ∉ rest := (List.nodup_cons.mp hnd).1
    have hndrest : rest.Nodup := (List.nodup_cons.mp hnd).2
    unfold rearrangePatterns at hok ⊢
    by_cases hv : pats.IsValidPat k = true
    · simp only [hv, if_true] at hok ⊢
      cases hal : allocOk k with
      | false => simp [hal, CPattern.AllocatePattern] at hok
      | true =>
        simp only [hal, CPattern.AllocatePattern, if_true] at hok ⊢
        have hklen := pats.lt_length_of_IsValidPat k hv
        obtain ⟨hlen, hget⟩ := ih _ hndrest hok
        refine ⟨by rw [hlen]; simp, fun i => ?_⟩
        rw [hget i]
        by_cases hik : i = k
        · subst hik
          simp [hkrest, hv, CPatternContainer.get_set, hklen, rearrangedPattern]
        · rw [CPatternContainer.IsValidPat_set_of_ne _ _ _ _ hik]
          by_cases hir : i ∈ rest
          · by_cases hvi : pats.IsValidPat i = true
            · simp [hir, hvi, rearrangedPattern, CPatternContainer.get_set, hik]
            · simp [hir, hvi, CPatternContainer.get_set, hik]
          · simp [hir, hik, CPatternContainer.get_set]
    · simp only [hv, Bool.false_eq_true, if_false] at hok ⊢
      obtain ⟨hlen, hget⟩ := ih _ hndrest hok
      refine ⟨hlen, fun i => ?_⟩
      rw [hget i]
      by_cases hik : i = k
      · subst hik
        simp [hkrest, hv]
      · simp [hik]

theorem foldl_invariant {α β : Type} (P : β → Prop) (f : β → α → β) (l : List α) (b : β)
    (hb : P b) (hstep : ∀ acc x, x ∈ l → P acc → P (f acc x)) : P (l.foldl f b) := by
  induction l generalizing b with
  | nil => exact hb
  | cons x rest ih =>
    rw [List.foldl_cons]
    exact ih _ (hstep b x (List.mem_cons_self _ _) hb)
      (fun acc y hy hacc => hstep acc y (List.mem_cons_of_mem _ hy) hacc)

theorem InitChannel_Patterns (doc : CModDoc) (nChn : Nat) :
    (doc.InitChannel nChn).m_SndFile.Patterns = doc.m_SndFile.Patterns := by
  unfold CModDoc.InitChannel
  split <;> rfl

theorem InitChannel_m_nChannels (doc : CModDoc) (nChn : Nat) :
    (doc.InitChannel nChn).m_SndFile.m_nChannels = doc.m_SndFile.m_nChannels := by
  unfold CModDoc.InitChannel
  split <;> rfl

theorem InitChannel_m_nType (doc : CModDoc) (nChn : Nat) :
    (doc.InitChannel nChn).m_SndFile.m_nType = doc.m_SndFile.m_nType := by
  unfold CModDoc.InitChannel
  split <;> rfl

theorem InitChannel_ChnSettings_of_ne (doc : CModDoc) (nChn c : Nat) (h : c ≠ nChn) :
    (doc.InitChannel nChn).m_SndFile.ChnSettings c = doc.m_SndFile.ChnSettings c := by
  unfold CModDoc.InitChannel
  split
  · rfl
  · simp [Function.update_noteq h]

theorem InitChannel_Chn_of_ne (doc : CModDoc) (nChn c : Nat) (h : c ≠ nChn) :
    (doc.InitChannel nChn).m_SndFile.Chn c = doc.m_SndFile.Chn c := by
  unfold CModDoc.InitChannel
  split
  · rfl
  · simp [Function.update_noteq h]

theorem moveChannel_Patterns (old : CModDoc) (newOrder : List Nat) (doc : CModDoc) (nChn : Nat) :
    (moveChannel old newOrder doc nChn).m_SndFile.Patterns = doc.m_SndFile.Patterns := by
  unfold moveChannel
  simp only
  split
  · rfl
  · exact InitChannel_Patterns _ _

theorem moveChannel_m_nChannels (old : CModDoc) (newOrder : List Nat) (doc : CModDoc) (nChn : Nat) :
    (moveChannel old newOrder doc nChn).m_SndFile.m_nChannels = doc.m_SndFile.m_nChannels := by
  unfold moveChannel
  simp only
  split
  · rfl
  · exact InitChannel_m_nChannels _ _

theorem moveChannel_m_nType (old : CModDoc) (newOrder : List Nat) (doc : CModDoc) (nChn : Nat) :
    (moveChannel old newOrder doc nChn).m_SndFile.m_nType = doc.m_SndFile.m_nType := by
  unfold moveChannel
  simp only
  split
  · rfl
  · exact InitChannel_m_nType _ _

theorem SetupMODPanning_Patterns (s : CSoundFile) : s.SetupMODPanning.Patterns = s.Patterns := by
  unfold CSoundFile.SetupMODPanning
  split <;> rfl

theorem SetupMODPanning_Chn (s : CSoundFile) : s.SetupMODPanning.Chn = s.Chn := by
  unfold CSoundFile.SetupMODPanning
  split <;> rfl

theorem resetRemovedChannel_Patterns (doc : CModDoc) (nChn : Nat) :
    (resetRemovedChannel doc nChn).m_SndFile.Patterns = doc.m_SndFile.Patterns := by
  unfold resetRemovedChannel
  exact InitChannel_Patterns _ _

theorem resetRemovedChannel_m_nChannels (doc : CModDoc) (nChn : Nat) :
    (resetRemovedChannel doc nChn).m_SndFile.m_nChannels = doc.m_SndFile.m_nChannels := by
  unfold resetRemovedChannel
  exact InitChannel_m_nChannels _ _

theorem resetRemovedChannel_ChnSettings_of_ne (doc : CModDoc) (nChn c : Nat) (h : c ≠ nChn) :
    (resetRemovedChannel doc nChn).m_SndFile.ChnSettings c = doc.m_SndFile.ChnSettings c := by
  unfold resetRemovedChannel
  exact InitChannel_ChnSettings_of_ne _ _ _ h

theorem resetRemovedChannel_Chn_of_ne (doc : CModDoc) (nChn c : Nat) (h : c ≠ nChn) :
    (resetRemovedChannel doc nChn).m_SndFile.Chn c = doc.m_SndFile.Chn c := by
  unfold resetRemovedChannel
  simp only [Function.update_noteq h]
  exact InitChannel_Chn_of_ne _ _ _ h

theorem rearrangeChannelStates_Patterns (doc1 : CModDoc) (newOrder : List Nat) (n : Nat) :
    (rearrangeChannelStates doc1 newOrder n).m_SndFile.Patterns = doc1.m_SndFile.Patterns := by
  unfold rearrangeChannelStates
  simp only
  apply foldl_invariant (fun d : CModDoc => d.m_SndFile.Patterns = doc1.m_SndFile.Patterns)
  · rw [SetupMODPanning_Patterns]
    apply foldl_invariant (fun d : CModDoc => d.m_SndFile.Patterns = doc1.m_SndFile.Patterns)
    · rfl
    · intro acc x _ hacc
      rw [moveChannel_Patterns]; exact hacc
  · intro acc x _ hacc
    rw [resetRemovedChannel_Patterns]; exact hacc

theorem rearrangeChannelStates_m_nChannels (doc1 : CModDoc) (newOrder : List Nat) (n : Nat) :
    (rearrangeChannelStates doc1 newOrder n).m_SndFile.m_nChannels = n := by
  unfold rearrangeChannelStates
  simp only
  apply foldl_invariant (fun d : CModDoc => d.m_SndFile.m_nChannels = n)
  · rfl
  · intro acc x _ hacc
    rw [resetRemovedChannel_m_nChannels]; exact hacc

theorem ReArrangeChannels_eq_of_ok (allocOk : Nat → Bool) (doc : CModDoc) (newOrder : List Nat)
    (hmax : castCHANNELINDEX newOrder.length ≤ doc.m_SndFile.GetModSpecifications.channelsMax)
    (hmin : doc.m_SndFile.GetModSpecifications.channelsMin ≤ castCHANNELINDEX newOrder.length)
    (hne : doc.m_SndFile.Patterns.Size ≠ 0)
    (hok : (rearrangePatterns allocOk doc.GetNumChannels newOrder (castCHANNELINDEX newOrder.length)
      (List.range doc.m_SndFile.Patterns.Size) doc.m_SndFile.Patterns).2 = true) :
    doc.ReArrangeChannels allocOk newOrder =
      (castCHANNELINDEX newOrder.length,
        rearrangeChannelStates
          { doc with m_SndFile := { doc.m_SndFile with
              Patterns := (rearrangePatterns allocOk doc.GetNumChannels newOrder
                (castCHANNELINDEX newOrder.length)
                (List.range doc.m_SndFile.Patterns.Size) doc.m_SndFile.Patterns).1 } }
          newOrder (castCHANNELINDEX newOrder.length)) := by
  unfold CModDoc.ReArrangeChannels
  have h1 : ¬ (castCHANNELINDEX newOrder.length > doc.m_SndFile.GetModSpecifications.channelsMax) := by
    omega
  have h2 : ¬ (castCHANNELINDEX newOrder.length < doc.m_SndFile.GetModSpecifications.channelsMin) := by
    omega
  simp only [h1, h2, hne, decide_False, Bool.or_self, Bool.false_eq_true, if_false]
  rcases hrp : rearrangePatterns allocOk doc.GetNumChannels newOrder
      (castCHANNELINDEX newOrder.length) (List.range doc.m_SndFile.Patterns.Size)
      doc.m_SndFile.Patterns with ⟨pats, b⟩
  rw [hrp] at hok
  simp only at hok
  subst hok
  simp only [CModDoc.GetNumChannels, CSoundFile.GetNumChannels, rearrangeChannelStates_m_nChannels]

theorem ReArrangeChannels_patterns_of_ok (allocOk : Nat → Bool) (doc : CModDoc)
    (newOrder : List Nat)
    (hmax : castCHANNELINDEX newOrder.length ≤ doc.m_SndFile.GetModSpecifications.channelsMax)
    (hmin : doc.m_SndFile.GetModSpecifications.channelsMin ≤ castCHANNELINDEX newOrder.length)
    (hne : doc.m_SndFile.Patterns.Size ≠ 0)
    (hok : (rearrangePatterns allocOk doc.GetNumChannels newOrder (castCHANNELINDEX newOrder.length)
      (List.range doc.m_SndFile.Patterns.Size) doc.m_SndFile.Patterns).2 = true) (i : Nat) :
    (doc.ReArrangeChannels allocOk newOrder).2.m_SndFile.Patterns.Size = doc.m_SndFile.Patterns.Size ∧
    (doc.ReArrangeChannels allocOk newOrder).2.m_SndFile.Patterns.get i =
      if doc.m_SndFile.Patterns.IsValidPat i = true then
        rearrangedPattern doc.GetNumChannels newOrder (castCHANNELINDEX newOrder.length)
          doc.m_SndFile.Patterns i
      else doc.m_SndFile.Patterns.get i := by
  rw [ReArrangeChannels_eq_of_ok allocOk doc newOrder hmax hmin hne hok]
  simp only [rearrangeChannelStates_Patterns]
  obtain ⟨hlen, hget⟩ := rearrangePatterns_get allocOk doc.GetNumChannels newOrder
    (castCHANNELINDEX newOrder.length) _ doc.m_SndFile.Patterns (List.nodup_range _) hok
  refine ⟨congrArg castPATTERNINDEX hlen, ?_⟩
  rw [hget i]
  by_cases hv : doc.m_SndFile.Patterns.IsValidPat i = true
  · have := doc.m_SndFile.Patterns.lt_Size_of_IsValidPat i hv
    simp [hv, List.mem_range, this]
  · simp [hv]

theorem ReArrangeChannels_cell_of_ok (allocOk : Nat → Bool) (doc : CModDoc) (newOrder : List Nat)
    (hcast : castCHANNELINDEX newOrder.length = newOrder.length)
    (hmin : doc.m_SndFile.GetModSpecifications.channelsMin ≤ newOrder.length)
    (hmax : newOrder.length ≤ doc.m_SndFile.GetModSpecifications.channelsMax)
    (hne : doc.m_SndFile.Patterns.Size ≠ 0)
    (hok : (rearrangePatterns allocOk doc.GetNumChannels newOrder (castCHANNELINDEX newOrder.length)
      (List.range doc.m_SndFile.Patterns.Size) doc.m_SndFile.Patterns).2 = true)
    (nPat : Nat) (hvalid : doc.m_SndFile.Patterns.IsValidPat nPat = true)
    (r : Nat) (hr : r < (doc.m_SndFile.Patterns.get nPat).GetNumRows)
    (c : Nat) (hc : c < newOrder.length) :
    (doc.ReArrangeChannels allocOk newOrder).2.m_SndFile.Patterns.IsValidPat nPat = true ∧
    ((doc.ReArrangeChannels allocOk newOrder).2.m_SndFile.Patterns.get nPat).GetNumRows =
      (doc.m_SndFile.Patterns.get nPat).GetNumRows ∧
    GetpModCommand (((doc.ReArrangeChannels allocOk newOrder).2.m_SndFile.Patterns.get
        nPat).m_ModCommands.getD []) newOrder.length r c =
      if newOrder.getD c 0 < doc.GetNumChannels then doc.cell nPat r (newOrder.getD c 0)
      else ModCommand.Empty := by
  have hmax2 : castCHANNELINDEX newOrder.length ≤ doc.m_SndFile.GetModSpecifications.channelsMax := by
    omega
  have hmin2 : doc.m_SndFile.GetModSpecifications.channelsMin ≤ castCHANNELINDEX newOrder.length := by
    omega
  obtain ⟨hsize, hget⟩ := ReArrangeChannels_patterns_of_ok allocOk doc newOrder hmax2 hmin2 hne hok nPat
  rw [if_pos hvalid] at hget
  refine ⟨?_, ?_, ?_⟩
  · have hlt := doc.m_SndFile.Patterns.lt_Size_of_IsValidPat nPat hvalid
    simp [CPatternContainer.IsValidPat, CPatternContainer.IsValidIndex, hsize, hlt, hget,
      rearrangedPattern]
  · rw [hget]; rfl
  · unfold CModDoc.cell
    rw [hget, hcast]
    simp only [rearrangedPattern, Option.getD_some]
    exact GetpModCommand_rearrangedPatData _ _ _ _ _ r c hr hc

/-- C1: for a `newOrder` whose size lies within the channel limits of the format, a
non-empty pattern container and allocations that all succeed, `ReArrangeChannels` returns
the size of `newOrder`, which becomes the channel count, and every valid pattern stays
valid, keeps its row count, and has in row `r` and new channel `c` the old cell of row `r`
and channel `newOrder[c]` when that is a current channel, the empty note-event otherwise. -/
theorem C1_ReArrangeChannels_cells (allocOk : Nat → Bool) (doc : CModDoc) (newOrder : List Nat)
    (hspec : doc.m_SndFile.GetModSpecifications.channelsMax < 65536)
    (hmin : doc.m_SndFile.GetModSpecifications.channelsMin ≤ newOrder.length)
    (hmax : newOrder.length ≤ doc.m_SndFile.GetModSpecifications.channelsMax)
    (hne : doc.m_SndFile.Patterns.Size ≠ 0)
    (halloc : ∀ nPat, allocOk nPat = true)
    (nPat : Nat) (hvalid : doc.m_SndFile.Patterns.IsValidPat nPat = true)
    (r : Nat) (hr : r < (doc.m_SndFile.Patterns.get nPat).GetNumRows)
    (c : Nat) (hc : c < newOrder.length) :
    (doc.ReArrangeChannels allocOk newOrder).1 = newOrder.length ∧
    (doc.ReArrangeChannels allocOk newOrder).2.GetNumChannels = newOrder.length ∧
    (doc.ReArrangeChannels allocOk newOrder).2.m_SndFile.Patterns.IsValidPat nPat = true ∧
    ((doc.ReArrangeChannels allocOk newOrder).2.m_SndFile.Patterns.get nPat).GetNumRows =
      (doc.m_SndFile.Patterns.get nPat).GetNumRows ∧
    (doc.ReArrangeChannels allocOk newOrder).2.cell nPat r c =
      if newOrder.getD c 0 < doc.GetNumChannels then doc.cell nPat r (newOrder.getD c 0)
      else ModCommand.Empty := by
  have hcast : castCHANNELINDEX newOrder.length = newOrder.length :=
    castCHANNELINDEX_of_lt (by omega)
  have hok := rearrangePatterns_ok allocOk doc.GetNumChannels newOrder
    (castCHANNELINDEX newOrder.length) (List.range doc.m_SndFile.Patterns.Size)
    doc.m_SndFile.Patterns (fun i _ => halloc i)
  have heq := ReArrangeChannels_eq_of_ok allocOk doc newOrder (by omega) (by omega) hne hok
  have hcount : (doc.ReArrangeChannels allocOk newOrder).2.GetNumChannels = newOrder.length := by
    rw [heq]
    exact (rearrangeChannelStates_m_nChannels _ _ _).trans hcast
  obtain ⟨hv, hrows, hcell⟩ := ReArrangeChannels_cell_of_ok allocOk doc newOrder hcast hmin hmax
    hne hok nPat hvalid r hr c hc
  refine ⟨by rw [heq]; exact hcast, hcount, hv, hrows, ?_⟩
  rw [← hcell]
  unfold CModDoc.cell
  rw [hcount]

set_option maxRecDepth 100000 in
/-- Witness of C1: moving channel 3 to the front of the 4-channel example song. -/
theorem C1_ReArrangeChannels_cells_witness :
    exDoc.m_SndFile.GetModSpecifications.channelsMax < 65536 ∧
    exDoc.m_SndFile.GetModSpecifications.channelsMin ≤ [3, 0, 9].length ∧
    [3, 0, 9].length ≤ exDoc.m_SndFile.GetModSpecifications.channelsMax ∧
    exDoc.m_SndFile.Patterns.Size ≠ 0 ∧
    exDoc.m_SndFile.Patterns.IsValidPat 2 = true ∧
    (exDoc.ReArrangeChannels (fun _ => true) [3, 0, 9]).1 = [3, 0, 9].length ∧
    (exDoc.ReArrangeChannels (fun _ => true) [3, 0, 9]).2.cell 2 0 0 = exCell 13 :=
  have h := C1_ReArrangeChannels_cells (fun _ => true) exDoc [3, 0, 9] (by decide) (by decide)
    (by decide) (by decide) (fun _ => rfl) 2 (by decide) 0 (by decide) 0 (by decide)
  ⟨by decide, by decide, by decide, by decide, by decide, h.1, by decide⟩


theorem ReArrangeChannels_eq_of_reject (allocOk : Nat → Bool) (doc : CModDoc) (newOrder : List Nat)
    (h : castCHANNELINDEX newOrder.length > doc.m_SndFile.GetModSpecifications.channelsMax ∨
      castCHANNELINDEX newOrder.length < doc.m_SndFile.GetModSpecifications.channelsMin) :
    doc.ReArrangeChannels allocOk newOrder = (CHANNELINDEX_INVALID, doc) := by
  unfold CModDoc.ReArrangeChannels
  have h1 : (decide (castCHANNELINDEX newOrder.length > doc.m_SndFile.GetModSpecifications.channelsMax)
      || decide (castCHANNELINDEX newOrder.length < doc.m_SndFile.GetModSpecifications.channelsMin))
      = true := by
    simpa using h
  simp only [h1, if_true]

theorem ReArrangeChannels_eq_of_empty (allocOk : Nat → Bool) (doc : CModDoc) (newOrder : List Nat)
    (hmax : castCHANNELINDEX newOrder.length ≤ doc.m_SndFile.GetModSpecifications.channelsMax)
    (hmin : doc.m_SndFile.GetModSpecifications.channelsMin ≤ castCHANNELINDEX newOrder.length)
    (he : doc.m_SndFile.Patterns.Size = 0) :
    doc.ReArrangeChannels allocOk newOrder = (doc.GetNumChannels, doc) := by
  unfold CModDoc.ReArrangeChannels
  have h1 : ¬ (castCHANNELINDEX newOrder.length > doc.m_SndFile.GetModSpecifications.channelsMax) := by
    omega
  have h2 : ¬ (castCHANNELINDEX newOrder.length < doc.m_SndFile.GetModSpecifications.channelsMin) := by
    omega
  simp only [h1, h2, he, decide_False, Bool.or_self, Bool.false_eq_true, if_false, if_true]

theorem ReArrangeChannels_eq_of_alloc_fail (allocOk : Nat → Bool) (doc : CModDoc)
    (newOrder : List Nat)
    (hmax : castCHANNELINDEX newOrder.length ≤ doc.m_SndFile.GetModSpecifications.channelsMax)
    (hmin : doc.m_SndFile.GetModSpecifications.channelsMin ≤ castCHANNELINDEX newOrder.length)
    (hne : doc.m_SndFile.Patterns.Size ≠ 0)
    (hfail : (rearrangePatterns allocOk doc.GetNumChannels newOrder (castCHANNELINDEX newOrder.length)
      (List.range doc.m_SndFile.Patterns.Size) doc.m_SndFile.Patterns).2 = false) :
    doc.ReArrangeChannels allocOk newOrder =
      (CHANNELINDEX_INVALID,
        { doc with m_SndFile := { doc.m_SndFile with
            Patterns := (rearrangePatterns allocOk doc.GetNumChannels newOrder
              (castCHANNELINDEX newOrder.length)
              (List.range doc.m_SndFile.Patterns.Size) doc.m_SndFile.Patterns).1 } }) := by
  unfold CModDoc.ReArrangeChannels
  have h1 : ¬ (castCHANNELINDEX newOrder.length > doc.m_SndFile.GetModSpecifications.channelsMax) := by
    omega
  have h2 : ¬ (castCHANNELINDEX newOrder.length < doc.m_SndFile.GetModSpecifications.channelsMin) := by
    omega
  simp only [h1, h2, hne, decide_False, Bool.or_self, Bool.false_eq_true, if_false]
  rcases hrp : rearrangePatterns allocOk doc.GetNumChannels newOrder
      (castCHANNELINDEX newOrder.length) (List.range doc.m_SndFile.Patterns.Size)
      doc.m_SndFile.Patterns with ⟨pats, b⟩
  rw [hrp] at hfail
  simp only at hfail
  subst hfail
  rfl

/-- A `newOrder` whose size fits `CHANNELINDEX` and lies outside the channel limits of the
format is rejected: the call returns `CHANNELINDEX_INVALID` and the document is the one
it was given. -/
theorem ReArrangeChannels_rejects_bad_count (allocOk : Nat → Bool) (doc : CModDoc)
    (newOrder : List Nat) (hsz : newOrder.length < 65536)
    (h : newOrder.length > doc.m_SndFile.GetModSpecifications.channelsMax ∨
      newOrder.length < doc.m_SndFile.GetModSpecifications.channelsMin) :
    doc.ReArrangeChannels allocOk newOrder = (CHANNELINDEX_INVALID, doc) := by
  apply ReArrangeChannels_eq_of_reject
  rw [castCHANNELINDEX_of_lt hsz]
  exact h

set_option maxRecDepth 100000 in
theorem ReArrangeChannels_exDoc_of_length (newOrder : List Nat) (hlen : newOrder.length = 65537) :
    (exDoc.ReArrangeChannels (fun _ => true) newOrder).1 = 1 ∧
    (exDoc.ReArrangeChannels (fun _ => true) newOrder).2.GetNumChannels = 1 ∧
    (exDoc.ReArrangeChannels (fun _ => true) newOrder).2.numCells 0 = 2 := by
  have hcast : castCHANNELINDEX newOrder.length = 1 := by rw [hlen]; rfl
  have hmax : castCHANNELINDEX newOrder.length
      ≤ exDoc.m_SndFile.GetModSpecifications.channelsMax := by rw [hcast]; decide
  have hmin : exDoc.m_SndFile.GetModSpecifications.channelsMin
      ≤ castCHANNELINDEX newOrder.length := by rw [hcast]; decide
  have hok := rearrangePatterns_ok (fun _ => true) exDoc.GetNumChannels newOrder
    (castCHANNELINDEX newOrder.length)
    (List.range exDoc.m_SndFile.Patterns.Size) exDoc.m_SndFile.Patterns (fun _ _ => rfl)
  have heq := ReArrangeChannels_eq_of_ok (fun _ => true) exDoc newOrder
    hmax hmin (by decide) hok
  obtain ⟨_, hget⟩ := ReArrangeChannels_patterns_of_ok (fun _ => true) exDoc
    newOrder hmax hmin (by decide) hok 0
  refine ⟨by rw [heq, hcast], ?_, ?_⟩
  · rw [heq]
    simp only [CModDoc.GetNumChannels, CSoundFile.GetNumChannels, rearrangeChannelStates_m_nChannels]
    exact hcast
  · unfold CModDoc.numCells
    rw [hget, if_pos (by decide)]
    simp only [rearrangedPattern, Option.getD_some, length_rearrangedPatData, hcast]
    decide

/-- C2: a `newOrder` of 65537 entries is above the 127 channels the format of the example
song allows, yet the size is reduced to `CHANNELINDEX` before it is checked: the call
returns 1 instead of `CHANNELINDEX_INVALID`, the song has 1 channel afterwards and the
8 cells of pattern 0 have become 2. -/
theorem C2_ReArrangeChannels_accepts_oversized :
    (List.replicate 65537 0).length > exDoc.m_SndFile.GetModSpecifications.channelsMax ∧
    exDoc.GetNumChannels = 4 ∧ exDoc.numCells 0 = 8 ∧
    (exDoc.ReArrangeChannels (fun _ => true) (List.replicate 65537 0)).1 = 1 ∧
    (exDoc.ReArrangeChannels (fun _ => true) (List.replicate 65537 0)).2.GetNumChannels = 1 ∧
    (exDoc.ReArrangeChannels (fun _ => true) (List.replicate 65537 0)).2.numCells 0 = 2 :=
  ⟨by rw [List.length_replicate]; decide, by decide, by decide,
    ReArrangeChannels_exDoc_of_length (List.replicate 65537 0) (List.length_replicate _ _)⟩

set_option maxRecDepth 100000 in
/-- C3: on the 4-channel example song, with a 3-entry `newOrder` and an allocation that
fails for pattern 2 (the second valid pattern), `ReArrangeChannels` returns
`CHANNELINDEX_INVALID` and the song still reports 4 channels, but pattern 0 has already
been replaced: its 2 rows now hold 6 cells, 3 a row, while pattern 2 still has 4 a row. -/
theorem C3_ReArrangeChannels_partial_commit :
    (exDoc.ReArrangeChannels (fun n => n != 2) [3, 0, 9]).1 = CHANNELINDEX_INVALID ∧
    (exDoc.ReArrangeChannels (fun n => n != 2) [3, 0, 9]).2.GetNumChannels = 4 ∧
    ((exDoc.ReArrangeChannels (fun n => n != 2) [3, 0, 9]).2.m_SndFile.Patterns.get 0).GetNumRows = 2 ∧
    (exDoc.ReArrangeChannels (fun n => n != 2) [3, 0, 9]).2.numCells 0 = 6 ∧
    ((exDoc.ReArrangeChannels (fun n => n != 2) [3, 0, 9]).2.m_SndFile.Patterns.get 2).GetNumRows = 1 ∧
    (exDoc.ReArrangeChannels (fun n => n != 2) [3, 0, 9]).2.numCells 2 = 4 := by
  decide


theorem rearrangePatterns_get_weak (allocOk : Nat → Bool) (numChannels : Nat) (newOrder : List Nat)
    (n : Nat) (idxs : List Nat) (pats : CPatternContainer) (hnd : idxs.Nodup) :
    (rearrangePatterns allocOk numChannels newOrder n idxs pats).1.m_Patterns.length
        = pats.m_Patterns.length ∧
    ∀ i, (i ∉ idxs → (rearrangePatterns allocOk numChannels newOrder n idxs pats).1.get i
        = pats.get i) ∧
      ((rearrangePatterns allocOk numChannels newOrder n idxs pats).1.get i = pats.get i ∨
      (pats.IsValidPat i = true ∧
        (rearrangePatterns allocOk numChannels newOrder n idxs pats).1.get i =
          rearrangedPattern numChannels newOrder n pats i)) := by
  induction idxs generalizing pats with
  | nil => simp [rearrangePatterns]
  | cons k rest ih =>
    have hkrest : k ∉ rest := (List.nodup_cons.mp hnd).1
    have hndrest : rest.Nodup := (List.nodup_cons.mp hnd).2
    unfold rearrangePatterns
    by_cases hv : pats.IsValidPat k = true
    · simp only [hv, if_true]
      cases hal : allocOk k with
      | false => simp [CPattern.AllocatePattern]
      | true =>
        simp only [CPattern.AllocatePattern, if_true]
        have hklen := pats.lt_length_of_IsValidPat k hv
        obtain ⟨hlen, hget⟩ := ih _ hndrest
        refine ⟨by rw [hlen]; simp, fun i => ?_⟩
        by_cases hik : i = k
        · subst hik
          refine ⟨fun hni => absurd (List.mem_cons_self _ _) hni, Or.inr ⟨hv, ?_⟩⟩
          rw [(hget i).1 hkrest, CPatternContainer.get_set]
          simp [hklen, rearrangedPattern]
        · refine ⟨fun hni => ?_, ?_⟩
          · have hir : i ∉ rest := fun h => hni (List.mem_cons_of_mem _ h)
            rw [(hget i).1 hir, CPatternContainer.get_set]
            simp [hik]
          · rcases (hget i).2 with h | ⟨hvi, h⟩
            · left
              rw [h, CPatternContainer.get_set]
              simp [hik]
            · right
              rw [CPatternContainer.IsValidPat_set_of_ne _ _ _ _ hik] at hvi
              refine ⟨hvi, ?_⟩
              rw [h]
              simp [rearrangedPattern, CPatternContainer.get_set, hik]
    · simp only [hv, Bool.false_eq_true, if_false]
      obtain ⟨hlen, hget⟩ := ih _ hndrest
      refine ⟨hlen, fun i => ⟨fun hni => ?_, (hget i).2⟩⟩
      exact (hget i).1 (fun h => hni (List.mem_cons_of_mem _ h))

theorem getD_range (n c : Nat) (hc : c < n) : (List.range n).getD c 0 = c := by
  rw [List.getD_eq_getElem?_getD, List.getElem?_range hc]
  rfl

theorem rearrangedPattern_identity (n : Nat) (pats : CPatternContainer) (i r c : Nat)
    (hr : r < (pats.get i).GetNumRows) (hc : c < n) :
    GetpModCommand ((rearrangedPattern n (List.range n) n pats i).m_ModCommands.getD []) n r c =
      GetpModCommand ((pats.get i).m_ModCommands.getD []) n r c := by
  simp only [rearrangedPattern, Option.getD_some]
  rw [GetpModCommand_rearrangedPatData _ _ _ _ _ r c hr hc, getD_range n c hc, if_pos hc]

theorem rearrangeChannelStates_identity (doc1 : CModDoc) (n : Nat)
    (hn : doc1.GetNumChannels = n) (htype : doc1.m_SndFile.m_nType &&& MOD_TYPE_MOD = 0)
    (c : Nat) (hc : c < n) :
    (rearrangeChannelStates doc1 (List.range n) n).m_SndFile.ChnSettings c
        = doc1.m_SndFile.ChnSettings c ∧
    (rearrangeChannelStates doc1 (List.range n) n).m_SndFile.Chn c = doc1.m_SndFile.Chn c := by
  unfold rearrangeChannelStates
  simp only
  have h3 : ((List.range n).foldl (moveChannel doc1 (List.range n)) doc1.ReinitRecordState).m_SndFile.ChnSettings
        = doc1.m_SndFile.ChnSettings ∧
      ((List.range n).foldl (moveChannel doc1 (List.range n)) doc1.ReinitRecordState).m_SndFile.Chn
        = doc1.m_SndFile.Chn ∧
      ((List.range n).foldl (moveChannel doc1 (List.range n)) doc1.ReinitRecordState).m_SndFile.m_nType
        = doc1.m_SndFile.m_nType := by
    apply foldl_invariant (fun d : CModDoc =>
      d.m_SndFile.ChnSettings = doc1.m_SndFile.ChnSettings ∧
      d.m_SndFile.Chn = doc1.m_SndFile.Chn ∧ d.m_SndFile.m_nType = doc1.m_SndFile.m_nType)
    · exact ⟨rfl, rfl, rfl⟩
    · intro acc x hx hacc
      obtain ⟨hs, hch, ht⟩ := hacc
      have hxn : x < n := List.mem_range.mp hx
      refine ⟨?_, ?_, by rw [moveChannel_m_nType]; exact ht⟩
      · unfold moveChannel
        simp only [getD_range n x hxn, hn, hxn, if_true, hs, Function.update_eq_self]
      · unfold moveChannel
        simp only [getD_range n x hxn, hn, hxn, if_true, hch, Function.update_eq_self]
  obtain ⟨hs3, hc3, ht3⟩ := h3
  apply foldl_invariant (fun d : CModDoc =>
    d.m_SndFile.ChnSettings c = doc1.m_SndFile.ChnSettings c ∧
    d.m_SndFile.Chn c = doc1.m_SndFile.Chn c)
  · refine ⟨?_, ?_⟩
    · simp only [CSoundFile.SetupMODPanning, ht3, htype, if_true, hs3]
    · simp only [SetupMODPanning_Chn, hc3]
  · intro acc x hx hacc
    simp only [List.mem_map, List.mem_range, CModDoc.GetNumChannels, CSoundFile.GetNumChannels] at hx
    obtain ⟨k, _, hk⟩ := hx
    have hne : c ≠ x := by omega
    rw [resetRemovedChannel_ChnSettings_of_ne _ _ _ hne, resetRemovedChannel_Chn_of_ne _ _ _ hne]
    exact hacc


theorem identity_patterns_aux (n : Nat) (pats pats2 : CPatternContainer)
    (hlen : pats2.m_Patterns.length = pats.m_Patterns.length)
    (hget : ∀ i, pats2.get i = pats.get i ∨
      (pats.IsValidPat i = true ∧ pats2.get i = rearrangedPattern n (List.range n) n pats i))
    (nPat r c : Nat) (hv : pats.IsValidPat nPat = true) (hr : r < (pats.get nPat).GetNumRows)
    (hc : c < n) :
    pats2.IsValidPat nPat = true ∧ (pats2.get nPat).GetNumRows = (pats.get nPat).GetNumRows ∧
    GetpModCommand ((pats2.get nPat).m_ModCommands.getD []) n r c =
      GetpModCommand ((pats.get nPat).m_ModCommands.getD []) n r c := by
  have hsize : pats2.Size = pats.Size := congrArg castPATTERNINDEX hlen
  have hv2 := hv
  simp only [CPatternContainer.IsValidPat, CPatternContainer.IsValidIndex, Bool.and_eq_true,
    decide_eq_true_eq] at hv2
  rcases hget nPat with h | ⟨_, h⟩
  · refine ⟨?_, by rw [h], by rw [h]⟩
    simp only [CPatternContainer.IsValidPat, CPatternContainer.IsValidIndex, Bool.and_eq_true,
      decide_eq_true_eq, hsize, h]
    exact hv2
  · refine ⟨?_, by rw [h]; rfl, ?_⟩
    · simp only [CPatternContainer.IsValidPat, CPatternContainer.IsValidIndex, Bool.and_eq_true,
        decide_eq_true_eq, hsize, h]
      exact ⟨hv2.1, rfl⟩
    · rw [h]
      exact rearrangedPattern_identity n pats nPat r c hr hc

theorem identity_aux_fail (doc : CModDoc) (P : CPatternContainer)
    (hlen : P.m_Patterns.length = doc.m_SndFile.Patterns.m_Patterns.length)
    (hget : ∀ i, P.get i = doc.m_SndFile.Patterns.get i ∨
      (doc.m_SndFile.Patterns.IsValidPat i = true ∧ P.get i =
        rearrangedPattern doc.GetNumChannels (List.range doc.GetNumChannels) doc.GetNumChannels
          doc.m_SndFile.Patterns i))
    (d : CModDoc) (hP : d.m_SndFile.Patterns = P) (hch : d.GetNumChannels = doc.GetNumChannels) :
    ∀ nPat r c, doc.m_SndFile.Patterns.IsValidPat nPat = true →
      r < (doc.m_SndFile.Patterns.get nPat).GetNumRows → c < doc.GetNumChannels →
      d.m_SndFile.Patterns.IsValidPat nPat = true ∧
      (d.m_SndFile.Patterns.get nPat).GetNumRows = (doc.m_SndFile.Patterns.get nPat).GetNumRows ∧
      d.cell nPat r c = doc.cell nPat r c := by
  intro nPat r c hv hr hc
  unfold CModDoc.cell
  rw [hP, hch]
  exact identity_patterns_aux _ _ _ hlen hget nPat r c hv hr hc

theorem identity_aux_states (doc d1 : CModDoc)
    (hs : d1.m_SndFile.ChnSettings = doc.m_SndFile.ChnSettings)
    (hch : d1.m_SndFile.Chn = doc.m_SndFile.Chn)
    (hn : d1.GetNumChannels = doc.GetNumChannels)
    (ht : d1.m_SndFile.m_nType = doc.m_SndFile.m_nType)
    (htype : doc.m_SndFile.m_nType &&& MOD_TYPE_MOD = 0) (c : Nat) (hc : c < doc.GetNumChannels) :
    (rearrangeChannelStates d1 (List.range doc.GetNumChannels)
      doc.GetNumChannels).m_SndFile.ChnSettings c = doc.m_SndFile.ChnSettings c ∧
    (rearrangeChannelStates d1 (List.range doc.GetNumChannels)
      doc.GetNumChannels).m_SndFile.Chn c = doc.m_SndFile.Chn c := by
  rw [← hs, ← hch]
  exact rearrangeChannelStates_identity d1 doc.GetNumChannels hn (by rw [ht]; exact htype) c hc

/-- C4 (amended): for a song of any format but MOD, `ReArrangeChannels` with the identity
permutation of its `n` channels leaves the channel count, every cell of every valid
pattern, and `ChnSettings[c]` and `Chn[c]` of every channel `c < n` unchanged, whether or
not the call succeeds. -/
theorem C4_ReArrangeChannels_identity (allocOk : Nat → Bool) (doc : CModDoc)
    (htype : doc.m_SndFile.m_nType &&& MOD_TYPE_MOD = 0) (hn : doc.GetNumChannels < 65536) :
    (doc.ReArrangeChannels allocOk (List.range doc.GetNumChannels)).2.GetNumChannels
      = doc.GetNumChannels ∧
    (∀ nPat r c, doc.m_SndFile.Patterns.IsValidPat nPat = true →
      r < (doc.m_SndFile.Patterns.get nPat).GetNumRows → c < doc.GetNumChannels →
      (doc.ReArrangeChannels allocOk (List.range doc.GetNumChannels)).2.m_SndFile.Patterns.IsValidPat
        nPat = true ∧
      ((doc.ReArrangeChannels allocOk (List.range doc.GetNumChannels)).2.m_SndFile.Patterns.get
        nPat).GetNumRows = (doc.m_SndFile.Patterns.get nPat).GetNumRows ∧
      (doc.ReArrangeChannels allocOk (List.range doc.GetNumChannels)).2.cell nPat r c
        = doc.cell nPat r c) ∧
    (∀ c, c < doc.GetNumChannels →
      (doc.ReArrangeChannels allocOk (List.range doc.GetNumChannels)).2.m_SndFile.ChnSettings c
        = doc.m_SndFile.ChnSettings c ∧
      (doc.ReArrangeChannels allocOk (List.range doc.GetNumChannels)).2.m_SndFile.Chn c
        = doc.m_SndFile.Chn c) := by
  have hcast : castCHANNELINDEX (List.range doc.GetNumChannels).length = doc.GetNumChannels := by
    rw [List.length_range]; exact castCHANNELINDEX_of_lt hn
  by_cases hrange : castCHANNELINDEX (List.range doc.GetNumChannels).length
        > doc.m_SndFile.GetModSpecifications.channelsMax ∨
      castCHANNELINDEX (List.range doc.GetNumChannels).length
        < doc.m_SndFile.GetModSpecifications.channelsMin
  · rw [ReArrangeChannels_eq_of_reject allocOk doc _ hrange]
    exact ⟨rfl, fun _ _ _ hv _ _ => ⟨hv, rfl, rfl⟩, fun _ _ => ⟨rfl, rfl⟩⟩
  · have hmax : castCHANNELINDEX (List.range doc.GetNumChannels).length
        ≤ doc.m_SndFile.GetModSpecifications.channelsMax := by omega
    have hmin : doc.m_SndFile.GetModSpecifications.channelsMin
        ≤ castCHANNELINDEX (List.range doc.GetNumChannels).length := by omega
    by_cases hsz : doc.m_SndFile.Patterns.Size = 0
    · rw [ReArrangeChannels_eq_of_empty allocOk doc _ hmax hmin hsz]
      exact ⟨rfl, fun _ _ _ hv _ _ => ⟨hv, rfl, rfl⟩, fun _ _ => ⟨rfl, rfl⟩⟩
    · obtain ⟨hlen, hget⟩ := rearrangePatterns_get_weak allocOk doc.GetNumChannels
        (List.range doc.GetNumChannels) (castCHANNELINDEX (List.range doc.GetNumChannels).length)
        (List.range doc.m_SndFile.Patterns.Size) doc.m_SndFile.Patterns (List.nodup_range _)
      by_cases hok : (rearrangePatterns allocOk doc.GetNumChannels (List.range doc.GetNumChannels)
          (castCHANNELINDEX (List.range doc.GetNumChannels).length)
          (List.range doc.m_SndFile.Patterns.Size) doc.m_SndFile.Patterns).2 = true
      · have heq := ReArrangeChannels_eq_of_ok allocOk doc _ hmax hmin hsz hok
        rw [hcast] at heq hlen hget
        rw [heq]
        refine ⟨rearrangeChannelStates_m_nChannels _ _ _, ?_, fun c hc => ?_⟩
        · exact identity_aux_fail doc _ hlen (fun i => (hget i).2) _
            (rearrangeChannelStates_Patterns _ _ _) (rearrangeChannelStates_m_nChannels _ _ _)
        · refine identity_aux_states doc _ ?_ ?_ ?_ ?_ htype c hc <;> rfl
      · have hfail : (rearrangePatterns allocOk doc.GetNumChannels (List.range doc.GetNumChannels)
            (castCHANNELINDEX (List.range doc.GetNumChannels).length)
            (List.range doc.m_SndFile.Patterns.Size) doc.m_SndFile.Patterns).2 = false := by
          simpa using hok
        have heq := ReArrangeChannels_eq_of_alloc_fail allocOk doc _ hmax hmin hsz hfail
        rw [hcast] at heq hlen hget
        rw [heq]
        refine ⟨rfl, ?_, fun _ _ => ⟨rfl, rfl⟩⟩
        exact identity_aux_fail doc _ hlen (fun i => (hget i).2) _ rfl rfl

set_option maxRecDepth 100000 in
/-- Witness of C4: the identity permutation on the 4-channel example song. -/
theorem C4_ReArrangeChannels_identity_witness :
    exDoc.m_SndFile.m_nType &&& MOD_TYPE_MOD = 0 ∧ exDoc.GetNumChannels < 65536 ∧
    (exDoc.ReArrangeChannels (fun _ => true) (List.range exDoc.GetNumChannels)).2.GetNumChannels
      = exDoc.GetNumChannels ∧
    (exDoc.ReArrangeChannels (fun _ => true) (List.range exDoc.GetNumChannels)).2.cell 0 1 2
      = exDoc.cell 0 1 2 ∧
    (exDoc.ReArrangeChannels (fun _ => true) (List.range exDoc.GetNumChannels)).2.m_SndFile.Chn 3
      = exDoc.m_SndFile.Chn 3 :=
  have h := C4_ReArrangeChannels_identity (fun _ => true) exDoc (by decide) (by decide)
  ⟨by decide, by decide, h.1, (h.2.1 0 1 2 (by decide) (by decide) (by decide)).2.2,
    (h.2.2 3 (by decide)).2⟩

set_option maxRecDepth 100000 in
/-- C4 as stated fails for a MOD song: the identity permutation of the 4 channels of the
example MOD song succeeds and changes the settings of channel 0 (its panning is reset
from 128 to 64). -/
theorem C4_ReArrangeChannels_identity_MOD_counterexample :
    (exModDoc.ReArrangeChannels (fun _ => true) [0, 1, 2, 3]).1 = 4 ∧
    (exModDoc.m_SndFile.ChnSettings 0).nPan = 128 ∧
    ((exModDoc.ReArrangeChannels (fun _ => true) [0, 1, 2, 3]).2.m_SndFile.ChnSettings 0).nPan = 64 ∧
    (exModDoc.ReArrangeChannels (fun _ => true) [0, 1, 2, 3]).2.m_SndFile.ChnSettings 0
      ≠ exModDoc.m_SndFile.ChnSettings 0 := by
  decide


/-- C5 (amended): when the pattern container is not empty and the size of `newOrder` fits
`CHANNELINDEX`, a call of `ReArrangeChannels` that does not return `CHANNELINDEX_INVALID`
returns the size of `newOrder`, which is the channel count of the song afterwards, and
every valid pattern has kept its row count and holds exactly rows times that many cells. -/
theorem C5_ReArrangeChannels_result (allocOk : Nat → Bool) (doc : CModDoc) (newOrder : List Nat)
    (hsz : newOrder.length < 65536) (hne : doc.m_SndFile.Patterns.Size ≠ 0)
    (hret : (doc.ReArrangeChannels allocOk newOrder).1 ≠ CHANNELINDEX_INVALID) :
    (doc.ReArrangeChannels allocOk newOrder).1 = newOrder.length ∧
    (doc.ReArrangeChannels allocOk newOrder).2.GetNumChannels = newOrder.length ∧
    ∀ nPat, (doc.ReArrangeChannels allocOk newOrder).2.m_SndFile.Patterns.IsValidPat nPat = true →
      ((doc.ReArrangeChannels allocOk newOrder).2.m_SndFile.Patterns.get nPat).GetNumRows
        = (doc.m_SndFile.Patterns.get nPat).GetNumRows ∧
      (doc.ReArrangeChannels allocOk newOrder).2.numCells nPat
        = ((doc.ReArrangeChannels allocOk newOrder).2.m_SndFile.Patterns.get nPat).GetNumRows
          * newOrder.length := by
  have hcast : castCHANNELINDEX newOrder.length = newOrder.length := castCHANNELINDEX_of_lt hsz
  by_cases hrange : castCHANNELINDEX newOrder.length
        > doc.m_SndFile.GetModSpecifications.channelsMax ∨
      castCHANNELINDEX newOrder.length < doc.m_SndFile.GetModSpecifications.channelsMin
  · rw [ReArrangeChannels_eq_of_reject allocOk doc _ hrange] at hret
    exact absurd rfl hret
  · have hmax : castCHANNELINDEX newOrder.length
        ≤ doc.m_SndFile.GetModSpecifications.channelsMax := by omega
    have hmin : doc.m_SndFile.GetModSpecifications.channelsMin
        ≤ castCHANNELINDEX newOrder.length := by omega
    by_cases hok : (rearrangePatterns allocOk doc.GetNumChannels newOrder
        (castCHANNELINDEX newOrder.length)
        (List.range doc.m_SndFile.Patterns.Size) doc.m_SndFile.Patterns).2 = true
    · have heq := ReArrangeChannels_eq_of_ok allocOk doc newOrder hmax hmin hne hok
      have hcount : (doc.ReArrangeChannels allocOk newOrder).2.GetNumChannels = newOrder.length := by
        rw [heq]
        exact (rearrangeChannelStates_m_nChannels _ _ _).trans hcast
      refine ⟨by rw [heq]; exact hcast, hcount, fun nPat hv => ?_⟩
      obtain ⟨hsize, hget⟩ := ReArrangeChannels_patterns_of_ok allocOk doc newOrder hmax hmin hne
        hok nPat
      by_cases hvold : doc.m_SndFile.Patterns.IsValidPat nPat = true
      · rw [if_pos hvold] at hget
        unfold CModDoc.numCells
        rw [hget]
        simp only [rearrangedPattern, Option.getD_some, length_rearrangedPatData, hcast,
          CPattern.GetNumRows, and_self]
      · rw [if_neg hvold] at hget
        exfalso
        apply hvold
        simp only [CPatternContainer.IsValidPat, CPatternContainer.IsValidIndex, Bool.and_eq_true,
          decide_eq_true_eq, hsize, hget] at hv
        simp only [CPatternContainer.IsValidPat, CPatternContainer.IsValidIndex, Bool.and_eq_true,
          decide_eq_true_eq]
        exact hv
    · have hfail : (rearrangePatterns allocOk doc.GetNumChannels newOrder
          (castCHANNELINDEX newOrder.length)
          (List.range doc.m_SndFile.Patterns.Size) doc.m_SndFile.Patterns).2 = false := by
        simpa using hok
      rw [ReArrangeChannels_eq_of_alloc_fail allocOk doc _ hmax hmin hne hfail] at hret
      exact absurd rfl hret

set_option maxRecDepth 100000 in
/-- Witness of C5: moving channel 3 to the front of the 4-channel example song. -/
theorem C5_ReArrangeChannels_result_witness :
    [3, 0, 9].length < 65536 ∧ exDoc.m_SndFile.Patterns.Size ≠ 0 ∧
    (exDoc.ReArrangeChannels (fun _ => true) [3, 0, 9]).1 ≠ CHANNELINDEX_INVALID ∧
    (exDoc.ReArrangeChannels (fun _ => true) [3, 0, 9]).1 = [3, 0, 9].length ∧
    (exDoc.ReArrangeChannels (fun _ => true) [3, 0, 9]).2.GetNumChannels = [3, 0, 9].length ∧
    (exDoc.ReArrangeChannels (fun _ => true) [3, 0, 9]).2.numCells 0 = 6 :=
  have h := C5_ReArrangeChannels_result (fun _ => true) exDoc [3, 0, 9] (by decide) (by decide)
    (by decide)
  ⟨by decide, by decide, by decide, h.1, h.2.1, by decide⟩

set_option maxRecDepth 100000 in
/-- C5 as stated fails when the pattern container is empty: on the 4-channel example song
without patterns a 2-entry `newOrder` is accepted, but the call returns the old channel
count 4 and the song keeps 4 channels. -/
theorem C5_ReArrangeChannels_empty_container_counterexample :
    (exNoPatternDoc.ReArrangeChannels (fun _ => true) [0, 1]).1 ≠ CHANNELINDEX_INVALID ∧
    (exNoPatternDoc.ReArrangeChannels (fun _ => true) [0, 1]).1 ≠ [0, 1].length ∧
    (exNoPatternDoc.ReArrangeChannels (fun _ => true) [0, 1]).2.GetNumChannels ≠ [0, 1].length := by
  decide


theorem keepCount_foldl (keepMask : List Bool) (l : List Nat) (a : Nat)
    (h : a + l.length < 65536) :
    l.foldl (fun n nChn => if keepMask.getD nChn false then castCHANNELINDEX (n + 1) else n) a
      = a + (l.filter (fun c => keepMask.getD c false)).length := by
  induction l generalizing a with
  | nil => simp
  | cons x rest ih =>
    simp only [List.length_cons] at h
    rw [List.foldl_cons]
    by_cases hx : keepMask.getD x false = true
    · rw [if_pos hx, castCHANNELINDEX_of_lt (by omega), ih _ (by omega)]
      simp only [List.filter_cons, hx, if_true, List.length_cons]
      omega
    · rw [if_neg hx, ih _ (by omega)]
      simp only [List.filter_cons, hx, Bool.false_eq_true, if_false]

theorem keptChannelsLoop_spec (keepMask : List Bool) (l : List Nat) (done : List Nat) (m : Nat)
    (hm : (l.filter (fun c => keepMask.getD c false)).length ≤ m)
    (hb : done.length + m < 65536) :
    (keptChannelsLoop keepMask l (done ++ List.replicate m 0, done.length)).1 =
      done ++ l.filter (fun c => keepMask.getD c false)
        ++ List.replicate (m - (l.filter (fun c => keepMask.getD c false)).length) 0 := by
  induction l generalizing done m with
  | nil => simp [keptChannelsLoop]
  | cons x rest ih =>
    unfold keptChannelsLoop
    by_cases hx : keepMask.getD x false = true
    · simp only [List.filter_cons, hx, if_true, List.length_cons] at hm ⊢
      obtain ⟨m2, rfl⟩ : ∃ m2, m = m2 + 1 := ⟨m - 1, by omega⟩
      have hset : (done ++ List.replicate (m2 + 1) 0).set done.length x
          = (done ++ [x]) ++ List.replicate m2 0 := by
        rw [List.set_append_right _ _ (Nat.le_refl _)]
        simp [List.replicate_succ]
      have hi : castCHANNELINDEX (done.length + 1) = (done ++ [x]).length := by
        rw [castCHANNELINDEX_of_lt (by omega)]; simp
      rw [hset, hi, ih (done ++ [x]) m2 (by omega) (by simp; omega)]
      simp
    · simp only [List.filter_cons, hx, Bool.false_eq_true, if_false] at hm ⊢
      exact ih done m hm hb

theorem truePositions_eq (keepMask : List Bool) (n : Nat) (h : keepMask.length = n) :
    truePositions keepMask = (List.range n).filter (fun c => keepMask.getD c false) := by
  unfold truePositions
  rw [h]

theorem truePositions_getD_lt (keepMask : List Bool) (i : Nat)
    (hi : i < (truePositions keepMask).length) :
    (truePositions keepMask).getD i 0 < keepMask.length := by
  have hmem : (truePositions keepMask).getD i 0 ∈ truePositions keepMask := by
    rw [List.getD_eq_getElem?_getD, List.getElem?_eq_getElem hi]
    exact List.getElem_mem _
  unfold truePositions at hmem
  exact List.mem_range.mp (List.mem_filter.mp hmem).1

theorem RemoveChannels_eq (allocOk : Nat → Bool) (doc : CModDoc) (keepMask : List Bool)
    (hmask : keepMask.length = doc.GetNumChannels) (hn : doc.GetNumChannels < 65536)
    (hk1 : doc.m_SndFile.GetModSpecifications.channelsMin ≤ (truePositions keepMask).length)
    (hk2 : (truePositions keepMask).length ≠ doc.GetNumChannels) :
    doc.RemoveChannels allocOk keepMask =
      (decide ((doc.ReArrangeChannels allocOk (truePositions keepMask)).1
          = (truePositions keepMask).length),
        (doc.ReArrangeChannels allocOk (truePositions keepMask)).2) := by
  have htp := truePositions_eq keepMask doc.GetNumChannels hmask
  have hcount : (List.range doc.GetNumChannels).foldl
      (fun n nChn => if keepMask.getD nChn false then castCHANNELINDEX (n + 1) else n) 0
      = (truePositions keepMask).length := by
    rw [keepCount_foldl keepMask _ 0 (by simp; omega), htp]
    simp
  have hchannels : (keptChannelsLoop keepMask (List.range doc.GetNumChannels)
      (List.replicate (truePositions keepMask).length 0, 0)).1 = truePositions keepMask := by
    have h := keptChannelsLoop_spec keepMask (List.range doc.GetNumChannels) []
      (truePositions keepMask).length (by rw [htp]) (by
        have : (truePositions keepMask).length ≤ doc.GetNumChannels := by
          rw [htp]
          exact (List.length_filter_le _ _).trans (by simp)
        simp only [List.length_nil]; omega)
    simp only [List.nil_append, List.length_nil] at h
    rw [h, ← htp]
    simp
  unfold CModDoc.RemoveChannels
  simp only [hcount, hchannels]
  have h1 : ¬ ((truePositions keepMask).length
      < doc.m_SndFile.GetModSpecifications.channelsMin) := by omega
  simp only [hk2, h1, decide_False, Bool.or_self, Bool.false_eq_true, if_false]

/-- C6 (amended): for a song whose channel count is within the limits of its format, with
a non-empty pattern container and pattern allocations that all succeed, and a `keepMask`
with one entry per channel that keeps `k` channels, `channelsMin <= k < ` old channel
count, `RemoveChannels` returns true, the new channel count is `k`, and every valid pattern
stays valid and holds in row `r` and new channel `i < k` the old cell of row `r` and of the
channel at the position of the `i`-th true entry of `keepMask`. -/
theorem C6_RemoveChannels_compacts (allocOk : Nat → Bool) (doc : CModDoc) (keepMask : List Bool)
    (hmask : keepMask.length = doc.GetNumChannels)
    (hwf : doc.GetNumChannels ≤ doc.m_SndFile.GetModSpecifications.channelsMax)
    (hspec : doc.m_SndFile.GetModSpecifications.channelsMax < 65536)
    (hk1 : doc.m_SndFile.GetModSpecifications.channelsMin ≤ (truePositions keepMask).length)
    (hk2 : (truePositions keepMask).length < doc.GetNumChannels)
    (hne : doc.m_SndFile.Patterns.Size ≠ 0)
    (halloc : ∀ nPat, allocOk nPat = true) :
    (doc.RemoveChannels allocOk keepMask).1 = true ∧
    (doc.RemoveChannels allocOk keepMask).2.GetNumChannels = (truePositions keepMask).length ∧
    ∀ nPat r i, doc.m_SndFile.Patterns.IsValidPat nPat = true →
      r < (doc.m_SndFile.Patterns.get nPat).GetNumRows → i < (truePositions keepMask).length →
      (doc.RemoveChannels allocOk keepMask).2.m_SndFile.Patterns.IsValidPat nPat = true ∧
      (doc.RemoveChannels allocOk keepMask).2.cell nPat r i
        = doc.cell nPat r ((truePositions keepMask).getD i 0) := by
  rw [RemoveChannels_eq allocOk doc keepMask hmask (by omega) hk1 (by omega)]
  have hok := rearrangePatterns_ok allocOk doc.GetNumChannels (truePositions keepMask)
    (castCHANNELINDEX (truePositions keepMask).length) (List.range doc.m_SndFile.Patterns.Size)
    doc.m_SndFile.Patterns (fun i _ => halloc i)
  have hcast : castCHANNELINDEX (truePositions keepMask).length
      = (truePositions keepMask).length := castCHANNELINDEX_of_lt (by omega)
  have heq := ReArrangeChannels_eq_of_ok allocOk doc (truePositions keepMask) (by omega)
    (by omega) hne hok
  have hret : (doc.ReArrangeChannels allocOk (truePositions keepMask)).1
      = (truePositions keepMask).length := by
    rw [heq]; exact hcast
  have hcount : (doc.ReArrangeChannels allocOk (truePositions keepMask)).2.GetNumChannels
      = (truePositions keepMask).length := by
    rw [heq]
    exact (rearrangeChannelStates_m_nChannels _ _ _).trans hcast
  refine ⟨by simp [hret], hcount, fun nPat r i hv hr hi => ?_⟩
  obtain ⟨hvalid, _, hcell⟩ := ReArrangeChannels_cell_of_ok allocOk doc (truePositions keepMask)
    hcast hk1 (by omega) hne hok nPat hv r hr i hi
  refine ⟨hvalid, ?_⟩
  have hlt : (truePositions keepMask).getD i 0 < doc.GetNumChannels := by
    rw [← hmask]; exact truePositions_getD_lt keepMask i hi
  unfold CModDoc.cell at hcell ⊢
  rw [hcount, hcell, if_pos hlt]

set_option maxRecDepth 100000 in
/-- Witness of C6: removing channel 2 of the 4-channel example song leaves 3 channels with
the old channel 3 at the new index 2. -/
theorem C6_RemoveChannels_compacts_witness :
    [true, true, false, true].length = exDoc.GetNumChannels ∧
    exDoc.GetNumChannels ≤ exDoc.m_SndFile.GetModSpecifications.channelsMax ∧
    exDoc.m_SndFile.GetModSpecifications.channelsMin
      ≤ (truePositions [true, true, false, true]).length ∧
    (truePositions [true, true, false, true]).length < exDoc.GetNumChannels ∧
    exDoc.m_SndFile.Patterns.Size ≠ 0 ∧
    (exDoc.RemoveChannels (fun _ => true) [true, true, false, true]).1 = true ∧
    (exDoc.RemoveChannels (fun _ => true) [true, true, false, true]).2.GetNumChannels = 3 ∧
    (truePositions [true, true, false, true]).getD 2 0 = 3 ∧
    (exDoc.RemoveChannels (fun _ => true) [true, true, false, true]).2.cell 0 1 2
      = exDoc.cell 0 1 3 :=
  have h := C6_RemoveChannels_compacts (fun _ => true) exDoc [true, true, false, true]
    (by decide) (by decide) (by decide) (by decide) (by decide) (by decide) (fun _ => rfl)
  ⟨by decide, by decide, by decide, by decide, by decide, h.1, h.2.1, by decide,
    (h.2.2 0 1 2 (by decide) (by decide) (by decide)).2⟩

set_option maxRecDepth 100000 in
/-- C6 as stated fails when a pattern allocation fails: `keepMask` keeps 3 of the 4
channels of the example song, within the limits of the format, and `RemoveChannels`
returns false, the song still having 4 channels. -/
theorem C6_RemoveChannels_alloc_failure_counterexample :
    [true, true, false, true].length = exDoc.GetNumChannels ∧
    exDoc.m_SndFile.GetModSpecifications.channelsMin
      ≤ (truePositions [true, true, false, true]).length ∧
    (truePositions [true, true, false, true]).length < exDoc.GetNumChannels ∧
    (exDoc.RemoveChannels (fun _ => false) [true, true, false, true]).1 = false ∧
    (exDoc.RemoveChannels (fun _ => false) [true, true, false, true]).2.GetNumChannels = 4 := by
  decide


theorem castSAMPLEINDEX_of_lt {n : Nat} (h : n < 65536) : castSAMPLEINDEX n = n := by
  unfold castSAMPLEINDEX; omega

theorem foldl_range_succ {β : Type} (f : β → Nat → β) (b : β) (n : Nat) :
    (List.range (n + 1)).foldl f b = f ((List.range n).foldl f b) n := by
  rw [List.range_succ, List.foldl_append]
  rfl

theorem collectSample_of_valid (s0 : CSoundFile) (old : Nat) (newOrder : List Nat)
    (t : SampleTables) (i : Nat) (h0 : 0 < newOrder.getD i 0) (h1 : newOrder.getD i 0 ≤ old) :
    collectSample s0 old newOrder t i =
      { sampleCount := Function.update t.sampleCount (newOrder.getD i 0)
          (t.sampleCount (newOrder.getD i 0) + 1)
        sampleHeaders := Function.update t.sampleHeaders (newOrder.getD i 0)
          (s0.Samples (newOrder.getD i 0))
        newIndex := Function.update t.newIndex (newOrder.getD i 0) (castSAMPLEINDEX (i + 1)) } := by
  unfold collectSample
  have hv : (decide (newOrder.getD i 0 > 0) && decide (newOrder.getD i 0 ≤ old)) = true := by
    simp only [gt_iff_lt, h0, h1, decide_True, Bool.and_self]
  simp only [hv, if_true]

theorem collectSample_of_invalid (s0 : CSoundFile) (old : Nat) (newOrder : List Nat)
    (t : SampleTables) (i : Nat) (h : ¬ (0 < newOrder.getD i 0 ∧ newOrder.getD i 0 ≤ old)) :
    collectSample s0 old newOrder t i = t := by
  unfold collectSample
  have hv : (decide (newOrder.getD i 0 > 0) && decide (newOrder.getD i 0 ≤ old)) = false := by
    simpa using h
  simp only [hv, Bool.false_eq_true, if_false]

theorem collectSample_sampleHeaders (s0 : CSoundFile) (old : Nat) (newOrder : List Nat) (n k : Nat)
    (hk0 : 0 < k) (hk : k ≤ old) (hocc : ∃ p, p < n ∧ newOrder.getD p 0 = k) :
    ((List.range n).foldl (collectSample s0 old newOrder) SampleTables.init).sampleHeaders k
      = s0.Samples k := by
  induction n with
  | zero => obtain ⟨p, hp, _⟩ := hocc; omega
  | succ m ih =>
    rw [foldl_range_succ]
    by_cases hm : newOrder.getD m 0 = k
    · subst hm
      rw [collectSample_of_valid _ _ _ _ _ hk0 hk]
      simp only [Function.update_same]
    · have hocc2 : ∃ p, p < m ∧ newOrder.getD p 0 = k := by
        obtain ⟨p, hp, hpk⟩ := hocc
        refine ⟨p, ?_, hpk⟩
        rcases Nat.lt_succ_iff_lt_or_eq.mp hp with h | h
        · exact h
        · subst h; exact absurd hpk hm
      by_cases hv : 0 < newOrder.getD m 0 ∧ newOrder.getD m 0 ≤ old
      · rw [collectSample_of_valid _ _ _ _ _ hv.1 hv.2]
        simp only [Function.update_noteq (Ne.symm hm)]
        exact ih hocc2
      · rw [collectSample_of_invalid _ _ _ _ _ hv]
        exact ih hocc2

theorem collectSample_newIndex_none (s0 : CSoundFile) (old : Nat) (newOrder : List Nat) (n k : Nat)
    (hnone : ∀ q, q < n → newOrder.getD q 0 = k → ¬ (0 < k ∧ k ≤ old)) :
    ((List.range n).foldl (collectSample s0 old newOrder) SampleTables.init).newIndex k = 0 := by
  induction n with
  | zero => rfl
  | succ m ih =>
    rw [foldl_range_succ]
    have ih2 := ih (fun q hq => hnone q (Nat.lt_succ_of_lt hq))
    by_cases hv : 0 < newOrder.getD m 0 ∧ newOrder.getD m 0 ≤ old
    · rw [collectSample_of_valid _ _ _ _ _ hv.1 hv.2]
      have hne : k ≠ newOrder.getD m 0 := by
        intro h
        exact hnone m (Nat.lt_succ_self m) h.symm (by rw [h]; exact hv)
      simp only [Function.update_noteq hne]
      exact ih2
    · rw [collectSample_of_invalid _ _ _ _ _ hv]
      exact ih2

theorem collectSample_newIndex_last (s0 : CSoundFile) (old : Nat) (newOrder : List Nat)
    (n p k : Nat) (hp : p < n) (hpk : newOrder.getD p 0 = k) (hk0 : 0 < k) (hk : k ≤ old)
    (hlast : ∀ q, p < q → q < n → newOrder.getD q 0 ≠ k) :
    ((List.range n).foldl (collectSample s0 old newOrder) SampleTables.init).newIndex k
      = castSAMPLEINDEX (p + 1) := by
  induction n with
  | zero => omega
  | succ m ih =>
    rw [foldl_range_succ]
    rcases Nat.lt_succ_iff_lt_or_eq.mp hp with h | h
    · have hm : newOrder.getD m 0 ≠ k := hlast m h (Nat.lt_succ_self m)
      have ih2 := ih h (fun q hq1 hq2 => hlast q hq1 (Nat.lt_succ_of_lt hq2))
      by_cases hv : 0 < newOrder.getD m 0 ∧ newOrder.getD m 0 ≤ old
      · rw [collectSample_of_valid _ _ _ _ _ hv.1 hv.2]
        simp only [Function.update_noteq (Ne.symm hm)]
        exact ih2
      · rw [collectSample_of_invalid _ _ _ _ _ hv]
        exact ih2
    · subst h
      subst hpk
      rw [collectSample_of_valid _ _ _ _ _ hk0 hk]
      simp only [Function.update_same]


theorem sameButSamples_refl (s : CSoundFile) : sameButSamples s s :=
  ⟨rfl, rfl, rfl, rfl, rfl, rfl, rfl, rfl, rfl⟩

theorem sameButSamples_trans {s s2 s3 : CSoundFile} (h1 : sameButSamples s s2)
    (h2 : sameButSamples s2 s3) : sameButSamples s s3 := by
  obtain ⟨a1, a2, a3, a4, a5, a6, a7, a8, a9⟩ := h1
  obtain ⟨b1, b2, b3, b4, b5, b6, b7, b8, b9⟩ := h2
  exact ⟨b1.trans a1, b2.trans a2, b3.trans a3, b4.trans a4, b5.trans a5, b6.trans a6,
    b7.trans a7, b8.trans a8, b9.trans a9⟩

theorem DestroySample_same (s : CSoundFile) (n : Nat) : sameButSamples s (s.DestroySample n) := by
  unfold CSoundFile.DestroySample
  split <;> exact ⟨rfl, rfl, rfl, rfl, rfl, rfl, rfl, rfl, rfl⟩

theorem DestroySample_m_szNames (s : CSoundFile) (n : Nat) :
    (s.DestroySample n).m_szNames = s.m_szNames := by
  unfold CSoundFile.DestroySample
  split <;> rfl

theorem destroyUnusedSample_same (t : SampleTables) (st : CSoundFile × (Nat → String)) (i : Nat) :
    sameButSamples st.1 (destroyUnusedSample t st i).1 ∧
    (destroyUnusedSample t st i).1.m_szNames = st.1.m_szNames := by
  unfold destroyUnusedSample
  simp only
  split
  · exact ⟨DestroySample_same _ _, DestroySample_m_szNames _ _⟩
  · exact ⟨sameButSamples_refl _, rfl⟩

theorem destroyUnusedSample_names (t : SampleTables) (st : CSoundFile × (Nat → String)) (i k : Nat) :
    (destroyUnusedSample t st i).2 k = if k = i then st.1.m_szNames k else st.2 k := by
  have h := (destroyUnusedSample_same t st i).2
  unfold destroyUnusedSample at h ⊢
  simp only at h ⊢
  by_cases hk : k = i
  · subst hk
    simp only [Function.update_same, if_true, h]
  · simp only [Function.update_noteq hk, hk, if_false]

theorem destroyLoop_spec (t : SampleTables) (l : List Nat) (st : CSoundFile × (Nat → String)) :
    sameButSamples st.1 (l.foldl (destroyUnusedSample t) st).1 ∧
    (l.foldl (destroyUnusedSample t) st).1.m_szNames = st.1.m_szNames ∧
    ∀ k, (l.foldl (destroyUnusedSample t) st).2 k = if k ∈ l then st.1.m_szNames k else st.2 k := by
  induction l generalizing st with
  | nil => exact ⟨sameButSamples_refl _, rfl, fun k => by simp⟩
  | cons x rest ih =>
    rw [List.foldl_cons]
    obtain ⟨h1, h2, h3⟩ := ih (destroyUnusedSample t st x)
    obtain ⟨g1, g2⟩ := destroyUnusedSample_same t st x
    refine ⟨sameButSamples_trans g1 h1, h2.trans g2, fun k => ?_⟩
    rw [h3 k, g2, destroyUnusedSample_names]
    by_cases hkx : k = x
    · subst hkx; simp
    · simp [hkx]

theorem clearLoop_same (l : List Nat) (s : CSoundFile) :
    sameButSamples s (l.foldl clearUnusedSlot s) := by
  induction l generalizing s with
  | nil => exact sameButSamples_refl _
  | cons x rest ih =>
    rw [List.foldl_cons]
    exact sameButSamples_trans ⟨rfl, rfl, rfl, rfl, rfl, rfl, rfl, rfl, rfl⟩ (ih _)

theorem createSample_same (smpAllocOk : Nat → Bool) (old : Nat) (newOrder : List Nat)
    (t : SampleTables) (names : Nat → String) (st : CSoundFile × (Nat → Nat)) (i : Nat) :
    sameButSamples st.1 (createSample smpAllocOk old newOrder t names st i).1 ∧
    (createSample smpAllocOk old newOrder t names st i).1.m_nSamples = st.1.m_nSamples := by
  unfold createSample
  simp only
  split
  · split
    · split <;> exact ⟨⟨rfl, rfl, rfl, rfl, rfl, rfl, rfl, rfl, rfl⟩, rfl⟩
    · exact ⟨⟨rfl, rfl, rfl, rfl, rfl, rfl, rfl, rfl, rfl⟩, rfl⟩
  · exact ⟨⟨rfl, rfl, rfl, rfl, rfl, rfl, rfl, rfl, rfl⟩, rfl⟩

theorem createSample_other (smpAllocOk : Nat → Bool) (old : Nat) (newOrder : List Nat)
    (t : SampleTables) (names : Nat → String) (st : CSoundFile × (Nat → Nat)) (i j : Nat)
    (hj : j ≠ i + 1) :
    (createSample smpAllocOk old newOrder t names st i).1.Samples j = st.1.Samples j ∧
    (createSample smpAllocOk old newOrder t names st i).1.m_szNames j = st.1.m_szNames j := by
  unfold createSample
  simp only
  split
  · split
    · split <;> simp only [Function.update_noteq hj, and_self]
    · simp only [Function.update_noteq hj, and_self]
  · simp only [Function.update_noteq hj, and_self]

theorem createSample_valid (smpAllocOk : Nat → Bool) (old : Nat) (newOrder : List Nat)
    (t : SampleTables) (names : Nat → String) (st : CSoundFile × (Nat → Nat)) (i : Nat)
    (hv : 0 < newOrder.getD i 0 ∧ newOrder.getD i 0 ≤ old) :
    (∃ p, (createSample smpAllocOk old newOrder t names st i).1.Samples (i + 1)
      = { t.sampleHeaders (newOrder.getD i 0) with pSample := p }) ∧
    (createSample smpAllocOk old newOrder t names st i).1.m_szNames (i + 1)
      = names (newOrder.getD i 0) := by
  have hb : (decide (newOrder.getD i 0 > 0) && decide (newOrder.getD i 0 ≤ old)) = true := by
    simp only [gt_iff_lt, hv.1, hv.2, decide_True, Bool.and_self]
  unfold createSample
  simp only [hb, if_true]
  by_cases hcopy : (decide (st.2 (newOrder.getD i 0) - 1 > 0)
      && (t.sampleHeaders (newOrder.getD i 0)).pSample.isSome) = true
  · simp only [hcopy, if_true]
    cases hal : ModSample.AllocateSample (smpAllocOk i) (t.sampleHeaders (newOrder.getD i 0)).nLength
        (t.sampleHeaders (newOrder.getD i 0)).GetBytesPerSample with
    | none =>
      simp only [Function.update_same, and_true]
      exact ⟨_, rfl⟩
    | some block =>
      simp only [Function.update_same, ModSample.PrecomputeLoops, and_true]
      exact ⟨_, rfl⟩
  · simp only [hcopy, Bool.false_eq_true, if_false, Function.update_same, and_true]
    exact ⟨_, rfl⟩

theorem createSample_invalid (smpAllocOk : Nat → Bool) (old : Nat) (newOrder : List Nat)
    (t : SampleTables) (names : Nat → String) (st : CSoundFile × (Nat → Nat)) (i : Nat)
    (hv : ¬ (0 < newOrder.getD i 0 ∧ newOrder.getD i 0 ≤ old)) :
    (createSample smpAllocOk old newOrder t names st i).1.Samples (i + 1)
      = { (st.1.Samples (i + 1)).Initialize st.1.m_nType with pSample := none } ∧
    (createSample smpAllocOk old newOrder t names st i).1.m_szNames (i + 1) = "" := by
  have hb : (decide (newOrder.getD i 0 > 0) && decide (newOrder.getD i 0 ≤ old)) = false := by
    simpa using hv
  unfold createSample
  simp only [hb, Bool.false_eq_true, if_false, Function.update_same, CSoundFile.GetType, and_self]

theorem createSample_slot (smpAllocOk : Nat → Bool) (old : Nat) (newOrder : List Nat)
    (t : SampleTables) (names : Nat → String) (st : CSoundFile × (Nat → Nat)) (i : Nat) :
    slotCreated st.1.m_nType old newOrder t.sampleHeaders names i
      ((createSample smpAllocOk old newOrder t names st i).1.Samples (i + 1))
      ((createSample smpAllocOk old newOrder t names st i).1.m_szNames (i + 1)) := by
  unfold slotCreated
  by_cases hv : 0 < newOrder.getD i 0 ∧ newOrder.getD i 0 ≤ old
  · rw [if_pos hv]
    obtain ⟨⟨p, hp⟩, hn⟩ := createSample_valid smpAllocOk old newOrder t names st i hv
    rw [hp, hn]
    exact ⟨rfl, rfl⟩
  · rw [if_neg hv]
    obtain ⟨hs, hn⟩ := createSample_invalid smpAllocOk old newOrder t names st i hv
    rw [hs, hn]
    exact ⟨⟨_, rfl⟩, rfl⟩


theorem createLoop_spec (smpAllocOk : Nat → Bool) (old : Nat) (newOrder : List Nat)
    (t : SampleTables) (names : Nat → String) (st0 : CSoundFile × (Nat → Nat)) (n : Nat) :
    sameButSamples st0.1
      ((List.range n).foldl (createSample smpAllocOk old newOrder t names) st0).1 ∧
    ((List.range n).foldl (createSample smpAllocOk old newOrder t names) st0).1.m_nSamples
      = st0.1.m_nSamples ∧
    ∀ i, i < n → slotCreated st0.1.m_nType old newOrder t.sampleHeaders names i
      (((List.range n).foldl (createSample smpAllocOk old newOrder t names) st0).1.Samples (i + 1))
      (((List.range n).foldl (createSample smpAllocOk old newOrder t names) st0).1.m_szNames (i + 1)) := by
  induction n with
  | zero => exact ⟨sameButSamples_refl _, rfl, fun i hi => absurd hi (Nat.not_lt_zero i)⟩
  | succ m ih =>
    obtain ⟨h1, h2, h3⟩ := ih
    rw [foldl_range_succ]
    obtain ⟨g1, g2⟩ := createSample_same smpAllocOk old newOrder t names
      ((List.range m).foldl (createSample smpAllocOk old newOrder t names) st0) m
    refine ⟨sameButSamples_trans h1 g1, g2.trans h2, fun i hi => ?_⟩
    rcases Nat.lt_succ_iff_lt_or_eq.mp hi with h | h
    · obtain ⟨e1, e2⟩ := createSample_other smpAllocOk old newOrder t names
        ((List.range m).foldl (createSample smpAllocOk old newOrder t names) st0) m (i + 1)
        (by omega)
      rw [e1, e2]
      exact h3 i h
    · subst h
      have hs := createSample_slot smpAllocOk old newOrder t names
        ((List.range i).foldl (createSample smpAllocOk old newOrder t names) st0) i
      rw [h1.1] at hs
      exact hs

theorem slotCreated_congr (type type2 old : Nat) (newOrder : List Nat) (hdr : Nat → ModSample)
    (names names2 : Nat → String) (i : Nat) (smp : ModSample) (name : String)
    (ht : type = type2) (hn : ∀ k, 0 < k → k ≤ old → names k = names2 k)
    (h : slotCreated type old newOrder hdr names i smp name) :
    slotCreated type2 old newOrder hdr names2 i smp name := by
  subst ht
  unfold slotCreated at h ⊢
  by_cases hv : 0 < newOrder.getD i 0 ∧ newOrder.getD i 0 ≤ old
  · rw [if_pos hv] at h ⊢
    exact ⟨h.1, h.2.trans (hn _ hv.1 hv.2)⟩
  · rw [if_neg hv] at h ⊢
    exact h

theorem rearrangeSampleSlots_spec (smpAllocOk : Nat → Bool) (s0 : CSoundFile) (newOrder : List Nat)
    (t : SampleTables) :
    sameButSamples s0 (rearrangeSampleSlots smpAllocOk s0 newOrder t) ∧
    (rearrangeSampleSlots smpAllocOk s0 newOrder t).m_nSamples = castSAMPLEINDEX newOrder.length ∧
    ∀ i, i < castSAMPLEINDEX newOrder.length →
      slotCreated s0.m_nType s0.GetNumSamples newOrder t.sampleHeaders s0.m_szNames i
        ((rearrangeSampleSlots smpAllocOk s0 newOrder t).Samples (i + 1))
        ((rearrangeSampleSlots smpAllocOk s0 newOrder t).m_szNames (i + 1)) := by
  unfold rearrangeSampleSlots
  simp only
  have hd := destroyLoop_spec t ((List.range s0.GetNumSamples).map (fun k => k + 1))
    (s0, fun _ => "")
  generalize List.foldl (destroyUnusedSample t) (s0, fun _ => "")
    ((List.range s0.GetNumSamples).map (fun k => k + 1)) = st1 at hd ⊢
  obtain ⟨d1, _, d3⟩ := hd
  have c1 := clearLoop_same ((List.range (s0.GetNumSamples - castSAMPLEINDEX newOrder.length)).map
      (fun k => castSAMPLEINDEX newOrder.length + 1 + k)) st1.1
  generalize List.foldl clearUnusedSlot st1.1
    ((List.range (s0.GetNumSamples - castSAMPLEINDEX newOrder.length)).map
      (fun k => castSAMPLEINDEX newOrder.length + 1 + k)) = s2 at c1 ⊢
  have hsame12 : sameButSamples s0 s2 := sameButSamples_trans d1 c1
  obtain ⟨h1, h2, h3⟩ := createLoop_spec smpAllocOk s0.GetNumSamples newOrder t st1.2
    ({ s2 with m_nSamples := castSAMPLEINDEX newOrder.length }, t.sampleCount)
    (castSAMPLEINDEX newOrder.length)
  have hsame3 : sameButSamples s0 { s2 with m_nSamples := castSAMPLEINDEX newOrder.length } :=
    hsame12
  refine ⟨sameButSamples_trans hsame3 h1, h2, fun i hi => ?_⟩
  refine slotCreated_congr _ _ _ _ _ _ _ _ _ _ hsame12.1 (fun k hk0 hk => ?_) (h3 i hi)
  rw [d3 k]
  have hmem : k ∈ (List.range s0.GetNumSamples).map (fun k => k + 1) := by
    simp only [List.mem_map, List.mem_range]
    exact ⟨k - 1, by omega, by omega⟩
  rw [if_pos hmem]


theorem ReArrangeSamples_eq_of_reject (smpAllocOk : Nat → Bool) (doc : CModDoc)
    (newOrder : List Nat)
    (h : newOrder.length > doc.m_SndFile.GetModSpecifications.samplesMax) :
    doc.ReArrangeSamples smpAllocOk newOrder = (SAMPLEINDEX_INVALID, doc) := by
  unfold CModDoc.ReArrangeSamples
  simp only [h, if_true]

theorem ReArrangeSamples_samples (smpAllocOk : Nat → Bool) (doc : CModDoc) (newOrder : List Nat)
    (hsz : newOrder.length ≤ doc.m_SndFile.GetModSpecifications.samplesMax) :
    (doc.ReArrangeSamples smpAllocOk newOrder).1
      = (doc.ReArrangeSamples smpAllocOk newOrder).2.GetNumSamples ∧
    (doc.ReArrangeSamples smpAllocOk newOrder).2.m_SndFile.m_nSamples
      = (rearrangeSampleSlots smpAllocOk doc.m_SndFile newOrder
          (buildSampleTables doc.m_SndFile newOrder)).m_nSamples ∧
    (doc.ReArrangeSamples smpAllocOk newOrder).2.m_SndFile.Samples
      = (rearrangeSampleSlots smpAllocOk doc.m_SndFile newOrder
          (buildSampleTables doc.m_SndFile newOrder)).Samples ∧
    (doc.ReArrangeSamples smpAllocOk newOrder).2.m_SndFile.m_szNames
      = (rearrangeSampleSlots smpAllocOk doc.m_SndFile newOrder
          (buildSampleTables doc.m_SndFile newOrder)).m_szNames ∧
    (doc.ReArrangeSamples smpAllocOk newOrder).2.m_SndFile.heap
      = (rearrangeSampleSlots smpAllocOk doc.m_SndFile newOrder
          (buildSampleTables doc.m_SndFile newOrder)).heap := by
  have h : ¬ (newOrder.length > doc.m_SndFile.GetModSpecifications.samplesMax) := by omega
  unfold CModDoc.ReArrangeSamples
  simp only [h, if_false]
  split <;> exact ⟨rfl, rfl, rfl, rfl, rfl⟩

/-- C7: for a `newOrder` of at most `samplesMax` entries, `ReArrangeSamples` returns the
size of `newOrder`, which becomes the sample count, and slot `i + 1` carries every header
field (all members of the sample header but the buffer pointer) and the name of the old
slot `newOrder[i]` when `1 <= newOrder[i] <= ` old sample count, and is otherwise a freshly
initialised sample without data and with an empty name. -/
theorem C7_ReArrangeSamples_slots (smpAllocOk : Nat → Bool) (doc : CModDoc) (newOrder : List Nat)
    (hspec : doc.m_SndFile.GetModSpecifications.samplesMax < 65535)
    (hsz : newOrder.length ≤ doc.m_SndFile.GetModSpecifications.samplesMax) :
    (doc.ReArrangeSamples smpAllocOk newOrder).1 = newOrder.length ∧
    (doc.ReArrangeSamples smpAllocOk newOrder).2.GetNumSamples = newOrder.length ∧
    ∀ i, i < newOrder.length →
      ((0 < newOrder.getD i 0 ∧ newOrder.getD i 0 ≤ doc.GetNumSamples) →
        { (doc.ReArrangeSamples smpAllocOk newOrder).2.m_SndFile.Samples (i + 1) with
            pSample := none }
          = { doc.m_SndFile.Samples (newOrder.getD i 0) with pSample := none } ∧
        (doc.ReArrangeSamples smpAllocOk newOrder).2.m_SndFile.m_szNames (i + 1)
          = doc.m_SndFile.m_szNames (newOrder.getD i 0)) ∧
      (¬ (0 < newOrder.getD i 0 ∧ newOrder.getD i 0 ≤ doc.GetNumSamples) →
        (∃ prev : ModSample, (doc.ReArrangeSamples smpAllocOk newOrder).2.m_SndFile.Samples (i + 1)
          = { prev.Initialize doc.m_SndFile.GetType with pSample := none }) ∧
        (doc.ReArrangeSamples smpAllocOk newOrder).2.m_SndFile.m_szNames (i + 1) = "") := by
  have hcast : castSAMPLEINDEX newOrder.length = newOrder.length :=
    castSAMPLEINDEX_of_lt (by omega)
  obtain ⟨e1, e2, e3, e4, _⟩ := ReArrangeSamples_samples smpAllocOk doc newOrder hsz
  obtain ⟨_, r2, r3⟩ := rearrangeSampleSlots_spec smpAllocOk doc.m_SndFile newOrder
    (buildSampleTables doc.m_SndFile newOrder)
  have hcount : (doc.ReArrangeSamples smpAllocOk newOrder).2.GetNumSamples = newOrder.length := by
    unfold CModDoc.GetNumSamples CSoundFile.GetNumSamples
    rw [e2, r2, hcast]
  refine ⟨e1.trans hcount, hcount, fun i hi => ?_⟩
  have hs := r3 i (by rw [hcast]; exact hi)
  rw [← e3, ← e4] at hs
  unfold slotCreated at hs
  refine ⟨fun hv => ?_, fun hv => ?_⟩
  · have hv2 : 0 < newOrder.getD i 0 ∧ newOrder.getD i 0 ≤ doc.m_SndFile.GetNumSamples := hv
    rw [if_pos hv2] at hs
    refine ⟨?_, hs.2⟩
    rw [hs.1]
    have hh : (buildSampleTables doc.m_SndFile newOrder).sampleHeaders (newOrder.getD i 0)
        = doc.m_SndFile.Samples (newOrder.getD i 0) := by
      unfold buildSampleTables
      exact collectSample_sampleHeaders _ _ _ _ _ hv.1 hv.2 ⟨i, by rw [hcast]; exact hi, rfl⟩
    rw [hh]
  · have hv2 : ¬ (0 < newOrder.getD i 0 ∧ newOrder.getD i 0 ≤ doc.m_SndFile.GetNumSamples) := hv
    rw [if_neg hv2] at hs
    exact hs

set_option maxRecDepth 100000 in
/-- Witness of C7: the two samples of the example song rearranged to snare, kick, kick and
a new empty slot. -/
theorem C7_ReArrangeSamples_slots_witness :
    exSmpDoc.m_SndFile.GetModSpecifications.samplesMax < 65535 ∧
    [2, 1, 1, 7].length ≤ exSmpDoc.m_SndFile.GetModSpecifications.samplesMax ∧
    (exSmpDoc.ReArrangeSamples (fun _ => true) [2, 1, 1, 7]).1 = [2, 1, 1, 7].length ∧
    (exSmpDoc.ReArrangeSamples (fun _ => true) [2, 1, 1, 7]).2.GetNumSamples = [2, 1, 1, 7].length ∧
    (exSmpDoc.ReArrangeSamples (fun _ => true) [2, 1, 1, 7]).2.m_SndFile.m_szNames 3 = "kick" ∧
    (exSmpDoc.ReArrangeSamples (fun _ => true) [2, 1, 1, 7]).2.m_SndFile.m_szNames 4 = "" :=
  have h := C7_ReArrangeSamples_slots (fun _ => true) exSmpDoc [2, 1, 1, 7] (by decide) (by decide)
  ⟨by decide, by decide, h.1, h.2.1, ((h.2.2 2 (by decide)).1 (by decide)).2,
    ((h.2.2 3 (by decide)).2 (by decide)).2⟩


theorem CPattern.forEach_of_none (func : ModCommand → ModCommand) (p : CPattern)
    (h : p.m_ModCommands.isSome = false) : p.forEach func = p := by
  cases p with
  | mk rows data =>
    cases data with
    | none => rfl
    | some d => simp at h

theorem forEachLoop_get (func : ModCommand → ModCommand) (idxs : List Nat)
    (c : CPatternContainer) (hnd : idxs.Nodup) :
    (CPatternContainer.forEachLoop func idxs c).m_Patterns.length = c.m_Patterns.length ∧
    ∀ i, (CPatternContainer.forEachLoop func idxs c).get i =
      if i ∈ idxs then (c.get i).forEach func else c.get i := by
  induction idxs generalizing c with
  | nil => simp [CPatternContainer.forEachLoop]
  | cons k rest ih =>
    have hkrest : k ∉ rest := (List.nodup_cons.mp hnd).1
    have hndrest : rest.Nodup := (List.nodup_cons.mp hnd).2
    unfold CPatternContainer.forEachLoop
    by_cases hs : (c.get k).m_ModCommands.isSome = true
    · simp only [hs, if_true]
      obtain ⟨hlen, hget⟩ := ih (CPatternContainer.mk (c.m_Patterns.set k ((c.get k).forEach func)))
        hndrest
      have hklen : k < c.m_Patterns.length := by
        by_contra hge
        have : c.get k = ⟨0, none⟩ := by
          unfold CPatternContainer.get
          rw [List.getD_eq_getElem?_getD, List.getElem?_eq_none (Nat.le_of_not_lt hge)]
          rfl
        rw [this] at hs
        simp at hs
      refine ⟨by rw [hlen]; simp, fun i => ?_⟩
      rw [hget i, CPatternContainer.get_set]
      by_cases hik : i = k
      · subst hik
        simp [hkrest, hklen]
      · simp [hik]
    · simp only [hs, Bool.false_eq_true, if_false]
      obtain ⟨hlen, hget⟩ := ih c hndrest
      refine ⟨hlen, fun i => ?_⟩
      rw [hget i]
      by_cases hik : i = k
      · subst hik
        have hs2 : (c.get i).m_ModCommands.isSome = false := by simpa using hs
        simp [hkrest, CPattern.forEach_of_none func _ hs2]
      · simp [hik]

theorem ForEachModCommand_get (c : CPatternContainer) (func : ModCommand → ModCommand) (i : Nat)
    (hi : i < c.Size) :
    (c.ForEachModCommand func).Size = c.Size ∧
    (c.ForEachModCommand func).get i = (c.get i).forEach func := by
  have hlt : c.Size < 65536 := by
    unfold CPatternContainer.Size castPATTERNINDEX
    exact Nat.mod_lt _ (by decide)
  have hlast : castPATTERNINDEX (c.Size + 65535) = c.Size - 1 := by
    unfold castPATTERNINDEX
    omega
  unfold CPatternContainer.ForEachModCommand CPatternContainer.ForEachModCommandRange
  rw [hlast]
  have hcond : (decide (0 > c.Size - 1) || decide (c.Size - 1 ≥ c.Size)) = false := by
    simp only [Bool.or_eq_false_iff, decide_eq_false_iff_not]
    omega
  simp only [hcond, Bool.false_eq_true, if_false]
  have hnd : ((List.range (c.Size - 1 + 1 - 0)).map (fun k => 0 + k)).Nodup := by
    simp only [Nat.zero_add, List.map_id', Nat.sub_zero]
    exact List.nodup_range _
  obtain ⟨hlen, hget⟩ := forEachLoop_get func _ c hnd
  refine ⟨congrArg castPATTERNINDEX hlen, ?_⟩
  rw [hget i]
  have hmem : i ∈ (List.range (c.Size - 1 + 1 - 0)).map (fun k => 0 + k) := by
    simp only [Nat.zero_add, List.map_id', Nat.sub_zero, List.mem_range]
    omega
  rw [if_pos hmem]


theorem ReArrangeSamples_patterns (smpAllocOk : Nat → Bool) (doc : CModDoc) (newOrder : List Nat)
    (hsz : newOrder.length ≤ doc.m_SndFile.GetModSpecifications.samplesMax)
    (hins : doc.m_SndFile.GetNumInstruments = 0) :
    (doc.ReArrangeSamples smpAllocOk newOrder).2.m_SndFile.Patterns =
      doc.m_SndFile.Patterns.ForEachModCommand (RewriteInstrumentReferencesInPatterns
        ((List.range (doc.m_SndFile.GetNumSamples + 1)).map
          (fun i => castINSTR ((buildSampleTables doc.m_SndFile newOrder).newIndex i)))) := by
  have h : ¬ (newOrder.length > doc.m_SndFile.GetModSpecifications.samplesMax) := by omega
  obtain ⟨hsame, _, _⟩ := rearrangeSampleSlots_spec smpAllocOk doc.m_SndFile newOrder
    (buildSampleTables doc.m_SndFile newOrder)
  obtain ⟨_, _, _, a4, a5, _⟩ := hsame
  have hins2 : (rearrangeSampleSlots smpAllocOk doc.m_SndFile newOrder
      (buildSampleTables doc.m_SndFile newOrder)).m_nInstruments = 0 := a4.trans hins
  unfold CModDoc.ReArrangeSamples
  simp only [h, if_false, CSoundFile.GetNumInstruments, hins2, ne_eq, not_true_eq_false, a5]

theorem ReArrangeSamples_instruments (smpAllocOk : Nat → Bool) (doc : CModDoc)
    (newOrder : List Nat)
    (hsz : newOrder.length ≤ doc.m_SndFile.GetModSpecifications.samplesMax)
    (hins : doc.m_SndFile.GetNumInstruments ≠ 0) (i : Nat)
    (hi : i ≤ doc.m_SndFile.GetNumInstruments) :
    (doc.ReArrangeSamples smpAllocOk newOrder).2.m_SndFile.Instruments i =
      (doc.m_SndFile.Instruments i).map
        (rewriteKeyboard doc.m_SndFile.GetNumSamples (buildSampleTables doc.m_SndFile newOrder)) := by
  have h : ¬ (newOrder.length > doc.m_SndFile.GetModSpecifications.samplesMax) := by omega
  obtain ⟨hsame, _, _⟩ := rearrangeSampleSlots_spec smpAllocOk doc.m_SndFile newOrder
    (buildSampleTables doc.m_SndFile newOrder)
  obtain ⟨_, _, _, a4, _, _, _, _, a9⟩ := hsame
  have hins2 : ¬ (rearrangeSampleSlots smpAllocOk doc.m_SndFile newOrder
      (buildSampleTables doc.m_SndFile newOrder)).m_nInstruments = 0 := by
    rw [a4]; exact hins
  have hi2 : i ≤ (rearrangeSampleSlots smpAllocOk doc.m_SndFile newOrder
      (buildSampleTables doc.m_SndFile newOrder)).m_nInstruments := by
    rw [a4]; exact hi
  unfold CModDoc.ReArrangeSamples
  simp only [h, if_false, CSoundFile.GetNumInstruments, hins2, ne_eq, not_false_eq_true, if_true,
    hi2, a9]

theorem castINSTR_of_lt {n : Nat} (h : n < 256) : castINSTR n = n := by
  unfold castINSTR; omega

theorem getD_map_of_lt {α β : Type} (f : α → β) (l : List α) (i : Nat) (a : α) (b : β)
    (h : i < l.length) : (l.map f).getD i b = f (l.getD i a) := by
  rw [List.getD_eq_getElem?_getD, List.getD_eq_getElem?_getD, List.getElem?_map,
    List.getElem?_eq_getElem h]
  rfl

theorem Rewrite_of_pc (indices : List Nat) (m : ModCommand) (h : m.IsPcNote = true) :
    RewriteInstrumentReferencesInPatterns indices m = m := by
  unfold RewriteInstrumentReferencesInPatterns
  simp [h]

theorem Rewrite_of_lt (indices : List Nat) (m : ModCommand) (h : m.IsPcNote = false)
    (hlt : m.instr < indices.length) :
    RewriteInstrumentReferencesInPatterns indices m = { m with instr := indices.getD m.instr 0 } := by
  unfold RewriteInstrumentReferencesInPatterns
  simp [h, hlt]

theorem Rewrite_of_ge (indices : List Nat) (m : ModCommand) (hge : indices.length ≤ m.instr) :
    RewriteInstrumentReferencesInPatterns indices m = m := by
  unfold RewriteInstrumentReferencesInPatterns
  have : ¬ m.instr < indices.length := by omega
  simp [this]


theorem newIndex_instr_entry (s0 : CSoundFile) (newOrder : List Nat) (k : Nat)
    (hk : k < s0.GetNumSamples + 1) :
    ((List.range (s0.GetNumSamples + 1)).map
      (fun i => castINSTR ((buildSampleTables s0 newOrder).newIndex i))).getD k 0
      = castINSTR ((buildSampleTables s0 newOrder).newIndex k) := by
  rw [getD_map_of_lt _ _ k 0 0 (by simp; exact hk), getD_range _ _ hk]

/-- C8 (amended): in a song without instruments, for a `newOrder` of at most `samplesMax`
entries, `ReArrangeSamples` leaves every valid pattern valid with as many cells, changes
nothing but the sample reference of a note-event, and never changes a parameter-control
note; in any other note-event a reference 0 stays 0, a reference `k` with
`1 <= k <= ` old sample count becomes `p + 1` for the last position `p` with
`newOrder[p] = k` provided `p + 1` fits the 8-bit reference (`p + 1 < 256`), becomes 0 when
`k` does not occur in `newOrder`, and a reference above the old sample count is left
unchanged. -/
theorem C8_ReArrangeSamples_pattern_refs (smpAllocOk : Nat → Bool) (doc : CModDoc)
    (newOrder : List Nat)
    (hspec : doc.m_SndFile.GetModSpecifications.samplesMax < 65535)
    (hsz : newOrder.length ≤ doc.m_SndFile.GetModSpecifications.samplesMax)
    (hins : doc.m_SndFile.GetNumInstruments = 0)
    (nPat : Nat) (hv : doc.m_SndFile.Patterns.IsValidPat nPat = true)
    (idx : Nat) (hidx : idx < doc.numCells nPat)
    (m m2 : ModCommand) (hm : doc.cellAt nPat idx = m)
    (hm2 : (doc.ReArrangeSamples smpAllocOk newOrder).2.cellAt nPat idx = m2) :
    (doc.ReArrangeSamples smpAllocOk newOrder).2.m_SndFile.Patterns.IsValidPat nPat = true ∧
    (doc.ReArrangeSamples smpAllocOk newOrder).2.numCells nPat = doc.numCells nPat ∧
    m2 = { m with instr := m2.instr } ∧
    (m.IsPcNote = true → m2 = m) ∧
    (m.IsPcNote = false →
      (m.instr = 0 → m2.instr = 0) ∧
      (0 < m.instr → m.instr ≤ doc.GetNumSamples →
        (∀ p, p < newOrder.length → p + 1 < 256 → newOrder.getD p 0 = m.instr →
          (∀ q, p < q → q < newOrder.length → newOrder.getD q 0 ≠ m.instr) →
          m2.instr = p + 1) ∧
        ((∀ q, q < newOrder.length → newOrder.getD q 0 ≠ m.instr) → m2.instr = 0)) ∧
      (doc.GetNumSamples < m.instr → m2.instr = m.instr)) := by
  have hcast : castSAMPLEINDEX newOrder.length = newOrder.length :=
    castSAMPLEINDEX_of_lt (by omega)
  have hpat := ReArrangeSamples_patterns smpAllocOk doc newOrder hsz hins
  have hlt := doc.m_SndFile.Patterns.lt_Size_of_IsValidPat nPat hv
  obtain ⟨hsize, hget⟩ := ForEachModCommand_get doc.m_SndFile.Patterns
    (RewriteInstrumentReferencesInPatterns
      ((List.range (doc.m_SndFile.GetNumSamples + 1)).map
        (fun i => castINSTR ((buildSampleTables doc.m_SndFile newOrder).newIndex i)))) nPat hlt
  rw [← hpat] at hsize hget
  have hv2 := hv
  simp only [CPatternContainer.IsValidPat, CPatternContainer.IsValidIndex, Bool.and_eq_true,
    decide_eq_true_eq] at hv2
  obtain ⟨data, hdata⟩ := Option.isSome_iff_exists.mp hv2.2
  have hnew : ((doc.ReArrangeSamples smpAllocOk newOrder).2.m_SndFile.Patterns.get
      nPat).m_ModCommands = some (data.map (RewriteInstrumentReferencesInPatterns
        ((List.range (doc.m_SndFile.GetNumSamples + 1)).map
          (fun i => castINSTR ((buildSampleTables doc.m_SndFile newOrder).newIndex i))))) := by
    rw [hget]
    simp only [CPattern.forEach, hdata, Option.map_some']
  have hidx2 : idx < data.length := by
    unfold CModDoc.numCells at hidx
    rw [hdata] at hidx
    exact hidx
  have hmd : m = data.getD idx ModCommand.Empty := by
    rw [← hm]; unfold CModDoc.cellAt; rw [hdata]; rfl
  have hm2d : m2 = RewriteInstrumentReferencesInPatterns
      ((List.range (doc.m_SndFile.GetNumSamples + 1)).map
        (fun i => castINSTR ((buildSampleTables doc.m_SndFile newOrder).newIndex i))) m := by
    rw [← hm2, hmd]; unfold CModDoc.cellAt; rw [hnew]
    exact getD_map_of_lt _ _ idx ModCommand.Empty ModCommand.Empty hidx2
  have hlen : ((List.range (doc.m_SndFile.GetNumSamples + 1)).map
      (fun i => castINSTR ((buildSampleTables doc.m_SndFile newOrder).newIndex i))).length
      = doc.m_SndFile.GetNumSamples + 1 := by simp
  refine ⟨?_, ?_, ?_, fun hpc => ?_, fun hpc => ⟨fun h0 => ?_, fun h0 hk => ⟨?_, ?_⟩, fun hgt => ?_⟩⟩
  · simp only [CPatternContainer.IsValidPat, CPatternContainer.IsValidIndex, Bool.and_eq_true,
      decide_eq_true_eq, hsize, hnew]
    exact ⟨hv2.1, rfl⟩
  · unfold CModDoc.numCells
    rw [hnew, hdata]
    simp
  · rw [hm2d]
    unfold RewriteInstrumentReferencesInPatterns
    split <;> rfl
  · rw [hm2d]; exact Rewrite_of_pc _ _ hpc
  · rw [hm2d, Rewrite_of_lt _ _ hpc (by rw [hlen, h0]; omega)]
    simp only
    rw [newIndex_instr_entry _ _ _ (by rw [h0]; omega)]
    unfold buildSampleTables
    rw [collectSample_newIndex_none _ _ _ _ _ (fun q _ _ hk => by omega)]
    rfl
  · intro p hp hp8 hpk hlast
    have hk : m.instr ≤ doc.m_SndFile.GetNumSamples := hk
    rw [hm2d, Rewrite_of_lt _ _ hpc (by rw [hlen]; exact Nat.lt_succ_of_le hk)]
    simp only
    rw [newIndex_instr_entry _ _ _ (Nat.lt_succ_of_le hk)]
    unfold buildSampleTables
    rw [hcast, collectSample_newIndex_last _ _ _ _ p _ hp hpk h0 hk hlast,
      castSAMPLEINDEX_of_lt (by omega), castINSTR_of_lt hp8]
  · intro hnone
    have hk : m.instr ≤ doc.m_SndFile.GetNumSamples := hk
    rw [hm2d, Rewrite_of_lt _ _ hpc (by rw [hlen]; exact Nat.lt_succ_of_le hk)]
    simp only
    rw [newIndex_instr_entry _ _ _ (Nat.lt_succ_of_le hk)]
    unfold buildSampleTables
    rw [hcast, collectSample_newIndex_none _ _ _ _ _ (fun q hq hqk _ => hnone q hq hqk)]
    rfl
  · have hgt : doc.m_SndFile.GetNumSamples < m.instr := hgt
    rw [hm2d, Rewrite_of_ge _ _ (by rw [hlen]; exact hgt)]

set_option maxRecDepth 100000 in
/-- Witness of C8: in the example song rearranged to snare, kick, kick and a new slot, the
reference to sample 1 in cell 1 of pattern 0 becomes 3, the last position of sample 1. -/
theorem C8_ReArrangeSamples_pattern_refs_witness :
    exSmpDoc.m_SndFile.GetModSpecifications.samplesMax < 65535 ∧
    [2, 1, 1, 7].length ≤ exSmpDoc.m_SndFile.GetModSpecifications.samplesMax ∧
    exSmpDoc.m_SndFile.GetNumInstruments = 0 ∧
    exSmpDoc.m_SndFile.Patterns.IsValidPat 0 = true ∧ 1 < exSmpDoc.numCells 0 ∧
    (exSmpDoc.cellAt 0 1).IsPcNote = false ∧ (exSmpDoc.cellAt 0 1).instr = 1 ∧
    ((exSmpDoc.ReArrangeSamples (fun _ => true) [2, 1, 1, 7]).2.cellAt 0 1).instr = 2 + 1 :=
  have h := C8_ReArrangeSamples_pattern_refs (fun _ => true) exSmpDoc [2, 1, 1, 7] (by decide)
    (by decide) (by decide) 0 (by decide) 1 (by decide) _ _ rfl rfl
  ⟨by decide, by decide, by decide, by decide, by decide, by decide, by decide,
    ((h.2.2.2.2 (by decide)).2.1 (by decide) (by decide)).1 2 (by decide) (by decide) (by decide)
      (fun q hq1 hq2 => by
        have hq : q = 3 := by
          simp only [List.length_cons, List.length_nil] at hq2
          omega
        subst hq
        decide)⟩

set_option maxRecDepth 1000000 in
/-- C8 as stated fails when the new index does not fit the 8-bit sample reference of a
note-event: with old sample 1 at the last of 256 positions (256 is within `samplesMax`),
a reference to sample 1 becomes 0 instead of 256, although sample 1 occurs in `newOrder`. -/
theorem C8_ReArrangeSamples_wide_index_counterexample :
    exLongOrder.length = 256 ∧
    exLongOrder.length ≤ exSmpDoc.m_SndFile.GetModSpecifications.samplesMax ∧
    exLongOrder.getD 255 0 = 1 ∧
    (exSmpDoc.cellAt 0 1).IsPcNote = false ∧ (exSmpDoc.cellAt 0 1).instr = 1 ∧
    ((exSmpDoc.ReArrangeSamples (fun _ => true) exLongOrder).2.cellAt 0 1).instr = 0 := by
  decide


/-- C9: in a song with instruments, for a `newOrder` of at most `samplesMax` entries,
`ReArrangeSamples` keeps every instrument of the song (slot `i <= ` instrument count)
allocated with a keyboard of the same size, in which an entry `k` with
`1 <= k <= ` old sample count has become `p + 1` for the last position `p` with
`newOrder[p] = k`, or 0 when `k` does not occur in `newOrder`, and every other entry has
become 0. -/
theorem C9_ReArrangeSamples_keyboard (smpAllocOk : Nat → Bool) (doc : CModDoc)
    (newOrder : List Nat)
    (hspec : doc.m_SndFile.GetModSpecifications.samplesMax < 65535)
    (hsz : newOrder.length ≤ doc.m_SndFile.GetModSpecifications.samplesMax)
    (hins : doc.m_SndFile.GetNumInstruments ≠ 0)
    (i : Nat) (hi : i ≤ doc.m_SndFile.GetNumInstruments)
    (ins : ModInstrument) (hsome : doc.m_SndFile.Instruments i = some ins)
    (note : Nat) (hnote : note < ins.Keyboard.length) (k : Nat)
    (hkey : ins.Keyboard.getD note 0 = k) :
    ∃ ins2, (doc.ReArrangeSamples smpAllocOk newOrder).2.m_SndFile.Instruments i = some ins2 ∧
      ins2.Keyboard.length = ins.Keyboard.length ∧
      ((0 < k ∧ k ≤ doc.GetNumSamples) →
        (∀ p, p < newOrder.length → newOrder.getD p 0 = k →
          (∀ q, p < q → q < newOrder.length → newOrder.getD q 0 ≠ k) →
          ins2.Keyboard.getD note 0 = p + 1) ∧
        ((∀ q, q < newOrder.length → newOrder.getD q 0 ≠ k) → ins2.Keyboard.getD note 0 = 0)) ∧
      (¬ (0 < k ∧ k ≤ doc.GetNumSamples) → ins2.Keyboard.getD note 0 = 0) := by
  have hcast : castSAMPLEINDEX newOrder.length = newOrder.length :=
    castSAMPLEINDEX_of_lt (by omega)
  have hres := ReArrangeSamples_instruments smpAllocOk doc newOrder hsz hins i hi
  rw [hsome, Option.map_some'] at hres
  refine ⟨_, hres, by simp [rewriteKeyboard], fun hv => ⟨fun p hp hpk hlast => ?_, fun hnone => ?_⟩,
    fun hv => ?_⟩
  · have hv2 : 0 < k ∧ k ≤ doc.m_SndFile.GetNumSamples := hv
    have hb : (decide (k > 0) && decide (k ≤ doc.m_SndFile.GetNumSamples)) = true := by
      simp only [gt_iff_lt, hv2.1, hv2.2, decide_True, Bool.and_self]
    simp only [rewriteKeyboard]
    rw [getD_map_of_lt _ _ note 0 0 hnote, hkey]
    simp only [hb, if_true]
    unfold buildSampleTables
    rw [hcast, collectSample_newIndex_last _ _ _ _ p _ hp hpk hv2.1 hv2.2 hlast,
      castSAMPLEINDEX_of_lt (by omega)]
  · have hv2 : 0 < k ∧ k ≤ doc.m_SndFile.GetNumSamples := hv
    have hb : (decide (k > 0) && decide (k ≤ doc.m_SndFile.GetNumSamples)) = true := by
      simp only [gt_iff_lt, hv2.1, hv2.2, decide_True, Bool.and_self]
    simp only [rewriteKeyboard]
    rw [getD_map_of_lt _ _ note 0 0 hnote, hkey]
    simp only [hb, if_true]
    unfold buildSampleTables
    rw [hcast, collectSample_newIndex_none _ _ _ _ _ (fun q hq hqk _ => hnone q hq hqk)]
  · have hv2 : ¬ (0 < k ∧ k ≤ doc.m_SndFile.GetNumSamples) := hv
    have hb : (decide (k > 0) && decide (k ≤ doc.m_SndFile.GetNumSamples)) = false := by
      simpa using hv2
    simp only [rewriteKeyboard]
    rw [getD_map_of_lt _ _ note 0 0 hnote, hkey]
    simp only [hb, Bool.false_eq_true, if_false]

set_option maxRecDepth 100000 in
/-- Witness of C9: in the example song with one instrument, rearranged to snare, kick,
kick and a new slot, the keyboard entry for sample 1 becomes 3 and the one for sample 3,
which is above the old sample count, becomes 0. -/
theorem C9_ReArrangeSamples_keyboard_witness :
    exInsDoc.m_SndFile.GetModSpecifications.samplesMax < 65535 ∧
    [2, 1, 1, 7].length ≤ exInsDoc.m_SndFile.GetModSpecifications.samplesMax ∧
    exInsDoc.m_SndFile.GetNumInstruments ≠ 0 ∧
    exInsDoc.m_SndFile.Instruments 1 = some ⟨[0, 1, 2, 3], 0⟩ ∧
    (∃ ins2, (exInsDoc.ReArrangeSamples (fun _ => true) [2, 1, 1, 7]).2.m_SndFile.Instruments 1
        = some ins2 ∧ ins2.Keyboard.getD 1 0 = 2 + 1) ∧
    (exInsDoc.ReArrangeSamples (fun _ => true) [2, 1, 1, 7]).2.m_SndFile.Instruments 1
      = some ⟨[0, 3, 1, 0], 0⟩ :=
  have h := C9_ReArrangeSamples_keyboard (fun _ => true) exInsDoc [2, 1, 1, 7] (by decide)
    (by decide) (by decide) 1 (by decide) ⟨[0, 1, 2, 3], 0⟩ (by decide) 1 (by decide) 1 (by decide)
  ⟨by decide, by decide, by decide, by decide,
    h.elim fun ins2 h2 => ⟨ins2, h2.1, (h2.2.2.1 (by decide)).1 2 (by decide) (by decide)
      (fun q hq1 hq2 => by
        have hq : q = 3 := by
          simp only [List.length_cons, List.length_nil] at hq2
          omega
        subst hq
        decide)⟩,
    by decide⟩

set_option maxRecDepth 100000 in
/-- C10: with `newOrder = [1, 1]` on the example song, whose sample 1 has the two frames
5, 7, and a successful allocation, slots 1 and 2 get distinct buffers and both keep the
length 2; slot 2 has the original frames, but the copy in slot 1 holds 5, 0: only the
first `GetBytesPerSample()` bytes, one frame, were copied. -/
theorem C10_ReArrangeSamples_duplicate_copies_one_frame :
    (exSmpDoc.m_SndFile.Samples 1).nLength = 2 ∧ exSmpDoc.m_SndFile.sampleData 1 = [5, 7] ∧
    (exSmpDoc.ReArrangeSamples (fun _ => true) [1, 1]).1 = 2 ∧
    ((exSmpDoc.ReArrangeSamples (fun _ => true) [1, 1]).2.m_SndFile.Samples 1).pSample = some 2 ∧
    ((exSmpDoc.ReArrangeSamples (fun _ => true) [1, 1]).2.m_SndFile.Samples 2).pSample = some 0 ∧
    ((exSmpDoc.ReArrangeSamples (fun _ => true) [1, 1]).2.m_SndFile.Samples 1).nLength = 2 ∧
    ((exSmpDoc.ReArrangeSamples (fun _ => true) [1, 1]).2.m_SndFile.Samples 2).nLength = 2 ∧
    (exSmpDoc.ReArrangeSamples (fun _ => true) [1, 1]).2.m_SndFile.sampleData 2 = [5, 7] ∧
    (exSmpDoc.ReArrangeSamples (fun _ => true) [1, 1]).2.m_SndFile.sampleData 1 = [5, 0] := by
  decide


/-! ## Loop sanitising -/

theorem FlagSet.reset_testBit (f m i : Nat) :
    (FlagSet.reset f m).testBit i = (f.testBit i && !m.testBit i) := by
  unfold FlagSet.reset
  rw [Nat.testBit_xor, Nat.testBit_and]
  cases f.testBit i <;> cases m.testBit i <;> rfl

theorem FlagSet.reset_reset_same (f m : Nat) :
    FlagSet.reset (FlagSet.reset f m) m = FlagSet.reset f m := by
  apply Nat.eq_of_testBit_eq
  intro i
  simp only [FlagSet.reset_testBit]
  cases f.testBit i <;> cases m.testBit i <;> rfl

theorem FlagSet.reset_reset_absorb (f m k : Nat) :
    FlagSet.reset (FlagSet.reset (FlagSet.reset f m) k) m = FlagSet.reset (FlagSet.reset f m) k := by
  apply Nat.eq_of_testBit_eq
  intro i
  simp only [FlagSet.reset_testBit]
  cases f.testBit i <;> cases m.testBit i <;> cases k.testBit i <;> rfl

theorem FlagSet.test_eq_false_iff (f k : Nat) :
    FlagSet.test f k = false ↔ ∀ i, (f.testBit i && k.testBit i) = false := by
  unfold FlagSet.test
  constructor
  · intro h i
    have h0 : f &&& k = 0 := by simpa using h
    rw [← Nat.testBit_and, h0]
    exact Nat.zero_testBit i
  · intro h
    have h0 : f &&& k = 0 := by
      apply Nat.eq_of_testBit_eq
      intro i
      rw [Nat.testBit_and, h i, Nat.zero_testBit]
    simp [h0]

theorem FlagSet.test_reset_of_subset (f m k : Nat) (hk : k &&& m = k) :
    FlagSet.test (FlagSet.reset f m) k = false := by
  rw [FlagSet.test_eq_false_iff]
  intro i
  have hi : (k.testBit i && m.testBit i) = k.testBit i := by rw [← Nat.testBit_and, hk]
  rw [FlagSet.reset_testBit]
  revert hi
  cases f.testBit i <;> cases m.testBit i <;> cases k.testBit i <;> simp

theorem FlagSet.test_reset_of_test (f m k : Nat) (h : FlagSet.test f k = false) :
    FlagSet.test (FlagSet.reset f m) k = false := by
  rw [FlagSet.test_eq_false_iff] at h ⊢
  intro i
  have hi := h i
  rw [FlagSet.reset_testBit]
  revert hi
  cases f.testBit i <;> cases m.testBit i <;> cases k.testBit i <;> simp

theorem LimitMax_le (v m : Nat) : LimitMax v m ≤ m := by
  unfold LimitMax
  split <;> omega

theorem LimitMax_of_le (v m : Nat) (h : v ≤ m) : LimitMax v m = v := by
  unfold LimitMax
  rw [if_neg (by omega)]

/-- Claim C12: `ModSample::SanitizeLoops` is idempotent: for every sample (any length, loop
points, sustain points and flags), applying it twice yields exactly the same sample as
applying it once. -/
theorem C12_SanitizeLoops_idempotent (s : ModSample) :
    s.SanitizeLoops.SanitizeLoops = s.SanitizeLoops := by
  have hse := LimitMax_le s.nSustainEnd s.nLength
  have hle := LimitMax_le s.nLoopEnd s.nLength
  by_cases h1 : s.nSustainStart ≥ LimitMax s.nSustainEnd s.nLength
  · by_cases h2 : s.nLoopStart ≥ LimitMax s.nLoopEnd s.nLength
    · simp only [ModSample.SanitizeLoops, h1, h2, if_true, ge_iff_le, le_refl,
        LimitMax_of_le 0 s.nLength (Nat.zero_le _), FlagSet.reset_reset_absorb,
        FlagSet.reset_reset_same]
    · simp only [ModSample.SanitizeLoops, h1, h2, if_true, if_false, ge_iff_le, le_refl,
        LimitMax_of_le 0 s.nLength (Nat.zero_le _), LimitMax_of_le _ _ hle,
        FlagSet.reset_reset_same]
  · by_cases h2 : s.nLoopStart ≥ LimitMax s.nLoopEnd s.nLength
    · simp only [ModSample.SanitizeLoops, h1, h2, if_true, if_false, ge_iff_le, le_refl,
        LimitMax_of_le 0 s.nLength (Nat.zero_le _), LimitMax_of_le _ _ hse,
        FlagSet.reset_reset_same]
    · simp only [ModSample.SanitizeLoops, h1, h2, if_false, ge_iff_le,
        LimitMax_of_le _ _ hse, LimitMax_of_le _ _ hle]

/-- Claim C13: `ModSample::SanitizeLoops` establishes the sample loop invariant: for every
sample, afterwards `nLoopEnd <= nLength` and `nSustainEnd <= nLength`, and for each of the
two loops either start < end, or the loop is disabled with start = end = 0 and both its
enable flag and its ping-pong flag cleared. -/
theorem C13_SanitizeLoops_invariant (s : ModSample) :
    s.SanitizeLoops.nLoopEnd ≤ s.SanitizeLoops.nLength ∧
    s.SanitizeLoops.nSustainEnd ≤ s.SanitizeLoops.nLength ∧
    (s.SanitizeLoops.nLoopStart < s.SanitizeLoops.nLoopEnd ∨
      (s.SanitizeLoops.nLoopStart = 0 ∧ s.SanitizeLoops.nLoopEnd = 0 ∧
        FlagSet.test s.SanitizeLoops.uFlags CHN_LOOP = false ∧
        FlagSet.test s.SanitizeLoops.uFlags CHN_PINGPONGLOOP = false)) ∧
    (s.SanitizeLoops.nSustainStart < s.SanitizeLoops.nSustainEnd ∨
      (s.SanitizeLoops.nSustainStart = 0 ∧ s.SanitizeLoops.nSustainEnd = 0 ∧
        FlagSet.test s.SanitizeLoops.uFlags CHN_SUSTAINLOOP = false ∧
        FlagSet.test s.SanitizeLoops.uFlags CHN_PINGPONGSUSTAIN = false)) := by
  have hse := LimitMax_le s.nSustainEnd s.nLength
  have hle := LimitMax_le s.nLoopEnd s.nLength
  have hS1 : ∀ f, FlagSet.test (FlagSet.reset f (CHN_SUSTAINLOOP ||| CHN_PINGPONGSUSTAIN))
      CHN_SUSTAINLOOP = false := fun f => FlagSet.test_reset_of_subset f _ _ (by decide)
  have hS2 : ∀ f, FlagSet.test (FlagSet.reset f (CHN_SUSTAINLOOP ||| CHN_PINGPONGSUSTAIN))
      CHN_PINGPONGSUSTAIN = false := fun f => FlagSet.test_reset_of_subset f _ _ (by decide)
  have hL1 : ∀ f, FlagSet.test (FlagSet.reset f (CHN_LOOP ||| CHN_PINGPONGLOOP))
      CHN_LOOP = false := fun f => FlagSet.test_reset_of_subset f _ _ (by decide)
  have hL2 : ∀ f, FlagSet.test (FlagSet.reset f (CHN_LOOP ||| CHN_PINGPONGLOOP))
      CHN_PINGPONGLOOP = false := fun f => FlagSet.test_reset_of_subset f _ _ (by decide)
  by_cases h1 : s.nSustainStart ≥ LimitMax s.nSustainEnd s.nLength
  · by_cases h2 : s.nLoopStart ≥ LimitMax s.nLoopEnd s.nLength
    · simp only [ModSample.SanitizeLoops, h1, h2, if_true]
      exact ⟨Nat.zero_le _, Nat.zero_le _, Or.inr ⟨trivial, trivial, hL1 _, hL2 _⟩,
        Or.inr ⟨trivial, trivial, FlagSet.test_reset_of_test _ _ _ (hS1 _),
          FlagSet.test_reset_of_test _ _ _ (hS2 _)⟩⟩
    · simp only [ModSample.SanitizeLoops, h1, h2, if_true, if_false]
      exact ⟨hle, Nat.zero_le _, Or.inl (by omega), Or.inr ⟨trivial, trivial, hS1 _, hS2 _⟩⟩
  · by_cases h2 : s.nLoopStart ≥ LimitMax s.nLoopEnd s.nLength
    · simp only [ModSample.SanitizeLoops, h1, h2, if_true, if_false]
      exact ⟨Nat.zero_le _, hse, Or.inr ⟨trivial, trivial, hL1 _, hL2 _⟩, Or.inl (by omega)⟩
    · simp only [ModSample.SanitizeLoops, h1, h2, if_false]
      exact ⟨hle, hse, Or.inl (by omega), Or.inl (by omega)⟩

/-! ## Sample buffer size -/

theorem GetRealSampleBufferSize_eq (numSamples bytesPerSample : Nat)
    (hb : 1 ≤ bytesPerSample) :
    ModSample.GetRealSampleBufferSize numSamples bytesPerSample =
      (if (numSamples + (16 + 9 * InterpolationMaxLookahead)) * bytesPerSample ≤ 2 ^ 32 - 1
        then (numSamples + (16 + 9 * InterpolationMaxLookahead)) * bytesPerSample else 0) := by
  have hP : 16 + 9 * InterpolationMaxLookahead = 52 := by decide
  have hP2 : 16 + (1 + 4 + 4) * InterpolationMaxLookahead = 52 := by decide
  have hM : SmpLengthMax = 4294967295 := rfl
  have hpow : (2 : Nat) ^ 32 - 1 = 4294967295 := by norm_num
  rw [hP, hpow]
  unfold ModSample.GetRealSampleBufferSize
  simp only [hP2, hM]
  have hge : numSamples + 52 ≤ (numSamples + 52) * bytesPerSample :=
    Nat.le_mul_of_pos_right _ hb
  by_cases h1 : 52 > 4294967295 - numSamples
  · have hg : (decide (numSamples > 4294967295) || decide (52 > 4294967295 - numSamples)) = true := by
      simp [h1]
    rw [if_pos hg, if_neg (by omega)]
  · have hg : ¬ (decide (numSamples > 4294967295) || decide (52 > 4294967295 - numSamples)) = true := by
      simp only [Bool.or_eq_true, decide_eq_true_eq]
      omega
    rw [if_neg hg]
    have hw : wrapSmpLength (numSamples + 52) = numSamples + 52 := by
      unfold wrapSmpLength
      rw [hM]
      exact Nat.mod_eq_of_lt (by omega)
    have hdiv : 4294967295 / bytesPerSample < numSamples + 52 ↔
        4294967295 < (numSamples + 52) * bytesPerSample := Nat.div_lt_iff_lt_mul (by omega)
    rw [hw]
    by_cases h2 : 4294967295 < (numSamples + 52) * bytesPerSample
    · rw [if_pos (hdiv.mpr h2), if_neg (by omega)]
    · rw [if_neg (fun h => h2 (hdiv.mp h)), if_pos (by omega)]
      unfold wrapSizeT
      exact Nat.mod_eq_of_lt (by omega)

/-- Claim C20: `ModSample::GetRealSampleBufferSize` returns the exact padded size or 0,
never a wrapped value: for every `numSamples` and every
`bytesPerSample >= 1`, with `P = 16 + 9 * InterpolationMaxLookahead`, the result is
`(numSamples + P) * bytesPerSample` when that product is at most `2^32 - 1` and 0
otherwise, in particular when `numSamples + P` itself exceeds `2^32 - 1`; the sum that is
computed when the first guard passes and the product that is computed when the second
guard passes equal their unwrapped values. -/
theorem C20_GetRealSampleBufferSize_exact (numSamples bytesPerSample : Nat)
    (hb : 1 ≤ bytesPerSample) :
    ModSample.GetRealSampleBufferSize numSamples bytesPerSample =
      (if (numSamples + (16 + 9 * InterpolationMaxLookahead)) * bytesPerSample ≤ 2 ^ 32 - 1
        then (numSamples + (16 + 9 * InterpolationMaxLookahead)) * bytesPerSample else 0) ∧
    (2 ^ 32 - 1 < numSamples + (16 + 9 * InterpolationMaxLookahead) →
      ModSample.GetRealSampleBufferSize numSamples bytesPerSample = 0) ∧
    (¬ (16 + (1 + 4 + 4) * InterpolationMaxLookahead > SmpLengthMax - numSamples) →
      wrapSmpLength (numSamples + (16 + (1 + 4 + 4) * InterpolationMaxLookahead)) =
        numSamples + (16 + 9 * InterpolationMaxLookahead)) ∧
    (¬ (16 + (1 + 4 + 4) * InterpolationMaxLookahead > SmpLengthMax - numSamples) →
      ¬ (SmpLengthMax / bytesPerSample <
        wrapSmpLength (numSamples + (16 + (1 + 4 + 4) * InterpolationMaxLookahead))) →
      wrapSizeT (wrapSmpLength (numSamples + (16 + (1 + 4 + 4) * InterpolationMaxLookahead))
          * bytesPerSample) =
        (numSamples + (16 + 9 * InterpolationMaxLookahead)) * bytesPerSample) := by
  have hP : 16 + 9 * InterpolationMaxLookahead = 52 := by decide
  have hP2 : 16 + (1 + 4 + 4) * InterpolationMaxLookahead = 52 := by decide
  have hM : SmpLengthMax = 4294967295 := rfl
  have hpow : (2 : Nat) ^ 32 - 1 = 4294967295 := by norm_num
  have heq := GetRealSampleBufferSize_eq numSamples bytesPerSample hb
  have hge : numSamples + 52 ≤ (numSamples + 52) * bytesPerSample :=
    Nat.le_mul_of_pos_right _ hb
  have hw : ¬ (52 > 4294967295 - numSamples) →
      wrapSmpLength (numSamples + 52) = numSamples + 52 := by
    intro h
    unfold wrapSmpLength
    rw [hM]
    exact Nat.mod_eq_of_lt (by omega)
  refine ⟨heq, ?_, ?_, ?_⟩
  · intro h
    rw [heq, hP, hpow] at *
    rw [if_neg (by omega)]
  · rw [hP, hM]
    exact hw
  · rw [hP, hM]
    intro h1 h2
    rw [hw h1] at h2 ⊢
    rw [Nat.div_lt_iff_lt_mul (by omega)] at h2
    unfold wrapSizeT
    exact Nat.mod_eq_of_lt (by omega)

theorem C20_GetRealSampleBufferSize_exact_witness :
    1 ≤ 4 ∧ ModSample.GetRealSampleBufferSize 1000 4 = 4208 ∧
    ModSample.GetRealSampleBufferSize 4294967290 1 = 0 ∧
    ModSample.GetRealSampleBufferSize 2147483648 2 = 0 :=
  ⟨by decide,
    (C20_GetRealSampleBufferSize_exact 1000 4 (by decide)).1.trans (by decide),
    by decide, by decide⟩


/-! ## Lemmas on the binary settings text -/

set_option maxRecDepth 100000 in
theorem EncodeNibble_upperHexDigit : ∀ d, d < 16 →
    EncodeNibble.getD d (Char.ofNat 0) = upperHexDigit d := by
  decide

set_option maxRecDepth 100000 in
theorem DecodeByte_EncodeNibble : ∀ h, h < 16 → ∀ l, l < 16 →
    DecodeByte (EncodeNibble.getD h (Char.ofNat 0)) (EncodeNibble.getD l (Char.ofNat 0)) =
      (true, h * 16 + l) := by
  decide

set_option maxRecDepth 100000 in
theorem byte_nibbles : ∀ x, x < 256 →
    (x &&& 0xf0) >>> 4 = x / 16 ∧ x &&& 0x0f = x % 16 := by
  decide

theorem foldl_range_getD {β : Type} (g : β → Nat → β) (b : List Nat) (s : β) :
    ∀ k, k ≤ b.length →
      (List.range k).foldl (fun st i => g st (b.getD i 0)) s = (b.take k).foldl g s := by
  intro k
  induction k with
  | zero => intro _; rfl
  | succ k ih =>
    intro hk
    have hk2 : k < b.length := hk
    rw [foldl_range_succ, ih (by omega), List.take_succ, List.foldl_append,
      List.getD_eq_getElem?_getD, List.getElem?_eq_getElem hk2]
    rfl

theorem hexText_length (b : List Nat) : (hexText b).length = 2 * b.length := by
  induction b with
  | nil => rfl
  | cons x xs ih => simp only [hexText, List.length_cons, ih]; omega

theorem hexText_getElem (b : List Nat) (rest : List Char) :
    ∀ i, i < b.length →
      (hexText b ++ rest)[2 * i]? = some (upperHexDigit (b.getD i 0 / 16)) ∧
      (hexText b ++ rest)[2 * i + 1]? = some (upperHexDigit (b.getD i 0 % 16)) := by
  induction b with
  | nil => intro i hi; simp at hi
  | cons x xs ih =>
    intro i hi
    cases i with
    | zero => constructor <;> simp [hexText]
    | succ j =>
      have hj : j < xs.length := by simpa using hi
      have h := ih j hj
      have e1 : 2 * (j + 1) = (2 * j + 1) + 1 := by omega
      rw [e1]
      simp only [hexText, List.cons_append, List.getElem?_cons_succ, List.getD_cons_succ]
      exact h

theorem hexText_getElem_rest (b : List Nat) (rest : List Char) (j : Nat) :
    (hexText b ++ rest)[2 * b.length + j]? = rest[j]? := by
  rw [← hexText_length, List.getElem?_append_right (by omega)]
  congr 1
  omega

theorem encode_foldl (b : List Nat) (hb : ∀ x ∈ b, x < 256) (acc : List Char) (c : Nat) :
    b.foldl (fun st x =>
        ((st.1 ++ [EncodeNibble.getD ((x &&& 0xf0) >>> 4) (Char.ofNat 0)]) ++
            [EncodeNibble.getD (x &&& 0x0f) (Char.ofNat 0)], (st.2 + x) % 256)) (acc, c % 256) =
      (acc ++ hexText b, (c + b.sum) % 256) := by
  induction b generalizing acc c with
  | nil => simp [hexText]
  | cons x xs ih =>
    have hx : x < 256 := hb x (List.mem_cons_self _ _)
    have hn := byte_nibbles x hx
    rw [List.foldl_cons]
    simp only []
    rw [ih (fun y hy => hb y (List.mem_cons_of_mem _ hy)), hn.1, hn.2,
      EncodeNibble_upperHexDigit _ (by omega), EncodeNibble_upperHexDigit _ (Nat.mod_lt _ (by omega))]
    simp only [hexText, List.append_assoc, List.singleton_append, List.sum_cons, Nat.add_mod_mod,
      Nat.mod_add_mod, Nat.add_assoc, List.cons_append, List.nil_append]

theorem EncodeBinarySettingRaw_eq (txt : List Char) (b : List Nat) (hb : ∀ x ∈ b, x < 256) :
    EncodeBinarySettingRaw txt b b.length = hexText b ++ hexText [b.sum % 256] := by
  unfold EncodeBinarySettingRaw
  have h := foldl_range_getD (fun st x =>
        ((st.1 ++ [EncodeNibble.getD ((x &&& 0xf0) >>> 4) (Char.ofNat 0)]) ++
            [EncodeNibble.getD (x &&& 0x0f) (Char.ofNat 0)], (st.2 + x) % 256)) b
        (([] : List Char), 0) b.length (le_refl _)
  have h2 : (List.range b.length).foldl (encodeByteStep b) (([] : List Char), 0) =
      (hexText b, b.sum % 256) := by
    have h3 := encode_foldl b hb [] 0
    rw [List.take_length] at h
    simp only [Nat.zero_mod, Nat.zero_add, List.nil_append] at h3
    rw [← h3, ← h]
    rfl
  simp only [h2]
  have hs : b.sum % 256 < 256 := Nat.mod_lt _ (by omega)
  have hn := byte_nibbles _ hs
  rw [hn.1, hn.2, EncodeNibble_upperHexDigit _ (by omega),
    EncodeNibble_upperHexDigit _ (Nat.mod_lt _ (by omega))]
  simp [hexText]

/-- Claim C18: `EncodeBinarySettingRaw` produces the hex-plus-checksum text: for every
byte sequence `b` of length `n`, the output has exactly `2n + 2` characters; characters
`2i` and `2i+1` are the upper-case hexadecimal digits of the high and low nibble of `b[i]`;
and the last two characters are the upper-case hexadecimal digits of the sum of all bytes
of `b` modulo 256. -/
theorem C18_EncodeBinarySettingRaw_text (txt : List Char) (b : List Nat) (n : Nat)
    (hlen : b.length = n) (hb : ∀ x ∈ b, x < 256) :
    (EncodeBinarySettingRaw txt b n).length = 2 * n + 2 ∧
    (∀ i, i < n →
      (EncodeBinarySettingRaw txt b n)[2 * i]? = some (upperHexDigit (b.getD i 0 / 16)) ∧
      (EncodeBinarySettingRaw txt b n)[2 * i + 1]? = some (upperHexDigit (b.getD i 0 % 16))) ∧
    (EncodeBinarySettingRaw txt b n)[2 * n]? = some (upperHexDigit (b.sum % 256 / 16)) ∧
    (EncodeBinarySettingRaw txt b n)[2 * n + 1]? = some (upperHexDigit (b.sum % 256 % 16)) := by
  subst hlen
  rw [EncodeBinarySettingRaw_eq txt b hb]
  refine ⟨?_, ?_, ?_, ?_⟩
  · rw [List.length_append, hexText_length, hexText_length]
    rfl
  · intro i hi
    exact hexText_getElem b _ i hi
  · have h := hexText_getElem_rest b (hexText [b.sum % 256]) 0
    rw [Nat.add_zero] at h
    rw [h]
    rfl
  · rw [hexText_getElem_rest b (hexText [b.sum % 256]) 1]
    rfl

theorem C18_EncodeBinarySettingRaw_text_witness :
    ([1, 171].length = 2 ∧ ∀ x ∈ [1, 171], x < 256) ∧
    EncodeBinarySettingRaw ['z'] [1, 171] 2 = ['0', '1', 'A', 'B', 'A', 'C'] ∧
    (EncodeBinarySettingRaw ['z'] [1, 171] 2).length = 2 * 2 + 2 :=
  ⟨⟨rfl, by decide⟩, by decide,
    (C18_EncodeBinarySettingRaw_text ['z'] [1, 171] 2 rfl (by decide)).1⟩

theorem DecodeByte_hex (x : Nat) (hx : x < 256) :
    DecodeByte (upperHexDigit (x / 16)) (upperHexDigit (x % 16)) = (true, x) := by
  have h1 : x / 16 < 16 := by omega
  have h2 : x % 16 < 16 := Nat.mod_lt _ (by omega)
  rw [← EncodeNibble_upperHexDigit _ h1, ← EncodeNibble_upperHexDigit _ h2,
    DecodeByte_EncodeNibble _ h1 _ h2, Nat.div_add_mod' x 16]

theorem getD_of_getElem? {α : Type} (l : List α) (i : Nat) (d a : α) (h : l[i]? = some a) :
    l.getD i d = a := by
  rw [List.getD_eq_getElem?_getD, h]
  rfl

theorem DecodeByte_at (b : List Nat) (hb : ∀ x ∈ b, x < 256) (rest : List Char) (i : Nat)
    (hi : i < b.length) :
    DecodeByte ((hexText b ++ rest).getD (i * 2 + 0) (Char.ofNat 0))
      ((hexText b ++ rest).getD (i * 2 + 1) (Char.ofNat 0)) = (true, b.getD i 0) := by
  have h := hexText_getElem b rest i hi
  have hx : b.getD i 0 < 256 := by
    rw [List.getD_eq_getElem?_getD, List.getElem?_eq_getElem hi]
    exact hb _ (List.getElem_mem _)
  rw [Nat.add_zero, Nat.mul_comm i 2, getD_of_getElem? _ _ _ _ h.1, getD_of_getElem? _ _ _ _ h.2]
  exact DecodeByte_hex _ hx

theorem decodeCheck_foldl (b : List Nat) (hb : ∀ x ∈ b, x < 256) (rest : List Char) :
    ∀ k, k ≤ b.length →
      (List.range k).foldl (decodeCheckStep (hexText b ++ rest)) (some 0) =
        some ((b.take k).sum % 256) := by
  intro k
  induction k with
  | zero => intro _; rfl
  | succ k ih =>
    intro hk
    have hk2 : k < b.length := hk
    rw [foldl_range_succ, ih (by omega)]
    simp only [decodeCheckStep, DecodeByte_at b hb rest k hk2, Bool.not_true,
      Bool.false_eq_true, if_false]
    rw [List.take_succ, List.sum_append, List.getD_eq_getElem?_getD,
      List.getElem?_eq_getElem hk2]
    simp

theorem decodeWrite_foldl (b : List Nat) (hb : ∀ x ∈ b, x < 256) (rest : List Char)
    (dst : List Nat) (hdst : dst.length = b.length) :
    ∀ k, k ≤ b.length →
      ((List.range k).foldl (decodeWriteStep (hexText b ++ rest)) dst).length = b.length ∧
      ∀ j, j < k →
        ((List.range k).foldl (decodeWriteStep (hexText b ++ rest)) dst)[j]? = b[j]? := by
  intro k
  induction k with
  | zero => intro _; exact ⟨hdst, fun j hj => absurd hj (Nat.not_lt_zero j)⟩
  | succ k ih =>
    intro hk
    have hk2 : k < b.length := hk
    obtain ⟨hl, hj⟩ := ih (by omega)
    rw [foldl_range_succ]
    simp only [decodeWriteStep, DecodeByte_at b hb rest k hk2]
    refine ⟨by rw [List.length_set]; exact hl, ?_⟩
    intro j hjk
    by_cases hjeq : j = k
    · subst hjeq
      rw [List.getElem?_set_self (by omega), List.getD_eq_getElem?_getD, List.getElem?_eq_getElem hk2]
      rfl
    · rw [List.getElem?_set_ne (fun h => hjeq h.symm)]
      exact hj j (by omega)

/-- Claim C19: `DecodeBinarySettingRaw` undoes `EncodeBinarySettingRaw`: for every byte
sequence `b` of length `n` (`n = 0` included) and every prior content of the destination
buffer, decoding the text produced by encoding `b` with size `n` leaves the destination
equal to `b`. -/
theorem C19_Decode_undoes_Encode (txt : List Char) (b dst : List Nat) (n : Nat)
    (hlen : b.length = n) (hb : ∀ x ∈ b, x < 256) (hdst : dst.length = n) :
    DecodeBinarySettingRaw dst n (EncodeBinarySettingRaw txt b n) = b := by
  subst hlen
  rw [EncodeBinarySettingRaw_eq txt b hb]
  have hs : b.sum % 256 < 256 := Nat.mod_lt _ (by omega)
  have hlen2 : (hexText b ++ hexText [b.sum % 256]).length = b.length * 2 + 2 := by
    rw [List.length_append, hexText_length, hexText_length, Nat.mul_comm]
    rfl
  have hcheck := decodeCheck_foldl b hb (hexText [b.sum % 256]) b.length (le_refl _)
  rw [List.take_length] at hcheck
  have h0 := hexText_getElem_rest b (hexText [b.sum % 256]) 0
  have h1 := hexText_getElem_rest b (hexText [b.sum % 256]) 1
  have hlast : DecodeByte
      ((hexText b ++ hexText [b.sum % 256]).getD (b.length * 2 + 0) (Char.ofNat 0))
      ((hexText b ++ hexText [b.sum % 256]).getD (b.length * 2 + 1) (Char.ofNat 0)) =
        (true, b.sum % 256) := by
    rw [Nat.mul_comm b.length 2, getD_of_getElem? _ _ _ _ (h0.trans rfl),
      getD_of_getElem? _ _ _ _ (h1.trans rfl)]
    exact DecodeByte_hex _ hs
  unfold DecodeBinarySettingRaw
  rw [if_neg (fun h => h hlen2), hcheck]
  simp only [hlast, Bool.not_true, Bool.false_eq_true, if_false, ne_eq, not_true_eq_false]
  obtain ⟨hl, hj⟩ := decodeWrite_foldl b hb (hexText [b.sum % 256]) dst hdst b.length (le_refl _)
  apply List.ext_getElem?
  intro j
  by_cases hjl : j < b.length
  · exact hj j hjl
  · rw [List.getElem?_eq_none (by omega), List.getElem?_eq_none (by omega)]

theorem C19_Decode_undoes_Encode_witness :
    ([1, 171].length = 2 ∧ (∀ x ∈ [1, 171], x < 256) ∧ [9, 9].length = 2) ∧
    DecodeBinarySettingRaw [9, 9] 2 (EncodeBinarySettingRaw ['z'] [1, 171] 2) = [1, 171] ∧
    DecodeBinarySettingRaw [] 0 (EncodeBinarySettingRaw ['z'] [] 0) = [] :=
  ⟨⟨rfl, by decide, rfl⟩,
    C19_Decode_undoes_Encode ['z'] [1, 171] [9, 9] 2 rfl (by decide) rfl,
    by decide⟩


/-! ## Lemmas on the traversal with a function object -/

theorem range_map_add_succ (a k : Nat) :
    (List.range (k + 1)).map (fun j => a + j) = a :: (List.range k).map (fun j => a + 1 + j) := by
  rw [List.range_succ_eq_map, List.map_cons, List.map_map]
  congr 1
  apply List.map_congr_left
  intro j _
  simp only [Function.comp, Nat.succ_eq_add_one]
  omega

theorem forEachLoopAcc_slice {τ σ : Type} (func : τ → σ → ModCommand → τ × σ × ModCommand)
    (t : τ) (mid : List CPattern) :
    ∀ (pre post : List CPattern) (s : σ),
      CPatternContainer.forEachLoopAcc func t
          ((List.range mid.length).map (fun j => pre.length + j)) s ⟨pre ++ mid ++ post⟩ =
        ((visitPatterns func t s mid).1,
          ⟨pre ++ (visitPatterns func t s mid).2 ++ post⟩) := by
  induction mid with
  | nil => intro pre post s; rfl
  | cons p ps ih =>
    intro pre post s
    have hget : (CPatternContainer.mk (pre ++ p :: ps ++ post)).get pre.length = p := by
      unfold CPatternContainer.get
      rw [List.append_assoc, List.getD_eq_getElem?_getD,
        List.getElem?_append_right (le_refl _), Nat.sub_self, List.cons_append,
        List.getElem?_cons_zero]
      rfl
    rw [List.length_cons, range_map_add_succ]
    simp only [CPatternContainer.forEachLoopAcc, hget]
    have hshift : ∀ (q : CPattern), pre ++ q :: ps ++ post = (pre ++ [q]) ++ ps ++ post := by
      intro q; simp
    have hlen : ∀ (q : CPattern), (pre ++ [q]).length = pre.length + 1 := by
      intro q; simp
    cases hp : p.m_ModCommands with
    | none =>
      simp only [Option.isSome_none, Bool.false_eq_true, if_false, visitPatterns, hp]
      rw [hshift p, ← hlen p, ih (pre ++ [p]) post s]
      simp
    | some cells =>
      simp only [Option.isSome_some, if_true, visitPatterns, hp, CPattern.forEachAcc]
      have hset : (pre ++ p :: ps ++ post).set pre.length
          { p with m_ModCommands := some (forEachCell func t s cells).2.2 } =
          (pre ++ [{ p with m_ModCommands := some (forEachCell func t s cells).2.2 }]) ++ ps ++ post := by
        simp [List.set_append_right]
      rw [hset, ← hlen { p with m_ModCommands := some (forEachCell func t s cells).2.2 },
        ih _ post _]
      simp

theorem ForEachModCommandAcc_eq {τ σ : Type} (c : CPatternContainer)
    (func : τ → σ → ModCommand → τ × σ × ModCommand) (t : τ) (s : σ) :
    c.ForEachModCommandAcc func t s =
      (t, (visitPatterns func t s (c.m_Patterns.take c.Size)).1,
        ⟨(visitPatterns func t s (c.m_Patterns.take c.Size)).2 ++ c.m_Patterns.drop c.Size⟩) := by
  have hsz : c.Size ≤ c.m_Patterns.length := Nat.mod_le _ _
  have hlt : c.Size < 65536 := Nat.mod_lt _ (by omega)
  unfold CPatternContainer.ForEachModCommandAcc CPatternContainer.ForEachModCommandRangeAcc
  by_cases h0 : c.Size = 0
  · rw [h0]
    simp [castPATTERNINDEX, visitPatterns]
  · have hlast : castPATTERNINDEX (c.Size + 65535) = c.Size - 1 := by
      unfold castPATTERNINDEX
      omega
    rw [hlast]
    have hg : ¬ ((decide (0 > c.Size - 1) || decide (c.Size - 1 ≥ c.Size)) = true) := by
      simp only [Bool.or_eq_true, decide_eq_true_eq]
      omega
    rw [if_neg hg]
    have hlen : (c.m_Patterns.take c.Size).length = c.Size := by
      rw [List.length_take]
      omega
    have hidx : c.Size - 1 + 1 - 0 = (c.m_Patterns.take c.Size).length := by
      rw [hlen]
      omega
    have hsplit : c = ⟨[] ++ c.m_Patterns.take c.Size ++ c.m_Patterns.drop c.Size⟩ := by
      rw [List.nil_append, List.take_append_drop]
    have h := forEachLoopAcc_slice func t (c.m_Patterns.take c.Size) [] (c.m_Patterns.drop c.Size) s
    rw [← hsplit] at h
    simp only [List.length_nil, List.nil_append] at h
    rw [hidx]
    simp only [h]

theorem forEachCell_logging (f : ModCommand → ModCommand) (cells : List ModCommand) :
    ∀ (log : List ModCommand),
      forEachCell (loggingFunc f) () log cells = ((), log ++ cells, cells.map f) := by
  induction cells with
  | nil => intro log; simp [forEachCell]
  | cons m rest ih =>
    intro log
    simp only [forEachCell, loggingFunc, ih, List.append_assoc, List.singleton_append,
      List.map_cons]

theorem visitPatterns_logging (f : ModCommand → ModCommand) (ps : List CPattern) :
    ∀ (log : List ModCommand),
      visitPatterns (loggingFunc f) () log ps =
        (log ++ (ps.map (fun p => p.m_ModCommands.getD [])).flatten, ps.map (CPattern.forEach f)) := by
  induction ps with
  | nil => intro log; simp [visitPatterns]
  | cons p rest ih =>
    intro log
    cases hp : p.m_ModCommands with
    | none =>
      simp only [visitPatterns, hp, ih, List.map_cons, List.flatten_cons, Option.getD_none,
        List.nil_append, CPattern.forEach, Option.map_none']
      rw [← hp]
    | some cells =>
      simp only [visitPatterns, hp, ih, forEachCell_logging, List.map_cons, List.flatten_cons,
        Option.getD_some, List.append_assoc, CPattern.forEach, Option.map_some']

/-- Claim C11: `CPatternContainer::ForEachModCommand` visits every note-event of every
valid pattern exactly once. For every container and every function object, with any
state of its own and any state outside of it, `ForEachModCommand(func)` gives what one
visit of each cell of each pattern below `Size()` that has a grid gives, pattern after
pattern in ascending index, passing over the patterns without a grid, and returns the
function object as it was given; a function object that writes down its calls has
written down the cells of those patterns, each one once and in that order, and has
changed every one of them; the ranged form calls `func` on nothing when
`nStartPat > nLastPat` or `nLastPat >= Size()`. -/
theorem C11_ForEachModCommand_visits_once {τ σ : Type} (c : CPatternContainer)
    (func : τ → σ → ModCommand → τ × σ × ModCommand) (t : τ) (s : σ)
    (f : ModCommand → ModCommand) :
    c.ForEachModCommandAcc func t s =
      (t, (visitPatterns func t s (c.m_Patterns.take c.Size)).1,
        ⟨(visitPatterns func t s (c.m_Patterns.take c.Size)).2 ++ c.m_Patterns.drop c.Size⟩) ∧
    c.ForEachModCommandAcc (loggingFunc f) () [] =
      ((), ((c.m_Patterns.take c.Size).map (fun p => p.m_ModCommands.getD [])).flatten,
        ⟨(c.m_Patterns.take c.Size).map (CPattern.forEach f) ++ c.m_Patterns.drop c.Size⟩) ∧
    (∀ nStartPat nLastPat, (nStartPat > nLastPat ∨ nLastPat ≥ c.Size) →
      c.ForEachModCommandRangeAcc nStartPat nLastPat func t s = (t, s, c)) := by
  refine ⟨ForEachModCommandAcc_eq c func t s, ?_, ?_⟩
  · rw [ForEachModCommandAcc_eq c (loggingFunc f) () [], visitPatterns_logging]
    simp only [List.nil_append]
  · intro nStartPat nLastPat h
    unfold CPatternContainer.ForEachModCommandRangeAcc
    have hg : (decide (nStartPat > nLastPat) || decide (nLastPat ≥ c.Size)) = true := by
      simp only [Bool.or_eq_true, decide_eq_true_eq]
      exact h
    rw [if_pos hg]

theorem forEachAcc_logging (f : ModCommand → ModCommand) (p : CPattern) (log : List ModCommand) :
    (p.forEachAcc (loggingFunc f) () log).2 = p.forEach f := by
  unfold CPattern.forEachAcc CPattern.forEach
  cases hp : p.m_ModCommands with
  | none => simp only [Option.map_none']; rw [← hp]
  | some cells => simp only [forEachCell_logging, Option.map_some']

theorem forEachLoop_eq_Acc (f : ModCommand → ModCommand) (idx : List Nat) :
    ∀ (c : CPatternContainer) (log : List ModCommand),
      CPatternContainer.forEachLoop f idx c =
        (CPatternContainer.forEachLoopAcc (loggingFunc f) () idx log c).2 := by
  induction idx with
  | nil => intro c log; rfl
  | cons i rest ih =>
    intro c log
    by_cases h : (c.get i).m_ModCommands.isSome = true
    · simp only [CPatternContainer.forEachLoop, CPatternContainer.forEachLoopAcc, h, if_true,
        forEachAcc_logging]
      exact ih _ _
    · simp only [CPatternContainer.forEachLoop, CPatternContainer.forEachLoopAcc, h,
        Bool.false_eq_true, if_false]
      exact ih _ _

theorem ForEachModCommandRange_eq_Acc (c : CPatternContainer) (nStartPat nLastPat : Nat)
    (f : ModCommand → ModCommand) :
    c.ForEachModCommandRange nStartPat nLastPat f =
      (c.ForEachModCommandRangeAcc nStartPat nLastPat (loggingFunc f) () []).2.2 := by
  unfold CPatternContainer.ForEachModCommandRange CPatternContainer.ForEachModCommandRangeAcc
  by_cases h : (decide (nStartPat > nLastPat) || decide (nLastPat ≥ c.Size)) = true
  · rw [if_pos h, if_pos h]
  · rw [if_neg h, if_neg h]
    exact forEachLoop_eq_Acc f _ c []

theorem ForEachModCommand_eq_Acc (c : CPatternContainer) (f : ModCommand → ModCommand) :
    c.ForEachModCommand f = (c.ForEachModCommandAcc (loggingFunc f) () []).2.2 :=
  ForEachModCommandRange_eq_Acc c 0 (castPATTERNINDEX (c.Size + 65535)) f

theorem C11_ForEachModCommand_visits_once_witness :
    (1 > 0 ∨ 0 ≥ exSong.Patterns.Size) ∧
    exSong.Patterns.ForEachModCommandRangeAcc 1 0 (loggingFunc id) () [] =
      ((), [], exSong.Patterns) ∧
    (exSong.Patterns.ForEachModCommandAcc (loggingFunc id) () []).2.1 =
      (List.range 8).map exCell ++ (List.range 4).map (fun n => exCell (n + 10)) :=
  ⟨Or.inl (by decide),
    (C11_ForEachModCommand_visits_once exSong.Patterns (loggingFunc id) () [] id).2.2 1 0
      (Or.inl (by decide)),
    by decide⟩


/-! ## Lemmas on reading files and on the PTM loader -/

theorem FileReader.ReadUint8_data (f : FileReader) : f.ReadUint8.2.data = f.data := by
  unfold FileReader.ReadUint8
  split <;> rfl

theorem FileReader.ReadUint8_pos_le (f : FileReader) : f.pos ≤ f.ReadUint8.2.pos := by
  unfold FileReader.ReadUint8
  split
  · exact Nat.le_succ _
  · exact le_refl _

theorem FileReader.ReadUint8_pos_of_left (f : FileReader) (h : f.AreBytesLeft = true) :
    f.ReadUint8.2.pos = f.pos + 1 := by
  have hp : f.pos < f.data.length := by simpa [FileReader.AreBytesLeft] using h
  have hc : f.CanRead 1 = true := by
    simp only [FileReader.CanRead, FileReader.BytesLeft, decide_eq_true_eq]
    omega
  unfold FileReader.ReadUint8
  rw [if_pos hc]

theorem FileReader.Seek_data (f : FileReader) (p : Nat) : (f.Seek p).2.data = f.data := by
  unfold FileReader.Seek
  split <;> rfl

theorem ptmReadNote_data (b : Nat) (file : FileReader) (m : ModCommand) :
    (ptmReadNote b file m).2.data = file.data := by
  unfold ptmReadNote
  by_cases h : b &&& 0x20 ≠ 0
  · rw [if_pos h]
    exact (FileReader.ReadUint8_data _).trans (FileReader.ReadUint8_data _)
  · rw [if_neg h]

theorem ptmReadNote_pos_le (b : Nat) (file : FileReader) (m : ModCommand) :
    file.pos ≤ (ptmReadNote b file m).2.pos := by
  unfold ptmReadNote
  by_cases h : b &&& 0x20 ≠ 0
  · rw [if_pos h]
    exact le_trans (FileReader.ReadUint8_pos_le file) (FileReader.ReadUint8_pos_le _)
  · rw [if_neg h]

theorem ptmReadEffect_data (env : LoaderEnv) (b : Nat) (file : FileReader) (m : ModCommand) :
    (ptmReadEffect env b file m).2.data = file.data := by
  unfold ptmReadEffect
  by_cases h : b &&& 0x40 ≠ 0
  · rw [if_pos h]
    exact (FileReader.ReadUint8_data _).trans (FileReader.ReadUint8_data _)
  · rw [if_neg h]

theorem ptmReadEffect_pos_le (env : LoaderEnv) (b : Nat) (file : FileReader) (m : ModCommand) :
    file.pos ≤ (ptmReadEffect env b file m).2.pos := by
  unfold ptmReadEffect
  by_cases h : b &&& 0x40 ≠ 0
  · rw [if_pos h]
    exact le_trans (FileReader.ReadUint8_pos_le file) (FileReader.ReadUint8_pos_le _)
  · rw [if_neg h]

theorem ptmReadVolume_data (b : Nat) (file : FileReader) (m : ModCommand) :
    (ptmReadVolume b file m).2.data = file.data := by
  unfold ptmReadVolume
  by_cases h : b &&& 0x80 ≠ 0
  · rw [if_pos h]
    exact FileReader.ReadUint8_data _
  · rw [if_neg h]

theorem ptmReadVolume_pos_le (b : Nat) (file : FileReader) (m : ModCommand) :
    file.pos ≤ (ptmReadVolume b file m).2.pos := by
  unfold ptmReadVolume
  by_cases h : b &&& 0x80 ≠ 0
  · rw [if_pos h]
    exact FileReader.ReadUint8_pos_le file
  · rw [if_neg h]

theorem ptmReadEvent_data (env : LoaderEnv) (b : Nat) (file : FileReader) (m : ModCommand) :
    (ptmReadEvent env b file m).2.data = file.data := by
  unfold ptmReadEvent
  simp only [ptmReadVolume_data, ptmReadEffect_data, ptmReadNote_data]

theorem ptmReadEvent_pos_le (env : LoaderEnv) (b : Nat) (file : FileReader) (m : ModCommand) :
    file.pos ≤ (ptmReadEvent env b file m).2.pos := by
  unfold ptmReadEvent
  exact le_trans (ptmReadNote_pos_le b file m)
    (le_trans (ptmReadEffect_pos_le env b _ _) (ptmReadVolume_pos_le b _ _))

theorem ptmDecodeRows_some (env : LoaderEnv) (numChannels : Nat) :
    ∀ (fuel : Nat) (file : FileReader) (row : Nat) (cells : List ModCommand),
      file.data.length - file.pos < fuel →
      ∃ r, ptmDecodeRows env numChannels fuel file row cells = some r ∧
        r.1.data = file.data ∧ r.2.length = cells.length := by
  intro fuel
  induction fuel with
  | zero => intro file row cells h; exact absurd h (Nat.not_lt_zero _)
  | succ fuel ih =>
    intro file row cells h
    unfold ptmDecodeRows
    by_cases hc : row < 64 ∧ file.AreBytesLeft = true
    · rw [if_pos hc]
      have hp : file.pos < file.data.length := by simpa [FileReader.AreBytesLeft] using hc.2
      have hpos := FileReader.ReadUint8_pos_of_left file hc.2
      have hdata := FileReader.ReadUint8_data file
      simp only []
      by_cases hb : file.ReadUint8.1 = 0
      · rw [if_pos hb]
        obtain ⟨r, hr, hd, hl⟩ := ih file.ReadUint8.2 (row + 1) cells (by rw [hdata, hpos]; omega)
        exact ⟨r, hr, hd.trans hdata, hl⟩
      · rw [if_neg hb]
        have hle := ptmReadEvent_pos_le env file.ReadUint8.1 file.ReadUint8.2
          (if file.ReadUint8.1 &&& 0x1F < numChannels then
            cells.getD (row * numChannels + (file.ReadUint8.1 &&& 0x1F)) ModCommand.Empty
          else ModCommand.Empty)
        have hd2 := ptmReadEvent_data env file.ReadUint8.1 file.ReadUint8.2
          (if file.ReadUint8.1 &&& 0x1F < numChannels then
            cells.getD (row * numChannels + (file.ReadUint8.1 &&& 0x1F)) ModCommand.Empty
          else ModCommand.Empty)
        obtain ⟨r, hr, hd, hl⟩ := ih _ row
          (if file.ReadUint8.1 &&& 0x1F < numChannels then
            cells.set (row * numChannels + (file.ReadUint8.1 &&& 0x1F))
              (ptmReadEvent env file.ReadUint8.1 file.ReadUint8.2
                (if file.ReadUint8.1 &&& 0x1F < numChannels then
                  cells.getD (row * numChannels + (file.ReadUint8.1 &&& 0x1F)) ModCommand.Empty
                else ModCommand.Empty)).1
          else cells)
          (by rw [hd2, hdata]; omega)
        refine ⟨r, hr, hd.trans (hd2.trans hdata), hl.trans ?_⟩
        split_ifs
        · exact List.length_set _ _ _
        · rfl
    · rw [if_neg hc]
      exact ⟨_, rfl, rfl, rfl⟩

theorem ptmReadPattern_some (env : LoaderEnv) (fileHeader : PTMFileHeader)
    (numChannels fuel : Nat) (pats : CPatternContainer) (file : FileReader) (pat : Nat)
    (hf : file.data.length < fuel) :
    ∃ r, ptmReadPattern env fileHeader numChannels fuel (some (pats, file)) pat = some r ∧
      r.2.data = file.data := by
  unfold ptmReadPattern
  simp only []
  by_cases h1 : (CPatternContainer.Insert (env.patternAllocOk pat) numChannels pats pat 64).1 = true
  · rw [if_pos h1]
    exact ⟨_, rfl, rfl⟩
  · rw [if_neg h1]
    by_cases h2 : fileHeader.patOffsets.getD pat 0 = 0
    · rw [if_pos h2]
      exact ⟨_, rfl, rfl⟩
    · rw [if_neg h2]
      have hsd := FileReader.Seek_data file (fileHeader.patOffsets.getD pat 0 <<< 4)
      by_cases h3 : (!(file.Seek (fileHeader.patOffsets.getD pat 0 <<< 4)).1) = true
      · rw [if_pos h3]
        exact ⟨_, rfl, hsd⟩
      · rw [if_neg h3]
        obtain ⟨r, hr, hd, _⟩ := ptmDecodeRows_some env numChannels fuel
          (file.Seek (fileHeader.patOffsets.getD pat 0 <<< 4)).2 0
          (((CPatternContainer.Insert (env.patternAllocOk pat) numChannels pats pat 64).2.get
            pat).m_ModCommands.getD []) (by rw [hsd]; omega)
        rw [hr]
        exact ⟨_, rfl, hd.trans hsd⟩

theorem ptmReadPatterns_some (env : LoaderEnv) (fileHeader : PTMFileHeader)
    (numChannels fuel : Nat) (l : List Nat) :
    ∀ (pats : CPatternContainer) (file : FileReader), file.data.length < fuel →
      ∃ r, l.foldl (ptmReadPattern env fileHeader numChannels fuel) (some (pats, file)) = some r ∧
        r.2.data = file.data := by
  induction l with
  | nil => intro pats file _; exact ⟨_, rfl, rfl⟩
  | cons pat rest ih =>
    intro pats file hf
    obtain ⟨r, hr, hd⟩ := ptmReadPattern_some env fileHeader numChannels fuel pats file pat hf
    rw [List.foldl_cons, hr]
    obtain ⟨r2, hr2, hd2⟩ := ih r.1 r.2 (by rw [hd]; exact hf)
    exact ⟨r2, hr2, hd2.trans hd⟩

theorem getD_take_of_lt (l : List Nat) (n i : Nat) (h : i < n) :
    (l.take n).getD i 0 = l.getD i 0 := by
  rw [List.getD_eq_getElem?_getD, List.getD_eq_getElem?_getD, List.getElem?_take_of_lt h]

theorem le16_take (l : List Nat) (n off : Nat) (h : off + 1 < n) :
    le16 (l.take n) off = le16 l off := by
  unfold le16
  rw [getD_take_of_lt l n off (by omega), getD_take_of_lt l n (off + 1) h]

theorem bytesAt_take (l : List Nat) (n off len : Nat) (h : off + len ≤ n) :
    bytesAt (l.take n) off len = bytesAt l off len := by
  unfold bytesAt
  rw [List.drop_take, List.take_take, Nat.min_eq_left (by omega)]

theorem FileReader.ReadStruct_Rewind_short (f : FileReader) (size : Nat)
    (h : f.data.length < size) : f.Rewind.ReadStruct size = (none, f.Rewind) := by
  unfold FileReader.ReadStruct
  have hc : f.Rewind.CanRead size = false := by
    simp only [FileReader.CanRead, FileReader.BytesLeft, FileReader.Rewind, decide_eq_false_iff_not]
    omega
  rw [hc]
  rfl

theorem FileReader.ReadStruct_Rewind_full (f : FileReader) (size : Nat)
    (h : size ≤ f.data.length) :
    f.Rewind.ReadStruct size = (some (f.data.take size), ⟨f.data, size, f.valid⟩) := by
  unfold FileReader.ReadStruct
  have hc : f.Rewind.CanRead size = true := by
    simp only [FileReader.CanRead, FileReader.BytesLeft, FileReader.Rewind, decide_eq_true_eq]
    omega
  rw [hc]
  simp [FileReader.Rewind]

theorem ptmRejects_iff (f : FileReader) :
    ptmRejects (f.Rewind.ReadStruct PTMFileHeader.sizeof)
        (PTMFileHeader.ofBytes (((f.Rewind.ReadStruct PTMFileHeader.sizeof).1).getD
          (List.replicate PTMFileHeader.sizeof 0))) ↔
      ¬ ptmHeaderWellFormed f.data := by
  by_cases hlen : f.data.length < 608
  · have hlen1 : f.data.length < PTMFileHeader.sizeof := hlen
    rw [FileReader.ReadStruct_Rewind_short f _ hlen1]
    unfold ptmRejects ptmHeaderWellFormed
    constructor
    · intro _ h
      omega
    · intro _
      exact Or.inl rfl
  · have hlen2 : PTMFileHeader.sizeof ≤ f.data.length := by
      unfold PTMFileHeader.sizeof
      omega
    rw [FileReader.ReadStruct_Rewind_full f _ hlen2]
    unfold ptmRejects ptmHeaderWellFormed
    simp only [Option.getD_some, Option.isNone_some, Bool.false_eq_true, false_or,
      PTMFileHeader.ofBytes, PTMFileHeader.sizeof, PTMSampleHeader.sizeof,
      le16_take f.data 608 32 (by omega), le16_take f.data 608 34 (by omega),
      le16_take f.data 608 36 (by omega), le16_take f.data 608 38 (by omega),
      bytesAt_take f.data 608 44 4 (by omega), FileReader.CanRead, FileReader.BytesLeft,
      decide_eq_false_iff_not]
    constructor
    · intro h hw
      obtain ⟨_, hm, h1, h2, h3, h4, h5, h6, h7, h8, h9⟩ := hw
      rcases h with h | h | h | h | h | h | h | h | h | h
      · exact h hm
      all_goals omega
    · intro h
      by_contra hn
      simp only [not_or, not_not, not_lt, Nat.not_le] at hn
      obtain ⟨hm, h1, h2, h3, h4, h5, h6, h7, h8, h9⟩ := hn
      exact h ⟨by omega, hm, by omega, by omega, by omega, by omega, by omega, by omega,
        by omega, by omega, by omega⟩

theorem ptmLoadPatterns_some (env : LoaderEnv) (s : CSoundFile) (file : FileReader)
    (fileHeader : PTMFileHeader) :
    ∃ r, ptmLoadPatterns env s file fileHeader = some r := by
  unfold ptmLoadPatterns
  obtain ⟨r, hr, _⟩ := ptmReadPatterns_some env fileHeader s.m_nChannels (file.data.length + 1)
    (List.range fileHeader.numPatterns) s.Patterns file (Nat.lt_succ_self _)
  rw [hr]
  exact ⟨_, rfl⟩

theorem ReadPTM_reject (env : LoaderEnv) (s : CSoundFile) (file : FileReader) (loadFlags : Nat)
    (h : ¬ ptmHeaderWellFormed file.data) :
    CSoundFile.ReadPTM env s file loadFlags =
      some (false, s, (file.Rewind.ReadStruct PTMFileHeader.sizeof).2) := by
  unfold CSoundFile.ReadPTM
  simp only []
  rw [if_pos ((ptmRejects_iff file).mpr h)]

theorem ReadPTM_verify (env : LoaderEnv) (s : CSoundFile) (file : FileReader)
    (h : ptmHeaderWellFormed file.data) :
    CSoundFile.ReadPTM env s file onlyVerifyHeader =
      some (true, s, (file.Rewind.ReadStruct PTMFileHeader.sizeof).2) := by
  unfold CSoundFile.ReadPTM
  simp only []
  rw [if_neg (fun hr => (ptmRejects_iff file).mp hr h), if_pos trivial]

theorem ReadPTM_load (env : LoaderEnv) (s : CSoundFile) (file : FileReader) (loadFlags : Nat)
    (h : ptmHeaderWellFormed file.data) (hflags : loadFlags ≠ onlyVerifyHeader) :
    ∃ r, CSoundFile.ReadPTM env s file loadFlags = some (true, r) := by
  unfold CSoundFile.ReadPTM
  simp only []
  rw [if_neg (fun hr => (ptmRejects_iff file).mp hr h), if_neg hflags]
  split
  · exact ⟨_, rfl⟩
  · obtain ⟨r, hr⟩ := ptmLoadPatterns_some env
      (ptmLoadSamples env loadFlags (ptmLoadGlobals env s
        (PTMFileHeader.ofBytes ((file.Rewind.ReadStruct PTMFileHeader.sizeof).1.getD
          (List.replicate PTMFileHeader.sizeof 0)))) (file.Rewind.ReadStruct PTMFileHeader.sizeof).2
        (PTMFileHeader.ofBytes ((file.Rewind.ReadStruct PTMFileHeader.sizeof).1.getD
          (List.replicate PTMFileHeader.sizeof 0)))).1
      (ptmLoadSamples env loadFlags (ptmLoadGlobals env s
        (PTMFileHeader.ofBytes ((file.Rewind.ReadStruct PTMFileHeader.sizeof).1.getD
          (List.replicate PTMFileHeader.sizeof 0)))) (file.Rewind.ReadStruct PTMFileHeader.sizeof).2
        (PTMFileHeader.ofBytes ((file.Rewind.ReadStruct PTMFileHeader.sizeof).1.getD
          (List.replicate PTMFileHeader.sizeof 0)))).2
      (PTMFileHeader.ofBytes ((file.Rewind.ReadStruct PTMFileHeader.sizeof).1.getD
          (List.replicate PTMFileHeader.sizeof 0)))
    rw [hr]
    exact ⟨_, rfl⟩

/-- Claim C14: `CSoundFile::ReadPTM` accepts exactly the well-formed headers. For every
input byte string, whatever the song and the load flags, it returns, and it returns
false if and only if the 608-byte header cannot be read in full, or the magic field is
not "PTMF", or `numChannels` is 0 or above 32, or `numOrders` is 0 or above 256, or
`numSamples` is 0 or above 255, or `numPatterns` is 0 or above 128, or fewer than
`numSamples * 80` bytes follow the header; in every other case it returns true. -/
theorem C14_ReadPTM_accepts_wellformed (env : LoaderEnv) (s : CSoundFile) (file : FileReader)
    (loadFlags : Nat) :
    ∃ r, CSoundFile.ReadPTM env s file loadFlags = some r ∧
      (r.1 = false ↔
        (file.data.length < 608 ∨ bytesAt file.data 44 4 ≠ [0x50, 0x54, 0x4D, 0x46] ∨
          le16 file.data 38 = 0 ∨ le16 file.data 38 > 32 ∨
          le16 file.data 32 = 0 ∨ le16 file.data 32 > 256 ∨
          le16 file.data 34 = 0 ∨ le16 file.data 34 > 255 ∨
          le16 file.data 36 = 0 ∨ le16 file.data 36 > 128 ∨
          file.data.length - 608 < le16 file.data 34 * 80)) ∧
      (r.1 = true ↔ ptmHeaderWellFormed file.data) := by
  have hiff : (file.data.length < 608 ∨ bytesAt file.data 44 4 ≠ [0x50, 0x54, 0x4D, 0x46] ∨
          le16 file.data 38 = 0 ∨ le16 file.data 38 > 32 ∨
          le16 file.data 32 = 0 ∨ le16 file.data 32 > 256 ∨
          le16 file.data 34 = 0 ∨ le16 file.data 34 > 255 ∨
          le16 file.data 36 = 0 ∨ le16 file.data 36 > 128 ∨
          file.data.length - 608 < le16 file.data 34 * 80) ↔ ¬ ptmHeaderWellFormed file.data := by
    unfold ptmHeaderWellFormed
    constructor
    · intro h hw
      obtain ⟨_, hm, h1, h2, h3, h4, h5, h6, h7, h8, h9⟩ := hw
      rcases h with h | h | h | h | h | h | h | h | h | h | h
      · omega
      · exact h hm
      all_goals omega
    · intro h
      by_contra hn
      simp only [not_or, not_not, not_lt, Nat.not_le] at hn
      obtain ⟨h0, hm, h1, h2, h3, h4, h5, h6, h7, h8, h9⟩ := hn
      exact h ⟨h0, hm, by omega, by omega, by omega, by omega, by omega, by omega,
        by omega, by omega, by omega⟩
  by_cases hw : ptmHeaderWellFormed file.data
  · by_cases hf : loadFlags = onlyVerifyHeader
    · refine ⟨_, (congrArg (CSoundFile.ReadPTM env s file) hf).trans (ReadPTM_verify env s file hw),
        ?_, ?_⟩
      · rw [hiff]
        exact ⟨fun h => absurd h Bool.noConfusion, fun h => absurd hw h⟩
      · exact ⟨fun _ => hw, fun _ => rfl⟩
    · obtain ⟨r, hr⟩ := ReadPTM_load env s file loadFlags hw hf
      refine ⟨_, hr, ?_, ?_⟩
      · rw [hiff]
        exact ⟨fun h => absurd h Bool.noConfusion, fun h => absurd hw h⟩
      · exact ⟨fun _ => hw, fun _ => rfl⟩
  · refine ⟨_, ReadPTM_reject env s file loadFlags hw, ?_, ?_⟩
    · rw [hiff]
      exact ⟨fun _ => hw, fun _ => rfl⟩
    · exact ⟨fun h => absurd h Bool.noConfusion, fun h => absurd h hw⟩

/-- Claim C15: `CSoundFile::ReadPTM` in header-only mode changes no song state. For every
input, a call with `loadFlags == onlyVerifyHeader` returns the same verdict as a load of
the same bytes with any load flags, the full load included, and it leaves the song,
so its type, channel count, sample count, sample headers, order list and patterns,
exactly as it was before the call. -/
theorem C15_ReadPTM_header_only (env : LoaderEnv) (s : CSoundFile) (file : FileReader)
    (loadFlags : Nat) :
    ∃ v f, CSoundFile.ReadPTM env s file onlyVerifyHeader = some (v, s, f) ∧
      ∃ r, CSoundFile.ReadPTM env s file loadFlags = some (v, r) := by
  by_cases hw : ptmHeaderWellFormed file.data
  · refine ⟨true, _, ReadPTM_verify env s file hw, ?_⟩
    by_cases hf : loadFlags = onlyVerifyHeader
    · exact ⟨_, (congrArg (CSoundFile.ReadPTM env s file) hf).trans (ReadPTM_verify env s file hw)⟩
    · exact ReadPTM_load env s file loadFlags hw hf
  · exact ⟨false, _, ReadPTM_reject env s file onlyVerifyHeader hw,
      _, ReadPTM_reject env s file loadFlags hw⟩

theorem CPatternContainer.get_append_last (pats : CPatternContainer) (v : CPattern) (i : Nat) :
    (CPatternContainer.mk (pats.m_Patterns ++ [v])).get i =
      if i = pats.m_Patterns.length then v else pats.get i := by
  unfold CPatternContainer.get
  simp only [List.getD_eq_getElem?_getD]
  by_cases h : i < pats.m_Patterns.length
  · rw [List.getElem?_append_left h, if_neg (by omega)]
  · rw [List.getElem?_append_right (by omega)]
    by_cases h2 : i = pats.m_Patterns.length
    · rw [if_pos h2, h2, Nat.sub_self]
      rfl
    · rw [if_neg h2, List.getElem?_eq_none (by simp; omega), List.getElem?_eq_none (by omega)]

theorem CPatternContainer.Insert_ok (nchns : Nat) (pats : CPatternContainer) (index rows : Nat)
    (hidx : index ≤ pats.m_Patterns.length) (hnone : (pats.get index).m_ModCommands = none) :
    (CPatternContainer.Insert true nchns pats index rows).1 = false ∧
    index < (CPatternContainer.Insert true nchns pats index rows).2.m_Patterns.length ∧
    (CPatternContainer.Insert true nchns pats index rows).2.get index =
      ⟨rows, some (List.replicate (rows * nchns) ModCommand.Empty)⟩ ∧
    ∀ i, i ≠ index →
      (CPatternContainer.Insert true nchns pats index rows).2.get i = pats.get i := by
  unfold CPatternContainer.Insert
  rw [if_neg (by omega), hnone]
  simp only [Option.isSome_none, Bool.false_eq_true, if_false, CPattern.AllocatePattern, if_true]
  by_cases h : index = pats.m_Patterns.length
  · rw [if_pos h]
    refine ⟨rfl, by simp; omega, ?_, ?_⟩
    · rw [CPatternContainer.get_append_last, if_pos h]
    · intro i hi
      rw [CPatternContainer.get_append_last, if_neg (by omega)]
  · rw [if_neg h]
    have hlt : index < pats.m_Patterns.length := by omega
    refine ⟨rfl, by simp; omega, ?_, ?_⟩
    · rw [CPatternContainer.get_set, if_pos ⟨rfl, hlt⟩]
    · intro i hi
      rw [CPatternContainer.get_set, if_neg (fun h2 => hi h2.1)]


theorem ptmPatternsLoaded_Insert (n pat : Nat) (pats : CPatternContainer)
    (hinv : ptmPatternsLoaded n pat pats) :
    ptmPatternsLoaded n (pat + 1) (CPatternContainer.Insert true n pats pat 64).2 := by
  obtain ⟨hlen, hlow, hhigh⟩ := hinv
  obtain ⟨_, hlt, hget, hother⟩ :=
    CPatternContainer.Insert_ok n pats pat 64 hlen (hhigh pat (le_refl _))
  refine ⟨hlt, ?_, ?_⟩
  · intro i hi
    by_cases hip : i = pat
    · subst hip
      rw [hget]
      exact ⟨rfl, _, rfl, List.length_replicate _ _⟩
    · rw [hother i hip]
      exact hlow i (by omega)
  · intro i hi
    rw [hother i (by omega)]
    exact hhigh i (by omega)

theorem ptmPatternsLoaded_set (n pat : Nat) (pats : CPatternContainer) (cells : List ModCommand)
    (hinv : ptmPatternsLoaded n (pat + 1) pats) (hcells : cells.length = 64 * n) :
    ptmPatternsLoaded n (pat + 1)
      ⟨pats.m_Patterns.set pat { pats.get pat with m_ModCommands := some cells }⟩ := by
  obtain ⟨hlen, hlow, hhigh⟩ := hinv
  refine ⟨by rw [List.length_set]; exact hlen, ?_, ?_⟩
  · intro i hi
    rw [CPatternContainer.get_set]
    by_cases hip : i = pat
    · rw [if_pos ⟨hip, by omega⟩]
      exact ⟨(hlow pat (by omega)).1, cells, rfl, hcells⟩
    · rw [if_neg (fun h => hip h.1)]
      exact hlow i hi
  · intro i hi
    rw [CPatternContainer.get_set, if_neg (fun h => by omega)]
    exact hhigh i hi

theorem ptmReadPattern_loaded (env : LoaderEnv) (fileHeader : PTMFileHeader)
    (n fuel : Nat) (pats : CPatternContainer) (file : FileReader) (pat : Nat)
    (hf : file.data.length < fuel) (halloc : env.patternAllocOk pat = true)
    (hinv : ptmPatternsLoaded n pat pats) :
    ∃ r, ptmReadPattern env fileHeader n fuel (some (pats, file)) pat = some r ∧
      r.2.data = file.data ∧ ptmPatternsLoaded n (pat + 1) r.1 := by
  have hins := ptmPatternsLoaded_Insert n pat pats hinv
  have hok := (CPatternContainer.Insert_ok n pats pat 64 hinv.1 (hinv.2.2 pat (le_refl _))).1
  unfold ptmReadPattern
  simp only [halloc, hok, Bool.false_eq_true, if_false]
  by_cases h2 : fileHeader.patOffsets.getD pat 0 = 0
  · rw [if_pos h2]
    exact ⟨_, rfl, rfl, hins⟩
  · rw [if_neg h2]
    have hsd := FileReader.Seek_data file (fileHeader.patOffsets.getD pat 0 <<< 4)
    by_cases h3 : (!(file.Seek (fileHeader.patOffsets.getD pat 0 <<< 4)).1) = true
    · rw [if_pos h3]
      exact ⟨_, rfl, hsd, hins⟩
    · rw [if_neg h3]
      obtain ⟨r, hr, hd, hl⟩ := ptmDecodeRows_some env n fuel
        (file.Seek (fileHeader.patOffsets.getD pat 0 <<< 4)).2 0
        (((CPatternContainer.Insert true n pats pat 64).2.get pat).m_ModCommands.getD [])
        (by rw [hsd]; omega)
      rw [hr]
      refine ⟨_, rfl, hd.trans hsd, ptmPatternsLoaded_set n pat _ r.2 hins ?_⟩
      rw [hl]
      obtain ⟨cells, hc, hcl⟩ := (hins.2.1 pat (Nat.lt_succ_self _)).2
      rw [hc]
      exact hcl

theorem ptmReadPatterns_loaded (env : LoaderEnv) (fileHeader : PTMFileHeader)
    (n fuel : Nat) (file : FileReader) (hf : file.data.length < fuel) :
    ∀ (k : Nat) (pats : CPatternContainer), (∀ pat, pat < k → env.patternAllocOk pat = true) →
      ptmPatternsLoaded n 0 pats →
      ∃ r, (List.range k).foldl (ptmReadPattern env fileHeader n fuel) (some (pats, file)) = some r ∧
        r.2.data = file.data ∧ ptmPatternsLoaded n k r.1 := by
  intro k
  induction k with
  | zero => intro pats _ hinv; exact ⟨_, rfl, rfl, hinv⟩
  | succ k ih =>
    intro pats halloc hinv
    obtain ⟨r, hr, hd, hl⟩ := ih pats (fun pat hp => halloc pat (by omega)) hinv
    rw [foldl_range_succ, hr]
    obtain ⟨r2, hr2, hd2, hl2⟩ := ptmReadPattern_loaded env fileHeader n fuel r.1 r.2 k
      (by rw [hd]; exact hf) (halloc k (Nat.lt_succ_self _)) hl
    exact ⟨r2, hr2, hd2.trans hd, hl2⟩

theorem ptmReadSample_frame (env : LoaderEnv) (loadFlags : Nat)
    (st : CSoundFile × FileReader × FileReader) (smp : Nat) :
    (ptmReadSample env loadFlags st smp).1.m_nType = st.1.m_nType ∧
    (ptmReadSample env loadFlags st smp).1.m_nChannels = st.1.m_nChannels ∧
    (ptmReadSample env loadFlags st smp).1.m_nSamples = st.1.m_nSamples ∧
    (ptmReadSample env loadFlags st smp).1.Order = st.1.Order ∧
    (ptmReadSample env loadFlags st smp).1.Patterns = st.1.Patterns := by
  unfold ptmReadSample
  simp only []
  split
  · split
    · exact ⟨rfl, rfl, rfl, rfl, rfl⟩
    · exact ⟨rfl, rfl, rfl, rfl, rfl⟩
  · exact ⟨rfl, rfl, rfl, rfl, rfl⟩

theorem ptmLoadSamples_frame (env : LoaderEnv) (loadFlags : Nat) (s : CSoundFile)
    (file : FileReader) (fileHeader : PTMFileHeader) :
    (ptmLoadSamples env loadFlags s file fileHeader).1.m_nType = s.m_nType ∧
    (ptmLoadSamples env loadFlags s file fileHeader).1.m_nChannels = s.m_nChannels ∧
    (ptmLoadSamples env loadFlags s file fileHeader).1.m_nSamples = s.m_nSamples ∧
    (ptmLoadSamples env loadFlags s file fileHeader).1.Order = s.Order ∧
    (ptmLoadSamples env loadFlags s file fileHeader).1.Patterns = s.Patterns := by
  unfold ptmLoadSamples
  simp only []
  apply foldl_invariant (fun st : CSoundFile × FileReader × FileReader =>
    st.1.m_nType = s.m_nType ∧ st.1.m_nChannels = s.m_nChannels ∧
    st.1.m_nSamples = s.m_nSamples ∧ st.1.Order = s.Order ∧ st.1.Patterns = s.Patterns)
  · exact ⟨rfl, rfl, rfl, rfl, rfl⟩
  · intro acc x _ hacc
    obtain ⟨h1, h2, h3, h4, h5⟩ := ptmReadSample_frame env loadFlags acc x
    exact ⟨h1.trans hacc.1, h2.trans hacc.2.1, h3.trans hacc.2.2.1, h4.trans hacc.2.2.2.1,
      h5.trans hacc.2.2.2.2⟩

theorem ptmLoadGlobals_fields (env : LoaderEnv) (s : CSoundFile) (fileHeader : PTMFileHeader) :
    (ptmLoadGlobals env s fileHeader).m_nType = MOD_TYPE_PTM ∧
    (ptmLoadGlobals env s fileHeader).m_nChannels = fileHeader.numChannels ∧
    (ptmLoadGlobals env s fileHeader).m_nSamples =
      min (castSAMPLEINDEX fileHeader.numSamples) (castSAMPLEINDEX (MAX_SAMPLES - 1)) ∧
    (ptmLoadGlobals env s fileHeader).Order =
      ReadFromArray (env.InitializeGlobals { s with songName := env.ReadString fileHeader.songname }).Order
        fileHeader.orders fileHeader.numOrders ∧
    (ptmLoadGlobals env s fileHeader).Patterns =
      (env.InitializeGlobals { s with songName := env.ReadString fileHeader.songname }).Patterns :=
  ⟨rfl, rfl, rfl, rfl, rfl⟩

theorem ReadFromArray_take (order orders : List Nat) (k : Nat) (hk : k ≤ orders.length) :
    (ReadFromArray order orders k).take k = orders.take k := by
  unfold ReadFromArray
  rw [List.take_append_of_le_length (by rw [List.length_take]; omega), List.take_take,
    Nat.min_self]

theorem ptmLoadPatterns_loaded (env : LoaderEnv) (s : CSoundFile) (file : FileReader)
    (fileHeader : PTMFileHeader)
    (halloc : ∀ pat, pat < fileHeader.numPatterns → env.patternAllocOk pat = true)
    (hfresh : ∀ i, (s.Patterns.get i).m_ModCommands = none) :
    ∃ pats f, ptmLoadPatterns env s file fileHeader = some ({ s with Patterns := pats }, f) ∧
      ptmPatternsLoaded s.m_nChannels fileHeader.numPatterns pats := by
  unfold ptmLoadPatterns
  obtain ⟨r, hr, _, hl⟩ := ptmReadPatterns_loaded env fileHeader s.m_nChannels
    (file.data.length + 1) file (Nat.lt_succ_self _) fileHeader.numPatterns s.Patterns halloc
    ⟨Nat.zero_le _, fun i hi => absurd hi (Nat.not_lt_zero i), fun i _ => hfresh i⟩
  rw [hr]
  exact ⟨r.1, r.2, rfl, hl⟩

/-- Claim C16, amended: a successful full load by `CSoundFile::ReadPTM` yields the counts the
header declares, all within the limits of the format, when every allocation of a
pattern succeeds. For every accepted input loaded with load flags other than
`onlyVerifyHeader` (all load flags included), when the globals of the song start
without pattern data and the allocation of each of the `numPatterns` patterns
succeeds, the call returns true and afterwards the song type is PTM, the channel count
is the header's `numChannels`, in 1..32, the sample count is
`min(numSamples, MAX_SAMPLES - 1)` and at least 1, the order list holds the first
`numOrders` header entries, and patterns `0 .. numPatterns-1` each exist with 64 rows. -/
theorem C16_ReadPTM_counts (env : LoaderEnv) (s : CSoundFile) (file : FileReader)
    (loadFlags : Nat) (hw : ptmHeaderWellFormed file.data)
    (hflags : loadFlags ≠ onlyVerifyHeader)
    (halloc : ∀ pat, pat < le16 file.data 36 → env.patternAllocOk pat = true)
    (hfresh : ∀ s0 i, ((env.InitializeGlobals s0).Patterns.get i).m_ModCommands = none) :
    ∃ s1 f1, CSoundFile.ReadPTM env s file loadFlags = some (true, s1, f1) ∧
      s1.m_nType = MOD_TYPE_PTM ∧
      s1.m_nChannels = le16 file.data 38 ∧ 1 ≤ s1.m_nChannels ∧ s1.m_nChannels ≤ 32 ∧
      s1.m_nSamples = min (le16 file.data 34) (MAX_SAMPLES - 1) ∧ 1 ≤ s1.m_nSamples ∧
      s1.Order.take (le16 file.data 32) = (bytesAt file.data 96 256).take (le16 file.data 32) ∧
      ∀ pat, pat < le16 file.data 36 →
        pat < s1.Patterns.m_Patterns.length ∧ (s1.Patterns.get pat).GetNumRows = 64 ∧
        ∃ cells, (s1.Patterns.get pat).m_ModCommands = some cells ∧
          cells.length = 64 * s1.m_nChannels := by
  have hw2 := hw
  obtain ⟨hlen, _, hc1, hc2, ho1, ho2, hs1, hs2, hp1, hp2, _⟩ := hw2
  have hrd := FileReader.ReadStruct_Rewind_full file PTMFileHeader.sizeof hlen
  have hrej := (not_congr (ptmRejects_iff file)).mpr (not_not.mpr hw)
  have hpd : ¬ ¬ (loadFlags ≠ 0 ∧ loadPatternData ≠ 0) :=
    not_not.mpr ⟨hflags, by decide⟩
  have hnc : (PTMFileHeader.ofBytes (file.data.take PTMFileHeader.sizeof)).numChannels =
      le16 file.data 38 := le16_take file.data 608 38 (by omega)
  have hns : (PTMFileHeader.ofBytes (file.data.take PTMFileHeader.sizeof)).numSamples =
      le16 file.data 34 := le16_take file.data 608 34 (by omega)
  have hno : (PTMFileHeader.ofBytes (file.data.take PTMFileHeader.sizeof)).numOrders =
      le16 file.data 32 := le16_take file.data 608 32 (by omega)
  have hnp : (PTMFileHeader.ofBytes (file.data.take PTMFileHeader.sizeof)).numPatterns =
      le16 file.data 36 := le16_take file.data 608 36 (by omega)
  have hord : (PTMFileHeader.ofBytes (file.data.take PTMFileHeader.sizeof)).orders =
      bytesAt file.data 96 256 := bytesAt_take file.data 608 96 256 (by omega)
  have hordlen : (bytesAt file.data 96 256).length = 256 := by
    unfold bytesAt
    rw [List.length_take, List.length_drop]
    omega
  unfold CSoundFile.ReadPTM
  simp only []
  rw [if_neg hrej, if_neg hflags, if_neg hpd]
  rw [hrd] at *
  simp only [Option.getD_some] at *
  obtain ⟨g1, g2, g3, g4, g5⟩ := ptmLoadGlobals_fields env s
    (PTMFileHeader.ofBytes (file.data.take PTMFileHeader.sizeof))
  obtain ⟨e1, e2, e3, e4, e5⟩ := ptmLoadSamples_frame env loadFlags
    (ptmLoadGlobals env s (PTMFileHeader.ofBytes (file.data.take PTMFileHeader.sizeof)))
    ⟨file.data, PTMFileHeader.sizeof, file.valid⟩
    (PTMFileHeader.ofBytes (file.data.take PTMFileHeader.sizeof))
  obtain ⟨pats, f, hload, hinv⟩ := ptmLoadPatterns_loaded env
    (ptmLoadSamples env loadFlags
      (ptmLoadGlobals env s (PTMFileHeader.ofBytes (file.data.take PTMFileHeader.sizeof)))
      ⟨file.data, PTMFileHeader.sizeof, file.valid⟩
      (PTMFileHeader.ofBytes (file.data.take PTMFileHeader.sizeof))).1
    (ptmLoadSamples env loadFlags
      (ptmLoadGlobals env s (PTMFileHeader.ofBytes (file.data.take PTMFileHeader.sizeof)))
      ⟨file.data, PTMFileHeader.sizeof, file.valid⟩
      (PTMFileHeader.ofBytes (file.data.take PTMFileHeader.sizeof))).2
    (PTMFileHeader.ofBytes (file.data.take PTMFileHeader.sizeof))
    (fun pat hpat => halloc pat (by rw [← hnp]; exact hpat))
    (fun i => by rw [e5, g5]; exact hfresh _ i)
  rw [hload]
  have hch : (ptmLoadSamples env loadFlags
      (ptmLoadGlobals env s (PTMFileHeader.ofBytes (file.data.take PTMFileHeader.sizeof)))
      ⟨file.data, PTMFileHeader.sizeof, file.valid⟩
      (PTMFileHeader.ofBytes (file.data.take PTMFileHeader.sizeof))).1.m_nChannels =
        le16 file.data 38 := by rw [e2, g2, hnc]
  refine ⟨_, _, rfl, ?_, ?_, ?_, ?_, ?_, ?_, ?_, ?_⟩
  · exact e1.trans g1
  · exact hch
  · exact hch.symm ▸ hc1
  · exact hch.symm ▸ hc2
  · show (ptmLoadSamples env loadFlags _ _ _).1.m_nSamples = _
    rw [e3, g3, hns]
    unfold castSAMPLEINDEX MAX_SAMPLES
    omega
  · show 1 ≤ (ptmLoadSamples env loadFlags _ _ _).1.m_nSamples
    rw [e3, g3, hns]
    unfold castSAMPLEINDEX MAX_SAMPLES
    omega
  · show (ptmLoadSamples env loadFlags _ _ _).1.Order.take _ = _
    rw [e4, g4, hno, hord]
    exact ReadFromArray_take _ _ _ (by rw [hordlen]; exact ho2)
  · intro pat hpat
    rw [hnp, hch] at hinv
    obtain ⟨hl, hlow, _⟩ := hinv
    exact ⟨by
      show pat < pats.m_Patterns.length
      omega, (hlow pat hpat).1, by
      show ∃ cells, (pats.get pat).m_ModCommands = some cells ∧ cells.length = 64 * _
      rw [hch]
      exact (hlow pat hpat).2⟩

set_option maxRecDepth 100000 in
theorem C16_ReadPTM_counts_witness :
    (ptmHeaderWellFormed exPTMFile ∧ loadCompleteModule ≠ onlyVerifyHeader) ∧
    (∃ s1 f1, CSoundFile.ReadPTM exLoaderEnv exSong ⟨exPTMFile, 0, true⟩ loadCompleteModule =
        some (true, s1, f1) ∧
      s1.m_nType = MOD_TYPE_PTM ∧
      s1.m_nChannels = le16 exPTMFile 38 ∧ 1 ≤ s1.m_nChannels ∧ s1.m_nChannels ≤ 32 ∧
      s1.m_nSamples = min (le16 exPTMFile 34) (MAX_SAMPLES - 1) ∧ 1 ≤ s1.m_nSamples ∧
      s1.Order.take (le16 exPTMFile 32) = (bytesAt exPTMFile 96 256).take (le16 exPTMFile 32) ∧
      ∀ pat, pat < le16 exPTMFile 36 →
        pat < s1.Patterns.m_Patterns.length ∧ (s1.Patterns.get pat).GetNumRows = 64 ∧
        ∃ cells, (s1.Patterns.get pat).m_ModCommands = some cells ∧
          cells.length = 64 * s1.m_nChannels) ∧
    le16 exPTMFile 38 = 4 ∧ le16 exPTMFile 36 = 1 ∧
    (CSoundFile.ReadPTM exLoaderEnv exSong ⟨exPTMFile, 0, true⟩ loadCompleteModule).map
        (fun r => (r.2.1.m_nChannels, r.2.1.Patterns.m_Patterns.length,
          GetpModCommand ((r.2.1.Patterns.get 0).m_ModCommands.getD []) 4 0 0)) =
      some (4, 1, ⟨60, 1, 0, 0, 0, 0⟩) :=
  ⟨⟨by decide, by decide⟩,
    C16_ReadPTM_counts exLoaderEnv exSong ⟨exPTMFile, 0, true⟩ loadCompleteModule (by decide)
      (by decide) (fun _ _ => rfl) (fun _ _ => rfl),
    by decide, by decide, by decide⟩

set_option maxRecDepth 100000 in
theorem C16_ReadPTM_counts_alloc_failure_counterexample :
    ptmHeaderWellFormed exPTMFile ∧
    (CSoundFile.ReadPTM exLoaderEnvNoMemory exSong ⟨exPTMFile, 0, true⟩ loadCompleteModule).map
        (fun r => (r.1, r.2.1.m_nChannels, (r.2.1.Patterns.get 0).m_ModCommands,
          r.2.1.Patterns.m_Patterns.length)) =
      some (true, 4, none, 0) := by
  constructor
  · decide
  · decide


/-! ## Lemmas on the GDM loader -/

theorem gdmReadPanMap_count (panMap : List Nat) (l : List Nat) :
    ∀ (settings : Nat → ModChannelSettings) (n : Nat),
      (gdmReadPanMap panMap l settings n).2 =
        (l.find? (fun i => decide (panMap.getD i 0 = 0xFF))).getD n := by
  induction l with
  | nil => intro settings n; rfl
  | cons i rest ih =>
    intro settings n
    unfold gdmReadPanMap
    by_cases h1 : panMap.getD i 0 < 16
    · rw [if_pos h1, ih, List.find?_cons_of_neg _ (by simp only [decide_eq_true_eq]; omega)]
    · rw [if_neg h1]
      by_cases h2 : panMap.getD i 0 = 16
      · rw [if_pos h2, ih, List.find?_cons_of_neg _ (by simp only [decide_eq_true_eq]; omega)]
      · rw [if_neg h2]
        by_cases h3 : panMap.getD i 0 = 0xFF
        · rw [if_pos h3, List.find?_cons_of_pos _ (by simp only [decide_eq_true_eq]; exact h3)]
          rfl
        · rw [if_neg h3, ih, List.find?_cons_of_neg _ (by simp only [decide_eq_true_eq]; exact h3)]

set_option maxRecDepth 100000 in
/-- Claim C17, failing input: `CSoundFile::ReadGDM` accepts the 157-byte file `exGDMFile`,
whose magic numbers and version are valid and whose pan map starts with 0xFF, and
leaves the song with a channel count of 0, below the least channel count of 1. -/
theorem C17_ReadGDM_accepts_zero_channels :
    exGDMFile.length = 157 ∧ (bytesAt exGDMFile 81 32).getD 0 0 = 0xFF ∧
    (CSoundFile.ReadGDM exLoaderEnv exSong ⟨exGDMFile, 0, true⟩).map
        (fun r => (r.1, r.2.1.m_nChannels, r.2.1.m_nType)) = some (true, 0, MOD_TYPE_MOD) := by
  refine ⟨?_, ?_, ?_⟩
  · decide
  · decide
  · decide

theorem gdmLoadGlobals_channels (env : LoaderEnv) (s : CSoundFile) (fileHeader : GDMFileHeader) :
    (gdmLoadGlobals env s fileHeader).m_nChannels =
      ((List.range 32).find? (fun i => decide (fileHeader.panMap.getD i 0 = 0xFF))).getD 32 := by
  unfold gdmLoadGlobals
  exact gdmReadPanMap_count fileHeader.panMap (List.range 32) _ 32

theorem gdmLoadOrders_channels (env : LoaderEnv) (s : CSoundFile) (file : FileReader)
    (fileHeader : GDMFileHeader) :
    (gdmLoadOrders env s file fileHeader).1.m_nChannels = s.m_nChannels := by
  unfold gdmLoadOrders
  simp only []
  split <;> rfl

theorem gdmLoadSamples_channels (env : LoaderEnv) (s : CSoundFile) (file : FileReader)
    (fileHeader : GDMFileHeader) :
    (gdmLoadSamples env s file fileHeader).1.m_nChannels = s.m_nChannels := by
  unfold gdmLoadSamples
  simp only []
  split <;> rfl

theorem gdmLoadPatterns_channels (env : LoaderEnv) (s : CSoundFile) (file : FileReader)
    (fileHeader : GDMFileHeader) (r : CSoundFile × FileReader)
    (h : gdmLoadPatterns env s file fileHeader = some r) :
    r.1.m_nChannels = s.m_nChannels := by
  unfold gdmLoadPatterns at h
  simp only [] at h
  split at h
  · exact absurd h (by simp)
  · simp only [Option.some.injEq] at h
    rw [← h]

theorem gdmLoadMessage_channels (env : LoaderEnv) (s : CSoundFile) (file : FileReader)
    (fileHeader : GDMFileHeader) :
    (gdmLoadMessage env s file fileHeader).1.m_nChannels = s.m_nChannels := by
  unfold gdmLoadMessage
  split
  · simp only []
    split <;> rfl
  · rfl

theorem find_range_lt (p : Nat → Bool) (n : Nat) : ((List.range n).find? p).getD n ≤ n := by
  cases h : (List.range n).find? p with
  | none => exact le_refl _
  | some i =>
    have hm := List.mem_of_find?_eq_some h
    rw [List.mem_range] at hm
    exact Nat.le_of_lt hm

theorem ReadGDM_channels (env : LoaderEnv) (s : CSoundFile) (file : FileReader)
    (r : CSoundFile × FileReader)
    (h : CSoundFile.ReadGDM env s file = some (true, r)) :
    r.1.m_nChannels =
      ((List.range 32).find? (fun i => decide ((bytesAt file.data 81 32).getD i 0 = 0xFF))).getD 32 ∧
    r.1.m_nChannels ≤ 32 := by
  have hmain : r.1.m_nChannels =
      ((List.range 32).find? (fun i => decide ((bytesAt file.data 81 32).getD i 0 = 0xFF))).getD 32 := by
    by_cases hlen : file.data.length < GDMFileHeader.sizeof
    · unfold CSoundFile.ReadGDM at h
      rw [FileReader.ReadStruct_Rewind_short file _ hlen] at h
      exact absurd h (by simp)
    · have hlen2 : GDMFileHeader.sizeof ≤ file.data.length := by omega
      have hpm : (GDMFileHeader.ofBytes (file.data.take GDMFileHeader.sizeof)).panMap =
          bytesAt file.data 81 32 := bytesAt_take file.data 157 81 32 (by omega)
      unfold CSoundFile.ReadGDM at h
      rw [FileReader.ReadStruct_Rewind_full file _ hlen2] at h
      simp only [] at h
      split at h
      · exact absurd h (by simp)
      · split at h
        · exact absurd h (by simp)
        · split at h
          · exact absurd h (by simp)
          · split at h
            · exact absurd h (by simp)
            · rename_i s1 f1 hp
              simp only [Option.some.injEq, Prod.mk.injEq, true_and] at h
              rw [← h, gdmLoadMessage_channels, gdmLoadPatterns_channels _ _ _ _ _ hp,
                gdmLoadSamples_channels, gdmLoadOrders_channels, gdmLoadGlobals_channels, hpm]
  exact ⟨hmain, hmain ▸ find_range_lt _ 32⟩

theorem FileReader.ReadUint8_pos_of_ne_zero (f : FileReader) (h : f.ReadUint8.1 ≠ 0) :
    f.ReadUint8.2.pos = f.pos + 1 ∧ f.pos < f.data.length := by
  unfold FileReader.ReadUint8 at h ⊢
  by_cases hc : f.CanRead 1 = true
  · rw [if_pos hc]
    have hp : 1 ≤ f.data.length - f.pos := by
      simpa [FileReader.CanRead, FileReader.BytesLeft] using hc
    exact ⟨rfl, by omega⟩
  · rw [if_neg hc] at h
    exact absurd rfl h

theorem gdmReadNote_data (channelByte : Nat) (chunk : FileReader) (m : ModCommand) :
    (gdmReadNote channelByte chunk m).2.data = chunk.data := by
  unfold gdmReadNote
  by_cases h : channelByte &&& 0x20 ≠ 0
  · rw [if_pos h]
    exact (FileReader.ReadUint8_data _).trans (FileReader.ReadUint8_data _)
  · rw [if_neg h]

theorem gdmReadNote_pos_le (channelByte : Nat) (chunk : FileReader) (m : ModCommand) :
    chunk.pos ≤ (gdmReadNote channelByte chunk m).2.pos := by
  unfold gdmReadNote
  by_cases h : channelByte &&& 0x20 ≠ 0
  · rw [if_pos h]
    exact le_trans (FileReader.ReadUint8_pos_le chunk) (FileReader.ReadUint8_pos_le _)
  · rw [if_neg h]

theorem gdmReadEffects_some (env : LoaderEnv) (fmt : Nat) :
    ∀ (fuel : Nat) (chunk : FileReader) (m : ModCommand),
      chunk.data.length - chunk.pos < fuel →
      ∃ r, gdmReadEffects env fmt fuel chunk m = some r ∧ r.2.data = chunk.data ∧
        chunk.pos ≤ r.2.pos := by
  intro fuel
  induction fuel with
  | zero => intro chunk m h; exact absurd h (Nat.not_lt_zero _)
  | succ fuel ih =>
    intro chunk m h
    unfold gdmReadEffects
    by_cases hb : chunk.BytesLeft ≠ 0
    · rw [if_pos hb]
      have hleft : chunk.AreBytesLeft = true := by
        unfold FileReader.BytesLeft at hb
        simp only [FileReader.AreBytesLeft, decide_eq_true_eq]
        omega
      have hpos := FileReader.ReadUint8_pos_of_left chunk hleft
      have hd1 := FileReader.ReadUint8_data chunk
      have hd2 := FileReader.ReadUint8_data chunk.ReadUint8.2
      have hp2 := FileReader.ReadUint8_pos_le chunk.ReadUint8.2
      simp only []
      by_cases hdone : chunk.ReadUint8.1 &&& 0x20 = 0
      · rw [if_pos hdone]
        exact ⟨_, rfl, hd2.trans hd1, le_trans (FileReader.ReadUint8_pos_le chunk) hp2⟩
      · rw [if_neg hdone]
        obtain ⟨r, hr, hd, hp⟩ := ih chunk.ReadUint8.2.ReadUint8.2
          (gdmTranslateEffect env fmt chunk.ReadUint8.1 chunk.ReadUint8.2.ReadUint8.1 m)
          (by rw [hd2, hd1]; unfold FileReader.BytesLeft at hb; omega)
        exact ⟨r, hr, hd.trans (hd2.trans hd1), by omega⟩
    · rw [if_neg hb]
      exact ⟨_, rfl, rfl, le_refl _⟩

theorem gdmReadEvent_some (env : LoaderEnv) (fmt fuel channelByte : Nat) (chunk : FileReader)
    (m : ModCommand) (h : chunk.data.length - chunk.pos < fuel) :
    ∃ r, gdmReadEvent env fmt fuel channelByte chunk m = some r ∧ r.2.data = chunk.data ∧
      chunk.pos ≤ r.2.pos := by
  have hd := gdmReadNote_data channelByte chunk m
  have hp := gdmReadNote_pos_le channelByte chunk m
  unfold gdmReadEvent
  simp only []
  by_cases he : channelByte &&& 0x40 ≠ 0
  · rw [if_pos he]
    obtain ⟨r, hr, hd2, hp2⟩ := gdmReadEffects_some env fmt fuel (gdmReadNote channelByte chunk m).2
      { (gdmReadNote channelByte chunk m).1 with command := CMD_NONE, volcmd := VOLCMD_NONE }
      (by rw [hd]; omega)
    exact ⟨r, hr, hd2.trans hd, le_trans hp hp2⟩
  · rw [if_neg he]
    exact ⟨_, rfl, hd, hp⟩

theorem gdmReadRow_some (env : LoaderEnv) (fmt numChannels effectFuel row : Nat) :
    ∀ (fuel : Nat) (chunk : FileReader) (cells : List ModCommand),
      chunk.data.length - chunk.pos < fuel → chunk.data.length < effectFuel →
      ∃ r, gdmReadRow env fmt numChannels effectFuel row fuel chunk cells = some r ∧
        r.1.data = chunk.data := by
  intro fuel
  induction fuel with
  | zero => intro chunk cells h; exact absurd h (Nat.not_lt_zero _)
  | succ fuel ih =>
    intro chunk cells h he
    have hd1 := FileReader.ReadUint8_data chunk
    unfold gdmReadRow
    simp only []
    by_cases hz : chunk.ReadUint8.1 = 0
    · rw [if_pos hz]
      exact ⟨_, rfl, hd1⟩
    · rw [if_neg hz]
      by_cases hc : (chunk.ReadUint8.1 &&& 0x1F) ≥ numChannels
      · rw [if_pos hc]
        exact ⟨_, rfl, hd1⟩
      · rw [if_neg hc]
        obtain ⟨hpos, hlt⟩ := FileReader.ReadUint8_pos_of_ne_zero chunk hz
        obtain ⟨r, hr, hd, hp⟩ := gdmReadEvent_some env fmt effectFuel chunk.ReadUint8.1
          chunk.ReadUint8.2
          (cells.getD (row * numChannels + (chunk.ReadUint8.1 &&& 0x1F)) ModCommand.Empty)
          (by rw [hd1]; omega)
        rw [hr]
        simp only []
        obtain ⟨r2, hr2, hd2⟩ := ih r.2
          (cells.set (row * numChannels + (chunk.ReadUint8.1 &&& 0x1F)) r.1)
          (by rw [hd, hd1]; omega) (by rw [hd, hd1]; exact he)
        exact ⟨r2, hr2, hd2.trans (hd.trans hd1)⟩

theorem gdmReadRowSteps_some (env : LoaderEnv) (fmt numChannels : Nat) (l : List Nat) :
    ∀ (chunk : FileReader) (cells : List ModCommand) (fuel : Nat), chunk.data.length < fuel →
      ∃ r, l.foldl (gdmReadRowStep env fmt numChannels fuel) (some (chunk, cells)) = some r ∧
        r.1.data = chunk.data := by
  induction l with
  | nil => intro chunk cells fuel _; exact ⟨_, rfl, rfl⟩
  | cons row rest ih =>
    intro chunk cells fuel hf
    obtain ⟨r, hr, hd⟩ := gdmReadRow_some env fmt numChannels fuel row fuel chunk cells
      (by omega) hf
    rw [List.foldl_cons]
    simp only [gdmReadRowStep, hr]
    obtain ⟨r2, hr2, hd2⟩ := ih r.1 r.2 fuel (by rw [hd]; exact hf)
    exact ⟨r2, hr2, hd2.trans hd⟩

theorem gdmReadPattern_some (env : LoaderEnv) (fmt numChannels : Nat) (pats : CPatternContainer)
    (file : FileReader) (pat : Nat) :
    ∃ r, gdmReadPattern env fmt numChannels pats file pat = some r := by
  unfold gdmReadPattern
  by_cases h1 : (!file.CanRead 2) = true
  · rw [if_pos h1]
    exact ⟨_, rfl⟩
  · rw [if_neg h1]
    simp only []
    by_cases h2 : file.ReadUint16LE.1 ≤ 2
    · rw [if_pos h2]
      exact ⟨_, rfl⟩
    · rw [if_neg h2]
      by_cases h3 : (!(file.ReadUint16LE.2.GetChunk (file.ReadUint16LE.1 - 2)).1.IsValid) = true
      · rw [if_pos h3]
        exact ⟨_, rfl⟩
      · rw [if_neg h3]
        by_cases h4 : (CPatternContainer.Insert (env.patternAllocOk pat) numChannels pats pat
            64).1 = true
        · rw [if_pos h4]
          exact ⟨_, rfl⟩
        · rw [if_neg h4]
          obtain ⟨r, hr, _⟩ := gdmReadRowSteps_some env fmt numChannels (List.range 64)
            (file.ReadUint16LE.2.GetChunk (file.ReadUint16LE.1 - 2)).1
            (((CPatternContainer.Insert (env.patternAllocOk pat) numChannels pats pat 64).2.get
              pat).m_ModCommands.getD [])
            ((file.ReadUint16LE.2.GetChunk (file.ReadUint16LE.1 - 2)).1.data.length + 1)
            (Nat.lt_succ_self _)
          unfold gdmReadRows
          rw [hr]
          exact ⟨_, rfl⟩

theorem gdmReadPatterns_some (env : LoaderEnv) (fmt numChannels : Nat) (l : List Nat) :
    ∀ (pats : CPatternContainer) (file : FileReader),
      ∃ r, gdmReadPatterns env fmt numChannels l pats file = some r := by
  induction l with
  | nil => intro pats file; exact ⟨_, rfl⟩
  | cons pat rest ih =>
    intro pats file
    obtain ⟨r, hr⟩ := gdmReadPattern_some env fmt numChannels pats file pat
    unfold gdmReadPatterns
    rw [hr]
    obtain ⟨go, p, f⟩ := r
    cases go with
    | false => exact ⟨_, rfl⟩
    | true => exact ih p f

theorem gdmLoadPatterns_some (env : LoaderEnv) (s : CSoundFile) (file : FileReader)
    (fileHeader : GDMFileHeader) : ∃ r, gdmLoadPatterns env s file fileHeader = some r := by
  unfold gdmLoadPatterns
  simp only []
  obtain ⟨r, hr⟩ := gdmReadPatterns_some env
    (env.GetBestSaveFormat { s with
      Patterns := s.Patterns.ResizeArray (max MAX_PATTERNS (fileHeader.lastPattern + 1)) })
    s.m_nChannels (List.range (fileHeader.lastPattern + 1))
    (s.Patterns.ResizeArray (max MAX_PATTERNS (fileHeader.lastPattern + 1)))
    (file.Seek fileHeader.patternOffset).2
  rw [hr]
  exact ⟨_, rfl⟩

theorem ReadGDM_returns (env : LoaderEnv) (s : CSoundFile) (file : FileReader) :
    ∃ r, CSoundFile.ReadGDM env s file = some r := by
  unfold CSoundFile.ReadGDM
  simp only []
  split
  · exact ⟨_, rfl⟩
  · split
    · exact ⟨_, rfl⟩
    · split
      · exact ⟨_, rfl⟩
      · split
        · exact ⟨_, rfl⟩
        · split
          · rename_i hnone
            obtain ⟨r, hr⟩ := gdmLoadPatterns_some env _ _ _
            rw [hr] at hnone
            exact absurd hnone (by simp)
          · exact ⟨_, rfl⟩

theorem gdmTransposeStep_natAbs (s : ModSample) (h1 : -128 ≤ s.RelativeTone)
    (h2 : s.RelativeTone ≤ 127) (h0 : s.RelativeTone ≠ 0) :
    (gdmTransposeStep s).RelativeTone.natAbs + 1 = s.RelativeTone.natAbs ∧
      -128 ≤ (gdmTransposeStep s).RelativeTone ∧ (gdmTransposeStep s).RelativeTone ≤ 127 := by
  unfold gdmTransposeStep wrapInt8
  by_cases hp : s.RelativeTone > 0
  · rw [if_pos hp]
    simp only []
    omega
  · rw [if_neg hp]
    simp only []
    omega

theorem gdmTransposeLoop_turns :
    ∀ (n : Nat) (s : ModSample), s.RelativeTone.natAbs = n → -128 ≤ s.RelativeTone →
      s.RelativeTone ≤ 127 →
      (Nat.iterate gdmTransposeStep n s).RelativeTone = 0 ∧
        ∀ j, j < n → (Nat.iterate gdmTransposeStep j s).RelativeTone ≠ 0 := by
  intro n
  induction n with
  | zero =>
    intro s hn _ _
    exact ⟨Int.natAbs_eq_zero.mp hn, fun j hj => absurd hj (Nat.not_lt_zero j)⟩
  | succ n ih =>
    intro s hn h1 h2
    have h0 : s.RelativeTone ≠ 0 := by
      intro h
      rw [h] at hn
      simp at hn
    obtain ⟨ha, hb, hc⟩ := gdmTransposeStep_natAbs s h1 h2 h0
    obtain ⟨hz, hnz⟩ := ih (gdmTransposeStep s) (by omega) hb hc
    refine ⟨by rw [Function.iterate_succ_apply]; exact hz, ?_⟩
    intro j hj
    cases j with
    | zero => exact h0
    | succ j =>
      rw [Function.iterate_succ_apply]
      exact hnz j (by omega)

theorem gdmTransposeLoop_exit (s : ModSample) (h1 : -128 ≤ s.RelativeTone)
    (h2 : s.RelativeTone ≤ 127) : (gdmTransposeLoop s).RelativeTone = 0 :=
  (gdmTransposeLoop_turns s.RelativeTone.natAbs s rfl h1 h2).1


/-! ## Lemmas on sample loops and format conversion -/

theorem FlagSet.set_testBit (f m i : Nat) :
    (FlagSet.set f m).testBit i = (f.testBit i || m.testBit i) := by
  unfold FlagSet.set
  rw [Nat.testBit_or]

theorem FlagSet.test_eq_true_iff (f k : Nat) :
    FlagSet.test f k = true ↔ ∃ i, (f.testBit i && k.testBit i) = true := by
  constructor
  · intro h
    by_contra hn
    have hf : FlagSet.test f k = false := by
      rw [FlagSet.test_eq_false_iff]
      intro i
      cases hb : (f.testBit i && k.testBit i) with
      | false => rfl
      | true => exact absurd ⟨i, hb⟩ hn
    rw [hf] at h
    exact Bool.noConfusion h
  · intro h
    obtain ⟨i, hi⟩ := h
    cases ht : FlagSet.test f k with
    | true => rfl
    | false =>
      rw [FlagSet.test_eq_false_iff] at ht
      rw [ht i] at hi
      exact Bool.noConfusion hi

/-- Claim C26, failing input: `ModSample::SetSustainLoop(0, 20, true, false)` on a sample of
10 frames leaves `nSustainEnd = 20`, beyond the sample length, with the sustain loop
enabled; and on a sample of 10 frames whose `nLoopEnd` is 15 it changes `nLoopEnd` to 10.
`ModSample::SetLoop(0, 20, true, false)` on the same sample gives `nLoopEnd = 10`. -/
theorem C26_SetSustainLoop_end_beyond_length :
    exTenFrames.nLength = 10 ∧
    (exTenFrames.SetSustainLoop 0 20 true false).nSustainEnd = 20 ∧
    (exTenFrames.SetSustainLoop 0 20 true false).nLength = 10 ∧
    FlagSet.test (exTenFrames.SetSustainLoop 0 20 true false).uFlags CHN_SUSTAINLOOP = true ∧
    (({ exTenFrames with nLoopEnd := 15 } : ModSample).SetSustainLoop 0 5 true false).nLoopEnd = 10 ∧
    (exTenFrames.SetLoop 0 20 true false).nLoopEnd = 10 := by
  decide

theorem FlagSet.and_eq_of_disjoint (g k m : Nat) (v : Bool) (hd : k &&& m = 0) :
    FlagSet.setTo g k v &&& m = g &&& m := by
  apply Nat.eq_of_testBit_eq
  intro i
  have hi : (k.testBit i && m.testBit i) = false := by
    rw [← Nat.testBit_and, hd, Nat.zero_testBit]
  cases v
  · simp only [FlagSet.setTo, Bool.false_eq_true, if_false, Nat.testBit_and,
      FlagSet.reset_testBit]
    revert hi
    cases g.testBit i <;> cases k.testBit i <;> cases m.testBit i <;> simp
  · simp only [FlagSet.setTo, if_true, Nat.testBit_and, FlagSet.set_testBit]
    revert hi
    cases g.testBit i <;> cases k.testBit i <;> cases m.testBit i <;> simp

theorem FlagSet.test_setTo_of_disjoint (g k m : Nat) (v : Bool) (hd : k &&& m = 0) :
    FlagSet.test (FlagSet.setTo g k v) m = FlagSet.test g m := by
  unfold FlagSet.test
  rw [FlagSet.and_eq_of_disjoint g k m v hd]

theorem FlagSet.test_set_self (f m : Nat) (hm : m ≠ 0) : FlagSet.test (FlagSet.set f m) m = true := by
  have h : (f ||| m) &&& m = m := by
    apply Nat.eq_of_testBit_eq
    intro i
    rw [Nat.testBit_and, Nat.testBit_or]
    cases f.testBit i <;> cases m.testBit i <;> rfl
  unfold FlagSet.test FlagSet.set
  rw [h]
  simpa using hm

theorem FlagSet.test_setTo_self (f m : Nat) (v : Bool) (hm : m ≠ 0) :
    FlagSet.test (FlagSet.setTo f m v) m = v := by
  cases v
  · simp only [FlagSet.setTo, Bool.false_eq_true, if_false]
    exact FlagSet.test_reset_of_subset f m m (Nat.and_self m)
  · simp only [FlagSet.setTo, if_true]
    exact FlagSet.test_set_self f m hm

theorem SetSustainLoop_flags (s : ModSample) (start end_ : Nat) (enable pingpong : Bool) :
    (FlagSet.test (s.SetSustainLoop start end_ enable pingpong).uFlags CHN_SUSTAINLOOP = true →
      (s.SetSustainLoop start end_ enable pingpong).nSustainStart <
        (s.SetSustainLoop start end_ enable pingpong).nSustainEnd) ∧
    (FlagSet.test (s.SetSustainLoop start end_ enable pingpong).uFlags CHN_PINGPONGSUSTAIN = true →
      FlagSet.test (s.SetSustainLoop start end_ enable pingpong).uFlags CHN_SUSTAINLOOP = true) ∧
    (s.SetSustainLoop start end_ enable pingpong).nLoopStart = s.nLoopStart ∧
    (s.SetSustainLoop start end_ enable pingpong).nLength = s.nLength := by
  have hS1 : ∀ f, FlagSet.test (FlagSet.reset f (CHN_SUSTAINLOOP ||| CHN_PINGPONGSUSTAIN))
      CHN_SUSTAINLOOP = false := fun f => FlagSet.test_reset_of_subset f _ _ (by decide)
  have hS2 : ∀ f, FlagSet.test (FlagSet.reset f (CHN_SUSTAINLOOP ||| CHN_PINGPONGSUSTAIN))
      CHN_PINGPONGSUSTAIN = false := fun f => FlagSet.test_reset_of_subset f _ _ (by decide)
  by_cases h : start < end_
  · simp only [ModSample.SetSustainLoop, ModSample.PrecomputeLoops, h, if_true]
    refine ⟨fun _ => trivial, ?_, trivial, trivial⟩
    rw [FlagSet.test_setTo_self _ _ _ (by decide),
      FlagSet.test_setTo_of_disjoint _ _ _ _ (by decide),
      FlagSet.test_setTo_self _ _ _ (by decide)]
    cases pingpong <;> cases enable <;> simp
  · simp only [ModSample.SetSustainLoop, ModSample.PrecomputeLoops, h, if_false]
    refine ⟨fun hp => ?_, fun hp => ?_, trivial, trivial⟩
    · rw [hS1] at hp
      exact Bool.noConfusion hp
    · rw [hS2] at hp
      exact Bool.noConfusion hp

set_option maxRecDepth 100000 in
/-- Claim C21, failing input: `ModSample::Convert` from IT to S3M, and to MOD, of a sample
with a ping-pong sustain loop and no ping-pong loop leaves the flag `CHN_PINGPONGLOOP`
set, in the current source and in the tag 1.20.01.00: the sustain loop is made the
normal loop, with its ping-pong flag, after the ping-pong flag was cleared. -/
theorem C21_Convert_keeps_pingpong_of_sustain :
    FlagSet.test exPingPongSustain.uFlags CHN_PINGPONGLOOP = false ∧
    FlagSet.test (exPingPongSustain.Convert (fun _ _ => 8363) (fun _ => 0)
      MOD_TYPE_IT MOD_TYPE_S3M).uFlags CHN_PINGPONGLOOP = true ∧
    FlagSet.test (exPingPongSustain.Convert (fun _ _ => 8363) (fun _ => 0)
      MOD_TYPE_IT MOD_TYPE_MOD).uFlags CHN_PINGPONGLOOP = true ∧
    FlagSet.test (exPingPongSustain.ConvertOld (fun _ _ => 8363) (fun s => s)
      MOD_TYPE_IT MOD_TYPE_S3M).uFlags CHN_PINGPONGLOOP = true ∧
    (exPingPongSustain.Convert (fun _ _ => 8363) (fun _ => 0) MOD_TYPE_IT MOD_TYPE_S3M).nLoopStart = 0 ∧
    (exPingPongSustain.Convert (fun _ _ => 8363) (fun _ => 0) MOD_TYPE_IT MOD_TYPE_S3M).nLoopEnd = 10 := by
  decide

theorem convertFrequency_frame (t2fOf : Int → Int → Nat) (f2tOf : Nat → Int) (s : ModSample)
    (fromType toType : Nat) :
    (s.convertFrequency t2fOf f2tOf fromType toType).uFlags = s.uFlags := by
  unfold ModSample.convertFrequency ModSample.FrequencyToTranspose
  split
  · rfl
  · split <;> rfl

theorem convertFrequency_vib (t2fOf : Int → Int → Nat) (f2tOf : Nat → Int) (s : ModSample)
    (fromType toType : Nat) :
    (s.convertFrequency t2fOf f2tOf fromType toType).nVibDepth = s.nVibDepth ∧
    (s.convertFrequency t2fOf f2tOf fromType toType).nVibRate = s.nVibRate ∧
    (s.convertFrequency t2fOf f2tOf fromType toType).nVibSweep = s.nVibSweep ∧
    (s.convertFrequency t2fOf f2tOf fromType toType).nVibType = s.nVibType := by
  unfold ModSample.convertFrequency ModSample.FrequencyToTranspose
  split
  · exact ⟨rfl, rfl, rfl, rfl⟩
  · split <;> exact ⟨rfl, rfl, rfl, rfl⟩

theorem sustainToLoop_frame (s : ModSample) :
    s.sustainToLoop.nVibDepth = s.nVibDepth ∧ s.sustainToLoop.nVibRate = s.nVibRate ∧
    s.sustainToLoop.nVibSweep = s.nVibSweep ∧ s.sustainToLoop.nVibType = s.nVibType ∧
    FlagSet.test s.sustainToLoop.uFlags CHN_PANNING = FlagSet.test s.uFlags CHN_PANNING ∧
    FlagSet.test s.sustainToLoop.uFlags CHN_PINGPONGLOOP =
      if FlagSet.test s.uFlags CHN_SUSTAINLOOP then FlagSet.test s.uFlags CHN_PINGPONGSUSTAIN
      else FlagSet.test s.uFlags CHN_PINGPONGLOOP := by
  unfold ModSample.sustainToLoop
  by_cases h : FlagSet.test s.uFlags CHN_SUSTAINLOOP = true
  · simp only [h, if_true]
    refine ⟨trivial, trivial, trivial, trivial, ?_, ?_⟩
    · rw [FlagSet.test_setTo_of_disjoint _ _ _ _ (by decide)]
      exact FlagSet.test_setTo_of_disjoint s.uFlags CHN_LOOP CHN_PANNING true (by decide)
    · rw [FlagSet.test_setTo_self _ _ _ (by decide)]
      exact FlagSet.test_setTo_of_disjoint s.uFlags CHN_LOOP CHN_PINGPONGSUSTAIN true (by decide)
  · simp only [h, Bool.false_eq_true, if_false, and_self]

theorem convertNoPingPong_of (s : ModSample) (toType : Nat)
    (h1 : toType &&& (MOD_TYPE_MOD ||| MOD_TYPE_S3M) ≠ 0) :
    (s.convertNoPingPong toType).nVibDepth = 0 ∧ (s.convertNoPingPong toType).nVibRate = 0 ∧
    (s.convertNoPingPong toType).nVibSweep = 0 ∧ (s.convertNoPingPong toType).nVibType = VIB_SINE ∧
    FlagSet.test (s.convertNoPingPong toType).uFlags CHN_PANNING = false ∧
    FlagSet.test (s.convertNoPingPong toType).uFlags CHN_PINGPONGLOOP = false ∧
    FlagSet.test (s.convertNoPingPong toType).uFlags CHN_SUSTAINLOOP =
      FlagSet.test s.uFlags CHN_SUSTAINLOOP ∧
    FlagSet.test (s.convertNoPingPong toType).uFlags CHN_PINGPONGSUSTAIN =
      FlagSet.test s.uFlags CHN_PINGPONGSUSTAIN := by
  unfold ModSample.convertNoPingPong
  rw [if_pos h1]
  exact ⟨rfl, rfl, rfl, rfl, FlagSet.test_reset_of_subset _ _ _ (by decide),
    FlagSet.test_reset_of_subset _ _ _ (by decide),
    FlagSet.test_setTo_of_disjoint s.uFlags _ CHN_SUSTAINLOOP false (by decide),
    FlagSet.test_setTo_of_disjoint s.uFlags _ CHN_PINGPONGSUSTAIN false (by decide)⟩

theorem convertSustain_of (s : ModSample) (toType : Nat)
    (h2 : toType &&& (MOD_TYPE_MOD ||| MOD_TYPE_XM ||| MOD_TYPE_S3M) ≠ 0) :
    (s.convertSustain toType).nVibDepth = s.nVibDepth ∧
    (s.convertSustain toType).nVibRate = s.nVibRate ∧
    (s.convertSustain toType).nVibSweep = s.nVibSweep ∧
    (s.convertSustain toType).nVibType = s.nVibType ∧
    FlagSet.test (s.convertSustain toType).uFlags CHN_PANNING = FlagSet.test s.uFlags CHN_PANNING ∧
    FlagSet.test (s.convertSustain toType).uFlags CHN_PINGPONGLOOP =
      if FlagSet.test s.uFlags CHN_SUSTAINLOOP then FlagSet.test s.uFlags CHN_PINGPONGSUSTAIN
      else FlagSet.test s.uFlags CHN_PINGPONGLOOP := by
  obtain ⟨g1, g2, g3, g4, g5, g6⟩ := sustainToLoop_frame ({ s with nGlobalVol := 64 } : ModSample)
  unfold ModSample.convertSustain
  rw [if_pos h2]
  refine ⟨g1, g2, g3, g4, ?_, ?_⟩
  · exact (FlagSet.test_setTo_of_disjoint _ _ CHN_PANNING false (by decide)).trans g5
  · exact (FlagSet.test_setTo_of_disjoint _ _ CHN_PINGPONGLOOP false (by decide)).trans g6

theorem Convert_eq_of_MOD_S3M (t2fOf : Int → Int → Nat) (f2tOf : Nat → Int) (s : ModSample)
    (fromType toType : Nat) (h : toType = MOD_TYPE_MOD ∨ toType = MOD_TYPE_S3M) :
    s.Convert t2fOf f2tOf fromType toType =
      ((s.convertFrequency t2fOf f2tOf fromType toType).convertNoPingPong toType).convertSustain
        toType := by
  have h3 : ¬ toType &&& MOD_TYPE_XM ≠ 0 := by
    rcases h with h | h <;> subst h <;> decide
  have h4 : ¬ ((fromType &&& MOD_TYPE_XM ≠ 0 ∧ toType &&& (MOD_TYPE_IT ||| MOD_TYPE_MPT) ≠ 0) ∨
      (toType &&& MOD_TYPE_XM ≠ 0 ∧ fromType &&& (MOD_TYPE_IT ||| MOD_TYPE_MPT) ≠ 0)) := by
    have h5 : ¬ toType &&& (MOD_TYPE_IT ||| MOD_TYPE_MPT) ≠ 0 := by
      rcases h with h | h <;> subst h <;> decide
    exact fun hc => hc.elim (fun a => h5 a.2) (fun a => h3 a.1)
  have h6 : toType ≠ MOD_TYPE_IT := by
    rcases h with h | h <;> subst h <;> decide
  have h7 : toType ≠ MOD_TYPE_XM := by
    rcases h with h | h <;> subst h <;> decide
  unfold ModSample.Convert ModSample.convertVibType ModSample.convertSweep ModSample.convertXM
  simp only []
  rw [if_neg h3, if_neg h4, if_neg (fun hc => h6 hc.1), if_neg (fun hc => h7 hc.1)]

/-- What `ModSample::Convert` to MOD or S3M does give: no sample panning and no auto-vibrato,
and a ping-pong loop exactly when the sample had a ping-pong sustain loop. -/
theorem Convert_MOD_S3M (t2fOf : Int → Int → Nat) (f2tOf : Nat → Int) (s : ModSample)
    (fromType toType : Nat) (h : toType = MOD_TYPE_MOD ∨ toType = MOD_TYPE_S3M) :
    FlagSet.test (s.Convert t2fOf f2tOf fromType toType).uFlags CHN_PANNING = false ∧
    (s.Convert t2fOf f2tOf fromType toType).nVibDepth = 0 ∧
    (s.Convert t2fOf f2tOf fromType toType).nVibRate = 0 ∧
    (s.Convert t2fOf f2tOf fromType toType).nVibSweep = 0 ∧
    (s.Convert t2fOf f2tOf fromType toType).nVibType = VIB_SINE ∧
    FlagSet.test (s.Convert t2fOf f2tOf fromType toType).uFlags CHN_PINGPONGLOOP =
      (FlagSet.test s.uFlags CHN_SUSTAINLOOP && FlagSet.test s.uFlags CHN_PINGPONGSUSTAIN) := by
  have hf := convertFrequency_frame t2fOf f2tOf s fromType toType
  have h1 : toType &&& (MOD_TYPE_MOD ||| MOD_TYPE_S3M) ≠ 0 := by
    rcases h with h | h <;> subst h <;> decide
  have h2 : toType &&& (MOD_TYPE_MOD ||| MOD_TYPE_XM ||| MOD_TYPE_S3M) ≠ 0 := by
    rcases h with h | h <;> subst h <;> decide
  obtain ⟨a1, a2, a3, a4, a5, a6, a7, a8⟩ :=
    convertNoPingPong_of (s.convertFrequency t2fOf f2tOf fromType toType) toType h1
  obtain ⟨b1, b2, b3, b4, b5, b6⟩ :=
    convertSustain_of ((s.convertFrequency t2fOf f2tOf fromType toType).convertNoPingPong toType)
      toType h2
  rw [Convert_eq_of_MOD_S3M t2fOf f2tOf s fromType toType h]
  refine ⟨b5.trans a5, b1.trans a1, b2.trans a2, b3.trans a3, b4.trans a4, ?_⟩
  rw [b6, a6, a7, a8, hf]
  cases FlagSet.test s.uFlags CHN_SUSTAINLOOP <;> simp

/-! ## Lemmas on the rejection of malformed binary settings -/

theorem DecodeByte_spec (c1 c2 : Char) :
    (DecodeByte c1 c2).1 = (isUpperHexDigit c1 && isUpperHexDigit c2) ∧
    (isUpperHexDigit c1 = true → isUpperHexDigit c2 = true →
      (DecodeByte c1 c2).2 = hexDigitValue c1 * 16 + hexDigitValue c2) := by
  have h0 : '0'.toNat = 48 := rfl
  have h9 : '9'.toNat = 57 := rfl
  have hA : 'A'.toNat = 65 := rfl
  have hF : 'F'.toNat = 70 := rfl
  unfold DecodeByte isUpperHexDigit hexDigitValue
  rw [h0, h9, hA, hF]
  generalize c1.toNat = a
  generalize c2.toNat = b
  simp only [Nat.shiftLeft_eq]
  split_ifs <;> simp <;> omega

theorem textBytes_succ (src : List Char) (k : Nat) :
    textBytes src (k + 1) = textBytes src k ++ [textByte src k] := by
  unfold textBytes
  rw [List.range_succ, List.map_append]
  rfl

theorem textBytes_length (src : List Char) (k : Nat) : (textBytes src k).length = k := by
  unfold textBytes
  rw [List.length_map, List.length_range]

theorem decodeCheck_foldl_none (src : List Char) (l : List Nat) :
    l.foldl (decodeCheckStep src) none = none := by
  induction l with
  | nil => rfl
  | cons a l ih => exact ih

theorem decodeCheck_foldl_spec (src : List Char) :
    ∀ k, (List.range k).foldl (decodeCheckStep src) (some 0) =
      if ∀ j, j < 2 * k → isUpperHexDigit (src.getD j (Char.ofNat 0)) = true then
        some ((textBytes src k).sum % 256)
      else none := by
  intro k
  induction k with
  | zero =>
    rw [if_pos (fun j hj => absurd hj (by omega))]
    rfl
  | succ k ih =>
    rw [foldl_range_succ, ih]
    obtain ⟨d1, d2⟩ := DecodeByte_spec (src.getD (k * 2 + 0) (Char.ofNat 0))
      (src.getD (k * 2 + 1) (Char.ofNat 0))
    by_cases hk : ∀ j, j < 2 * k → isUpperHexDigit (src.getD j (Char.ofNat 0)) = true
    · rw [if_pos hk]
      by_cases ha : isUpperHexDigit (src.getD (k * 2 + 0) (Char.ofNat 0)) = true
      · by_cases hb : isUpperHexDigit (src.getD (k * 2 + 1) (Char.ofNat 0)) = true
        · have hall : ∀ j, j < 2 * (k + 1) →
              isUpperHexDigit (src.getD j (Char.ofNat 0)) = true := by
            intro j hj
            by_cases h1 : j < 2 * k
            · exact hk j h1
            · by_cases h2 : j = k * 2 + 0
              · rw [h2]; exact ha
              · have h3 : j = k * 2 + 1 := by omega
                rw [h3]; exact hb
          rw [if_pos hall]
          have dv := d2 ha hb
          rw [ha, hb] at d1
          simp only [decodeCheckStep, d1, Bool.and_self, Bool.not_true, Bool.false_eq_true,
            if_false, dv]
          rw [textBytes_succ, List.sum_append, List.sum_singleton]
          unfold textByte
          rw [Nat.mul_comm 2 k, Nat.add_zero]
          simp
        · have hall : ¬ ∀ j, j < 2 * (k + 1) →
              isUpperHexDigit (src.getD j (Char.ofNat 0)) = true :=
            fun h => hb (h _ (by omega))
          rw [if_neg hall]
          simp only [Bool.not_eq_true] at hb
          rw [hb, Bool.and_false] at d1
          simp only [decodeCheckStep, d1, Bool.not_false, if_true]
      · have hall : ¬ ∀ j, j < 2 * (k + 1) →
            isUpperHexDigit (src.getD j (Char.ofNat 0)) = true :=
          fun h => ha (h _ (by omega))
        rw [if_neg hall]
        simp only [Bool.not_eq_true] at ha
        rw [ha, Bool.false_and] at d1
        simp only [decodeCheckStep, d1, Bool.not_false, if_true]
    · rw [if_neg hk, if_neg (fun h => hk (fun j hj => h j (by omega)))]
      rfl

theorem decodeWrite_foldl_spec (src : List Char) (dst : List Nat) :
    ∀ k, (∀ j, j < 2 * k → isUpperHexDigit (src.getD j (Char.ofNat 0)) = true) →
      ((List.range k).foldl (decodeWriteStep src) dst).length = dst.length ∧
      ∀ j, ((List.range k).foldl (decodeWriteStep src) dst)[j]? =
        if j < k ∧ j < dst.length then some (textByte src j) else dst[j]? := by
  intro k
  induction k with
  | zero =>
    intro _
    exact ⟨rfl, fun j => by rw [if_neg (fun h => absurd h.1 (Nat.not_lt_zero j))]; rfl⟩
  | succ k ih =>
    intro hall
    obtain ⟨hl, hj⟩ := ih (fun j hj => hall j (by omega))
    obtain ⟨_, d2⟩ := DecodeByte_spec (src.getD (k * 2 + 0) (Char.ofNat 0))
      (src.getD (k * 2 + 1) (Char.ofNat 0))
    have dv := d2 (hall _ (by omega)) (hall _ (by omega))
    rw [foldl_range_succ]
    simp only [decodeWriteStep, dv]
    refine ⟨by rw [List.length_set]; exact hl, ?_⟩
    intro j
    by_cases hjeq : j = k
    · subst hjeq
      by_cases hjl : j < dst.length
      · rw [List.getElem?_set_self (by omega), if_pos ⟨by omega, hjl⟩]
        unfold textByte
        rw [Nat.mul_comm 2 j, Nat.add_zero]
      · rw [if_neg (fun h => hjl h.2), List.getElem?_eq_none (by rw [List.length_set]; omega),
          List.getElem?_eq_none (by omega)]
    · rw [List.getElem?_set_ne (fun h => hjeq h.symm), hj j]
      by_cases hc : j < k ∧ j < dst.length
      · rw [if_pos hc, if_pos ⟨by omega, hc.2⟩]
      · rw [if_neg hc, if_neg (fun h => hc ⟨by omega, h.2⟩)]

theorem allHex_iff_getD (src : List Char) (m : Nat) (hlen : src.length = m) :
    (∀ c ∈ src, isUpperHexDigit c = true) ↔
      ∀ j, j < m → isUpperHexDigit (src.getD j (Char.ofNat 0)) = true := by
  constructor
  · intro h j hj
    rw [List.getD_eq_getElem?_getD, List.getElem?_eq_getElem (by omega)]
    exact h _ (List.getElem_mem _)
  · intro h c hc
    obtain ⟨i, hi, rfl⟩ := List.getElem_of_mem hc
    have := h i (by omega)
    rw [List.getD_eq_getElem?_getD, List.getElem?_eq_getElem hi] at this
    exact this

/-- Claim C29: `DecodeBinarySettingRaw` is all-or-nothing: for every destination buffer of at
least `n` bytes, size `n` and source text, the destination is left completely unchanged when
the text length differs from `2 * n + 2`, or any of its characters is not one of `0`-`9` or
upper-case `A`-`F`, or its last two characters do not encode the sum modulo 256 of the `n`
decoded bytes; in every other case all `n` destination bytes are overwritten with the
decoded bytes. -/
theorem C29_DecodeBinarySettingRaw_all_or_nothing (dst : List Nat) (n : Nat) (src : List Char)
    (hdst : n ≤ dst.length) :
    DecodeBinarySettingRaw dst n src =
      if textWellFormed src n then textBytes src n ++ dst.drop n else dst := by
  unfold DecodeBinarySettingRaw
  by_cases hlen : src.length = n * 2 + 2
  · rw [if_neg (fun h => h hlen), decodeCheck_foldl_spec src n]
    have hlen2 : src.length = 2 * n + 2 := by omega
    have hiff := allHex_iff_getD src (2 * n + 2) hlen2
    obtain ⟨d1, d2⟩ := DecodeByte_spec (src.getD (n * 2 + 0) (Char.ofNat 0))
      (src.getD (n * 2 + 1) (Char.ofNat 0))
    by_cases hk : ∀ j, j < 2 * n → isUpperHexDigit (src.getD j (Char.ofNat 0)) = true
    · rw [if_pos hk]
      by_cases ha : isUpperHexDigit (src.getD (n * 2 + 0) (Char.ofNat 0)) = true ∧
          isUpperHexDigit (src.getD (n * 2 + 1) (Char.ofNat 0)) = true
      · have dv := d2 ha.1 ha.2
        rw [ha.1, ha.2] at d1
        have hall : ∀ c ∈ src, isUpperHexDigit c = true := by
          rw [hiff]
          intro j hj
          by_cases h1 : j < 2 * n
          · exact hk j h1
          · by_cases h2 : j = n * 2 + 0
            · rw [h2]; exact ha.1
            · have h3 : j = n * 2 + 1 := by omega
              rw [h3]; exact ha.2
        have htb : textByte src n = hexDigitValue (src.getD (n * 2 + 0) (Char.ofNat 0)) * 16 +
            hexDigitValue (src.getD (n * 2 + 1) (Char.ofNat 0)) := by
          unfold textByte
          rw [Nat.mul_comm 2 n]
          rfl
        simp only [d1, Bool.and_self, Bool.not_true, Bool.false_eq_true, if_false, dv, ← htb]
        by_cases hsum : (textBytes src n).sum % 256 = textByte src n
        · rw [if_neg (fun h => h hsum), if_pos ⟨hlen2, hall, hsum.symm⟩]
          obtain ⟨wl, wj⟩ := decodeWrite_foldl_spec src dst n hk
          apply List.ext_getElem?
          intro j
          rw [wj j]
          by_cases hj : j < n
          · rw [if_pos ⟨hj, by omega⟩, List.getElem?_append_left (by rw [textBytes_length]; exact hj)]
            unfold textBytes
            rw [List.getElem?_map, List.getElem?_range hj]
            rfl
          · rw [if_neg (fun h => hj h.1),
              List.getElem?_append_right (by rw [textBytes_length]; omega), textBytes_length,
              List.getElem?_drop]
            congr 1
            omega
        · rw [if_pos hsum, if_neg (fun h => hsum h.2.2.symm)]
      · have hall : ¬ ∀ c ∈ src, isUpperHexDigit c = true := by
          rw [hiff]
          intro h
          exact ha ⟨h _ (by omega), h _ (by omega)⟩
        rw [if_neg (fun h => hall h.2.1)]
        have hf : (DecodeByte (src.getD (n * 2 + 0) (Char.ofNat 0))
            (src.getD (n * 2 + 1) (Char.ofNat 0))).1 = false := by
          rw [d1]
          cases h1 : isUpperHexDigit (src.getD (n * 2 + 0) (Char.ofNat 0))
          · rfl
          · cases h2 : isUpperHexDigit (src.getD (n * 2 + 1) (Char.ofNat 0))
            · rfl
            · exact absurd ⟨h1, h2⟩ ha
        simp only [hf, Bool.not_false, if_true]
    · have hall : ¬ ∀ c ∈ src, isUpperHexDigit c = true := by
        rw [hiff]
        intro h
        exact hk (fun j hj => h j (by omega))
      rw [if_neg hk, if_neg (fun h => hall h.2.1)]
  · rw [if_pos hlen, if_neg (fun h => hlen (by have := h.1; omega))]

theorem C29_DecodeBinarySettingRaw_all_or_nothing_witness :
    (2 ≤ [9, 9, 7].length ∧ 2 ≤ [9, 9].length) ∧
    DecodeBinarySettingRaw [9, 9, 7] 2 ['0', '1', 'A', 'B', 'A', 'C'] = [1, 171, 7] ∧
    DecodeBinarySettingRaw [9, 9] 2 ['0', '1', 'a', 'b', 'A', 'C'] = [9, 9] ∧
    DecodeBinarySettingRaw [9, 9] 2 ['0', '1', 'A', 'B', 'A', 'D'] = [9, 9] ∧
    DecodeBinarySettingRaw [9, 9] 2 ['0', '1', 'A', 'B', 'A', 'C', '0'] = [9, 9] :=
  ⟨⟨by decide, by decide⟩,
    (C29_DecodeBinarySettingRaw_all_or_nothing [9, 9, 7] 2 ['0', '1', 'A', 'B', 'A', 'C']
      (by decide)).trans (by decide),
    (C29_DecodeBinarySettingRaw_all_or_nothing [9, 9] 2 ['0', '1', 'a', 'b', 'A', 'C']
      (by decide)).trans (by decide),
    (C29_DecodeBinarySettingRaw_all_or_nothing [9, 9] 2 ['0', '1', 'A', 'B', 'A', 'D']
      (by decide)).trans (by decide),
    (C29_DecodeBinarySettingRaw_all_or_nothing [9, 9] 2 ['0', '1', 'A', 'B', 'A', 'C', '0']
      (by decide)).trans (by decide)⟩

/-! ## Lemmas on the effects of a PTM pattern -/

theorem ptmTranslateEffect_cases (env : LoaderEnv) (m : ModCommand) (c p : Nat) :
    (c < 0x10 →
      ptmTranslateEffect env { m with command := c, param := p } =
        env.ConvertModCommand { m with command := c, param := p }) ∧
    (c = 0x10 →
      ptmTranslateEffect env { m with command := c, param := p } =
        { m with command := CMD_GLOBALVOLUME, param := p }) ∧
    (c = 0x11 →
      ptmTranslateEffect env { m with command := c, param := p } =
        { m with command := CMD_RETRIG, param := p }) ∧
    (c = 0x12 →
      ptmTranslateEffect env { m with command := c, param := p } =
        { m with command := CMD_FINEVIBRATO, param := p }) ∧
    (c = 0x17 → p ≠ 0 →
      ptmTranslateEffect env { m with command := c, param := p } =
        { m with command := CMD_S3MCMDEX, param := 0x9F, volcmd := VOLCMD_OFFSET,
                 vol := p >>> 3 }) ∧
    (c = 0x17 → p = 0 →
      ptmTranslateEffect env { m with command := c, param := p } =
        { m with command := CMD_S3MCMDEX, param := 0x9F }) ∧
    (0x10 ≤ c → c ≠ 0x10 → c ≠ 0x11 → c ≠ 0x12 → c ≠ 0x17 →
      ptmTranslateEffect env { m with command := c, param := p } =
        { m with command := CMD_NONE, param := p }) := by
  refine ⟨?_, ?_, ?_, ?_, ?_, ?_, ?_⟩
  · intro h
    simp only [ptmTranslateEffect, h, if_true]
  · intro h
    subst h
    simp [ptmTranslateEffect]
  · intro h
    subst h
    simp [ptmTranslateEffect]
  · intro h
    subst h
    simp [ptmTranslateEffect]
  · intro h hp
    subst h
    simp [ptmTranslateEffect, hp]
  · intro h hp
    subst h
    subst hp
    simp [ptmTranslateEffect]
  · intro h1 h2 h3 h4 h5
    have h0 : ¬ c < 0x10 := by omega
    simp [ptmTranslateEffect, h0, h2, h3, h4, h5]

/-- Claim C23: `CSoundFile::ReadPTM` translates effect bytes as the format defines: for every
event byte with an effect block, every note-event `m` the event goes to, and the effect byte
`c` and parameter `p` read from the pattern, `c < 0x10` yields the MOD translation of
`(c, p)` (`ConvertModCommand`); `c = 0x10` yields global volume with parameter `p`;
`c = 0x11` yields retrigger with `p`; `c = 0x12` yields fine vibrato with `p`; `c = 0x17`
yields the S3M extended command with parameter `0x9F` and, only when `p` is not 0, a
volume-column offset command with value `p >> 3`; every other `c >= 0x10` yields no
command. -/
theorem C23_ReadPTM_effect_translation (env : LoaderEnv) (b : Nat) (file : FileReader)
    (m : ModCommand) (hb : b &&& 0x40 ≠ 0) :
    (ptmReadEffect env b file m).2 = file.ReadUint8.2.ReadUint8.2 ∧
    (file.ReadUint8.1 < 0x10 →
      (ptmReadEffect env b file m).1 =
        env.ConvertModCommand
          { m with command := file.ReadUint8.1, param := file.ReadUint8.2.ReadUint8.1 }) ∧
    (file.ReadUint8.1 = 0x10 →
      (ptmReadEffect env b file m).1 =
        { m with command := CMD_GLOBALVOLUME, param := file.ReadUint8.2.ReadUint8.1 }) ∧
    (file.ReadUint8.1 = 0x11 →
      (ptmReadEffect env b file m).1 =
        { m with command := CMD_RETRIG, param := file.ReadUint8.2.ReadUint8.1 }) ∧
    (file.ReadUint8.1 = 0x12 →
      (ptmReadEffect env b file m).1 =
        { m with command := CMD_FINEVIBRATO, param := file.ReadUint8.2.ReadUint8.1 }) ∧
    (file.ReadUint8.1 = 0x17 → file.ReadUint8.2.ReadUint8.1 ≠ 0 →
      (ptmReadEffect env b file m).1 =
        { m with command := CMD_S3MCMDEX, param := 0x9F, volcmd := VOLCMD_OFFSET,
                 vol := file.ReadUint8.2.ReadUint8.1 >>> 3 }) ∧
    (file.ReadUint8.1 = 0x17 → file.ReadUint8.2.ReadUint8.1 = 0 →
      (ptmReadEffect env b file m).1 = { m with command := CMD_S3MCMDEX, param := 0x9F }) ∧
    (0x10 ≤ file.ReadUint8.1 → file.ReadUint8.1 ≠ 0x10 → file.ReadUint8.1 ≠ 0x11 →
      file.ReadUint8.1 ≠ 0x12 → file.ReadUint8.1 ≠ 0x17 →
      (ptmReadEffect env b file m).1 =
        { m with command := CMD_NONE, param := file.ReadUint8.2.ReadUint8.1 }) := by
  have h : ptmReadEffect env b file m =
      (ptmTranslateEffect env
        { m with command := file.ReadUint8.1, param := file.ReadUint8.2.ReadUint8.1 },
        file.ReadUint8.2.ReadUint8.2) := by
    unfold ptmReadEffect
    rw [if_pos hb]
  rw [h]
  exact ⟨rfl, ptmTranslateEffect_cases env m file.ReadUint8.1 file.ReadUint8.2.ReadUint8.1⟩

set_option maxRecDepth 100000 in
theorem C23_ReadPTM_effect_translation_witness :
    (0x40 &&& 0x40 ≠ 0 ∧ (⟨[0x17, 0x28], 0, true⟩ : FileReader).ReadUint8.1 = 0x17 ∧
      (⟨[0x17, 0x28], 0, true⟩ : FileReader).ReadUint8.2.ReadUint8.1 ≠ 0) ∧
    (ptmReadEffect exLoaderEnv 0x40 ⟨[0x17, 0x28], 0, true⟩ (exNote 1)).1 =
      { exNote 1 with command := CMD_S3MCMDEX, param := 0x9F, volcmd := VOLCMD_OFFSET,
                      vol := 5 } ∧
    (ptmReadEvent exLoaderEnv 0x40 ⟨[0x13, 0x28], 0, true⟩ (exNote 1)).1 =
      { exNote 1 with command := CMD_NONE, param := 0x28 } :=
  ⟨⟨by decide, by decide, by decide⟩,
    ((C23_ReadPTM_effect_translation exLoaderEnv 0x40 ⟨[0x17, 0x28], 0, true⟩ (exNote 1)
      (by decide)).2.2.2.2.2.1 (by decide) (by decide)).trans (by decide),
    by decide⟩

set_option maxRecDepth 100000 in
/-- Claim C27, failing input: the minimal PTM file, loaded with `loadSampleData` alone. The
load flags do not contain the `loadPatternData` bit and the song has no pattern once its
globals are initialised, yet `ReadPTM` returns `true` with pattern 0 inserted and the
note-event of the file (note 60, sample 1) written to row 0, channel 0. -/
theorem C27_ReadPTM_loads_patterns_unasked :
    loadSampleData &&& loadPatternData = 0 ∧
    ptmHeaderWellFormed exPTMFile ∧
    (exLoaderEnv.InitializeGlobals exSong).Patterns.m_Patterns.length = 0 ∧
    (CSoundFile.ReadPTM exLoaderEnv exSong ⟨exPTMFile, 0, true⟩ loadSampleData).map
        (fun r => (r.1, r.2.1.Patterns.m_Patterns.length,
          ((r.2.1.Patterns.get 0).m_ModCommands.getD []).length,
          GetpModCommand ((r.2.1.Patterns.get 0).m_ModCommands.getD []) 4 0 0)) =
      some (true, 1, 256, ⟨60, 1, 0, 0, 0, 0⟩) := by
  refine ⟨?_, ?_, ?_, ?_⟩
  · decide
  · decide
  · decide
  · decide

/-! ## Lemmas on the cells a PTM pattern is written to -/

theorem ptmDecodeRowsLog_spec (env : LoaderEnv) (numChannels : Nat) :
    ∀ (fuel : Nat) (file : FileReader) (row : Nat) (cells : List ModCommand)
      (log : List (Nat × Nat)),
      file.data.length - file.pos < fuel →
      ∃ f cells1 added,
        ptmDecodeRowsLog env numChannels fuel file row cells log =
          some (f, cells1, log ++ added) ∧
        ptmDecodeRows env numChannels fuel file row cells = some (f, cells1) ∧
        (∀ e ∈ added, e.1 < 64 ∧ e.2 < numChannels) ∧
        ∀ i, (∀ e ∈ added, e.1 * numChannels + e.2 ≠ i) → cells1[i]? = cells[i]? := by
  intro fuel
  induction fuel with
  | zero => intro file row cells log h; exact absurd h (Nat.not_lt_zero _)
  | succ fuel ih =>
    intro file row cells log h
    unfold ptmDecodeRowsLog ptmDecodeRows
    by_cases hc : row < 64 ∧ file.AreBytesLeft = true
    · rw [if_pos hc, if_pos hc]
      have hp : file.pos < file.data.length := by simpa [FileReader.AreBytesLeft] using hc.2
      have hpos := FileReader.ReadUint8_pos_of_left file hc.2
      have hdata := FileReader.ReadUint8_data file
      simp only []
      by_cases hb : file.ReadUint8.1 = 0
      · rw [if_pos hb, if_pos hb]
        exact ih file.ReadUint8.2 (row + 1) cells log (by rw [hdata, hpos]; omega)
      · rw [if_neg hb, if_neg hb]
        have hle := ptmReadEvent_pos_le env file.ReadUint8.1 file.ReadUint8.2
          (if file.ReadUint8.1 &&& 0x1F < numChannels then
            cells.getD (row * numChannels + (file.ReadUint8.1 &&& 0x1F)) ModCommand.Empty
          else ModCommand.Empty)
        have hd2 := ptmReadEvent_data env file.ReadUint8.1 file.ReadUint8.2
          (if file.ReadUint8.1 &&& 0x1F < numChannels then
            cells.getD (row * numChannels + (file.ReadUint8.1 &&& 0x1F)) ModCommand.Empty
          else ModCommand.Empty)
        by_cases hn : file.ReadUint8.1 &&& 0x1F < numChannels
        · simp only [if_pos hn] at hle hd2 ⊢
          obtain ⟨f, cells1, added, h1, h2, h3, h4⟩ := ih _ row
            (cells.set (row * numChannels + (file.ReadUint8.1 &&& 0x1F))
              (ptmReadEvent env file.ReadUint8.1 file.ReadUint8.2
                (cells.getD (row * numChannels + (file.ReadUint8.1 &&& 0x1F))
                  ModCommand.Empty)).1)
            (log ++ [(row, file.ReadUint8.1 &&& 0x1F)])
            (by rw [hd2, hdata]; omega)
          refine ⟨f, cells1, (row, file.ReadUint8.1 &&& 0x1F) :: added, ?_, h2, ?_, ?_⟩
          · rw [h1, List.append_assoc]
            rfl
          · intro e he
            rcases List.mem_cons.mp he with he | he
            · rw [he]
              exact ⟨hc.1, hn⟩
            · exact h3 e he
          · intro i hi
            rw [h4 i (fun e he => hi e (List.mem_cons_of_mem _ he))]
            exact List.getElem?_set_ne (hi (row, file.ReadUint8.1 &&& 0x1F) (List.mem_cons_self _ _))
        · simp only [if_neg hn] at hle hd2 ⊢
          exact ih _ row cells log (by rw [hd2, hdata]; omega)
    · rw [if_neg hc, if_neg hc]
      exact ⟨file, cells, [], by rw [List.append_nil], rfl,
        fun e he => absurd he (List.not_mem_nil e), fun i _ => rfl⟩

/-- Claim C30: pattern decoding in `CSoundFile::ReadPTM` never writes outside the pattern
grid: for every input byte string (truncated or hostile data included), every position in it
and every channel count `n`, the row loop ends, each note-event written while decoding a
pattern lands in a cell (row, channel) with `row < 64` and `channel < n`, which is cell
`row * n + channel` of the `64 * n` cells of the grid, and no other cell is touched, so that
events addressed to a channel `>= n` are discarded without touching any cell. -/
theorem C30_ReadPTM_writes_inside_grid (env : LoaderEnv) (n : Nat) (file : FileReader)
    (cells : List ModCommand) :
    ∃ f cells1 log,
      ptmDecodeRowsLog env n (file.data.length + 1) file 0 cells [] = some (f, cells1, log) ∧
      ptmDecodeRows env n (file.data.length + 1) file 0 cells = some (f, cells1) ∧
      (∀ e ∈ log, e.1 < 64 ∧ e.2 < n ∧ e.1 * n + e.2 < 64 * n) ∧
      cells1.length = cells.length ∧
      ∀ i, (∀ e ∈ log, e.1 * n + e.2 ≠ i) → cells1[i]? = cells[i]? := by
  obtain ⟨f, cells1, added, h1, h2, h3, h4⟩ :=
    ptmDecodeRowsLog_spec env n (file.data.length + 1) file 0 cells [] (by omega)
  obtain ⟨r, hr, _, hl⟩ := ptmDecodeRows_some env n (file.data.length + 1) file 0 cells (by omega)
  rw [h2] at hr
  have hr2 : r = (f, cells1) := (Option.some.inj hr).symm
  rw [hr2] at hl
  rw [List.nil_append] at h1
  refine ⟨f, cells1, added, h1, h2, ?_, hl, h4⟩
  intro e he
  obtain ⟨a, b⟩ := h3 e he
  refine ⟨a, b, ?_⟩
  calc e.1 * n + e.2 < e.1 * n + n := by omega
    _ = (e.1 + 1) * n := by ring
    _ ≤ 64 * n := Nat.mul_le_mul_right n (by omega)


/-! ## Lemmas on the samples of a GDM file -/

theorem gdmTransposeStep_nLength (s : ModSample) : (gdmTransposeStep s).nLength = s.nLength := by
  unfold gdmTransposeStep
  split <;> rfl

theorem gdmTransposeLoop_nLength (s : ModSample) : (gdmTransposeLoop s).nLength = s.nLength := by
  unfold gdmTransposeLoop
  generalize s.RelativeTone.natAbs = k
  induction k generalizing s with
  | zero => rfl
  | succ k ih =>
    rw [Function.iterate_succ_apply, ih, gdmTransposeStep_nLength]

/-- What the sample header loop of `ReadGDM` leaves of the sample format: the flag
`CHN_16BIT` is clear for every header, the data is read as 8-bit, and the length is halved
exactly when the header has the flag `smp16Bit`. -/
theorem gdmConvertSample_format (env : LoaderEnv) (nType : Nat) (gdmSample : GDMSampleHeader)
    (smp : ModSample) :
    (gdmConvertSample env nType gdmSample smp).1.uFlags &&& CHN_16BIT = 0 ∧
    (gdmSampleFormat (gdmConvertSample env nType gdmSample smp).1).bitdepth = 8 ∧
    (gdmConvertSample env nType gdmSample smp).1.nLength =
      if gdmSample.flags &&& GDMSampleHeader.smp16Bit ≠ 0 then gdmSample.length / 2
      else gdmSample.length := by
  by_cases h1 : gdmSample.flags &&& GDMSampleHeader.smp16Bit = 0 <;>
  by_cases h2 : nType = MOD_TYPE_MOD <;>
  by_cases h3 : gdmSample.flags &&& GDMSampleHeader.smpLoop = 0 <;>
  by_cases h4 : gdmSample.flags &&& GDMSampleHeader.smpVolume = 0 <;>
  by_cases h5 : gdmSample.flags &&& GDMSampleHeader.smpPanning = 0 <;>
  simp only [gdmConvertSample, gdmSampleFormat, h1, h2, h3, h4, h5, if_true, if_false, ne_eq,
    not_true_eq_false, not_false_eq_true, gdmTransposeLoop_nLength] <;>
  decide

set_option maxRecDepth 100000 in
/-- Claim C28, failing input: the GDM file `exGDMFile16`, whose one sample header has the
flag `smp16Bit` and a length of 100 bytes. `ReadGDM` returns `true` and leaves sample 1
with a length of 50 frames and the flag `CHN_16BIT` clear, so that the sample data is read
as 8-bit. -/
theorem C28_ReadGDM_loses_16bit :
    (GDMSampleHeader.ofBytes (bytesAt exGDMFile16 157 62)).flags &&& GDMSampleHeader.smp16Bit ≠ 0 ∧
    (GDMSampleHeader.ofBytes (bytesAt exGDMFile16 157 62)).length = 100 ∧
    (CSoundFile.ReadGDM exLoaderEnv exSong ⟨exGDMFile16, 0, true⟩).map
        (fun r => (r.1, r.2.1.m_nSamples, (r.2.1.Samples 1).nLength,
          FlagSet.test (r.2.1.Samples 1).uFlags CHN_16BIT,
          (gdmSampleFormat (r.2.1.Samples 1)).bitdepth)) =
      some (true, 1, 50, false, 8) := by
  refine ⟨?_, ?_, ?_⟩
  · decide
  · decide
  · decide


/-! ## Lemmas on the loops of a WAV file -/

theorem FlagSet.set_and_self (f m : Nat) : FlagSet.set f m &&& m = m := by
  unfold FlagSet.set
  apply Nat.eq_of_testBit_eq
  intro i
  rw [Nat.testBit_and, Nat.testBit_or]
  cases f.testBit i <;> cases m.testBit i <;> rfl

theorem FlagSet.set_and_of (f m k : Nat) (h : f &&& k = k) : FlagSet.set f m &&& k = k := by
  unfold FlagSet.set
  apply Nat.eq_of_testBit_eq
  intro i
  have hi := congrArg (fun x => x.testBit i) h
  simp only [Nat.testBit_and] at hi
  rw [Nat.testBit_and, Nat.testBit_or]
  cases hf : f.testBit i <;> cases hm : m.testBit i <;> cases hk : k.testBit i <;>
    simp_all

/-- Claim C25, counterexample: the one-frame loop `start = 0`, `end = 1` of a sample of 10
frames becomes a WAV loop from 0 to 0, which `ApplyToSample` ignores: the loop start and end
stay what they were (here 7 and 9, or 0 and 0) and the enable flag stays clear. -/
theorem C25_one_frame_loop_counterexample :
    (0 < 1 ∧ 1 ≤ 10) ∧
    (exWAVLoop.ConvertToWAV 0 1 false).loopEnd = 0 ∧
    (exWAVLoop.ConvertToWAV 0 1 false).ApplyToSample 7 9 10 0 CHN_LOOP CHN_PINGPONGLOOP false =
      (7, 9, 0) ∧
    (exWAVLoop.ConvertToWAV 0 1 false).ApplyToSample 0 0 10 0 CHN_LOOP CHN_PINGPONGLOOP false =
      (0, 0, 0) := by
  decide

/-- Claim C25, amended: the WAV loop conversion round-trips between exclusive and inclusive
loop ends: for every sample length and every loop with `0 <= start < end <= length` other
than the one-frame loop `start = 0`, `end = 1`, `ConvertToWAV(start, end, bidi)` followed by
`ApplyToSample` with that sample length and `mptLoopFix = false` sets the enable flag of the
loop (and the bidi flag of a bidi loop) and yields exactly the original start and end,
whatever the loop start, the loop end and the flags were before. -/
theorem C25_wav_loop_round_trip (l : WAVSampleLoop) (start end_ sampleLength : Nat) (bidi : Bool)
    (start0 end0 flags enableFlag bidiFlag : Nat)
    (h1 : start < end_) (h2 : end_ ≤ sampleLength) (h3 : ¬ (start = 0 ∧ end_ = 1)) :
    ((l.ConvertToWAV start end_ bidi).ApplyToSample start0 end0 sampleLength flags enableFlag
        bidiFlag false).1 = start ∧
    ((l.ConvertToWAV start end_ bidi).ApplyToSample start0 end0 sampleLength flags enableFlag
        bidiFlag false).2.1 = end_ ∧
    ((l.ConvertToWAV start end_ bidi).ApplyToSample start0 end0 sampleLength flags enableFlag
        bidiFlag false).2.2 &&& enableFlag = enableFlag ∧
    (bidi = true →
      ((l.ConvertToWAV start end_ bidi).ApplyToSample start0 end0 sampleLength flags enableFlag
        bidiFlag false).2.2 &&& bidiFlag = bidiFlag) := by
  have hconv : l.ConvertToWAV start end_ bidi =
      ⟨0, if bidi then WAVSampleLoop.loopBidi else WAVSampleLoop.loopForward, start, end_ - 1,
        0, 0⟩ := by
    unfold WAVSampleLoop.ConvertToWAV
    simp only [gt_iff_lt, h1, if_true]
  rw [hconv]
  have hne : ¬ end_ - 1 = 0 := by omega
  have hmin : min start sampleLength = start := Nat.min_eq_left (by omega)
  have hclamp : Clamp (end_ - 1) start sampleLength = end_ - 1 := by
    unfold Clamp
    rw [if_neg (by omega), if_neg (by omega)]
  unfold WAVSampleLoop.ApplyToSample
  simp only [hne, if_false, hmin, hclamp]
  rw [if_pos ⟨trivial, by omega⟩]
  refine ⟨trivial, by omega, ?_, ?_⟩
  · cases bidi
    · rw [if_neg (by decide)]
      exact FlagSet.set_and_self flags enableFlag
    · rw [if_pos (by rfl)]
      exact FlagSet.set_and_of _ _ _ (FlagSet.set_and_self flags enableFlag)
  · intro hb
    subst hb
    rw [if_pos (by rfl)]
    exact FlagSet.set_and_self _ bidiFlag

theorem C25_wav_loop_round_trip_witness :
    (2 < 8 ∧ 8 ≤ 10 ∧ ¬ (2 = 0 ∧ 8 = 1)) ∧
    (exWAVLoop.ConvertToWAV 2 8 true).ApplyToSample 7 9 10 0 CHN_LOOP CHN_PINGPONGLOOP false =
      (2, 8, CHN_LOOP ||| CHN_PINGPONGLOOP) ∧
    ((exWAVLoop.ConvertToWAV 2 8 true).ApplyToSample 7 9 10 0 CHN_LOOP CHN_PINGPONGLOOP
      false).2.1 = 8 ∧
    (exWAVLoop.ConvertToWAV 0 10 false).ApplyToSample 7 9 10 0 CHN_LOOP CHN_PINGPONGLOOP false =
      (0, 10, CHN_LOOP) :=
  ⟨⟨by decide, by decide, by decide⟩, by decide,
    (C25_wav_loop_round_trip exWAVLoop 2 8 10 true 7 9 0 CHN_LOOP CHN_PINGPONGLOOP (by decide)
      (by decide) (by decide)).2.1,
    by decide⟩


/-! ## Lemmas on the unused channels -/

theorem IsChannelUnused_noNoteData (doc : CModDoc) (c : Nat) (hc : c < doc.GetNumChannels)
    (h : doc.IsChannelUnused c = true) : doc.channelHasNoNoteData c := by
  unfold CModDoc.IsChannelUnused at h
  simp only [] at h
  rw [if_neg (by omega)] at h
  intro pat hpat row hrow
  have hsize : pat < doc.m_SndFile.Patterns.Size := by
    unfold CPatternContainer.IsValidPat CPatternContainer.IsValidIndex at hpat
    simp only [Bool.and_eq_true, decide_eq_true_eq] at hpat
    exact hpat.1
  have h1 := List.all_eq_true.mp h pat (List.mem_range.mpr hsize)
  rw [if_pos hpat] at h1
  exact List.all_eq_true.mp h1 row (List.mem_range.mpr hrow)

theorem vectorResize_length (v : List Bool) (n : Nat) : (vectorResize v n).length = n := by
  unfold vectorResize
  rw [List.length_append, List.length_take, List.length_replicate]
  omega

theorem vectorResize_of_true (v : List Bool) (n : Nat)
    (h : ∀ i, i < n → v[i]? = some true) : vectorResize v n = List.replicate n true := by
  apply List.ext_getElem?
  intro i
  by_cases hi : i < n
  · have hv := h i hi
    have hlen : i < v.length := by
      by_contra hc
      rw [List.getElem?_eq_none (by omega)] at hv
      exact Option.noConfusion hv
    unfold vectorResize
    rw [List.getElem?_append_left (by rw [List.length_take]; omega), List.getElem?_take_of_lt hi, hv,
      List.getElem?_replicate, if_pos hi]
  · rw [List.getElem?_eq_none (by rw [vectorResize_length]; omega),
      List.getElem?_eq_none (by rw [List.length_replicate]; omega)]

theorem checkUsedChannelsStep_length (doc : CModDoc) (st : List Bool × Nat × Bool) (i : Nat) :
    (doc.checkUsedChannelsStep st i).1.length = st.1.length := by
  unfold CModDoc.checkUsedChannelsStep
  simp only []
  split_ifs <;> simp only [List.length_set]

theorem set_replicate_append (k : Nat) (v : Bool) (suf : List Bool) :
    (List.replicate (k + 1) true ++ suf).set k v = List.replicate k true ++ v :: suf := by
  rw [List.replicate_succ', List.append_assoc, List.set_append_right _ _ (by simp)]
  simp

theorem getD_replicate_append (k : Nat) (v : Bool) (suf : List Bool) :
    (List.replicate k true ++ v :: suf).getD k false = v := by
  rw [List.getD_eq_getElem?_getD, List.getElem?_append_right (by simp)]
  simp

theorem checkUsedChannels_fold (doc : CModDoc) (m : Nat) :
    ∀ (k : Nat) (suf : List Bool) (r : Nat) (stopped : Bool),
      suf.count false + r = m → (stopped = false → 1 ≤ r) → r < 65536 →
      (∀ j, suf[j]? = some false → doc.IsChannelUnused (k + j) = true) →
      (((List.range k).reverse.foldl doc.checkUsedChannelsStep
          (List.replicate k true ++ suf, r, stopped)).1.count false ≤ m ∧
        ∀ c, ((List.range k).reverse.foldl doc.checkUsedChannelsStep
          (List.replicate k true ++ suf, r, stopped)).1[c]? = some false →
            doc.IsChannelUnused c = true) := by
  intro k
  induction k with
  | zero =>
    intro suf r stopped hcount _ _ hsuf
    simp only [List.range_zero, List.reverse_nil, List.foldl_nil, List.replicate_zero,
      List.nil_append]
    exact ⟨by omega, fun c hc => by have := hsuf c hc; rwa [Nat.zero_add] at this⟩
  | succ k ih =>
    intro suf r stopped hcount hr hr2 hsuf
    rw [List.range_succ, List.reverse_append, List.reverse_singleton, List.singleton_append,
      List.foldl_cons]
    have hshift : ∀ (v : Bool), (v = false → doc.IsChannelUnused k = true) →
        ∀ j, (v :: suf)[j]? = some false → doc.IsChannelUnused (k + j) = true := by
      intro v hv j hj
      cases j with
      | zero =>
        simp only [List.getElem?_cons_zero, Option.some.injEq] at hj
        exact hv hj
      | succ j =>
        simp only [List.getElem?_cons_succ] at hj
        have := hsuf j hj
        rwa [show k + 1 + j = k + (j + 1) by omega] at this
    cases stopped with
    | true =>
      have hst : doc.checkUsedChannelsStep (List.replicate (k + 1) true ++ suf, r, true) k =
          (List.replicate k true ++ true :: suf, r, true) := by
        unfold CModDoc.checkUsedChannelsStep
        simp only [if_true]
        rw [List.replicate_succ', List.append_assoc]
        rfl
      rw [hst]
      exact ih (true :: suf) r true (by simpa using hcount) (fun h => Bool.noConfusion h) hr2
        (hshift true (fun h => Bool.noConfusion h))
    | false =>
      have hr1 := hr rfl
      cases hu : doc.IsChannelUnused k with
      | true =>
        by_cases hz : (r + 65535) % 65536 = 0
        · have hst : doc.checkUsedChannelsStep (List.replicate (k + 1) true ++ suf, r, false) k =
              (List.replicate k true ++ false :: suf, (r + 65535) % 65536, true) := by
            unfold CModDoc.checkUsedChannelsStep
            simp only [Bool.false_eq_true, if_false, hu, Bool.not_true, set_replicate_append,
              getD_replicate_append, if_true, hz]
          rw [hst]
          exact ih (false :: suf) _ true
            (by rw [List.count_cons_self]; omega) (fun h => Bool.noConfusion h) (by omega)
            (hshift false (fun _ => hu))
        · have hst : doc.checkUsedChannelsStep (List.replicate (k + 1) true ++ suf, r, false) k =
              (List.replicate k true ++ false :: suf, (r + 65535) % 65536, false) := by
            unfold CModDoc.checkUsedChannelsStep
            simp only [Bool.false_eq_true, if_false, hu, Bool.not_true, set_replicate_append,
              getD_replicate_append, if_true, hz]
          rw [hst]
          exact ih (false :: suf) _ false
            (by rw [List.count_cons_self]; omega) (fun _ => by omega) (by omega)
            (hshift false (fun _ => hu))
      | false =>
        have hst : doc.checkUsedChannelsStep (List.replicate (k + 1) true ++ suf, r, false) k =
            (List.replicate k true ++ true :: suf, r, false) := by
          unfold CModDoc.checkUsedChannelsStep
          simp only [Bool.false_eq_true, if_false, hu, Bool.not_false, set_replicate_append,
            getD_replicate_append, Bool.true_eq_false]
        rw [hst]
        exact ih (true :: suf) r false (by simpa using hcount) (fun _ => hr1) hr2
          (hshift true (fun h => Bool.noConfusion h))

theorem CheckUsedChannels_length (doc : CModDoc) (usedMask : List Bool) (m : Nat) :
    (doc.CheckUsedChannels usedMask m).length = doc.GetNumChannels := by
  unfold CModDoc.CheckUsedChannels
  simp only []
  have h := foldl_invariant (fun (st : List Bool × Nat × Bool) => st.1.length = doc.GetNumChannels)
    doc.checkUsedChannelsStep (List.range doc.GetNumChannels).reverse
    (vectorResize usedMask doc.GetNumChannels, m, false)
    (vectorResize_length usedMask doc.GetNumChannels)
    (fun st i _ hst => (checkUsedChannelsStep_length doc st i).trans hst)
  exact h

/-- Claim C24, failing input: in a song of four channels of which only the last one is
empty, `CheckUsedChannels` with an empty mask and `maxRemoveCount = 1` leaves the loop after
channel 3 and reports all four channels as unused, more than `maxRemoveCount`, although the
channels 0 to 2 contain note data. -/
theorem C24_CheckUsedChannels_reports_too_many :
    exLastChannelEmptyDoc.GetNumChannels = 4 ∧
    exLastChannelEmptyDoc.CheckUsedChannels [] 1 = [false, false, false, false] ∧
    (exLastChannelEmptyDoc.CheckUsedChannels [] 1).count false = 4 ∧
    ¬ (exLastChannelEmptyDoc.CheckUsedChannels [] 1).count false ≤ 1 ∧
    (exLastChannelEmptyDoc.CheckUsedChannels [] 1)[0]? = some false ∧
    exLastChannelEmptyDoc.IsChannelUnused 0 = false ∧
    ¬ exLastChannelEmptyDoc.channelHasNoNoteData 0 :=
  ⟨by decide, by decide, by decide, by decide, by decide, by decide,
    fun h => absurd (h 0 (by decide) 0 (by decide)) (by decide)⟩

/-- What `CModDoc::CheckUsedChannels` does give when the mask it is handed holds `true` for
every channel: one entry per channel, at most `maxRemoveCount` entries `false`, and every
channel whose entry is `false` contains no note data in any valid pattern. -/
theorem CheckUsedChannels_of_true_mask (doc : CModDoc) (usedMask : List Bool)
    (maxRemoveCount : Nat) (h1 : 1 ≤ maxRemoveCount) (h2 : maxRemoveCount < 65536)
    (hall : ∀ i, i < doc.GetNumChannels → usedMask[i]? = some true) :
    (doc.CheckUsedChannels usedMask maxRemoveCount).length = doc.GetNumChannels ∧
    (doc.CheckUsedChannels usedMask maxRemoveCount).count false ≤ maxRemoveCount ∧
    ∀ c, (doc.CheckUsedChannels usedMask maxRemoveCount)[c]? = some false →
      doc.channelHasNoNoteData c := by
  have hlen := CheckUsedChannels_length doc usedMask maxRemoveCount
  have hfold := checkUsedChannels_fold doc maxRemoveCount doc.GetNumChannels [] maxRemoveCount
    false (by simp) (fun _ => h1) h2 (fun j hj => by simp at hj)
  rw [List.append_nil, ← vectorResize_of_true usedMask doc.GetNumChannels hall] at hfold
  refine ⟨hlen, hfold.1, ?_⟩
  intro c hc
  have hcn : c < doc.GetNumChannels := by
    by_contra hge
    rw [List.getElem?_eq_none (by rw [hlen]; omega)] at hc
    exact Option.noConfusion hc
  exact IsChannelUnused_noNoteData doc c hcn (hfold.2 c hc)

theorem CheckUsedChannels_of_true_mask_example :
    (1 ≤ 1 ∧ 1 < 65536 ∧
      ∀ i, i < exLastChannelEmptyDoc.GetNumChannels → [true, true, true, true][i]? = some true) ∧
    exLastChannelEmptyDoc.CheckUsedChannels [true, true, true, true] 1 =
      [true, true, true, false] ∧
    (exLastChannelEmptyDoc.CheckUsedChannels [true, true, true, true] 1).count false ≤ 1 ∧
    exLastChannelEmptyDoc.channelHasNoNoteData 3 :=
  ⟨⟨by decide, by decide, by decide⟩, by decide,
    (CheckUsedChannels_of_true_mask exLastChannelEmptyDoc [true, true, true, true] 1
      (by decide) (by decide) (by decide)).2.1,
    (CheckUsedChannels_of_true_mask exLastChannelEmptyDoc [true, true, true, true] 1
      (by decide) (by decide) (by decide)).2.2 3 (by decide)⟩


/-! ## Lemmas on the document outside the critical section -/

set_option maxRecDepth 100000 in
/-- Claim C22, failing input: the 4-channel example song, whose grids agree with its channel
count, a `newOrder` of 3 entries and an allocation that fails for pattern 2.
`ReArrangeChannels` leaves the critical section with `cs.Leave()` and returns
`CHANNELINDEX_INVALID`; the document a render call sees from then on reports 4 channels
while the 2 rows of pattern 0 hold 6 cells, 3 a row: the old channel count together with a
grid that is already reallocated. -/
theorem C22_ReArrangeChannels_leaves_mixed_state :
    exDoc.gridsMatchChannelCount ∧
    (exDoc.ReArrangeChannels (fun n => n != 2) [3, 0, 9]).1 = CHANNELINDEX_INVALID ∧
    (exDoc.ReArrangeChannels (fun n => n != 2) [3, 0, 9]).2 ∈
      exDoc.visibleAroundReArrangeChannels (fun n => n != 2) [3, 0, 9] ∧
    ¬ (exDoc.ReArrangeChannels (fun n => n != 2) [3, 0, 9]).2.gridsMatchChannelCount ∧
    (exDoc.ReArrangeChannels (fun n => n != 2) [3, 0, 9]).2.GetNumChannels = 4 ∧
    (exDoc.ReArrangeChannels (fun n => n != 2) [3, 0, 9]).2.m_SndFile.Patterns.IsValidPat 0 = true ∧
    ((exDoc.ReArrangeChannels (fun n => n != 2) [3, 0, 9]).2.m_SndFile.Patterns.get 0).GetNumRows
      = 2 ∧
    (exDoc.ReArrangeChannels (fun n => n != 2) [3, 0, 9]).2.numCells 0 = 6 := by
  refine ⟨by decide, by decide, ?_, by decide, by decide, by decide, by decide, by decide⟩
  unfold CModDoc.visibleAroundReArrangeChannels
  exact List.mem_cons_of_mem _ (List.mem_singleton.mpr rfl)

/-- When every allocation succeeds, `ReArrangeChannels` leaves the critical section with
grids that agree with the new channel count. -/
theorem ReArrangeChannels_ok_gridsMatch (allocOk : Nat → Bool) (doc : CModDoc)
    (newOrder : List Nat)
    (hmax : castCHANNELINDEX newOrder.length ≤ doc.m_SndFile.GetModSpecifications.channelsMax)
    (hmin : doc.m_SndFile.GetModSpecifications.channelsMin ≤ castCHANNELINDEX newOrder.length)
    (hne : doc.m_SndFile.Patterns.Size ≠ 0)
    (hok : (rearrangePatterns allocOk doc.GetNumChannels newOrder (castCHANNELINDEX newOrder.length)
      (List.range doc.m_SndFile.Patterns.Size) doc.m_SndFile.Patterns).2 = true) :
    (doc.ReArrangeChannels allocOk newOrder).2.gridsMatchChannelCount := by
  intro nPat _ hvalid
  obtain ⟨hsize, hget⟩ := ReArrangeChannels_patterns_of_ok allocOk doc newOrder hmax hmin hne hok nPat
  have hch : (doc.ReArrangeChannels allocOk newOrder).2.GetNumChannels =
      castCHANNELINDEX newOrder.length := by
    rw [ReArrangeChannels_eq_of_ok allocOk doc newOrder hmax hmin hne hok]
    simp only [CModDoc.GetNumChannels, CSoundFile.GetNumChannels,
      rearrangeChannelStates_m_nChannels]
  by_cases hv : doc.m_SndFile.Patterns.IsValidPat nPat = true
  · rw [if_pos hv] at hget
    unfold CModDoc.numCells
    rw [hch, hget]
    simp only [rearrangedPattern, Option.getD_some, length_rearrangedPatData]
    rfl
  · rw [if_neg hv] at hget
    exfalso
    apply hv
    unfold CPatternContainer.IsValidPat CPatternContainer.IsValidIndex at hvalid ⊢
    rw [hget, hsize] at hvalid
    exact hvalid

end OpenMPT
